import Mathlib

/-! wirender: SPIR-V reflection (`RenderVulkanUtils::analyze_spirv`) and the Vulkan renderer
(`vulkan_wienderer`, its buffers and its shader)

A shallow embedding of `src/wirender.cpp`, lines 858-863 (`getOpcode`, `getWordCount`) and
1549-1670 (`analyze_spirv`), and of the parts of `src/src/vulkan_implement/vulkan_wiender.hpp`
named in the sections on the renderer, the shader, the buffers, the selection of the physical
device, the queue families and the cull mode, followed by the properties established about
them.

Modelling conventions

* `uint32_t` / `uint16_t` values are natural numbers; every place where the C++ arithmetic can
  wrap carries an explicit `% 4294967296`.
* `const uint32_t* code` is the word memory behind the pointer, a function from word index to
  word (`rd` truncates to 32 bits); `codeSize` is a separate argument, exactly as in the source.
* `std::unordered_map<uint32_t, basic_declaration>` is an association list with unique keys.
  `operator[]` (default-construct on first touch) is `modify`/`touch`, `.at()` is `find` with
  `std::out_of_range` on `none`.  The range-for over the map visits the entries in an
  unspecified order: the extraction loop takes an `IterationOrder`, any function returning a
  permutation of the table.
* the caller's array `publicDecls` is a function from index to descriptor, `variableCount`
  (a `uint32_t&`) is passed in and returned.
* the `while` loop may fail to terminate (the offset wraps modulo 2^32), so `scan` takes the
  number of loop iterations it may perform and returns `none` when they do not suffice.
-/

namespace wirender

/-! ## Instruction words -/

/-- Source `getOpcode`: `word & 0xFFFF`. -/
def getOpcode (word : Nat) : Nat := word % 65536

/-- Source `getWordCount`: `(word >> 16) & 0xFFFF`. -/
def getWordCount (word : Nat) : Nat := (word / 65536) % 65536

/-- Read of `code[i]`, a 32-bit word. -/
def rd (code : Nat → Nat) (i : Nat) : Nat := code i % 4294967296

/-- The word memory holding the words of a list from index 0 (0 beyond its end). -/
def ofList (ws : List Nat) : Nat → Nat := fun i => ws.getD i 0

/-! ## The declaration table -/

/-- Source `struct basic_declaration` with its default member initialisers. -/
structure basic_declaration where
  binding : Nat := 0
  descriptorSet : Nat := 0
  pointerTarget : Nat := 0
  size : Nat := 0
  storageClass : Nat := 4294967295
  opType : Nat := 0
  isPublic : Bool := false
deriving DecidableEq, Repr

/-- The table `declarations`: entries in insertion order, keys unique. -/
abbrev Declarations := List (Nat × basic_declaration)

/-- Entry stored under key `k`, if any (`declarations.find(k)`). -/
def find : Declarations → Nat → Option basic_declaration
  | [], _ => none
  | (k', e) :: rest, k => if k' = k then some e else find rest k

/-- Access through `declarations[k]` followed by an update of the referenced entry: the entry
is default-constructed first when the key is absent. -/
def modify : Declarations → Nat → (basic_declaration → basic_declaration) → Declarations
  | [], k, f => [(k, f {})]
  | (k', e) :: rest, k, f =>
    if k' = k then (k', f e) :: rest else (k', e) :: modify rest k f

/-- A bare `declarations[k]`: inserts a default entry when the key is absent. -/
def touch (d : Declarations) (k : Nat) : Declarations := modify d k id

/-- Value read through `declarations[k]` once the key has been touched; the default entry when
the key is absent. -/
def get (d : Declarations) (k : Nat) : basic_declaration := (find d k).getD {}

/-- Ways in which `analyze_spirv` ends without returning. -/
inductive Failure where
  /-- `std::out_of_range` thrown by `declarations.at`. -/
  | out_of_range
  /-- `RENDER_ASSERT` failed. -/
  | assertion
deriving DecidableEq, Repr

/-! ## The scan loop -/

/-- The `for` loop of the `OpTypeStruct` handler, `n` members left, next operand index `i`:
`structDec.size += declarations.at(code[currentOffset + i]).size`. -/
def structMembers (arg : Nat → Nat) (structId : Nat) :
    Nat → Nat → Declarations → Except Failure Declarations
  | 0, _, d => .ok d
  | n + 1, i, d =>
    match find d (arg i) with
    | none => .error .out_of_range
    | some m =>
      structMembers arg structId n (i + 1)
        (modify d structId (fun s => { s with size := (s.size + m.size) % 4294967296 }))

/-- The opcode dispatch of the loop body; `arg i` stands for `code[currentOffset + i]`. -/
def exec (opcode length : Nat) (arg : Nat → Nat) (d : Declarations) :
    Except Failure Declarations :=
  if opcode = 19 then
    .ok (modify d (arg 1) (fun e => { e with opType := opcode }))
  else if opcode = 20 then
    .ok (modify d (arg 1) (fun e => { e with size := 16, opType := opcode }))
  else if opcode = 21 then
    .ok (modify d (arg 1) (fun e => { e with size := arg 2 / 8, opType := opcode }))
  else if opcode = 22 then
    .ok (modify d (arg 1) (fun e => { e with size := arg 2 / 8, opType := opcode }))
  else if opcode = 23 ∨ opcode = 24 ∨ opcode = 28 then
    match find d (arg 2) with
    | none => .error .out_of_range
    | some el =>
      .ok (modify d (arg 1)
        (fun e => { e with size := (el.size * arg 3) % 4294967296, opType := opcode }))
  else if opcode = 30 then
    structMembers arg (arg 1) (length - 2) 2
      (modify d (arg 1) (fun e => { e with opType := opcode }))
  else if opcode = 32 then
    .ok (modify d (arg 1)
      (fun e => { e with size := 8, opType := opcode, pointerTarget := arg 3 }))
  else if opcode = 59 then
    let target := arg 1
    let structId := arg 2
    let storageClass := arg 3
    let d1 := modify d structId (fun e =>
      { e with opType := opcode, pointerTarget := target, storageClass := storageClass,
               isPublic := if storageClass = 2 ∨ storageClass = 11 ∨ storageClass = 12
                           then true else e.isPublic })
    let d2 := touch d1 target
    if (get d2 target).pointerTarget ≠ 0 then
      let d3 := touch d2 (get d2 target).pointerTarget
      .ok (modify d3 structId
        (fun e => { e with size := (get d3 (get d2 target).pointerTarget).size }))
    else
      .ok (modify d2 structId (fun e => { e with size := (get d2 target).size }))
  else if opcode = 71 then
    let target := arg 1
    let decoration := arg 2
    let operand := arg 3
    if decoration = 34 then
      .ok (modify d target (fun e => { e with descriptorSet := operand }))
    else if decoration = 33 then
      .ok (modify d target (fun e => { e with binding := operand }))
    else .ok d
  else .ok d

/-- The operand word `code[currentOffset + i]`; the index is a `uint32_t` sum. -/
def operand (code : Nat → Nat) (currentOffset i : Nat) : Nat :=
  rd code ((currentOffset + i) % 4294967296)

/-- Outcome of one evaluation of the loop condition and body. -/
inductive LoopStep where
  /-- The loop was left (condition false, or `break`). -/
  | stop (d : Declarations)
  /-- The body ran to its end; the next offset and the table. -/
  | next (currentOffset : Nat) (d : Declarations)
  /-- The body threw. -/
  | thrown (f : Failure)
deriving DecidableEq, Repr

/-- One evaluation of `while (currentOffset < codeSize) { ... currentOffset += length; }`. -/
def loopBody (code : Nat → Nat) (codeSize currentOffset : Nat) (d : Declarations) : LoopStep :=
  if currentOffset < codeSize then
    let word := rd code currentOffset
    let opcode := getOpcode word
    let length := getWordCount word
    if length = 0 ∨ opcode = 0 then .stop d
    else
      match exec opcode length (operand code currentOffset) d with
      | .error f => .thrown f
      | .ok d' => .next ((currentOffset + length) % 4294967296) d'
  else .stop d

/-- The scan loop, allowed `fuel` completed iterations; `none` when the loop has not been left
by then. -/
def scan : Nat → (Nat → Nat) → Nat → Nat → Declarations → Option (Except Failure Declarations)
  | 0, code, codeSize, currentOffset, d =>
    match loopBody code codeSize currentOffset d with
    | .stop d' => some (.ok d')
    | .thrown f => some (.error f)
    | .next _ _ => none
  | fuel + 1, code, codeSize, currentOffset, d =>
    match loopBody code codeSize currentOffset d with
    | .stop d' => some (.ok d')
    | .thrown f => some (.error f)
    | .next off d' => scan fuel code codeSize off d'

/-- State of the scan after exactly `k` completed iterations (`none` when the loop is left or
throws earlier). -/
def iterate : Nat → (Nat → Nat) → Nat → Nat → Declarations → Option (Nat × Declarations)
  | 0, _, _, currentOffset, d => some (currentOffset, d)
  | k + 1, code, codeSize, currentOffset, d =>
    match loopBody code codeSize currentOffset d with
    | .next off d' => iterate k code codeSize off d'
    | _ => none

/-! ## The extraction loop -/

/-- Source `public_spirv_variable_declaration`. -/
structure public_spirv_variable_declaration where
  binding : Nat
  descriptorSet : Nat
  size : Nat
  type : Nat
  stageFlags : Nat
deriving DecidableEq, Repr, Inhabited

/-- Source `RENDER_SPIRV_PUBLIC_VARIABLE_MAX_COUNT`: `(16 + 16) * 2`. -/
def RENDER_SPIRV_PUBLIC_VARIABLE_MAX_COUNT : Nat := (16 + 16) * 2

/-- The descriptor the extraction loop builds from a table entry. -/
def toPublic (stageFlags : Nat) (e : basic_declaration) : public_spirv_variable_declaration :=
  { binding := e.binding, descriptorSet := e.descriptorSet, size := e.size,
    type := e.storageClass, stageFlags := stageFlags }

/-- An order in which the range-for may visit the entries of the unordered table. -/
structure IterationOrder where
  order : Declarations → Declarations
  perm : ∀ d, (order d).Perm d

/-- Visit in insertion order. -/
def insertionOrder : IterationOrder := ⟨id, fun d => List.Perm.refl d⟩

/-- Visit in reverse insertion order. -/
def reverseOrder : IterationOrder := ⟨List.reverse, fun d => List.reverse_perm d⟩

/-- What a call leaves behind: whether it failed, and the caller's array and count. -/
structure CallResult where
  failure : Option Failure
  publicDecls : Nat → public_spirv_variable_declaration
  variableCount : Nat

/-- The loop `for (const auto& i : declarations)` over the entries in visiting order. -/
def extract (stageFlags : Nat) :
    Declarations → (Nat → public_spirv_variable_declaration) → Nat → CallResult
  | [], publicDecls, variableCount => ⟨none, publicDecls, variableCount⟩
  | (_, e) :: rest, publicDecls, variableCount =>
    if e.isPublic then
      if variableCount < RENDER_SPIRV_PUBLIC_VARIABLE_MAX_COUNT then
        extract stageFlags rest
          (Function.update publicDecls variableCount (toPublic stageFlags e))
          (variableCount + 1)
      else ⟨some .assertion, publicDecls, variableCount⟩
    else extract stageFlags rest publicDecls variableCount

/-- Source `RenderVulkanUtils::analyze_spirv`; `none` when the scan loop has not been left
within `fuel` iterations. -/
def analyze_spirv (fuel : Nat) (it : IterationOrder) (code : Nat → Nat) (codeSize : Nat)
    (stageFlags : Nat) (publicDecls : Nat → public_spirv_variable_declaration)
    (variableCount : Nat) : Option CallResult :=
  match scan fuel code codeSize 5 [] with
  | none => none
  | some (.error f) => some ⟨some f, publicDecls, variableCount⟩
  | some (.ok d) => some (extract stageFlags (it.order d) publicDecls variableCount)

/-- The caller's descriptor list: the first `n` slots of the array. -/
def descriptorList (publicDecls : Nat → public_spirv_variable_declaration) (n : Nat) :
    List public_spirv_variable_declaration :=
  (List.range n).map publicDecls

/-- The public entries of a table, in table order. -/
def publicEntries (d : Declarations) : List basic_declaration :=
  (d.filter (fun p => p.2.isPublic)).map (fun p => p.2)

/-! ## Streams used in the scenarios -/

/-- First word of an instruction. -/
def header (opcode length : Nat) : Nat := length * 65536 + opcode

/-- The uniform block module: float, vec4, struct of two vec4, pointer, variable, decorations. -/
def blockStream (h0 h1 h2 h3 h4 : Nat) : List Nat :=
  [h0, h1, h2, h3, h4,
   header 22 3, 1, 32,
   header 23 4, 2, 1, 4,
   header 30 4, 3, 2, 2,
   header 32 4, 4, 2, 3,
   header 59 4, 4, 5, 2,
   header 71 4, 5, 33, 1,
   header 71 4, 5, 34, 0]

/-- The same module with the decorations first, as compilers emit them. -/
def blockStreamDecoratedFirst (h0 h1 h2 h3 h4 : Nat) : List Nat :=
  [h0, h1, h2, h3, h4,
   header 71 4, 5, 33, 1,
   header 71 4, 5, 34, 0,
   header 22 3, 1, 32,
   header 23 4, 2, 1, 4,
   header 30 4, 3, 2, 2,
   header 32 4, 4, 2, 3,
   header 59 4, 4, 5, 2]


/-- The table the four type declarations of the uniform block module leave: float, vec4,
struct, pointer. -/
def blockTypes : Declarations :=
  [(1, { size := 4, opType := 22 }), (2, { size := 16, opType := 23 }),
   (3, { size := 32, opType := 30 }), (4, { size := 8, opType := 32, pointerTarget := 3 })]

/-- A module with `struct { float a[536870912]; float b[536870912]; }`: float, array of 2^29
floats (2^31 bytes), struct of two such arrays. -/
def hugeStructStream : List Nat :=
  [0, 0, 0, 0, 0,
   header 22 3, 1, 32,
   header 28 4, 2, 1, 536870912,
   header 30 4, 3, 2, 2]

/-- A module with a float and `struct { float a; float b; float c; }`. -/
def floatStructStream : List Nat :=
  [0, 0, 0, 0, 0,
   header 22 3, 1, 32,
   header 30 5, 2, 1, 1, 1]

/-- A module with a float and a `vec4` of it. -/
def vectorStream : List Nat :=
  [0, 0, 0, 0, 0,
   header 22 3, 1, 32,
   header 23 4, 2, 1, 4]

/-- The scan reads the words `ws` at the indices `off`, `off + 1`, ... of the buffer. -/
def wordsAt (code : Nat → Nat) (off : Nat) (ws : List Nat) : Prop :=
  ∀ i, i < ws.length → rd code (off + i) = ws.getD i 0

/-- The words of `OpDecorate v Binding b`, `OpDecorate v DescriptorSet s`, then
`OpVariable ty v sc`. -/
def decoratedThenDeclared (ty v sc b s : Nat) : List Nat :=
  [header 71 4, v, 33, b, header 71 4, v, 34, s, header 59 4, ty, v, sc]

/-- The words of `OpVariable ty v sc`, then `OpDecorate v Binding b`,
`OpDecorate v DescriptorSet s`. -/
def declaredThenDecorated (ty v sc b s : Nat) : List Nat :=
  [header 59 4, ty, v, sc, header 71 4, v, 33, b, header 71 4, v, 34, s]

/-- A module that declares variable 7 (of type 9) twice: in class Uniform (2), then in class
Function (7). -/
def redeclaredStream : List Nat :=
  [0, 0, 0, 0, 0,
   header 59 4, 9, 7, 2,
   header 59 4, 9, 7, 7]

/-- An entry whose recorded storage class is one of the three resource classes carries the
public flag. -/
def ClassFlagged (e : basic_declaration) : Prop :=
  (e.storageClass = 2 ∨ e.storageClass = 11 ∨ e.storageClass = 12) → e.isPublic = true

/-- A module whose second instruction header (offset 9) is the word 19: opcode 19 with length
field 0; a further variable declaration follows it. -/
def zeroLengthStream : List Nat :=
  [0, 0, 0, 0, 0,
   header 59 4, 9, 7, 2,
   19,
   header 59 4, 9, 8, 2]

/-- A module whose only instruction is a `vec4` of the undeclared type id 1. -/
def unknownElementStream : List Nat :=
  [0, 0, 0, 0, 0,
   header 23 4, 2, 1, 4]

/-- A module with two public variables, 7 (Uniform) and 8 (StorageBuffer), of type 9. -/
def twoVariablesStream : List Nat :=
  [0, 0, 0, 0, 0,
   header 59 4, 9, 7, 2,
   header 59 4, 9, 8, 12]

/-! ## Auxiliary definitions used in the statements -/

/-- The table after the first four assignments of the `OpVariable` handler. -/
def variableDeclared (d : Declarations) (target structId storageClass : Nat) : Declarations :=
  modify d structId (fun e =>
    { e with opType := 59, pointerTarget := target, storageClass := storageClass,
             isPublic := if storageClass = 2 ∨ storageClass = 11 ∨ storageClass = 12
                         then true else e.isPublic })

/-- The update the `OpVariable` handler applies to the variable's entry before it computes the
size. -/
def variableFields (target storageClass : Nat) (e : basic_declaration) : basic_declaration :=
  { e with opType := 59, pointerTarget := target, storageClass := storageClass,
           isPublic := if storageClass = 2 ∨ storageClass = 11 ∨ storageClass = 12
                       then true else e.isPublic }

/-- The size the `OpVariable` handler stores for the variable: the size of the entry named by
the pointerTarget of the variable's type when that is non-zero, otherwise the size of the
type's own entry (both read after the handler's first four assignments). -/
def variableSize (d : Declarations) (target structId storageClass : Nat) : Nat :=
  if (get (variableDeclared d target structId storageClass) target).pointerTarget ≠ 0 then
    (get (variableDeclared d target structId storageClass)
      (get (variableDeclared d target structId storageClass) target).pointerTarget).size
  else (get (variableDeclared d target structId storageClass) target).size

/-- Sum of the sizes recorded in `d` for the operands `i0, i0 + 1, ..., i0 + n - 1`. -/
def memberSizes (d : Declarations) (arg : Nat → Nat) (i0 n : Nat) : Nat :=
  ((List.range n).map (fun j => (get d (arg (i0 + j))).size)).sum

/-- The id whose entry the instruction at `off` assigns to: word 2 for `OpVariable`, word 1
otherwise. -/
def declaredId (code : Nat → Nat) (off : Nat) : Nat :=
  if getOpcode (rd code off) = 59 then operand code off 2 else operand code off 1

/-- A relation between the old and the new value of an entry that every assignment made by a
handler respects. -/
structure EntryRel (P : basic_declaration → basic_declaration → Prop) : Prop where
  refl : ∀ e, P e e
  trans : ∀ a b c, P a b → P b c → P a c
  size : ∀ e x, P e { e with size := x }
  opType : ∀ e x, P e { e with opType := x }
  pointerTarget : ∀ e x, P e { e with pointerTarget := x }
  binding : ∀ e x, P e { e with binding := x }
  descriptorSet : ∀ e x, P e { e with descriptorSet := x }
  declared : ∀ e ty sc, P e (variableFields ty sc e)

/-! ## The renderer: device calls, command log and recording state

A shallow embedding of `vulkan_wienderer` in `src/src/vulkan_implement/vulkan_wiender.hpp`
(lines 143-151, 231-255, 402-566, 752-766, 877-896).

* Vulkan handles are natural numbers, 0 is the null handle.
* Every Vulkan call the renderer makes is appended to the field `issued` of the state, so that
  "issues no device call" is a statement about that list.
* Whether a call returns `VK_SUCCESS` is decided by a `Device`, which sees the calls issued
  before it; the theorems quantify over every device.
* `wiender_assert` throws `std::runtime_error`; an operation returns an `Outcome` holding the
  error, if one was thrown, and the state of the renderer at that moment.
-/

/-- Source `struct binded_buffer_state`. -/
structure binded_buffer_state where
  buffer : Nat := 0
deriving DecidableEq, Repr

/-- Source `struct active_shader_state`. -/
structure active_shader_state where
  pipeline : Nat := 0
  layout : Nat := 0
  renderPass : Nat := 0
  descriptorSet : Nat := 0
deriving DecidableEq, Repr

/-- Source `enum struct render_command_type`, in declaration order. -/
inductive render_command_type
  | SET_SHADER
  | BIND_VERTEX_BUFFER
  | BIND_INDEX_BUFFER
  | BEGIN_RECORD
  | RECORD_UPDATE_SCISSOR
  | RECORD_UPDATE_VIEWPORT
  | RECORD_BEGIN_RENDER
  | RECORD_DRAW_VERTECES
  | RECORD_DRAW_INDEXED
  | RECORD_END_RENDER
  | END_RECORD
deriving DecidableEq, Repr

/-- The union `render_command::data`, by the member written last; `empty` is its state after
the `{ }` initialiser of `render_command{ tag, { } }` when no member is assigned afterwards. -/
inductive command_data
  | empty
  | bindedBufferState (s : binded_buffer_state)
  | activeShaderState (s : active_shader_state)
  | drawData (count first instanceCount : Nat)
deriving DecidableEq, Repr

/-- Source `struct render_command`. -/
structure render_command where
  commandType : render_command_type
  data : command_data
deriving DecidableEq, Repr

/-- Source `using render_commands = std::vector<render_command>`. -/
abbrev render_commands := List render_command

/-- Read of `command.data.activeShaderState`.  A record of the log always holds the member its
tag names; the read of another member is given the zero-initialised value. -/
def command_data.shader : command_data → active_shader_state
  | .activeShaderState s => s
  | _ => {}

/-- Read of `command.data.bindedBufferState`. -/
def command_data.binded : command_data → binded_buffer_state
  | .bindedBufferState s => s
  | _ => {}

/-- Read of `command.data.drawData.count`. -/
def command_data.count : command_data → Nat
  | .drawData c _ _ => c
  | _ => 0

/-- Read of `command.data.drawData.first`. -/
def command_data.first : command_data → Nat
  | .drawData _ f _ => f
  | _ => 0

/-- Read of `command.data.drawData.instanceCount`. -/
def command_data.instanceCount : command_data → Nat
  | .drawData _ _ i => i
  | _ => 0

/-- The kinds of Vulkan object the renderer creates and destroys itself, each with its pair of
calls: `vkCreateInstance` / `vkDestroyInstance`, the platform call of
`create_platform_spec_surface` / `vkDestroySurfaceKHR`, `vkCreateDevice` / `vkDestroyDevice`,
`vkCreateImage` / `vkDestroyImage`, `vkAllocateMemory` / `vkFreeMemory`, `vkCreateImageView` /
`vkDestroyImageView`, `vkCreateRenderPass` / `vkDestroyRenderPass`, `vkCreateSwapchainKHR` /
`vkDestroySwapchainKHR`, `vkCreateFramebuffer` / `vkDestroyFramebuffer`, `vkCreateCommandPool`
/ `vkDestroyCommandPool`, `vkCreateFence` / `vkDestroyFence`, `vkCreateSemaphore` /
`vkDestroySemaphore`, `vkCreateSampler` / `vkDestroySampler`. -/
inductive ObjectKind
  | instance_
  | surface
  | device
  | image
  | memory
  | imageView
  | renderPass
  | swapchain
  | framebuffer
  | commandPool
  | fence
  | semaphore
  | sampler
deriving DecidableEq, Repr

/-- The Vulkan calls made by the operations embedded here, with the arguments that vary. -/
inductive DeviceCall
  | vkResetCommandBuffer (buffer : Nat)
  | vkBeginCommandBuffer (buffer renderPass framebuffer : Nat)
  | vkCmdBeginRenderPass (buffer renderPass framebuffer width height : Nat)
  | vkCmdBindDescriptorSets (buffer layout descriptorSet : Nat)
  | vkCmdBindPipeline (buffer pipeline : Nat)
  | vkCmdBindVertexBuffers (buffer vertexBuffer : Nat)
  | vkCmdBindIndexBuffer (buffer indexBuffer : Nat)
  | vkCmdDraw (buffer vertexCount instanceCount firstVertex : Nat)
  | vkCmdDrawIndexed (buffer indexCount instanceCount firstIndex : Nat)
  | vkCmdEndRenderPass (buffer : Nat)
  | vkEndCommandBuffer (buffer : Nat)
  | vkWaitForFences (fence : Nat)
  | vkAcquireNextImageKHR (swapchain semaphore : Nat)
  | vkResetFences (fence : Nat)
  | vkQueueSubmit (queue commandBuffer fence : Nat)
  | vkQueuePresentKHR (queue swapchain imageIndex : Nat)
  /-- The enumerations, capability queries and assertions of a step of the constructor that
  create no object, taken together: it succeeds when none of them throws. -/
  | probe (step : Nat)
  /-- The call that creates an object of the kind, with its parent object. -/
  | create (kind : ObjectKind) (parent : Nat)
  /-- The call that destroys an object of the kind. -/
  | destroy (kind : ObjectKind) (handle : Nat)
  | vkGetDeviceQueue (device : Nat)
  | vkBindImageMemory (image memory : Nat)
  | vkGetSwapchainImagesKHR (swapchain : Nat)
  | vkAllocateCommandBuffers (commandPool count : Nat)
  /-- The unchecked calls of `begin_single_time_commands`, `transition_image_layout` and
  `end_single_time_commands` on a temporary command buffer, which they allocate and free. -/
  | singleTimeCommands (commandPool image : Nat)
  | vkDeviceWaitIdle (device : Nat)
deriving DecidableEq, Repr

/-- Source `VkExtent2D`. -/
structure VkExtent2D where
  width : Nat := 0
  height : Nat := 0
deriving DecidableEq, Repr

/-- The Vulkan implementation as the renderer observes it, every answer depending on the calls
issued so far: whether a call returns `VK_SUCCESS`; the image index `vkAcquireNextImageKHR`
writes; the handle a call writes through its output pointer (the `i`-th one, for a call that
writes several); the number of images of the swapchain; and the `minImageExtent` of the
surface capabilities.  A call that does not return `VK_SUCCESS` writes nothing. -/
structure Device where
  success : List DeviceCall → DeviceCall → Bool
  acquired : List DeviceCall → Nat
  written : List DeviceCall → DeviceCall → Nat → Nat := fun _ _ _ => 1
  imageCount : List DeviceCall → Nat := fun _ => 1
  minImageExtent : List DeviceCall → VkExtent2D := fun _ => {}

/-- The device on which every call succeeds, image 0 is always acquired, the handle written by
a call is 100 plus ten times the number of calls issued before it plus the index of the output,
the swapchain has two images and the surface is 800 x 600. -/
def Device.healthy : Device :=
  { success := fun _ _ => true, acquired := fun _ => 0,
    written := fun issued _ i => 100 + 10 * issued.length + i,
    imageCount := fun _ => 2, minImageExtent := fun _ => ⟨800, 600⟩ }

/-- The device on which no checked call succeeds. -/
def Device.broken : Device := { success := fun _ _ => false, acquired := fun _ => 0 }

/-- Source `struct vulkan_image`. -/
structure vulkan_image where
  image : Nat := 0
  memory : Nat := 0
  view : Nat := 0
deriving DecidableEq, Repr

/-- Source `struct swapchain_image`. -/
structure swapchain_image where
  image : Nat := 0
  view : Nat := 0
  framebuffer : Nat := 0
deriving DecidableEq, Repr

/-- The members of `vulkan_wienderer` read or written by the operations embedded here, and the
list of the device calls issued so far.  The trailing underscore of the source names is dropped
(kept in `instance_`); `extent` is `swapchainSupportInfo_.extent`, `ldevice`, `graphicsQueue`
and `presentQueue` are the three members of `ldevice_`, `fence` and `semaphore` the two members
of `syncObject_`.  The default values are those of the constructor's initialiser list. -/
structure vulkan_wienderer where
  instance_ : Nat := 0
  ldevice : Nat := 0
  graphicsQueue : Nat := 0
  presentQueue : Nat := 0
  surface : Nat := 0
  extent : VkExtent2D := {}
  colorRenderTarget : vulkan_image := {}
  defaultRenderPass : Nat := 0
  swapchain : Nat := 0
  swapchainImages : List swapchain_image := []
  commandPool : Nat := 0
  commandBuffers : List Nat := []
  fence : Nat := 0
  semaphore : Nat := 0
  defaultTextureImage : vulkan_image := {}
  defaultSampler : Nat := 0
  currentShader : active_shader_state := {}
  vertexBindedBuffer : binded_buffer_state := {}
  indexBindedBuffer : binded_buffer_state := {}
  imageIndex : Nat := 0
  appliedCommands : render_commands := []
  recording : Bool := false
  issued : List DeviceCall := []
deriving DecidableEq, Repr

/-- The `std::runtime_error` thrown by a failed `wiender_assert` / `vulkan_check`, named by the
assertion that raised it. -/
inductive wiender_error
  /-- Message "set_commands failed to set BRAAAND new command frame": `frame != nullptr`. -/
  | set_frame_null
  /-- Message "... while buffers are recording": `!recording_` in `set_commands_frame`. -/
  | set_frame_recording
  /-- Message "concat_commands failed to cancat BRAAAND new command frame". -/
  | concat_frame_null
  /-- Message "begin_record buffers already in record state": `!recording_`. -/
  | already_recording
  /-- Message "begin_record failed to begin recording buffers": `vkBeginCommandBuffer`. -/
  | begin_buffer_failed
  /-- Message "begin_render you should set shader before render": `pipeline != 0`. -/
  | shader_not_set
  /-- Message "end_record buffers are not in record state": `recording_`. -/
  | not_recording
  /-- Message "end_record failed to end recording buffers": `vkEndCommandBuffer`. -/
  | end_buffer_failed
  /-- The exception thrown by the check number `check` of the step number `step` of the
  constructor's creation sequence. -/
  | construction_failed (step check : Nat)
deriving DecidableEq, Repr

/-- What a call of a `void` member function leaves behind: the exception that left it, if any,
and the renderer. -/
structure Outcome where
  error : Option wiender_error
  state : vulkan_wienderer
deriving DecidableEq, Repr

/-- A run of unchecked device calls. -/
def issue (r : vulkan_wienderer) (calls : List DeviceCall) : vulkan_wienderer :=
  { r with issued := r.issued ++ calls }

/-- A loop of calls under `vulkan_check`: the calls are issued in order until one does not return
`VK_SUCCESS`; the result tells whether all succeeded and lists the calls issued. -/
def issueChecked (dev : Device) : List DeviceCall → List DeviceCall → Bool × List DeviceCall
  | [], issued => (true, issued)
  | c :: cs, issued =>
    if dev.success issued c then issueChecked dev cs (issued ++ [c])
    else (false, issued ++ [c])

/-- Whether `(extent.width == 0) || (extent.height == 0)`. -/
def zeroExtent (r : vulkan_wienderer) : Bool :=
  r.extent.width == 0 || r.extent.height == 0

/-- Source `emplace_back(render_command{ tag, { } })`, followed where the source does so by the
assignment of the payload to `appliedCommands_.back().data`. -/
def record (r : vulkan_wienderer) (tag : render_command_type) (data : command_data) :
    vulkan_wienderer :=
  { r with appliedCommands := r.appliedCommands ++ [⟨tag, data⟩] }

/-! ## The renderer: operations -/

/-- Source `vulkan_wienderer::set_shader_state` (lines 752-756). -/
def set_shader_state (newCurrentShader : active_shader_state) (r : vulkan_wienderer) :
    vulkan_wienderer :=
  { record r .SET_SHADER (.activeShaderState newCurrentShader) with
    currentShader := newCurrentShader }

/-- Source `vulkan_wienderer::bind_vertex_buffer_state` (lines 757-761). -/
def bind_vertex_buffer_state (newBindedBuffer : binded_buffer_state) (r : vulkan_wienderer) :
    vulkan_wienderer :=
  { record r .BIND_VERTEX_BUFFER (.bindedBufferState newBindedBuffer) with
    vertexBindedBuffer := newBindedBuffer }

/-- Source `vulkan_wienderer::bind_index_buffer_state` (lines 762-766). -/
def bind_index_buffer_state (newBindedBuffer : binded_buffer_state) (r : vulkan_wienderer) :
    vulkan_wienderer :=
  { record r .BIND_INDEX_BUFFER (.bindedBufferState newBindedBuffer) with
    indexBindedBuffer := newBindedBuffer }

/-- The calls of the loop of `begin_record`, one per command buffer, in index order. -/
def beginCalls (r : vulkan_wienderer) : List DeviceCall :=
  (List.range r.commandBuffers.length).map (fun i =>
    .vkBeginCommandBuffer (r.commandBuffers.getD i 0) r.currentShader.renderPass
      (r.swapchainImages.getD i {}).framebuffer)

/-- Source `vulkan_wienderer::begin_record` (lines 429-455). -/
def begin_record (dev : Device) (r : vulkan_wienderer) : Outcome :=
  if r.recording then ⟨some .already_recording, r⟩
  else
    match issueChecked dev (beginCalls r) r.issued with
    | (false, issued) => ⟨some .begin_buffer_failed, { r with issued := issued }⟩
    | (true, issued) =>
      ⟨none, { record { r with issued := issued } .BEGIN_RECORD .empty with recording := true }⟩

/-- The calls of the loop of `begin_render`: two per command buffer. -/
def renderCalls (r : vulkan_wienderer) : List DeviceCall :=
  ((List.range r.commandBuffers.length).map (fun i =>
    [DeviceCall.vkCmdBeginRenderPass (r.commandBuffers.getD i 0) r.currentShader.renderPass
       (r.swapchainImages.getD i {}).framebuffer r.extent.width r.extent.height,
     DeviceCall.vkCmdBindDescriptorSets (r.commandBuffers.getD i 0) r.currentShader.layout
       r.currentShader.descriptorSet])).flatten

/-- Source `vulkan_wienderer::begin_render` (lines 456-480). -/
def begin_render (r : vulkan_wienderer) : Outcome :=
  if zeroExtent r then ⟨none, r⟩
  else if r.currentShader.pipeline = 0 then ⟨some .shader_not_set, r⟩
  else ⟨none, record (issue r (renderCalls r)) .RECORD_BEGIN_RENDER .empty⟩

/-- Source `vulkan_wienderer::draw_verteces` (lines 481-497). -/
def draw_verteces (vertexCount firstVertex instanceCount : Nat) (r : vulkan_wienderer) :
    Outcome :=
  if zeroExtent r then ⟨none, r⟩
  else
    ⟨none, record
      (issue r ((r.commandBuffers.map (fun buffer =>
        [DeviceCall.vkCmdBindPipeline buffer r.currentShader.pipeline,
         DeviceCall.vkCmdBindVertexBuffers buffer r.vertexBindedBuffer.buffer,
         DeviceCall.vkCmdDraw buffer vertexCount instanceCount firstVertex])).flatten))
      .RECORD_DRAW_VERTECES (.drawData vertexCount firstVertex instanceCount)⟩

/-- Source `vulkan_wienderer::draw_indexed` (lines 498-515); the tag it records is
`render_command_type::RECORD_DRAW_VERTECES`, as in the source. -/
def draw_indexed (indecesCount firstIndex instanceCount : Nat) (r : vulkan_wienderer) :
    Outcome :=
  if zeroExtent r then ⟨none, r⟩
  else
    ⟨none, record
      (issue r ((r.commandBuffers.map (fun buffer =>
        [DeviceCall.vkCmdBindPipeline buffer r.currentShader.pipeline,
         DeviceCall.vkCmdBindVertexBuffers buffer r.vertexBindedBuffer.buffer,
         DeviceCall.vkCmdBindIndexBuffer buffer r.indexBindedBuffer.buffer,
         DeviceCall.vkCmdDrawIndexed buffer indecesCount instanceCount firstIndex])).flatten))
      .RECORD_DRAW_VERTECES (.drawData indecesCount firstIndex instanceCount)⟩

/-- Source `vulkan_wienderer::end_render` (lines 516-523). -/
def end_render (r : vulkan_wienderer) : Outcome :=
  if zeroExtent r then ⟨none, r⟩
  else
    ⟨none, record (issue r (r.commandBuffers.map DeviceCall.vkCmdEndRenderPass))
      .RECORD_END_RENDER .empty⟩

/-- Source `vulkan_wienderer::end_record` (lines 524-531). -/
def end_record (dev : Device) (r : vulkan_wienderer) : Outcome :=
  if !r.recording then ⟨some .not_recording, r⟩
  else
    match issueChecked dev (r.commandBuffers.map DeviceCall.vkEndCommandBuffer) r.issued with
    | (false, issued) => ⟨some .end_buffer_failed, { r with issued := issued }⟩
    | (true, issued) =>
      ⟨none, { record { r with issued := issued } .END_RECORD .empty with recording := false }⟩

/-- Source `vulkan_wienderer::execute` (lines 532-566): none of its calls is checked;
`vkAcquireNextImageKHR` writes `imageIndex_`. -/
def execute (dev : Device) (r : vulkan_wienderer) : Outcome :=
  if zeroExtent r then ⟨none, r⟩
  else
    let r1 := issue r [.vkWaitForFences r.fence, .vkAcquireNextImageKHR r.swapchain r.semaphore]
    let r2 := { r1 with imageIndex := dev.acquired r1.issued }
    ⟨none, issue r2
      [.vkResetFences r2.fence,
       .vkQueueSubmit r2.graphicsQueue (r2.commandBuffers.getD r2.imageIndex 0) r2.fence,
       .vkQueuePresentKHR r2.presentQueue r2.swapchain r2.imageIndex]⟩

/-- The calls of the public interface that act on the log, with their arguments (`set_shader`,
`bind_vertex_buffer` and `bind_index_buffer` stand for `shader::set` and `buffer::bind`, which
pass their state to the three `..._state` functions). -/
inductive Operation
  | set_shader_state (s : active_shader_state)
  | bind_vertex_buffer_state (s : binded_buffer_state)
  | bind_index_buffer_state (s : binded_buffer_state)
  | begin_record
  | begin_render
  | draw_verteces (vertexCount firstVertex instanceCount : Nat)
  | draw_indexed (indecesCount firstIndex instanceCount : Nat)
  | end_render
  | end_record
deriving DecidableEq, Repr

/-- The call of one operation. -/
def Operation.run (dev : Device) : Operation → vulkan_wienderer → Outcome
  | .set_shader_state s, r => ⟨none, wirender.set_shader_state s r⟩
  | .bind_vertex_buffer_state s, r => ⟨none, wirender.bind_vertex_buffer_state s r⟩
  | .bind_index_buffer_state s, r => ⟨none, wirender.bind_index_buffer_state s r⟩
  | .begin_record, r => wirender.begin_record dev r
  | .begin_render, r => wirender.begin_render r
  | .draw_verteces c f i, r => wirender.draw_verteces c f i r
  | .draw_indexed c f i, r => wirender.draw_indexed c f i r
  | .end_render, r => wirender.end_render r
  | .end_record, r => wirender.end_record dev r

/-- The `switch` of `concat_vulkan_buffers` (lines 879-892): the call a record is dispatched to,
none for the two tags whose cases are commented out (`default: break`). -/
def dispatched (command : render_command) : Option Operation :=
  match command.commandType with
  | .SET_SHADER => some (.set_shader_state command.data.shader)
  | .BIND_VERTEX_BUFFER => some (.bind_vertex_buffer_state command.data.binded)
  | .BIND_INDEX_BUFFER => some (.bind_index_buffer_state command.data.binded)
  | .BEGIN_RECORD => some .begin_record
  | .RECORD_UPDATE_SCISSOR => none
  | .RECORD_UPDATE_VIEWPORT => none
  | .RECORD_BEGIN_RENDER => some .begin_render
  | .RECORD_DRAW_VERTECES =>
    some (.draw_verteces command.data.count command.data.first command.data.instanceCount)
  | .RECORD_DRAW_INDEXED =>
    some (.draw_indexed command.data.count command.data.first command.data.instanceCount)
  | .RECORD_END_RENDER => some .end_render
  | .END_RECORD => some .end_record

/-- A sequence of calls made one after the other; an exception ends it. -/
def runAll (dev : Device) : List Operation → vulkan_wienderer → Outcome
  | [], r => ⟨none, r⟩
  | op :: ops, r =>
    match op.run dev r with
    | ⟨none, r1⟩ => runAll dev ops r1
    | ⟨some e, r1⟩ => ⟨some e, r1⟩

/-- Source `vulkan_wienderer::concat_vulkan_buffers` (lines 877-896).  The range-for takes
`begin()` and `end()` of its argument once, on entry: the loop visits the records the argument
held at that moment, also when the argument is the log the dispatched calls append to. -/
def concat_vulkan_buffers (dev : Device) (commands : render_commands) (r : vulkan_wienderer) :
    Outcome :=
  runAll dev (commands.filterMap dispatched) r

/-- Source `vulkan_wienderer::get_commands_frame` (lines 402-404): a copy of the log. -/
def get_commands_frame (r : vulkan_wienderer) : Option render_commands :=
  some r.appliedCommands

/-- Source `vulkan_wienderer::clear_commands_frame` (lines 405-409). -/
def clear_commands_frame (r : vulkan_wienderer) : vulkan_wienderer :=
  { issue r (r.commandBuffers.map DeviceCall.vkResetCommandBuffer) with appliedCommands := [] }

/-- Source `vulkan_wienderer::set_commands_frame` (lines 410-420); `none` is the null
pointer. -/
def set_commands_frame (dev : Device) (frame : Option render_commands) (r : vulkan_wienderer) :
    Outcome :=
  match frame with
  | none => ⟨some .set_frame_null, r⟩
  | some aframe =>
    if r.recording then ⟨some .set_frame_recording, r⟩
    else
      let r1 := { r with appliedCommands := aframe }
      let r2 := issue r1 (r1.commandBuffers.map DeviceCall.vkResetCommandBuffer)
      concat_vulkan_buffers dev r2.appliedCommands r2

/-- Source `vulkan_wienderer::concat_commands_frame` (lines 421-428). -/
def concat_commands_frame (dev : Device) (frame : Option render_commands)
    (r : vulkan_wienderer) : Outcome :=
  match frame with
  | none => ⟨some .concat_frame_null, r⟩
  | some aframe =>
    concat_vulkan_buffers dev aframe { r with appliedCommands := r.appliedCommands ++ aframe }

/-- The renderer of the scenarios: extent 800 x 600, one command buffer, nothing bound, empty
log, Idle. -/
def idleRenderer : vulkan_wienderer :=
  { extent := ⟨800, 600⟩, swapchain := 5, graphicsQueue := 6, presentQueue := 7, fence := 8,
    semaphore := 9, swapchainImages := [⟨19, 21, 20⟩], commandBuffers := [10] }

/-- The calls of `main` in `tests/basic_test/basic_test.cpp` that act on the log, in the order
made there (the vertex buffer is handle 30, the shader state has pipeline 40). -/
def basicTestCalls : List Operation :=
  [.bind_vertex_buffer_state ⟨30⟩, .set_shader_state ⟨40, 41, 42, 43⟩, .begin_record,
   .begin_render, .draw_verteces 3 0 1, .end_render, .end_record]

/-! ## The renderer: auxiliary definitions used in the statements -/

/-- The record the log receives for a call: tag and payload for every operation but
`draw_indexed`, for which only the payload is stated. -/
def recorded : Operation → render_command → Prop
  | .set_shader_state s, c => c = ⟨.SET_SHADER, .activeShaderState s⟩
  | .bind_vertex_buffer_state s, c => c = ⟨.BIND_VERTEX_BUFFER, .bindedBufferState s⟩
  | .bind_index_buffer_state s, c => c = ⟨.BIND_INDEX_BUFFER, .bindedBufferState s⟩
  | .begin_record, c => c = ⟨.BEGIN_RECORD, .empty⟩
  | .begin_render, c => c = ⟨.RECORD_BEGIN_RENDER, .empty⟩
  | .draw_verteces n f i, c => c = ⟨.RECORD_DRAW_VERTECES, .drawData n f i⟩
  | .draw_indexed n f i, c => c.data = .drawData n f i
  | .end_render, c => c = ⟨.RECORD_END_RENDER, .empty⟩
  | .end_record, c => c = ⟨.END_RECORD, .empty⟩

/-- The renderer of the scenarios while Recording. -/
def recordingRenderer : vulkan_wienderer := { idleRenderer with recording := true }

/-- The renderer of the scenarios with a swapchain extent of 0 x 600 (a minimised window). -/
def minimisedRenderer : vulkan_wienderer := { idleRenderer with extent := ⟨0, 600⟩ }

/-- A recording that draws indexed: both buffers bound, shader set, one `draw_indexed(6, 0, 1)`
between the render and record brackets. -/
def indexedCalls : List Operation :=
  [.bind_vertex_buffer_state ⟨30⟩, .bind_index_buffer_state ⟨31⟩,
   .set_shader_state ⟨40, 41, 42, 43⟩, .begin_record, .begin_render, .draw_indexed 6 0 1,
   .end_render, .end_record]

/-- The renderer of the scenarios after the calls of `indexedCalls`, all of which return. -/
def recordedIndexed : vulkan_wienderer :=
  (runAll Device.healthy indexedCalls idleRenderer).state

/-- The renderer of the scenarios after `bind_vertex_buffer_state` with buffer 30: Idle, with a
log of one record. -/
def boundRenderer : vulkan_wienderer := bind_vertex_buffer_state ⟨30⟩ idleRenderer

/-! ## The shader: uniform buffers

A shallow embedding of `vulkan_shader::create_uniform_buffers` (lines 2344-2392) and
`vulkan_shader::get_uniform_buffer_info` (lines 1989-1997) of
`src/src/vulkan_implement/vulkan_wiender.hpp`, with `descriptor_set_layout_data` of
`spirv_reflection_support.hpp`.  `VkDeviceSize` is 64 bits wide: the two running sums carry an
explicit `% 18446744073709551616`.
-/

/-- Source `WIENDER_UNIFORM_BUFFER_MAX_COUNT` (`WIENDER_SMALL_ARRAY_SIZE`). -/
def WIENDER_UNIFORM_BUFFER_MAX_COUNT : Nat := 8

/-- Vulkan `VK_DESCRIPTOR_TYPE_UNIFORM_BUFFER`. -/
def VK_DESCRIPTOR_TYPE_UNIFORM_BUFFER : Nat := 6

/-- The members of Vulkan `VkDescriptorSetLayoutBinding` that `create_uniform_buffers` reads. -/
structure VkDescriptorSetLayoutBinding where
  binding : Nat := 0
  descriptorType : Nat := 0
deriving DecidableEq, Repr

/-- The members of source `struct descriptor_set_layout_data` that `create_uniform_buffers`
reads: two vectors of the same length, `bufferSizes[i]` being the reflected block size of
`bindings[i]`. -/
structure descriptor_set_layout_data where
  bindings : List VkDescriptorSetLayoutBinding := []
  bufferSizes : List Nat := []
deriving DecidableEq, Repr

/-- The element type of `uniform_buffers_info::buffers`. -/
structure uniform_buffer_slot where
  buffer : Nat := 0
  size : Nat := 0
deriving DecidableEq, Repr

/-- Source `struct uniform_buffers_info`; `buffers` is indexed below
`WIENDER_UNIFORM_BUFFER_MAX_COUNT`. -/
structure uniform_buffers_info where
  memory : Nat := 0
  buffers : Nat → uniform_buffer_slot := fun _ => {}
  mappedMemory : Nat := 0

/-- Source `shader::uniform_buffer_info` (`include/wiender_core.hpp`). -/
structure uniform_buffer_info where
  size : Nat
  data : Nat
deriving DecidableEq, Repr

/-- The Vulkan memory calls made by the shader and by the buffers, with the arguments that
vary. -/
inductive MemoryCall
  | vkAllocateMemory (allocationSize : Nat)
  | vkCreateBuffer (size : Nat)
  | vkBindBufferMemory (buffer memory offset : Nat)
  | vkMapMemory (memory offset size : Nat)
  | vkUnmapMemory (memory : Nat)
deriving DecidableEq, Repr

/-- The Vulkan implementation as the shader and the buffers observe it: whether a call returns
`VK_SUCCESS` and the handle or address it writes through its last argument, both depending on
the calls issued so far. -/
structure MemoryDevice where
  success : List MemoryCall → MemoryCall → Bool
  written : List MemoryCall → MemoryCall → Nat

/-- The device on which every call succeeds and writes 1000 plus the number of calls issued
before it. -/
def MemoryDevice.healthy : MemoryDevice := ⟨fun _ _ => true, fun issued _ => 1000 + issued.length⟩

/-- The device on which no call succeeds. -/
def MemoryDevice.broken : MemoryDevice := ⟨fun _ _ => false, fun _ _ => 0⟩

/-- The `std::runtime_error` thrown by the two shader functions, named by the assertion that
raised it. -/
inductive shader_error
  /-- Message "uniform buffer binding has to be less than8". -/
  | binding_out_of_range
  /-- Message "uniform buffer size must be more than zero". -/
  | size_is_zero
  /-- Message "failed to allocate memoey for uniform buffers": `vkAllocateMemory`. -/
  | allocate_failed
  /-- Check of `vkCreateBuffer`. -/
  | create_buffer_failed
  /-- Check of `vkBindBufferMemory`. -/
  | bind_memory_failed
  /-- Check of `vkMapMemory`. -/
  | map_memory_failed
  /-- Message "get_uniform_buffer_info binding has to be less than 8". -/
  | info_binding_out_of_range
  /-- Message "buffer on this binding does not exist". -/
  | info_no_buffer
deriving DecidableEq, Repr

/-- The expression `bufferSize >= 128 ? bufferSize : 128` of line 2353, commented there
"128 - maximum align". -/
def paddedSize (bufferSize : Nat) : Nat := if bufferSize ≥ 128 then bufferSize else 128

/-- The first loop of `create_uniform_buffers` over the pairs `(bindings[i], bufferSizes[i])`
(lines 2346-2354): the size of slot `binding` becomes `bufferSize >= 128 ? bufferSize : 128`. -/
def assignSizes : List (VkDescriptorSetLayoutBinding × Nat) → (Nat → uniform_buffer_slot) →
    Except shader_error (Nat → uniform_buffer_slot)
  | [], buffers => .ok buffers
  | (bindingInfo, bufferSize) :: rest, buffers =>
    if bindingInfo.descriptorType ≠ VK_DESCRIPTOR_TYPE_UNIFORM_BUFFER then
      assignSizes rest buffers
    else if ¬ bindingInfo.binding < WIENDER_UNIFORM_BUFFER_MAX_COUNT then
      .error .binding_out_of_range
    else if bufferSize = 0 then .error .size_is_zero
    else
      assignSizes rest (Function.update buffers bindingInfo.binding
        { buffers bindingInfo.binding with size := paddedSize bufferSize })

/-- The pairs `(bindings[i], bufferSizes[i])` for `i < bindings.size()`. -/
def layoutEntries (descriptorsInfo : descriptor_set_layout_data) :
    List (VkDescriptorSetLayoutBinding × Nat) :=
  (List.range descriptorsInfo.bindings.length).map (fun i =>
    (descriptorsInfo.bindings.getD i {}, descriptorsInfo.bufferSizes.getD i 0))

/-- The second loop (lines 2356-2358): the sum of the eight sizes, a `VkDeviceSize`. -/
def totalBufferSize (buffers : Nat → uniform_buffer_slot) : Nat :=
  (List.range WIENDER_UNIFORM_BUFFER_MAX_COUNT).foldl
    (fun total i => (total + (buffers i).size) % 18446744073709551616) 0

/-- State of the third loop: the slots, the running offset and the calls issued. -/
structure BufferLoop where
  buffers : Nat → uniform_buffer_slot
  offset : Nat
  issued : List MemoryCall

/-- The third loop (lines 2372-2390) over the slot indices still to visit: a buffer is created
and bound at the running offset for every slot of non-zero size. -/
def createBuffers (dev : MemoryDevice) (memory : Nat) :
    List Nat → BufferLoop → Except shader_error BufferLoop
  | [], st => .ok st
  | i :: rest, st =>
    if (st.buffers i).size = 0 then createBuffers dev memory rest st
    else
      let create := MemoryCall.vkCreateBuffer (st.buffers i).size
      if ¬ dev.success st.issued create then .error .create_buffer_failed
      else
        let buffer := dev.written st.issued create
        let buffers := Function.update st.buffers i { st.buffers i with buffer := buffer }
        let issued := st.issued ++ [create]
        let bind := MemoryCall.vkBindBufferMemory buffer memory st.offset
        if ¬ dev.success issued bind then .error .bind_memory_failed
        else
          createBuffers dev memory rest
            ⟨buffers, (st.offset + (buffers i).size) % 18446744073709551616, issued ++ [bind]⟩

/-- Source `vulkan_shader::create_uniform_buffers` (lines 2344-2392), from the calls `issued`
before it. -/
def create_uniform_buffers (dev : MemoryDevice) (descriptorsInfo : descriptor_set_layout_data)
    (issued : List MemoryCall) : Except shader_error uniform_buffers_info :=
  match assignSizes (layoutEntries descriptorsInfo) (fun _ => {}) with
  | .error e => .error e
  | .ok buffers =>
    let total := totalBufferSize buffers
    if total = 0 then .ok {}
    else
      let allocate := MemoryCall.vkAllocateMemory total
      if ¬ dev.success issued allocate then .error .allocate_failed
      else
        let memory := dev.written issued allocate
        match createBuffers dev memory (List.range WIENDER_UNIFORM_BUFFER_MAX_COUNT)
            ⟨buffers, 0, issued ++ [allocate]⟩ with
        | .error e => .error e
        | .ok st =>
          let map := MemoryCall.vkMapMemory memory 0 total
          if ¬ dev.success st.issued map then .error .map_memory_failed
          else .ok ⟨memory, st.buffers, dev.written st.issued map⟩

/-- Source `vulkan_shader::get_uniform_buffer_info` (lines 1989-1997); the address is the sum
of `mappedMemory` and the sizes of the slots below `binding`. -/
def get_uniform_buffer_info (uniformBuffers : uniform_buffers_info) (binding : Nat) :
    Except shader_error uniform_buffer_info :=
  if ¬ binding < WIENDER_UNIFORM_BUFFER_MAX_COUNT then .error .info_binding_out_of_range
  else
    let offset := (List.range binding).foldl
      (fun offset i => (offset + (uniformBuffers.buffers i).size) % 18446744073709551616) 0
    if (uniformBuffers.buffers binding).size = 0 then .error .info_no_buffer
    else
      .ok ⟨(uniformBuffers.buffers binding).size,
           (uniformBuffers.mappedMemory + offset) % 18446744073709551616⟩

/-- The size `get_uniform_buffer_info` returns, 0 when it fails. -/
def regionSize (r : Except shader_error uniform_buffer_info) : Nat :=
  match r with
  | .ok info => info.size
  | .error _ => 0

/-- The layout of a shader with one uniform block of `s` bytes at binding 0 (as
`tests/basic_test`) and a combined image sampler at binding 1. -/
def blockLayout (s : Nat) : descriptor_set_layout_data :=
  { bindings := [⟨0, VK_DESCRIPTOR_TYPE_UNIFORM_BUFFER⟩, ⟨1, 1⟩], bufferSizes := [s, 0] }

/-- The region `get_uniform_buffer_info(binding)` returns on a shader whose uniform buffers
`create_uniform_buffers` made for the layout. -/
def createdRegion (dev : MemoryDevice) (descriptorsInfo : descriptor_set_layout_data)
    (issued : List MemoryCall) (binding : Nat) : Except shader_error uniform_buffer_info :=
  match create_uniform_buffers dev descriptorsInfo issued with
  | .ok uniformBuffers => get_uniform_buffer_info uniformBuffers binding
  | .error e => .error e

/-! ## The buffers: map and unmap

A shallow embedding of `cpu_side_buffer::map` / `unmap` (lines 1532-1543) and
`gpu_side_buffer::map` / `unmap` (lines 1638-1653, with `create_staging_memory` and
`create_staging_buffer`, lines 1709-1732) of `src/src/vulkan_implement/vulkan_wiender.hpp`.
-/

/-- Vulkan `VK_WHOLE_SIZE`, `~0ULL`. -/
def VK_WHOLE_SIZE : Nat := 18446744073709551615

/-- The `std::runtime_error` thrown by `map` and `unmap`, named by the assertion that raised
it. -/
inductive buffer_error
  /-- Message "map buffer already mapped". -/
  | already_mapped
  /-- Message "map failed to map memory": `vkMapMemory`. -/
  | map_failed
  /-- Message "unmap ... is not mapped". -/
  | not_mapped
  /-- Message "create_staging_memory failed to allocate staging memory". -/
  | staging_allocate_failed
  /-- Message "create_staging_buffer failed to create staging buffer". -/
  | staging_create_failed
  /-- Message "create_staging_buffer failed to bind staging memory". -/
  | staging_bind_failed
deriving DecidableEq, Repr

/-- What a call of `map` or `unmap` leaves behind: the exception that left it, if any, the
pointer returned (by `map`, when it returns) and the buffer. -/
structure Mapping (β : Type) where
  error : Option buffer_error
  data : Nat
  state : β

/-- The members of source `struct cpu_side_buffer` read or written by `map` and `unmap`, and
the memory calls issued so far. -/
structure cpu_side_buffer where
  CPUMemory : Nat := 0
  CPUBuffer : Nat := 0
  size : Nat := 0
  mappedFlag : Bool := false
  issued : List MemoryCall := []
deriving DecidableEq, Repr

/-- Source `cpu_side_buffer::is_mapped`. -/
def cpu_side_buffer.is_mapped (b : cpu_side_buffer) : Bool := b.mappedFlag

/-- Source `cpu_side_buffer::map` (lines 1532-1538). -/
def cpu_side_buffer.map (dev : MemoryDevice) (b : cpu_side_buffer) : Mapping cpu_side_buffer :=
  if b.mappedFlag then ⟨some .already_mapped, 0, b⟩
  else
    let call := MemoryCall.vkMapMemory b.CPUMemory 0 VK_WHOLE_SIZE
    if ¬ dev.success b.issued call then
      ⟨some .map_failed, 0, { b with issued := b.issued ++ [call] }⟩
    else
      ⟨none, dev.written b.issued call,
        { b with issued := b.issued ++ [call], mappedFlag := true }⟩

/-- Source `cpu_side_buffer::unmap` (lines 1539-1543). -/
def cpu_side_buffer.unmap (b : cpu_side_buffer) : Mapping cpu_side_buffer :=
  if ¬ b.mappedFlag then ⟨some .not_mapped, 0, b⟩
  else
    ⟨none, 0, { b with issued := b.issued ++ [.vkUnmapMemory b.CPUMemory],
                       mappedFlag := false }⟩

/-- The members of source `struct gpu_side_buffer` read or written by `map` and `unmap`, and
the memory calls issued so far. -/
structure gpu_side_buffer where
  GPUMemory : Nat := 0
  GPUBuffer : Nat := 0
  stagingMemory : Nat := 0
  stagingBuffer : Nat := 0
  size : Nat := 0
  mappedFlag : Bool := false
  issued : List MemoryCall := []
deriving DecidableEq, Repr

/-- Source `gpu_side_buffer::is_mapped`. -/
def gpu_side_buffer.is_mapped (b : gpu_side_buffer) : Bool := b.mappedFlag

/-- The branch `if (stagingBuffer_ == 0)` of `gpu_side_buffer::map`: `create_staging_memory`
assigned to `stagingMemory_`, then `create_staging_buffer` assigned to `stagingBuffer_`. -/
def gpu_side_buffer.createStaging (dev : MemoryDevice) (b : gpu_side_buffer) :
    Option buffer_error × gpu_side_buffer :=
  let allocate := MemoryCall.vkAllocateMemory b.size
  if ¬ dev.success b.issued allocate then
    (some .staging_allocate_failed, { b with issued := b.issued ++ [allocate] })
  else
    let b1 := { b with stagingMemory := dev.written b.issued allocate,
                       issued := b.issued ++ [allocate] }
    let create := MemoryCall.vkCreateBuffer b1.size
    if ¬ dev.success b1.issued create then
      (some .staging_create_failed, { b1 with issued := b1.issued ++ [create] })
    else
      let result := dev.written b1.issued create
      let b2 := { b1 with issued := b1.issued ++ [create] }
      let bind := MemoryCall.vkBindBufferMemory result b2.stagingMemory 0
      if ¬ dev.success b2.issued bind then
        (some .staging_bind_failed, { b2 with issued := b2.issued ++ [bind] })
      else (none, { b2 with stagingBuffer := result, issued := b2.issued ++ [bind] })

/-- Source `gpu_side_buffer::map` (lines 1638-1648). -/
def gpu_side_buffer.map (dev : MemoryDevice) (b : gpu_side_buffer) : Mapping gpu_side_buffer :=
  if b.is_mapped then ⟨some .already_mapped, 0, b⟩
  else
    match (if b.stagingBuffer = 0 then b.createStaging dev else (none, b)) with
    | (some e, b1) => ⟨some e, 0, b1⟩
    | (none, b1) =>
      let call := MemoryCall.vkMapMemory b1.stagingMemory 0 VK_WHOLE_SIZE
      if ¬ dev.success b1.issued call then
        ⟨some .map_failed, 0, { b1 with issued := b1.issued ++ [call] }⟩
      else
        ⟨none, dev.written b1.issued call,
          { b1 with issued := b1.issued ++ [call], mappedFlag := true }⟩

/-- Source `gpu_side_buffer::unmap` (lines 1649-1653). -/
def gpu_side_buffer.unmap (b : gpu_side_buffer) : Mapping gpu_side_buffer :=
  if ¬ b.is_mapped then ⟨some .not_mapped, 0, b⟩
  else
    ⟨none, 0, { b with issued := b.issued ++ [.vkUnmapMemory b.stagingMemory],
                       mappedFlag := false }⟩

/-- The two calls of the interface `buffer` that change the mapped flag. -/
inductive BufferCall
  | map
  | unmap
deriving DecidableEq, Repr

/-- The call of `map` or `unmap` on a `cpu_side_buffer`. -/
def cpu_side_buffer.call (dev : MemoryDevice) : BufferCall → cpu_side_buffer →
    Mapping cpu_side_buffer
  | .map, b => b.map dev
  | .unmap, b => b.unmap

/-- The call of `map` or `unmap` on a `gpu_side_buffer`. -/
def gpu_side_buffer.call (dev : MemoryDevice) : BufferCall → gpu_side_buffer →
    Mapping gpu_side_buffer
  | .map, b => b.map dev
  | .unmap, b => b.unmap

/-- The calls of a sequence that return, in order, when every call is made whether or not the
one before it threw. -/
def succeeded {β : Type} (call : BufferCall → β → Mapping β) : List BufferCall → β →
    List BufferCall
  | [], _ => []
  | c :: cs, b =>
    match (call c b).error with
    | none => c :: succeeded call cs (call c b).state
    | some _ => succeeded call cs (call c b).state

/-- Whether a sequence of calls alternates, beginning with `unmap` when `mapped` and with `map`
otherwise. -/
def alternating : Bool → List BufferCall → Bool
  | _, [] => true
  | mapped, .map :: cs => !mapped && alternating true cs
  | mapped, .unmap :: cs => mapped && alternating false cs

/-- A freshly constructed `cpu_side_buffer` of 64 bytes (memory 50, buffer 51). -/
def freshCpuBuffer : cpu_side_buffer := { CPUMemory := 50, CPUBuffer := 51, size := 64 }

/-- A freshly constructed `gpu_side_buffer` of 64 bytes (memory 52, buffer 53, no staging
buffer yet). -/
def freshGpuBuffer : gpu_side_buffer := { GPUMemory := 52, GPUBuffer := 53, size := 64 }

/-! ## The renderer: construction and teardown

A shallow embedding of the constructor of `vulkan_wienderer` (lines 301-362), of the creation
functions it calls (lines 767-832 and 899-1412) and of `accurate_destroy` (lines 833-876, with
`destroy_vulkan_image`, lines 576-586, and `destroy_swapchain_images`, lines 980-988).  The
steps of the creation sequence are numbered from 1 in the order of the `try` block; a step is
the creation function together with the assignment of its result to the member.
-/

/-- Source `if (handle != 0) vkDestroy...(handle)`. -/
def destroyIf (kind : ObjectKind) (handle : Nat) : List DeviceCall :=
  if handle ≠ 0 then [.destroy kind handle] else []

/-- Source `vulkan_wienderer::destroy_vulkan_image` (lines 576-586): view, image, memory. -/
def destroy_vulkan_image (image : vulkan_image) : List DeviceCall :=
  destroyIf .imageView image.view ++ destroyIf .image image.image ++
    destroyIf .memory image.memory

/-- The loop of `vulkan_wienderer::destroy_swapchain_images` (lines 981-986): framebuffer, then
view, of every element. -/
def destroy_swapchain_images (images : List swapchain_image) : List DeviceCall :=
  (images.map (fun image =>
    destroyIf .framebuffer image.framebuffer ++ destroyIf .imageView image.view)).flatten

/-- The destroy calls of `accurate_destroy`, in its order, for the handles the renderer holds. -/
def held (r : vulkan_wienderer) : List DeviceCall :=
  destroyIf .sampler r.defaultSampler ++
  destroy_vulkan_image r.defaultTextureImage ++
  destroyIf .semaphore r.semaphore ++
  destroyIf .fence r.fence ++
  destroyIf .commandPool r.commandPool ++
  destroy_swapchain_images r.swapchainImages ++
  destroy_vulkan_image r.colorRenderTarget ++
  destroyIf .swapchain r.swapchain ++
  destroyIf .renderPass r.defaultRenderPass ++
  destroyIf .device r.ldevice ++
  destroyIf .surface r.surface ++
  destroyIf .instance_ r.instance_

/-- Source `vulkan_wienderer::accurate_destroy` (lines 833-876): `end_record` when recording,
`vkDeviceWaitIdle` when the device exists, the guarded destroy calls, and the members it
resets (`swapchainImages_` is cleared by `destroy_swapchain_images`). -/
def accurate_destroy (dev : Device) (r : vulkan_wienderer) : Outcome :=
  match (if r.recording then end_record dev r else ⟨none, r⟩) with
  | ⟨some e, r1⟩ => ⟨some e, r1⟩
  | ⟨none, r1⟩ =>
    ⟨none,
      { issue r1
          ((if r1.ldevice ≠ 0 then [DeviceCall.vkDeviceWaitIdle r1.ldevice] else []) ++ held r1)
        with swapchainImages := [], swapchain := 0, defaultRenderPass := 0, ldevice := 0,
             graphicsQueue := 0, presentQueue := 0, surface := 0, instance_ := 0 }⟩

/-- A creation call under `vulkan_check` whose result the constructor assigns to a member: the
check number `check` of step `step`. -/
def createInto (dev : Device) (c : DeviceCall) (step check : Nat)
    (assign : Nat → vulkan_wienderer → vulkan_wienderer) (r : vulkan_wienderer) : Outcome :=
  if dev.success r.issued c then ⟨none, assign (dev.written r.issued c 0) (issue r [c])⟩
  else ⟨some (.construction_failed step check), issue r [c]⟩

/-- Step 1, `instance_ = create_vulkan_instance()` (lines 1390-1410). -/
def create_vulkan_instance (dev : Device) (r : vulkan_wienderer) : Outcome :=
  createInto dev (.create .instance_ 0) 1 0 (fun h r => { r with instance_ := h }) r

/-- A step that creates no object: `get_physical_device` (step 2), `get_max_usable_sample_count`
(step 3, which cannot throw), `create_falimy_indices` (step 5). -/
def probeStep (dev : Device) (step : Nat) (r : vulkan_wienderer) : Outcome :=
  if dev.success r.issued (.probe step) then ⟨none, issue r [.probe step]⟩
  else ⟨some (.construction_failed step 0), issue r [.probe step]⟩

/-- Step 4, `surface_ = create_platform_spec_surface(whandle)` (lines 1280-1325, the `_WIN32`
branch). -/
def create_platform_spec_surface (dev : Device) (r : vulkan_wienderer) : Outcome :=
  createInto dev (.create .surface r.instance_) 4 0 (fun h r => { r with surface := h }) r

/-- Step 6, `ldevice_ = create_logical_device()` (lines 1331-1364): `vkCreateDevice`, checked,
and the two unchecked `vkGetDeviceQueue`. -/
def create_logical_device (dev : Device) (r : vulkan_wienderer) : Outcome :=
  let c := DeviceCall.create .device 0
  if dev.success r.issued c then
    let device := dev.written r.issued c 0
    let q := DeviceCall.vkGetDeviceQueue device
    ⟨none, { issue r [c, q, q] with
      ldevice := device, graphicsQueue := dev.written (r.issued ++ [c]) q 0,
      presentQueue := dev.written (r.issued ++ [c, q]) q 0 }⟩
  else ⟨some (.construction_failed 6 0), issue r [c]⟩

/-- Step 7, `swapchainSupportInfo_ = create_swapchain_info()` (lines 1235-1279): queries only;
the extent is the `minImageExtent` of the capabilities. -/
def create_swapchain_info (dev : Device) (r : vulkan_wienderer) : Outcome :=
  if dev.success r.issued (.probe 7) then
    ⟨none, { issue r [.probe 7] with extent := dev.minImageExtent r.issued }⟩
  else ⟨some (.construction_failed 7 0), issue r [.probe 7]⟩

/-- Source `vulkan_wienderer::create_vulkan_image` (lines 793-832), called by step `step`:
`vkCreateImage` (check 0), `find_memory_type` (check 1), `vkAllocateMemory` (check 2), the
unchecked `vkBindImageMemory`, and `create_image_view` (check 3).  The three handles are local
variables until the function returns. -/
def create_vulkan_image (dev : Device) (step : Nat) (r : vulkan_wienderer) :
    Option vulkan_image × Outcome :=
  let c0 := DeviceCall.create .image r.ldevice
  if ¬ dev.success r.issued c0 then (none, ⟨some (.construction_failed step 0), issue r [c0]⟩)
  else
    let image := dev.written r.issued c0 0
    let r1 := issue r [c0]
    if ¬ dev.success r1.issued (.probe step) then
      (none, ⟨some (.construction_failed step 1), issue r1 [.probe step]⟩)
    else
      let r2 := issue r1 [.probe step]
      let c2 := DeviceCall.create .memory image
      if ¬ dev.success r2.issued c2 then
        (none, ⟨some (.construction_failed step 2), issue r2 [c2]⟩)
      else
        let memory := dev.written r2.issued c2 0
        let r3 := issue r2 [c2, .vkBindImageMemory image memory]
        let c3 := DeviceCall.create .imageView image
        if ¬ dev.success r3.issued c3 then
          (none, ⟨some (.construction_failed step 3), issue r3 [c3]⟩)
        else (some ⟨image, memory, dev.written r3.issued c3 0⟩, ⟨none, issue r3 [c3]⟩)

/-- Step 8, `colorRenderTarget_ = create_color_render_target()` (lines 1223-1234). -/
def create_color_render_target (dev : Device) (r : vulkan_wienderer) : Outcome :=
  match create_vulkan_image dev 8 r with
  | (some image, ⟨_, r1⟩) => ⟨none, { r1 with colorRenderTarget := image }⟩
  | (none, failed) => failed

/-- Step 9, `defaultRenderPass_ = create_default_render_pass(...)` (lines 1061-1222): one
`vkCreateRenderPass` on either branch. -/
def create_default_render_pass (dev : Device) (r : vulkan_wienderer) : Outcome :=
  createInto dev (.create .renderPass r.ldevice) 9 0
    (fun h r => { r with defaultRenderPass := h }) r

/-- Step 10, `swapchain_ = create_swapchain()` (lines 1033-1058). -/
def create_swapchain (dev : Device) (r : vulkan_wienderer) : Outcome :=
  createInto dev (.create .swapchain r.surface) 10 0 (fun h r => { r with swapchain := h }) r

/-- Source `inplace_vector::resize(count)`: the first `count` elements are kept, new elements
are value-initialised. -/
def resize {α : Type} (zero : α) (xs : List α) (count : Nat) : List α :=
  xs.take count ++ List.replicate (count - xs.length) zero

/-- The renderer with `images` for its swapchain images. -/
def place (images : List swapchain_image) (r : vulkan_wienderer) : vulkan_wienderer :=
  { r with swapchainImages := images }

/-- The second loop of `initialize_swapchain_images` (lines 1004-1014) over the elements still
to visit, `done` being those already visited: `create_image_view` (check 3) is assigned to
`view`, then `create_framebuffer` (check 4) to `framebuffer`, in place. -/
def initializeViews (dev : Device) :
    List swapchain_image → List swapchain_image → vulkan_wienderer → Outcome
  | done, [], r => ⟨none, place done r⟩
  | done, swimage :: todo, r =>
    let c3 := DeviceCall.create .imageView swimage.image
    if ¬ dev.success r.issued c3 then
      ⟨some (.construction_failed 11 3), place (done ++ swimage :: todo) (issue r [c3])⟩
    else
      let viewed := { swimage with view := dev.written r.issued c3 0 }
      let r1 := issue r [c3]
      let c4 := DeviceCall.create .framebuffer viewed.view
      if ¬ dev.success r1.issued c4 then
        ⟨some (.construction_failed 11 4), place (done ++ viewed :: todo) (issue r1 [c4])⟩
      else
        initializeViews dev
          (done ++ [{ viewed with framebuffer := dev.written r1.issued c4 0 }]) todo
          (issue r1 [c4])

/-- Source `WIENDER_SWAPCHAIN_IMAGE_MAX_COUNT` (`WIENDER_SMALL_ARRAY_SIZE`). -/
def WIENDER_SWAPCHAIN_IMAGE_MAX_COUNT : Nat := 8

/-- Step 11, `initialize_swapchain_images(swapchainImages_)` (lines 989-1016): the count is
queried (check 0), must be positive (check 1) and is clamped, the vector is resized, the images
are queried (check 2) and stored, and the second loop runs. -/
def initialize_swapchain_images (dev : Device) (r : vulkan_wienderer) : Outcome :=
  let get := DeviceCall.vkGetSwapchainImagesKHR r.swapchain
  if ¬ dev.success r.issued get then ⟨some (.construction_failed 11 0), issue r [get]⟩
  else
    let r1 := issue r [get]
    if ¬ dev.imageCount r.issued > 0 then ⟨some (.construction_failed 11 1), r1⟩
    else
      let count := min (dev.imageCount r.issued) WIENDER_SWAPCHAIN_IMAGE_MAX_COUNT
      let r2 := place (resize {} r1.swapchainImages count) r1
      if ¬ dev.success r2.issued get then ⟨some (.construction_failed 11 2), issue r2 [get]⟩
      else
        let stored := (List.range count).map (fun i =>
          { r2.swapchainImages.getD i {} with image := dev.written r2.issued get i })
        initializeViews dev [] stored (issue r2 [get])

/-- Step 12, `commandPool_ = create_command_pool()` (lines 968-979). -/
def create_command_pool (dev : Device) (r : vulkan_wienderer) : Outcome :=
  createInto dev (.create .commandPool r.ldevice) 12 0 (fun h r => { r with commandPool := h }) r

/-- Step 13, `allocate_command_buffers(commandBuffers_)` (lines 955-967): the vector is resized
to the number of swapchain images, then filled by one checked `vkAllocateCommandBuffers`. -/
def allocate_command_buffers (dev : Device) (r : vulkan_wienderer) : Outcome :=
  let r1 := { r with commandBuffers := resize 0 r.commandBuffers r.swapchainImages.length }
  let c := DeviceCall.vkAllocateCommandBuffers r1.commandPool r1.commandBuffers.length
  if ¬ dev.success r1.issued c then ⟨some (.construction_failed 13 0), issue r1 [c]⟩
  else
    ⟨none, { issue r1 [c] with
      commandBuffers := (List.range r1.commandBuffers.length).map (dev.written r1.issued c) }⟩

/-- Step 14, `intitialize_sync_object(syncObject_)` (lines 942-954): the fence (check 0), then
the semaphore (check 1), each written to its member by the creating call. -/
def intitialize_sync_object (dev : Device) (r : vulkan_wienderer) : Outcome :=
  match createInto dev (.create .fence r.ldevice) 14 0 (fun h r => { r with fence := h }) r with
  | ⟨some e, r1⟩ => ⟨some e, r1⟩
  | ⟨none, r1⟩ =>
    createInto dev (.create .semaphore r1.ldevice) 14 1 (fun h r => { r with semaphore := h }) r1

/-- Step 15, `defaultTextureImage_ = create_default_texture_image()` (lines 924-941):
`create_vulkan_image`, then the unchecked layout transition. -/
def create_default_texture_image (dev : Device) (r : vulkan_wienderer) : Outcome :=
  match create_vulkan_image dev 15 r with
  | (some image, ⟨_, r1⟩) =>
    ⟨none, { issue r1 [.singleTimeCommands r1.commandPool image.image] with
      defaultTextureImage := image }⟩
  | (none, failed) => failed

/-- Step 16, `defaultSampler_ = create_default_texture_sampler()` (lines 899-923). -/
def create_default_texture_sampler (dev : Device) (r : vulkan_wienderer) : Outcome :=
  createInto dev (.create .sampler r.ldevice) 16 0 (fun h r => { r with defaultSampler := h }) r

/-- The body of the `try` block of the constructor (lines 326-356), step by step. -/
def creationSequence (dev : Device) : List (vulkan_wienderer → Outcome) :=
  [create_vulkan_instance dev, probeStep dev 2, probeStep dev 3,
   create_platform_spec_surface dev, probeStep dev 5, create_logical_device dev,
   create_swapchain_info dev, create_color_render_target dev, create_default_render_pass dev,
   create_swapchain dev, initialize_swapchain_images dev, create_command_pool dev,
   allocate_command_buffers dev, intitialize_sync_object dev, create_default_texture_image dev,
   create_default_texture_sampler dev]

/-- Statements made one after the other; an exception ends the run. -/
def runSequence : List (vulkan_wienderer → Outcome) → vulkan_wienderer → Outcome
  | [], r => ⟨none, r⟩
  | step :: steps, r =>
    match step r with
    | ⟨none, r1⟩ => runSequence steps r1
    | ⟨some e, r1⟩ => ⟨some e, r1⟩

/-- Source constructor `vulkan_wienderer::vulkan_wienderer` (lines 301-362): every member
zero-initialised, the `try` block, and `catch (...) { accurate_destroy(); throw; }`.  An
exception leaving `accurate_destroy` would replace the one caught. -/
def construct (dev : Device) : Outcome :=
  match runSequence (creationSequence dev) {} with
  | ⟨none, r⟩ => ⟨none, r⟩
  | ⟨some e, r⟩ =>
    match accurate_destroy dev r with
    | ⟨none, r1⟩ => ⟨some e, r1⟩
    | ⟨some e1, r1⟩ => ⟨some e1, r1⟩

/-- The calls `accurate_destroy` issues on the renderer `r`. -/
def teardown (dev : Device) (r : vulkan_wienderer) : List DeviceCall :=
  (accurate_destroy dev r).state.issued.drop r.issued.length

/-- The destroy calls owed for the objects that the creation calls of `calls` created, `pre`
being the calls issued before them. -/
def owedFrom (dev : Device) : List DeviceCall → List DeviceCall → List DeviceCall
  | _, [] => []
  | pre, c :: cs =>
    (match c with
     | .create kind _ =>
       if dev.success pre c then [DeviceCall.destroy kind (dev.written pre c 0)] else []
     | _ => []) ++ owedFrom dev (pre ++ [c]) cs

/-- The destroy calls owed for the objects created in the course of the calls `issued`. -/
def owed (dev : Device) (issued : List DeviceCall) : List DeviceCall := owedFrom dev [] issued

/-- The device of the scenarios on which the creation of the semaphore fails. -/
def Device.noSemaphore : Device :=
  { Device.healthy with
    success := fun _ c => match c with
      | .create .semaphore _ => false
      | _ => true }

/-- The framebuffer and the view of every swapchain image, each with its kind. -/
def imageSlots (images : List swapchain_image) : List (ObjectKind × Nat) :=
  (images.map (fun image =>
    [(ObjectKind.framebuffer, image.framebuffer), (ObjectKind.imageView, image.view)])).flatten

/-- The handles of the members that hold one object each, with their kinds. -/
def scalars (r : vulkan_wienderer) : List (ObjectKind × Nat) :=
  [(.sampler, r.defaultSampler), (.imageView, r.defaultTextureImage.view),
   (.image, r.defaultTextureImage.image), (.memory, r.defaultTextureImage.memory),
   (.semaphore, r.semaphore), (.fence, r.fence), (.commandPool, r.commandPool),
   (.imageView, r.colorRenderTarget.view), (.image, r.colorRenderTarget.image),
   (.memory, r.colorRenderTarget.memory), (.swapchain, r.swapchain),
   (.renderPass, r.defaultRenderPass), (.device, r.ldevice), (.surface, r.surface),
   (.instance_, r.instance_)]

/-- The handles the renderer holds that `accurate_destroy` destroys, each with its kind. -/
def slots (r : vulkan_wienderer) : List (ObjectKind × Nat) :=
  scalars r ++ imageSlots r.swapchainImages

/-- Every non-zero handle the renderer holds was written by a creation call that succeeded. -/
def Stored (dev : Device) (r : vulkan_wienderer) : Prop :=
  ∀ p ∈ slots r, p.2 ≠ 0 → DeviceCall.destroy p.1 p.2 ∈ owed dev r.issued

/-- Every object created so far is held by the renderer. -/
def Complete (dev : Device) (r : vulkan_wienderer) : Prop :=
  ∀ d ∈ owed dev r.issued, ∃ p ∈ slots r, p.2 ≠ 0 ∧ d = DeviceCall.destroy p.1 p.2

/-- The members assigned by the steps after step `j` still have the value of the initialiser
list, and the renderer is not recording. -/
structure Fresh (j : Nat) (r : vulkan_wienderer) : Prop where
  instance_ : j < 1 → r.instance_ = 0
  surface : j < 4 → r.surface = 0
  ldevice : j < 6 → r.ldevice = 0
  colorRenderTarget : j < 8 → r.colorRenderTarget = {}
  defaultRenderPass : j < 9 → r.defaultRenderPass = 0
  swapchain : j < 10 → r.swapchain = 0
  swapchainImages : j < 11 → r.swapchainImages = []
  commandPool : j < 12 → r.commandPool = 0
  commandBuffers : j < 13 → r.commandBuffers = []
  fence : j < 14 → r.fence = 0
  semaphore : j < 14 → r.semaphore = 0
  defaultTextureImage : j < 15 → r.defaultTextureImage = {}
  defaultSampler : j < 16 → r.defaultSampler = 0
  idle : r.recording = false

/-- The state of the renderer after the first `j` steps of the creation sequence returned. -/
structure Progress (dev : Device) (j : Nat) (r : vulkan_wienderer) : Prop where
  fresh : Fresh j r
  stored : Stored dev r
  complete : Complete dev r

/-- The state `r1` in which a step that began in `r` threw. -/
structure Aborted (dev : Device) (r r1 : vulkan_wienderer) : Prop where
  idle : r1.recording = false
  stored : Stored dev r1
  kept : ∀ p ∈ slots r, p.2 ≠ 0 → p ∈ slots r1

/-- The renderer after the first thirteen steps of the creation sequence on the device on which
the creation of the semaphore fails. -/
def beforeSync : vulkan_wienderer :=
  (runSequence ((creationSequence Device.noSemaphore).take 13) {}).state

/-! ## The selection of the physical device

A shallow embedding of `vulkan_wienderer::choose_best_physical_device` (lines 1440-1488 of
`src/src/vulkan_implement/vulkan_wiender.hpp`; `RenderVulkanUtils::choose_best_physical_device`,
lines 1271-1320 of `src/wirender.cpp`, is the same loop and assertion without the three
statements on `indexingFeatures`).  What `vkGetPhysicalDeviceFeatures2` and
`vkGetPhysicalDeviceProperties2` report for a device handle is a function of the handle.  The
score is an `int` initialised from a sum whose operands are `uint32_t`, `int` and `size_t`
(64 bits): the additions wrap as in the source and the conversion to `int` keeps the low 32 bits
in two's complement.
-/

/-- Vulkan `VK_PHYSICAL_DEVICE_TYPE_OTHER`. -/
def VK_PHYSICAL_DEVICE_TYPE_OTHER : Nat := 0

/-- Vulkan `VK_PHYSICAL_DEVICE_TYPE_INTEGRATED_GPU`. -/
def VK_PHYSICAL_DEVICE_TYPE_INTEGRATED_GPU : Nat := 1

/-- Vulkan `VK_PHYSICAL_DEVICE_TYPE_DISCRETE_GPU`. -/
def VK_PHYSICAL_DEVICE_TYPE_DISCRETE_GPU : Nat := 2

/-- Vulkan `VK_PHYSICAL_DEVICE_TYPE_VIRTUAL_GPU`. -/
def VK_PHYSICAL_DEVICE_TYPE_VIRTUAL_GPU : Nat := 3

/-- Vulkan `VK_PHYSICAL_DEVICE_TYPE_CPU`. -/
def VK_PHYSICAL_DEVICE_TYPE_CPU : Nat := 4

/-- The members of Vulkan `VkPhysicalDeviceFeatures` the score reads, each a `VkBool32`
(`uint32_t`). -/
structure VkPhysicalDeviceFeatures where
  largePoints : Nat := 0
  wideLines : Nat := 0
  tessellationShader : Nat := 0
  geometryShader : Nat := 0
deriving DecidableEq, Repr

/-- The members of Vulkan `VkPhysicalDeviceProperties` the score reads: `deviceType` and, of
`limits`, `maxUniformBufferRange` and `maxVertexInputBindings` (both `uint32_t`). -/
structure VkPhysicalDeviceProperties where
  deviceType : Nat := 0
  maxUniformBufferRange : Nat := 0
  maxVertexInputBindings : Nat := 0
deriving DecidableEq, Repr

/-- What the two queries report for every device handle. -/
structure PhysicalDevices where
  features : Nat → VkPhysicalDeviceFeatures
  properties : Nat → VkPhysicalDeviceProperties

/-- Source `struct physical_device_info`: the handle, what the two queries reported, and the
member of `indexingFeatures` the function sets (`queueIndeces` is filled in later). -/
structure physical_device_info where
  device : Nat := 0
  features : VkPhysicalDeviceFeatures := {}
  properties : VkPhysicalDeviceProperties := {}
  descriptorBindingSampledImageUpdateAfterBind : Bool := false
deriving DecidableEq, Repr

/-- The lambda `scoreFromDeviceType` (lines 1441-1456). -/
def scoreFromDeviceType (type : Nat) : Int :=
  if type = VK_PHYSICAL_DEVICE_TYPE_CPU ∨ type = VK_PHYSICAL_DEVICE_TYPE_VIRTUAL_GPU ∨
      type = VK_PHYSICAL_DEVICE_TYPE_OTHER then 1
  else if type = VK_PHYSICAL_DEVICE_TYPE_INTEGRATED_GPU then 3
  else if type = VK_PHYSICAL_DEVICE_TYPE_DISCRETE_GPU then 15
  else 0

/-- Conversion of an unsigned value to `int`: the low 32 bits, read in two's complement. -/
def toInt32 (x : Nat) : Int :=
  if x % 4294967296 < 2147483648 then (x % 4294967296 : Nat)
  else ((x % 4294967296 : Nat) : Int) - 4294967296

/-- The initialiser of `currentDeviceScore` (lines 1473-1475).  The four feature terms and the
device-type score are added in `unsigned int`, the two limit terms in `size_t`
(`sizeof(float[4])` is 16), and the sum is converted to `int`. -/
def currentDeviceScore (features : VkPhysicalDeviceFeatures)
    (properties : VkPhysicalDeviceProperties) : Int :=
  let largePoints := features.largePoints % 4294967296
  let wideLines := (features.wideLines * 3) % 4294967296
  let tessellationShader := (features.tessellationShader * 4) % 4294967296
  let geometryShader := (features.geometryShader * 5) % 4294967296
  let featureSum :=
    (((largePoints + wideLines) % 4294967296 + tessellationShader) % 4294967296
      + geometryShader) % 4294967296
  let typed := (featureSum + (scoreFromDeviceType properties.deviceType).toNat) % 4294967296
  let ranged :=
    (typed + properties.maxUniformBufferRange % 4294967296 / 16) % 18446744073709551616
  toInt32 ((ranged + properties.maxVertexInputBindings % 4294967296) % 18446744073709551616)

/-- The loop variables `bestDevice` and `bestDeviceScore`. -/
structure BestDevice where
  bestDevice : physical_device_info := {}
  bestDeviceScore : Int := 0
deriving DecidableEq, Repr

/-- The loop of lines 1459-1480 over the devices still to visit. -/
def bestOf (gpus : PhysicalDevices) : List Nat → BestDevice → BestDevice
  | [], best => best
  | device :: devices, best =>
    let features2 := gpus.features device
    let properties2 := gpus.properties device
    let score := currentDeviceScore features2 properties2
    if score > best.bestDeviceScore then
      bestOf gpus devices ⟨{ device := device, features := features2, properties := properties2 },
        score⟩
    else bestOf gpus devices best

/-- The `std::runtime_error` of the assertion "physical device not found". -/
inductive device_error
  | physical_device_not_found
deriving DecidableEq, Repr

/-- Source `vulkan_wienderer::choose_best_physical_device` (lines 1440-1488). -/
def choose_best_physical_device (gpus : PhysicalDevices) (devices : List Nat) :
    Except device_error physical_device_info :=
  let best := bestOf gpus devices {}
  if best.bestDeviceScore > 0 then
    .ok { best.bestDevice with descriptorBindingSampledImageUpdateAfterBind := true }
  else .error .physical_device_not_found

/-- The sum the score is initialised from, without the wrapping of the machine types. -/
def scoreSum (features : VkPhysicalDeviceFeatures) (properties : VkPhysicalDeviceProperties) :
    Nat :=
  features.largePoints + 3 * features.wideLines + 4 * features.tessellationShader +
    5 * features.geometryShader + (scoreFromDeviceType properties.deviceType).toNat +
    properties.maxUniformBufferRange / 16 + properties.maxVertexInputBindings

/-- The value the loop assigns to `bestDevice` for the handle `device`:
`{device, features2, properties2, {}}`. -/
def infoOf (gpus : PhysicalDevices) (device : Nat) : physical_device_info :=
  { device := device, features := gpus.features device, properties := gpus.properties device }

/-- The score of the device with handle `device`. -/
def scoreOf (gpus : PhysicalDevices) (device : Nat) : Int :=
  currentDeviceScore (gpus.features device) (gpus.properties device)

/-- The devices of the scenarios: handle 1 an integrated GPU, handles 2 and 3 discrete GPUs with
the same features and limits, handle 4 a discrete GPU that reports 2^31 vertex input bindings,
every other handle a device that reports nothing. -/
def scenarioDevices : PhysicalDevices :=
  { features := fun device =>
      if device = 1 then ⟨1, 1, 0, 0⟩
      else if device = 2 ∨ device = 3 ∨ device = 4 then ⟨1, 1, 1, 1⟩
      else {}
    properties := fun device =>
      if device = 1 then ⟨VK_PHYSICAL_DEVICE_TYPE_INTEGRATED_GPU, 65536, 16⟩
      else if device = 2 ∨ device = 3 then ⟨VK_PHYSICAL_DEVICE_TYPE_DISCRETE_GPU, 65536, 32⟩
      else if device = 4 then ⟨VK_PHYSICAL_DEVICE_TYPE_DISCRETE_GPU, 65536, 2147483648⟩
      else ⟨5, 0, 0⟩ }

/-! ## The queue families

A shallow embedding of `vulkan_wienderer::find_queue_families` (lines 1413-1439 of
`src/src/vulkan_implement/vulkan_wiender.hpp`; `RenderVulkanUtils::find_queue_families`, lines
1321-1346 of `src/wirender.cpp`, has the same body).  `WIENDER_VK_INVALID_FAMILY_INDEX` is
`~0UL`, taken with the 32-bit `unsigned long` of the `_WIN32` target.
-/

/-- Source `WIENDER_DEFAULT_ARRAY_SIZE`. -/
def WIENDER_DEFAULT_ARRAY_SIZE : Nat := 16

/-- Source `WIENDER_VK_INVALID_FAMILY_INDEX`. -/
def WIENDER_VK_INVALID_FAMILY_INDEX : Nat := 4294967295

/-- Vulkan `VK_QUEUE_GRAPHICS_BIT`. -/
def VK_QUEUE_GRAPHICS_BIT : Nat := 1

/-- What the device reports for one queue family: `queueFlags`, whether
`vkGetPhysicalDeviceSurfaceSupportKHR` returns `VK_SUCCESS` for it, and the `presentSupport` it
writes. -/
structure QueueFamily where
  queueFlags : Nat := 0
  presentSupport : Bool := false
  queried : Bool := true
deriving DecidableEq, Repr

/-- Source `struct queue_family_indices` with its default member initialisers;
`falimiesCount` has none and is assigned before the value is returned. -/
structure queue_family_indices where
  graphicsFamily : Nat := WIENDER_VK_INVALID_FAMILY_INDEX
  presentFamily : Nat := WIENDER_VK_INVALID_FAMILY_INDEX
  falimiesCount : Nat := 0
deriving DecidableEq, Repr

/-- Source `queue_family_indices::is_complete`. -/
def queue_family_indices.is_complete (indices : queue_family_indices) : Bool :=
  indices.graphicsFamily ≠ WIENDER_VK_INVALID_FAMILY_INDEX &&
    indices.presentFamily ≠ WIENDER_VK_INVALID_FAMILY_INDEX

/-- The `std::runtime_error` of the check "failed to get surface support". -/
inductive family_error
  | surface_support_failed
deriving DecidableEq, Repr

/-- The loop `for (uint32_t i = 0; i < queueFamilyCount; ++i) { ... ++i; }` of lines 1422-1435
from the value `i` of the counter, allowed `fuel` evaluations of its condition; `none` when they
do not suffice.  The body ends with a `++i` of its own, after which the `++i` of the `for`
statement runs. -/
def familiesLoop (queueFamilies : List QueueFamily) (queueFamilyCount : Nat) :
    Nat → Nat → queue_family_indices → Option (Except family_error queue_family_indices)
  | 0, _, _ => none
  | fuel + 1, i, indices =>
    if i < queueFamilyCount then
      let queueFamily := queueFamilies.getD i {}
      let indices1 :=
        if queueFamily.queueFlags &&& VK_QUEUE_GRAPHICS_BIT ≠ 0 then
          { indices with graphicsFamily := i }
        else indices
      if ¬ queueFamily.queried then some (.error .surface_support_failed)
      else
        let indices2 :=
          if queueFamily.presentSupport then { indices1 with presentFamily := i } else indices1
        if indices2.is_complete then some (.ok indices2)
        else familiesLoop queueFamilies queueFamilyCount fuel (i + 1 + 1) indices2
    else some (.ok indices)

/-- Source `vulkan_wienderer::find_queue_families` (lines 1413-1439); `reported` are the
families of the device, of which at most `WIENDER_DEFAULT_ARRAY_SIZE` are fetched. -/
def find_queue_families (fuel : Nat) (reported : List QueueFamily) :
    Option (Except family_error queue_family_indices) :=
  let queueFamilyCount :=
    if reported.length > WIENDER_DEFAULT_ARRAY_SIZE then WIENDER_DEFAULT_ARRAY_SIZE
    else reported.length
  let queueFamilies := reported.take queueFamilyCount
  match familiesLoop queueFamilies queueFamilyCount fuel 0 {} with
  | none => none
  | some (.error e) => some (.error e)
  | some (.ok indices) =>
    some (.ok { indices with
      falimiesCount := if indices.graphicsFamily = indices.presentFamily then 1 else 2 })

/-- Source `vulkan_wienderer::create_falimy_indices` (lines 1326-1330): whether its assertion
holds for the indices found. -/
def create_falimy_indices (fuel : Nat) (reported : List QueueFamily) : Bool :=
  match find_queue_families fuel reported with
  | some (.ok queueIndeces) => queueIndeces.is_complete
  | _ => false

/-- A device with two queue families: family 0 does graphics and cannot present to the surface,
family 1 presents and does no graphics. -/
def splitFamilies : List QueueFamily := [⟨1, false, true⟩, ⟨4, true, true⟩]

/-- The same two families with a transfer-only family between them. -/
def spacedFamilies : List QueueFamily := [⟨1, false, true⟩, ⟨4, false, true⟩, ⟨4, true, true⟩]

/-! ## The cull mode

A shallow embedding of `shader_cull_mode_to_vk_cull_mode` (lines 124-133 of
`src/src/vulkan_implement/vulkan_wiender.hpp`) with `shader::cull_mode` (`include/wiender_core.hpp`,
lines 155-160).  The `default:` branch throws; no enumerator reaches it.
-/

/-- Source `enum struct shader::cull_mode`. -/
inductive cull_mode
  | NONE
  | BACK
  | FRONT
  | ALL
deriving DecidableEq, Repr

/-- Vulkan `VK_CULL_MODE_NONE`. -/
def VK_CULL_MODE_NONE : Nat := 0

/-- Vulkan `VK_CULL_MODE_FRONT_BIT`. -/
def VK_CULL_MODE_FRONT_BIT : Nat := 1

/-- Vulkan `VK_CULL_MODE_BACK_BIT`. -/
def VK_CULL_MODE_BACK_BIT : Nat := 2

/-- Source `shader_cull_mode_to_vk_cull_mode` (lines 124-133). -/
def shader_cull_mode_to_vk_cull_mode : cull_mode → Nat
  | .NONE => VK_CULL_MODE_NONE
  | .BACK => VK_CULL_MODE_BACK_BIT
  | .FRONT => VK_CULL_MODE_FRONT_BIT
  | .ALL => VK_CULL_MODE_BACK_BIT ||| VK_CULL_MODE_BACK_BIT

/-! ## The words the scan reads

The reads `code[...]` of the scan loop of `analyze_spirv` (`src/wirender.cpp`, lines 1563-1661),
in the order of the source text: the header `code[currentOffset]`, then the operands
`code[currentOffset + i]` of the handler of the opcode.  The two operands of the product in the
handlers of `OpTypeVector`, `OpTypeMatrix` and `OpTypeArray` are unsequenced: the read of
`code[currentOffset + 3]` is counted whether or not `declarations.at` throws.
-/

/-- The operand offsets read by the `for` loop of the `OpTypeStruct` handler, `n` members left,
next operand offset `i`: the loop ends at the first member `declarations.at` throws on. -/
def structReads (arg : Nat → Nat) (structId : Nat) : Nat → Nat → Declarations → List Nat
  | 0, _, _ => []
  | n + 1, i, d =>
    i :: (match find d (arg i) with
          | none => []
          | some m =>
            structReads arg structId n (i + 1)
              (modify d structId (fun s => { s with size := (s.size + m.size) % 4294967296 })))

/-- The offsets `i` of the reads `code[currentOffset + i]` made by the handler of `opcode`. -/
def operandsRead (opcode length : Nat) (arg : Nat → Nat) (d : Declarations) : List Nat :=
  if opcode = 19 ∨ opcode = 20 then [1]
  else if opcode = 21 ∨ opcode = 22 then [1, 2]
  else if opcode = 23 ∨ opcode = 24 ∨ opcode = 28 then [1, 2, 3]
  else if opcode = 30 then
    1 :: structReads arg (arg 1) (length - 2) 2
      (modify d (arg 1) (fun e => { e with opType := opcode }))
  else if opcode = 32 ∨ opcode = 59 ∨ opcode = 71 then [1, 2, 3]
  else []

/-- The word indices read by one evaluation of the loop condition and body: none when the
condition fails, the header alone at a `break`, otherwise the header and the operands of the
handler, at indices that are `uint32_t` sums. -/
def bodyReads (code : Nat → Nat) (codeSize currentOffset : Nat) (d : Declarations) : List Nat :=
  if currentOffset < codeSize then
    let word := rd code currentOffset
    let opcode := getOpcode word
    let length := getWordCount word
    if length = 0 ∨ opcode = 0 then [currentOffset]
    else
      currentOffset :: (operandsRead opcode length (operand code currentOffset) d).map
        (fun i => (currentOffset + i) % 4294967296)
  else []

/-- The word indices the scan reads in its first `fuel + 1` evaluations of the loop
condition. -/
def scanReads : Nat → (Nat → Nat) → Nat → Nat → Declarations → List Nat
  | 0, code, codeSize, currentOffset, d => bodyReads code codeSize currentOffset d
  | fuel + 1, code, codeSize, currentOffset, d =>
    bodyReads code codeSize currentOffset d ++
      (match loopBody code codeSize currentOffset d with
       | .next off d' => scanReads fuel code codeSize off d'
       | _ => [])

/-- The values of `currentOffset` at the first `fuel + 1` evaluations of the loop condition. -/
def visited : Nat → (Nat → Nat) → Nat → Nat → Declarations → List Nat
  | 0, _, _, currentOffset, _ => [currentOffset]
  | fuel + 1, code, codeSize, currentOffset, d =>
    currentOffset ::
      (match loopBody code codeSize currentOffset d with
       | .next off d' => visited fuel code codeSize off d'
       | _ => [])

/-- The number of words from the header on that the body may read for an instruction with this
header: the header alone at a `break` and for an opcode without handler, the operands up to the
last one the handler names, and the whole instruction for `OpTypeStruct`. -/
def wordsTouched (opcode length : Nat) : Nat :=
  if length = 0 ∨ opcode = 0 then 1
  else if opcode = 19 ∨ opcode = 20 then 2
  else if opcode = 21 ∨ opcode = 22 then 3
  else if opcode = 23 ∨ opcode = 24 ∨ opcode = 28 ∨ opcode = 32 ∨ opcode = 59 ∨ opcode = 71 then 4
  else if opcode = 30 then max 2 length
  else 1

/-- A buffer of 11 words that ends with the three words of `OpDecorate %1 Block` (decoration 2,
which has no operand), after a float declaration. -/
def endsWithDecorate : List Nat :=
  [0, 0, 0, 0, 0,
   header 22 3, 1, 32,
   header 71 3, 1, 2]

/-! ## The renderer: the bracket records of the log -/

/-- The BEGIN_RECORD and END_RECORD tags of a log, in the order of the log. -/
def brackets (log : render_commands) : List render_command_type :=
  (log.map (fun command => command.commandType)).filter
    (fun tag => tag = .BEGIN_RECORD ∨ tag = .END_RECORD)

/-- Whether a sequence of tags alternates strictly between BEGIN_RECORD and END_RECORD,
beginning with END_RECORD when `recording` and with BEGIN_RECORD otherwise. -/
def bracketsAlternate : Bool → List render_command_type → Bool
  | _, [] => true
  | recording, tag :: tags =>
    decide (tag = if recording then .END_RECORD else .BEGIN_RECORD) &&
      bracketsAlternate (!recording) tags

/-! ## The shader: the offsets of the uniform buffers -/

/-- The loop of `get_uniform_buffer_info` (lines 1991-1994): the sum of the sizes of the slots
below `binding`, a `VkDeviceSize`. -/
def slotOffset (uniformBuffers : uniform_buffers_info) (binding : Nat) : Nat :=
  (List.range binding).foldl
    (fun offset i => (offset + (uniformBuffers.buffers i).size) % 18446744073709551616) 0

/-- The layout of a shader with uniform blocks of 64 bytes at binding 0 and of 256 bytes at
binding 2. -/
def twoBlocksLayout : descriptor_set_layout_data :=
  { bindings := [⟨0, VK_DESCRIPTOR_TYPE_UNIFORM_BUFFER⟩, ⟨2, VK_DESCRIPTOR_TYPE_UNIFORM_BUFFER⟩],
    bufferSizes := [64, 256] }

/-! ## The shader: teardown

A shallow embedding of `vulkan_shader::accurate_destroy` (lines 2026-2049 of
`src/src/vulkan_implement/vulkan_wiender.hpp`): the calls it makes, in its order, for the
handles the shader holds.
-/

/-- The Vulkan calls of `vulkan_shader::accurate_destroy`, with the handle each is made on. -/
inductive ShaderCall
  | vkDeviceWaitIdle (device : Nat)
  | vkDestroyPipeline (pipeline : Nat)
  | vkDestroyPipelineLayout (pipelineLayout : Nat)
  | vkDestroyRenderPass (renderPass : Nat)
  | vkDestroyBuffer (buffer : Nat)
  | vkUnmapMemory (memory : Nat)
  | vkFreeMemory (memory : Nat)
  | vkDestroyDescriptorSetLayout (descriptorSetLayout : Nat)
  | vkDestroyDescriptorPool (descriptorPool : Nat)
deriving DecidableEq, Repr

/-- The members of `vulkan_shader` (lines 1925-1932), `ldevice` being `owner_->get_ldevice()`. -/
structure vulkan_shader where
  ldevice : Nat := 0
  uniformBuffers : uniform_buffers_info := {}
  descriptorPool : Nat := 0
  descriptorSetLayout : Nat := 0
  descriptorSet : Nat := 0
  renderPass : Nat := 0
  pipelineLayout : Nat := 0
  pipeline : Nat := 0

/-- Source `if (guard != 0) call;`. -/
def callIf (guard : Nat) (call : ShaderCall) : List ShaderCall :=
  if guard ≠ 0 then [call] else []

/-- Source `vulkan_shader::accurate_destroy` (lines 2026-2049): the calls it makes. -/
def vulkan_shader.accurate_destroy (s : vulkan_shader) : List ShaderCall :=
  [ShaderCall.vkDeviceWaitIdle s.ldevice] ++
  callIf s.pipeline (.vkDestroyPipeline s.pipeline) ++
  callIf s.pipelineLayout (.vkDestroyPipelineLayout s.pipelineLayout) ++
  callIf s.renderPass (.vkDestroyRenderPass s.renderPass) ++
  ((List.range WIENDER_UNIFORM_BUFFER_MAX_COUNT).map (fun i =>
    callIf (s.uniformBuffers.buffers i).buffer
      (.vkDestroyBuffer (s.uniformBuffers.buffers i).buffer))).flatten ++
  callIf s.uniformBuffers.mappedMemory (.vkUnmapMemory s.uniformBuffers.memory) ++
  callIf s.uniformBuffers.memory (.vkFreeMemory s.uniformBuffers.memory) ++
  callIf s.descriptorSetLayout (.vkDestroyDescriptorSetLayout s.descriptorSetLayout) ++
  callIf s.descriptorPool (.vkDestroyDescriptorPool s.descriptorPool)

/-! ## The order of the calls of a teardown -/

/-- Every element of the sequence with the property `first` stands before every element with
the property `second`. -/
def Precede {α : Type} (first second : α → Prop) (calls : List α) : Prop :=
  ∀ (i j : Nat) (a b : α), calls[i]? = some a → calls[j]? = some b → first a → second b → i < j

/-- The call destroys an object of the kind. -/
def destroys (kind : ObjectKind) (call : DeviceCall) : Prop :=
  ∃ handle, call = .destroy kind handle

/-- The call destroys the pipeline or the pipeline layout of a shader. -/
def ShaderCall.onPipeline (call : ShaderCall) : Prop :=
  (∃ handle, call = .vkDestroyPipeline handle) ∨ (∃ handle, call = .vkDestroyPipelineLayout handle)

/-- The call destroys a uniform buffer of a shader, or unmaps or frees their memory. -/
def ShaderCall.onUniformBuffers (call : ShaderCall) : Prop :=
  (∃ handle, call = .vkDestroyBuffer handle) ∨ (∃ handle, call = .vkUnmapMemory handle) ∨
    (∃ handle, call = .vkFreeMemory handle)

/-- The call destroys the descriptor set layout or the descriptor pool of a shader. -/
def ShaderCall.onDescriptors (call : ShaderCall) : Prop :=
  (∃ handle, call = .vkDestroyDescriptorSetLayout handle) ∨
    (∃ handle, call = .vkDestroyDescriptorPool handle)

/-- The place of a call of `vulkan_shader::accurate_destroy` in the order of its source text. -/
def ShaderCall.place : ShaderCall → Nat
  | .vkDeviceWaitIdle _ => 0
  | .vkDestroyPipeline _ => 1
  | .vkDestroyPipelineLayout _ => 2
  | .vkDestroyRenderPass _ => 3
  | .vkDestroyBuffer _ => 4
  | .vkUnmapMemory _ => 5
  | .vkFreeMemory _ => 6
  | .vkDestroyDescriptorSetLayout _ => 7
  | .vkDestroyDescriptorPool _ => 8

/-- The place of a call of `vulkan_wienderer::accurate_destroy` among its last five destroy
calls, in the order of its source text; 0 for every call made before them. -/
def DeviceCall.place : DeviceCall → Nat
  | .destroy .swapchain _ => 1
  | .destroy .renderPass _ => 2
  | .destroy .device _ => 3
  | .destroy .surface _ => 4
  | .destroy .instance_ _ => 5
  | _ => 0

/-- A shader that holds every object: device 3, uniform buffers 1001 and 1003 in the memory
1000 mapped at 1005, descriptor pool 60, set layout 61, set 62, render pass 63, pipeline layout
64, pipeline 65. -/
def builtShader : vulkan_shader :=
  { ldevice := 3
    uniformBuffers :=
      ⟨1000, fun i => if i = 0 then ⟨1001, 128⟩ else if i = 2 then ⟨1003, 256⟩ else {}, 1005⟩
    descriptorPool := 60, descriptorSetLayout := 61, descriptorSet := 62, renderPass := 63,
    pipelineLayout := 64, pipeline := 65 }

/-- The renderer of the scenarios with an instance (1), a surface (2), a logical device (3) and
a render pass (4) besides its swapchain (5). -/
def builtRenderer : vulkan_wienderer :=
  { idleRenderer with instance_ := 1, surface := 2, ldevice := 3, defaultRenderPass := 4 }

/-! ## The instructions the scan executes -/

/-- An instruction as the dispatch of the loop body sees it: the opcode and the length taken
from its first word, and the words `code[currentOffset + i]` for `i` below 4 and below the
length, which are all the words a handler can read. -/
structure Instruction where
  opcode : Nat
  length : Nat
  operands : List Nat
deriving DecidableEq, Repr

/-- The instruction the loop body finds at `currentOffset`. -/
def instructionAt (code : Nat → Nat) (currentOffset : Nat) : Instruction :=
  { opcode := getOpcode (rd code currentOffset),
    length := getWordCount (rd code currentOffset),
    operands := (List.range (max 4 (getWordCount (rd code currentOffset)))).map
      (operand code currentOffset) }

/-- The instructions whose handlers ran to their end in the first `fuel` iterations of the scan
loop, in the order of execution. -/
def executed : Nat → (Nat → Nat) → Nat → Nat → Declarations → List Instruction
  | 0, _, _, _, _ => []
  | fuel + 1, code, codeSize, currentOffset, d =>
    match loopBody code codeSize currentOffset d with
    | .next off d' => instructionAt code currentOffset :: executed fuel code codeSize off d'
    | _ => []

/-- The operand word `i` of an instruction. -/
def Instruction.arg (i : Instruction) (j : Nat) : Nat := i.operands.getD j 0

/-- `OpDecorate v decoration ...`. -/
def Instruction.decorates (i : Instruction) (v decoration : Nat) : Bool :=
  decide (i.opcode = 71 ∧ i.arg 1 = v ∧ i.arg 2 = decoration)

/-- `OpVariable ... v ...`. -/
def Instruction.declares (i : Instruction) (v : Nat) : Bool :=
  decide (i.opcode = 59 ∧ i.arg 2 = v)

/-- `OpDecorate` with the decoration Binding (33) or DescriptorSet (34), whatever its target. -/
def Instruction.isLayout (i : Instruction) : Bool :=
  decide (i.opcode = 71 ∧ (i.arg 2 = 33 ∨ i.arg 2 = 34))

/-- Among the instructions `l`, the id `v` is declared by `OpVariable`, always in the storage
class `sc`, decorated with Binding, always `b`, and decorated with DescriptorSet, always `s`.
Nothing is said about the order of these instructions or about what stands between them. -/
def Placed (l : List Instruction) (v sc b s : Nat) : Prop :=
  (∃ i ∈ l, i.declares v = true) ∧ (∀ i ∈ l, i.declares v = true → i.arg 3 = sc) ∧
  (∃ i ∈ l, i.decorates v 33 = true) ∧ (∀ i ∈ l, i.decorates v 33 = true → i.arg 3 = b) ∧
  (∃ i ∈ l, i.decorates v 34 = true) ∧ (∀ i ∈ l, i.decorates v 34 = true → i.arg 3 = s)

instance (l : List Instruction) (v sc b s : Nat) : Decidable (Placed l v sc b s) := by
  unfold Placed
  infer_instance

/-- An entry without its binding and descriptorSet: what the handlers other than that of
`OpDecorate` write and read. -/
def undecorated (e : basic_declaration) : basic_declaration :=
  { e with binding := 0, descriptorSet := 0 }

/-! ## Arithmetic of instruction words -/

theorem getOpcode_header (opcode length : Nat) (h : opcode < 65536) :
    getOpcode (header opcode length) = opcode := by
  unfold getOpcode header
  omega

theorem getWordCount_header (opcode length : Nat) (h : opcode < 65536) (hl : length < 65536) :
    getWordCount (header opcode length) = length := by
  unfold getWordCount header
  omega

theorem getWordCount_lt (w : Nat) : getWordCount w < 65536 := by
  unfold getWordCount
  omega

theorem getOpcode_lt (w : Nat) : getOpcode w < 65536 := by
  unfold getOpcode
  omega

theorem rd_lt (code : Nat → Nat) (i : Nat) : rd code i < 4294967296 := by
  unfold rd
  omega

/-! ## The table operations -/

theorem find_modify_self (d : Declarations) (k : Nat) (f : basic_declaration → basic_declaration) :
    find (modify d k f) k = some (f (get d k)) := by
  induction d with
  | nil => simp [modify, find, get]
  | cons p rest ih =>
    obtain ⟨k', e⟩ := p
    by_cases h : k' = k
    · simp [modify, find, get, h]
    · simp [modify, find, get, h]
      simpa [get] using ih

theorem find_modify_ne (d : Declarations) (k k' : Nat) (f : basic_declaration → basic_declaration)
    (h : k ≠ k') : find (modify d k f) k' = find d k' := by
  induction d with
  | nil => simp [modify, find, h]
  | cons p rest ih =>
    obtain ⟨k'', e⟩ := p
    by_cases h1 : k'' = k
    · subst h1
      simp [modify, find, h]
    · by_cases h2 : k'' = k'
      · subst h2
        have h3 : ¬ k'' = k := h1
        simp [modify, find, h3]
      · simp [modify, find, h1, h2, ih]

theorem get_modify_self (d : Declarations) (k : Nat) (f : basic_declaration → basic_declaration) :
    get (modify d k f) k = f (get d k) := by
  simp [get, find_modify_self]

theorem get_modify_ne (d : Declarations) (k k' : Nat) (f : basic_declaration → basic_declaration)
    (h : k ≠ k') : get (modify d k f) k' = get d k' := by
  simp [get, find_modify_ne d k k' f h]

theorem modify_modify (d : Declarations) (k : Nat) (f g : basic_declaration → basic_declaration) :
    modify (modify d k f) k g = modify d k (fun e => g (f e)) := by
  induction d with
  | nil => simp [modify]
  | cons p rest ih =>
    obtain ⟨k', e⟩ := p
    by_cases h : k' = k
    · simp [modify, h]
    · simp [modify, h, ih]

theorem get_touch (d : Declarations) (k k' : Nat) : get (touch d k) k' = get d k' := by
  by_cases h : k = k'
  · subst h
    simp [touch, get_modify_self]
  · simp [touch, get_modify_ne d k k' id h]

theorem find_modify_isSome (d : Declarations) (k k' : Nat)
    (f : basic_declaration → basic_declaration) (h : find d k' ≠ none) :
    find (modify d k f) k' ≠ none := by
  by_cases hk : k = k'
  · subst hk
    simp [find_modify_self]
  · rw [find_modify_ne d k k' f hk]
    exact h
/-! ## The scan loop -/

theorem loopBody_stop_of_ge (code : Nat → Nat) (cs off : Nat) (d : Declarations) (h : cs ≤ off) :
    loopBody code cs off d = .stop d := by
  unfold loopBody
  simp [Nat.not_lt.mpr h]

theorem loopBody_stop_of_zero (code : Nat → Nat) (cs off : Nat) (d : Declarations)
    (h : getWordCount (rd code off) = 0 ∨ getOpcode (rd code off) = 0) :
    loopBody code cs off d = .stop d := by
  unfold loopBody
  by_cases hlt : off < cs
  · simp [hlt, h]
  · simp [hlt]

theorem loopBody_of_exec (code : Nat → Nat) (cs off : Nat) (d : Declarations) (hlt : off < cs)
    (hlen : getWordCount (rd code off) ≠ 0) (hop : getOpcode (rd code off) ≠ 0) :
    loopBody code cs off d =
      match exec (getOpcode (rd code off)) (getWordCount (rd code off)) (operand code off) d with
      | .error f => .thrown f
      | .ok d' => .next ((off + getWordCount (rd code off)) % 4294967296) d' := by
  unfold loopBody
  simp [hlt, hlen, hop]

theorem loopBody_next_of (code : Nat → Nat) (cs off : Nat) (d d' : Declarations) (hlt : off < cs)
    (hlen : getWordCount (rd code off) ≠ 0) (hop : getOpcode (rd code off) ≠ 0)
    (hex : exec (getOpcode (rd code off)) (getWordCount (rd code off)) (operand code off) d
      = .ok d') :
    loopBody code cs off d = .next ((off + getWordCount (rd code off)) % 4294967296) d' := by
  rw [loopBody_of_exec code cs off d hlt hlen hop, hex]

theorem loopBody_thrown_of (code : Nat → Nat) (cs off : Nat) (d : Declarations) (f : Failure)
    (hlt : off < cs) (hlen : getWordCount (rd code off) ≠ 0) (hop : getOpcode (rd code off) ≠ 0)
    (hex : exec (getOpcode (rd code off)) (getWordCount (rd code off)) (operand code off) d
      = .error f) :
    loopBody code cs off d = .thrown f := by
  rw [loopBody_of_exec code cs off d hlt hlen hop, hex]

theorem loopBody_next_inv (code : Nat → Nat) (cs off off' : Nat) (d d' : Declarations)
    (h : loopBody code cs off d = .next off' d') :
    off < cs ∧ getWordCount (rd code off) ≠ 0 ∧ getOpcode (rd code off) ≠ 0 ∧
      exec (getOpcode (rd code off)) (getWordCount (rd code off)) (operand code off) d = .ok d' ∧
      off' = (off + getWordCount (rd code off)) % 4294967296 := by
  by_cases hlt : off < cs
  · by_cases hz : getWordCount (rd code off) = 0 ∨ getOpcode (rd code off) = 0
    · rw [loopBody_stop_of_zero code cs off d hz] at h
      cases h
    · have h0 : getWordCount (rd code off) ≠ 0 := fun a => hz (Or.inl a)
      have h1 : getOpcode (rd code off) ≠ 0 := fun a => hz (Or.inr a)
      rw [loopBody_of_exec code cs off d hlt h0 h1] at h
      cases hex : exec (getOpcode (rd code off)) (getWordCount (rd code off))
          (operand code off) d with
      | error f => simp [hex] at h
      | ok t =>
        simp only [hex, LoopStep.next.injEq] at h
        exact ⟨hlt, h0, h1, by rw [h.2], h.1.symm⟩
  · rw [loopBody_stop_of_ge code cs off d (by omega)] at h
    cases h

theorem loopBody_stop_inv (code : Nat → Nat) (cs off : Nat) (d d1 : Declarations)
    (h : loopBody code cs off d = .stop d1) : d1 = d := by
  by_cases hlt : off < cs
  · by_cases hz : getWordCount (rd code off) = 0 ∨ getOpcode (rd code off) = 0
    · rw [loopBody_stop_of_zero code cs off d hz] at h
      cases h
      rfl
    · have h0 : getWordCount (rd code off) ≠ 0 := fun a => hz (Or.inl a)
      have h1 : getOpcode (rd code off) ≠ 0 := fun a => hz (Or.inr a)
      rw [loopBody_of_exec code cs off d hlt h0 h1] at h
      cases hex : exec (getOpcode (rd code off)) (getWordCount (rd code off))
          (operand code off) d <;> simp [hex] at h
  · rw [loopBody_stop_of_ge code cs off d (by omega)] at h
    cases h
    rfl

theorem loopBody_thrown_inv (code : Nat → Nat) (cs off : Nat) (d : Declarations) (f : Failure)
    (h : loopBody code cs off d = .thrown f) :
    off < cs ∧ getWordCount (rd code off) ≠ 0 ∧ getOpcode (rd code off) ≠ 0 ∧
      exec (getOpcode (rd code off)) (getWordCount (rd code off)) (operand code off) d
        = .error f := by
  by_cases hlt : off < cs
  · by_cases hz : getWordCount (rd code off) = 0 ∨ getOpcode (rd code off) = 0
    · rw [loopBody_stop_of_zero code cs off d hz] at h
      cases h
    · have h0 : getWordCount (rd code off) ≠ 0 := fun a => hz (Or.inl a)
      have h1 : getOpcode (rd code off) ≠ 0 := fun a => hz (Or.inr a)
      rw [loopBody_of_exec code cs off d hlt h0 h1] at h
      cases hex : exec (getOpcode (rd code off)) (getWordCount (rd code off))
          (operand code off) d with
      | error g =>
        simp only [hex, LoopStep.thrown.injEq] at h
        exact ⟨hlt, h0, h1, by rw [h]⟩
      | ok t => simp [hex] at h
  · rw [loopBody_stop_of_ge code cs off d (by omega)] at h
    cases h

theorem scan_add (k n : Nat) (code : Nat → Nat) (cs off : Nat) (d : Declarations)
    (r : Except Failure Declarations) (h : scan k code cs off d = some r) :
    scan (k + n) code cs off d = some r := by
  induction k generalizing off d with
  | zero =>
    cases n with
    | zero => exact h
    | succ n =>
      simp only [scan] at h
      simp only [Nat.zero_add, scan]
      cases hb : loopBody code cs off d with
      | stop d1 => simpa [hb] using h
      | thrown f => simpa [hb] using h
      | next o1 d1 => simp [hb] at h
  | succ k ih =>
    have e : k + 1 + n = (k + n) + 1 := by omega
    rw [e]
    simp only [scan] at h
    simp only [scan]
    cases hb : loopBody code cs off d with
    | stop d1 => simpa [hb] using h
    | thrown f => simpa [hb] using h
    | next o1 d1 =>
      rw [hb] at h
      exact ih o1 d1 h

theorem scan_unique (k1 k2 : Nat) (code : Nat → Nat) (cs off : Nat) (d : Declarations)
    (r1 r2 : Except Failure Declarations) (h1 : scan k1 code cs off d = some r1)
    (h2 : scan k2 code cs off d = some r2) : r1 = r2 := by
  have a := scan_add k1 k2 code cs off d r1 h1
  have b := scan_add k2 k1 code cs off d r2 h2
  rw [Nat.add_comm] at b
  rw [a] at b
  exact Option.some.inj b

theorem iterate_scan (k fuel : Nat) (code : Nat → Nat) (cs off off' : Nat) (d d' : Declarations)
    (h : iterate k code cs off d = some (off', d')) :
    scan (k + fuel) code cs off d = scan fuel code cs off' d' := by
  induction k generalizing off d with
  | zero =>
    simp only [iterate, Option.some.injEq, Prod.mk.injEq] at h
    rw [h.1, h.2, Nat.zero_add]
  | succ k ih =>
    have e : k + 1 + fuel = (k + fuel) + 1 := by omega
    rw [e]
    simp only [iterate] at h
    simp only [scan]
    cases hb : loopBody code cs off d with
    | stop d1 => simp [hb] at h
    | thrown f => simp [hb] at h
    | next o1 d1 =>
      rw [hb] at h
      exact ih o1 d1 h

theorem iterate_add (k n : Nat) (code : Nat → Nat) (cs off off' : Nat) (d d' : Declarations)
    (h : iterate k code cs off d = some (off', d')) :
    iterate (k + n) code cs off d = iterate n code cs off' d' := by
  induction k generalizing off d with
  | zero =>
    simp only [iterate, Option.some.injEq, Prod.mk.injEq] at h
    rw [h.1, h.2, Nat.zero_add]
  | succ k ih =>
    have e : k + 1 + n = (k + n) + 1 := by omega
    rw [e]
    simp only [iterate] at h
    simp only [iterate]
    cases hb : loopBody code cs off d with
    | stop d1 => simp [hb] at h
    | thrown f => simp [hb] at h
    | next o1 d1 =>
      rw [hb] at h
      simp only
      exact ih o1 d1 h

/-! ## The extraction loop -/

theorem descriptorList_succ (pd : Nat → public_spirv_variable_declaration) (n : Nat) :
    descriptorList pd (n + 1) = descriptorList pd n ++ [pd n] := by
  simp [descriptorList, List.range_succ]

theorem descriptorList_congr (pd pd' : Nat → public_spirv_variable_declaration) (n : Nat)
    (h : ∀ i, i < n → pd' i = pd i) : descriptorList pd' n = descriptorList pd n := by
  unfold descriptorList
  apply List.map_congr_left
  intro i hi
  exact h i (List.mem_range.mp hi)

theorem publicEntries_cons_public (k : Nat) (e : basic_declaration) (l : Declarations)
    (h : e.isPublic = true) : publicEntries ((k, e) :: l) = e :: publicEntries l := by
  simp [publicEntries, h]

theorem publicEntries_cons_private (k : Nat) (e : basic_declaration) (l : Declarations)
    (h : e.isPublic = false) : publicEntries ((k, e) :: l) = publicEntries l := by
  simp [publicEntries, h]

theorem publicEntries_perm (l l' : Declarations) (h : l.Perm l') :
    (publicEntries l).Perm (publicEntries l') := by
  unfold publicEntries
  exact (h.filter _).map _

/-- The array slots below the incoming count are never written, whether or not the loop fails. -/
theorem extract_frame (stage : Nat) (l : Declarations)
    (pd : Nat → public_spirv_variable_declaration) (n i : Nat) (hi : i < n) :
    (extract stage l pd n).publicDecls i = pd i := by
  induction l generalizing pd n with
  | nil => simp [extract]
  | cons p rest ih =>
    obtain ⟨k, e⟩ := p
    simp only [extract]
    by_cases hp : e.isPublic = true
    · by_cases hn : n < RENDER_SPIRV_PUBLIC_VARIABLE_MAX_COUNT
      · simp only [hp, hn, if_true]
        rw [ih _ (n + 1) (by omega)]
        exact Function.update_noteq (by omega) _ _
      · simp [hp, hn]
    · simp only [hp, Bool.false_eq_true, if_false]
      exact ih pd n hi

/-- The extraction loop succeeds exactly when every public entry finds a free slot. -/
theorem extract_failure (stage : Nat) (l : Declarations)
    (pd : Nat → public_spirv_variable_declaration) (n : Nat) :
    (extract stage l pd n).failure =
      if (publicEntries l).length = 0 ∨
          n + (publicEntries l).length ≤ RENDER_SPIRV_PUBLIC_VARIABLE_MAX_COUNT
      then none else some Failure.assertion := by
  induction l generalizing pd n with
  | nil => simp [extract, publicEntries]
  | cons p rest ih =>
    obtain ⟨k, e⟩ := p
    simp only [extract]
    by_cases hp : e.isPublic = true
    · rw [publicEntries_cons_public k e rest hp]
      by_cases hn : n < RENDER_SPIRV_PUBLIC_VARIABLE_MAX_COUNT
      · simp only [hp, hn, if_true]
        rw [ih]
        have e1 : ((publicEntries rest).length = 0 ∨
            n + 1 + (publicEntries rest).length ≤ RENDER_SPIRV_PUBLIC_VARIABLE_MAX_COUNT) ↔
            ((e :: publicEntries rest).length = 0 ∨
            n + (e :: publicEntries rest).length ≤ RENDER_SPIRV_PUBLIC_VARIABLE_MAX_COUNT) := by
          simp only [List.length_cons]
          omega
        simp only [e1]
      · have e1 : ¬ ((e :: publicEntries rest).length = 0 ∨
            n + (e :: publicEntries rest).length ≤ RENDER_SPIRV_PUBLIC_VARIABLE_MAX_COUNT) := by
          simp only [List.length_cons]
          omega
        rw [if_neg e1]
        simp [hp, hn]
    · have hp' : e.isPublic = false := by simpa using hp
      rw [publicEntries_cons_private k e rest hp']
      simp only [hp', Bool.false_eq_true, if_false]
      exact ih pd n

/-- On success the count grows by the number of public entries and the new slots hold their
descriptors in visiting order. -/
theorem extract_ok (stage : Nat) (l : Declarations)
    (pd : Nat → public_spirv_variable_declaration) (n : Nat)
    (h : (extract stage l pd n).failure = none) :
    (extract stage l pd n).variableCount = n + (publicEntries l).length ∧
    descriptorList (extract stage l pd n).publicDecls (extract stage l pd n).variableCount =
      descriptorList pd n ++ (publicEntries l).map (toPublic stage) := by
  induction l generalizing pd n with
  | nil => simp [extract, publicEntries]
  | cons p rest ih =>
    obtain ⟨k, e⟩ := p
    simp only [extract] at h ⊢
    by_cases hp : e.isPublic = true
    · rw [publicEntries_cons_public k e rest hp]
      by_cases hn : n < RENDER_SPIRV_PUBLIC_VARIABLE_MAX_COUNT
      · simp only [hp, hn, if_true] at h ⊢
        obtain ⟨h1, h2⟩ := ih _ (n + 1) h
        refine ⟨by rw [h1]; simp only [List.length_cons]; omega, ?_⟩
        rw [h2, descriptorList_succ, Function.update_same]
        rw [descriptorList_congr pd (Function.update pd n (toPublic stage e)) n
          (fun i hi => Function.update_noteq (by omega) _ _)]
        simp
      · simp [hp, hn] at h
    · have hp' : e.isPublic = false := by simpa using hp
      rw [publicEntries_cons_private k e rest hp']
      simp only [hp', Bool.false_eq_true, if_false] at h ⊢
      exact ih pd n h

theorem analyze_spirv_of_scan_ok (fuel : Nat) (it : IterationOrder) (code : Nat → Nat)
    (cs stage : Nat) (pd : Nat → public_spirv_variable_declaration) (n : Nat) (d : Declarations)
    (h : scan fuel code cs 5 [] = some (.ok d)) :
    analyze_spirv fuel it code cs stage pd n = some (extract stage (it.order d) pd n) := by
  simp [analyze_spirv, h]

theorem analyze_spirv_of_scan_error (fuel : Nat) (it : IterationOrder) (code : Nat → Nat)
    (cs stage : Nat) (pd : Nat → public_spirv_variable_declaration) (n : Nat) (f : Failure)
    (h : scan fuel code cs 5 [] = some (.error f)) :
    analyze_spirv fuel it code cs stage pd n = some ⟨some f, pd, n⟩ := by
  simp [analyze_spirv, h]

/-! ## The scan reads the buffer only from the current offset on -/

theorem structMembers_congr (arg arg' : Nat → Nat) (s n i0 : Nat) (d : Declarations)
    (h : ∀ i, i0 ≤ i → i < i0 + n → arg i = arg' i) :
    structMembers arg s n i0 d = structMembers arg' s n i0 d := by
  induction n generalizing i0 d with
  | zero => simp [structMembers]
  | succ n ih =>
    simp only [structMembers]
    rw [h i0 (Nat.le_refl _) (by omega)]
    cases find d (arg' i0) with
    | none => rfl
    | some m =>
      simp only
      exact ih (i0 + 1) _ (fun i h1 h2 => h i (by omega) (by omega))

theorem exec_congr (opcode length : Nat) (arg arg' : Nat → Nat) (d : Declarations)
    (h : ∀ i, 1 ≤ i → i < 4 ∨ i < length → arg i = arg' i) :
    exec opcode length arg d = exec opcode length arg' d := by
  have h1 : arg 1 = arg' 1 := h 1 (by omega) (Or.inl (by omega))
  have h2 : arg 2 = arg' 2 := h 2 (by omega) (Or.inl (by omega))
  have h3 : arg 3 = arg' 3 := h 3 (by omega) (Or.inl (by omega))
  have hs : structMembers arg (arg' 1) (length - 2) 2 =
      structMembers arg' (arg' 1) (length - 2) 2 := by
    funext t
    exact structMembers_congr arg arg' (arg' 1) (length - 2) 2 t
      (fun i a b => h i (by omega) (Or.inr (by omega)))
  unfold exec
  simp only [h1, h2, h3, hs]

theorem loopBody_congr (code code' : Nat → Nat) (lo cs off : Nat) (d : Declarations)
    (hagree : ∀ i, lo ≤ i → rd code i = rd code' i) (hlo : lo ≤ off)
    (hcs : cs + 65536 ≤ 4294967296) :
    loopBody code cs off d = loopBody code' cs off d := by
  by_cases hlt : off < cs
  · have hw : rd code off = rd code' off := hagree off hlo
    have hargs : ∀ i, 1 ≤ i → i < 4 ∨ i < getWordCount (rd code' off) →
        operand code off i = operand code' off i := by
      intro i _ hi
      have hl := getWordCount_lt (rd code' off)
      have hi' : i < 65536 := by omega
      unfold operand
      rw [Nat.mod_eq_of_lt (by omega)]
      exact hagree (off + i) (by omega)
    unfold loopBody
    simp only [hw]
    rw [exec_congr _ _ _ _ d hargs]
  · rw [loopBody_stop_of_ge code cs off d (by omega), loopBody_stop_of_ge code' cs off d (by omega)]

theorem loopBody_next_ge (code : Nat → Nat) (cs off off' : Nat) (d d' : Declarations)
    (hcs : cs + 65536 ≤ 4294967296) (h : loopBody code cs off d = .next off' d') :
    off < off' ∧ off' = off + getWordCount (rd code off) := by
  unfold loopBody at h
  by_cases hlt : off < cs
  · simp only [hlt, if_true] at h
    by_cases hz : getWordCount (rd code off) = 0 ∨ getOpcode (rd code off) = 0
    · simp [hz] at h
    · simp only [hz, if_false] at h
      have hl := getWordCount_lt (rd code off)
      cases hex : exec (getOpcode (rd code off)) (getWordCount (rd code off))
          (operand code off) d with
      | error f => simp [hex] at h
      | ok t =>
        simp only [hex, LoopStep.next.injEq] at h
        have h0 : getWordCount (rd code off) ≠ 0 := fun a => hz (Or.inl a)
        rw [Nat.mod_eq_of_lt (by omega)] at h
        omega
  · simp [hlt] at h

/-- With `codeSize` at most 2^32 - 2^16 the scan from `off` depends on the words at indices
`off` and above only. -/
theorem scan_congr (fuel : Nat) (code code' : Nat → Nat) (lo cs off : Nat) (d : Declarations)
    (hagree : ∀ i, lo ≤ i → rd code i = rd code' i) (hlo : lo ≤ off)
    (hcs : cs + 65536 ≤ 4294967296) :
    scan fuel code cs off d = scan fuel code' cs off d := by
  induction fuel generalizing off d with
  | zero =>
    simp only [scan]
    rw [loopBody_congr code code' lo cs off d hagree hlo hcs]
  | succ fuel ih =>
    simp only [scan]
    rw [loopBody_congr code code' lo cs off d hagree hlo hcs]
    cases hb : loopBody code' cs off d with
    | stop d1 => rfl
    | thrown f => rfl
    | next o1 d1 =>
      simp only
      have hge := (loopBody_next_ge code' cs off o1 d d1 hcs hb).1
      exact ih o1 d1 (by omega)

theorem ofList_cons_zero (a : Nat) (l : List Nat) : ofList (a :: l) 0 = a := by
  simp [ofList]

theorem ofList_cons_succ (a : Nat) (l : List Nat) (n : Nat) :
    ofList (a :: l) (n + 1) = ofList l n := by
  simp [ofList]

/-- The five header words are never read by a scan of a short buffer. -/
theorem scan_header_irrelevant (fuel : Nat) (h0 h1 h2 h3 h4 : Nat) (body : List Nat) (cs : Nat)
    (hcs : cs + 65536 ≤ 4294967296) :
    scan fuel (ofList (h0 :: h1 :: h2 :: h3 :: h4 :: body)) cs 5 [] =
      scan fuel (ofList (0 :: 0 :: 0 :: 0 :: 0 :: body)) cs 5 [] := by
  apply scan_congr fuel _ _ 5 cs 5 [] _ (Nat.le_refl _) hcs
  intro i hi
  obtain ⟨j, rfl⟩ : ∃ j, i = j + 5 := ⟨i - 5, by omega⟩
  unfold rd
  simp only [ofList_cons_succ]

/-! ## The handlers, opcode by opcode -/

theorem exec_scalar (opcode length : Nat) (arg : Nat → Nat) (d : Declarations)
    (h : opcode = 21 ∨ opcode = 22) :
    exec opcode length arg d =
      .ok (modify d (arg 1) (fun e => { e with size := arg 2 / 8, opType := opcode })) := by
  unfold exec
  rcases h with h | h <;> subst h <;> simp

theorem exec_composite (opcode length : Nat) (arg : Nat → Nat) (d : Declarations)
    (h : opcode = 23 ∨ opcode = 24 ∨ opcode = 28) :
    exec opcode length arg d =
      match find d (arg 2) with
      | none => .error .out_of_range
      | some el =>
        .ok (modify d (arg 1)
          (fun e => { e with size := (el.size * arg 3) % 4294967296, opType := opcode })) := by
  unfold exec
  rcases h with h | h | h <;> subst h <;> simp

theorem exec_struct (length : Nat) (arg : Nat → Nat) (d : Declarations) :
    exec 30 length arg d =
      structMembers arg (arg 1) (length - 2) 2
        (modify d (arg 1) (fun e => { e with opType := 30 })) := by
  unfold exec
  simp

theorem exec_pointer (length : Nat) (arg : Nat → Nat) (d : Declarations) :
    exec 32 length arg d =
      .ok (modify d (arg 1)
        (fun e => { e with size := 8, opType := 32, pointerTarget := arg 3 })) := by
  unfold exec
  simp

theorem exec_decorate (length : Nat) (arg : Nat → Nat) (d : Declarations) :
    exec 71 length arg d =
      if arg 2 = 34 then .ok (modify d (arg 1) (fun e => { e with descriptorSet := arg 3 }))
      else if arg 2 = 33 then .ok (modify d (arg 1) (fun e => { e with binding := arg 3 }))
      else .ok d := by
  unfold exec
  simp

theorem exec_variable (length : Nat) (arg : Nat → Nat) (d : Declarations) :
    exec 59 length arg d =
      if (get (touch (variableDeclared d (arg 1) (arg 2) (arg 3)) (arg 1)) (arg 1)).pointerTarget
          ≠ 0 then
        .ok (modify
          (touch (touch (variableDeclared d (arg 1) (arg 2) (arg 3)) (arg 1))
            (get (touch (variableDeclared d (arg 1) (arg 2) (arg 3)) (arg 1))
              (arg 1)).pointerTarget)
          (arg 2)
          (fun e => { e with size :=
            (get (touch (touch (variableDeclared d (arg 1) (arg 2) (arg 3)) (arg 1))
                (get (touch (variableDeclared d (arg 1) (arg 2) (arg 3)) (arg 1))
                  (arg 1)).pointerTarget)
              (get (touch (variableDeclared d (arg 1) (arg 2) (arg 3)) (arg 1))
                (arg 1)).pointerTarget).size }))
      else
        .ok (modify (touch (variableDeclared d (arg 1) (arg 2) (arg 3)) (arg 1)) (arg 2)
          (fun e => { e with size :=
            (get (touch (variableDeclared d (arg 1) (arg 2) (arg 3)) (arg 1)) (arg 1)).size })) := by
  unfold exec variableDeclared
  simp

theorem exec_variable_entry (length : Nat) (arg : Nat → Nat) (d : Declarations) :
    ∃ d', exec 59 length arg d = .ok d' ∧
      get d' (arg 2) =
        { get (variableDeclared d (arg 1) (arg 2) (arg 3)) (arg 2) with
          size := variableSize d (arg 1) (arg 2) (arg 3) } := by
  rw [exec_variable]
  unfold variableSize
  by_cases hc : (get (variableDeclared d (arg 1) (arg 2) (arg 3)) (arg 1)).pointerTarget ≠ 0
  · refine ⟨_, by simp only [get_touch]; rw [if_pos hc], ?_⟩
    rw [get_modify_self, if_pos hc]
    simp only [get_touch]
  · refine ⟨_, by simp only [get_touch]; rw [if_neg hc], ?_⟩
    rw [get_modify_self, if_neg hc]
    simp only [get_touch]

theorem variableSize_of_ne (d : Declarations) (target structId storageClass : Nat)
    (h1 : structId ≠ target) (h2 : structId ≠ (get d target).pointerTarget) :
    variableSize d target structId storageClass =
      if (get d target).pointerTarget ≠ 0 then (get d (get d target).pointerTarget).size
      else (get d target).size := by
  unfold variableSize variableDeclared
  rw [get_modify_ne d structId target _ h1, get_modify_ne d structId _ _ h2]

theorem memberSizes_succ (d : Declarations) (arg : Nat → Nat) (i0 n : Nat) :
    memberSizes d arg i0 (n + 1) = (get d (arg i0)).size + memberSizes d arg (i0 + 1) n := by
  unfold memberSizes
  rw [List.range_succ_eq_map]
  simp only [List.map_cons, List.sum_cons, List.map_map, Nat.add_zero]
  congr 2
  apply List.map_congr_left
  intro j _
  simp only [Function.comp]
  congr 3
  omega

theorem memberSizes_congr (d d' : Declarations) (arg : Nat → Nat) (i0 n : Nat)
    (h : ∀ i, i0 ≤ i → i < i0 + n → get d' (arg i) = get d (arg i)) :
    memberSizes d' arg i0 n = memberSizes d arg i0 n := by
  unfold memberSizes
  congr 1
  apply List.map_congr_left
  intro j hj
  rw [h (i0 + j) (by omega) (by have := List.mem_range.mp hj; omega)]

theorem modify_eq_self (d : Declarations) (k : Nat) (f : basic_declaration → basic_declaration)
    (hpres : find d k ≠ none) (h : f (get d k) = get d k) : modify d k f = d := by
  induction d with
  | nil => simp [find] at hpres
  | cons p rest ih =>
    obtain ⟨k', e⟩ := p
    by_cases hk : k' = k
    · subst hk
      simp only [get, find, if_true, Option.getD_some] at h
      simp [modify, h]
    · simp only [find, hk, if_false] at hpres
      simp only [get, find, hk, if_false] at h
      simp only [modify, hk, if_false]
      rw [ih hpres h]

theorem get_of_find (d : Declarations) (k : Nat) (e : basic_declaration)
    (h : find d k = some e) : get d k = e := by
  simp [get, h]

/-- The member loop of `OpTypeStruct`: when every member has an entry and none is the struct
itself, the loop adds the members' sizes to the struct's size with 32-bit wrap-around. -/
theorem structMembers_ok (arg : Nat → Nat) (s n i0 : Nat) (d : Declarations)
    (hpres : find d s ≠ none) (hsz : (get d s).size < 4294967296)
    (h : ∀ i, i0 ≤ i → i < i0 + n → find d (arg i) ≠ none ∧ arg i ≠ s) :
    structMembers arg s n i0 d =
      .ok (modify d s
        (fun e => { e with size := (e.size + memberSizes d arg i0 n) % 4294967296 })) := by
  induction n generalizing i0 d with
  | zero =>
    simp only [structMembers, memberSizes, List.range_zero, List.map_nil, List.sum_nil,
      Nat.add_zero]
    rw [modify_eq_self d s _ hpres]
    rw [Nat.mod_eq_of_lt hsz]
  | succ n ih =>
    obtain ⟨hm, hne⟩ := h i0 (Nat.le_refl _) (by omega)
    obtain ⟨m, hm'⟩ := Option.ne_none_iff_exists'.mp hm
    have hget : get d (arg i0) = m := get_of_find d _ m hm'
    simp only [structMembers, hm']
    have hrest : ∀ i, i0 + 1 ≤ i → i < i0 + 1 + n →
        get (modify d s (fun e => { e with size := (e.size + m.size) % 4294967296 })) (arg i)
          = get d (arg i) := by
      intro i h1 h2
      exact get_modify_ne d s (arg i) _ (fun a => (h i (by omega) (by omega)).2 a.symm)
    rw [ih (i0 + 1) _ (by simp [find_modify_self])
      (by rw [get_modify_self]; exact Nat.mod_lt _ (by decide))
      (fun i h1 h2 => ⟨find_modify_isSome d s (arg i) _ (h i (by omega) (by omega)).1,
        (h i (by omega) (by omega)).2⟩)]
    rw [memberSizes_congr d _ arg (i0 + 1) n hrest, modify_modify, memberSizes_succ, hget]
    congr 2
    funext e
    simp only [basic_declaration.mk.injEq, true_and, and_true]
    omega

/-! ## Entries of ids an instruction does not assign to -/

theorem structMembers_get_frame (arg : Nat → Nat) (s n i0 : Nat) (d d' : Declarations)
    (h : structMembers arg s n i0 d = .ok d') (k : Nat) (hk : k ≠ s) : get d' k = get d k := by
  induction n generalizing i0 d with
  | zero =>
    simp only [structMembers, Except.ok.injEq] at h
    rw [h]
  | succ n ih =>
    simp only [structMembers] at h
    cases hm : find d (arg i0) with
    | none => simp [hm] at h
    | some m =>
      rw [hm] at h
      rw [ih (i0 + 1) _ h]
      exact get_modify_ne d s k _ (fun a => hk a.symm)

theorem exec_get_frame (opcode length : Nat) (arg : Nat → Nat) (d d' : Declarations)
    (h : exec opcode length arg d = .ok d') (k : Nat)
    (hk : k ≠ (if opcode = 59 then arg 2 else arg 1)) : get d' k = get d k := by
  by_cases h59 : opcode = 59
  · subst h59
    simp only [if_true] at hk
    rw [exec_variable] at h
    have hk' : arg 2 ≠ k := fun a => hk a.symm
    split_ifs at h with hc
    · simp only [Except.ok.injEq] at h
      rw [← h, get_modify_ne _ _ _ _ hk', get_touch, get_touch]
      exact get_modify_ne _ _ _ _ hk'
    · simp only [Except.ok.injEq] at h
      rw [← h, get_modify_ne _ _ _ _ hk', get_touch]
      exact get_modify_ne _ _ _ _ hk'
  · simp only [h59, if_false] at hk
    have hk' : arg 1 ≠ k := fun a => hk a.symm
    by_cases h30 : opcode = 30
    · subst h30
      rw [exec_struct] at h
      rw [structMembers_get_frame _ _ _ _ _ _ h k hk]
      exact get_modify_ne _ _ _ _ hk'
    · unfold exec at h
      simp only [h59, h30, if_false] at h
      split_ifs at h
      all_goals first
        | (simp only [Except.ok.injEq] at h
           subst h
           first
             | rfl
             | exact get_modify_ne _ _ _ _ hk')
        | (cases hf : find d (arg 2) with
           | none => simp [hf] at h
           | some el =>
             simp only [hf, Except.ok.injEq] at h
             subst h
             exact get_modify_ne _ _ _ _ hk')

theorem loopBody_get_frame (code : Nat → Nat) (cs off off' : Nat) (d d' : Declarations)
    (h : loopBody code cs off d = .next off' d') (k : Nat) (hk : k ≠ declaredId code off) :
    get d' k = get d k := by
  obtain ⟨_, _, _, hex, _⟩ := loopBody_next_inv code cs off off' d d' h
  exact exec_get_frame _ _ _ d d' hex k hk

/-- An entry is the same at the end of the scan as at any earlier point after which no executed
instruction assigns to its id. -/
theorem scan_get_frame (fuel : Nat) (code : Nat → Nat) (cs off : Nat) (d dEnd : Declarations)
    (k : Nat) (h : scan fuel code cs off d = some (.ok dEnd))
    (hk : ∀ j oj dj, iterate j code cs off d = some (oj, dj) → declaredId code oj ≠ k) :
    get dEnd k = get d k := by
  induction fuel generalizing off d with
  | zero =>
    simp only [scan] at h
    cases hb : loopBody code cs off d with
    | stop d1 =>
      simp only [hb, Option.some.injEq, Except.ok.injEq] at h
      rw [← h, loopBody_stop_inv code cs off d d1 hb]
    | thrown f => simp [hb] at h
    | next o1 d1 => simp [hb] at h
  | succ fuel ih =>
    simp only [scan] at h
    cases hb : loopBody code cs off d with
    | stop d1 =>
      simp only [hb, Option.some.injEq, Except.ok.injEq] at h
      rw [← h, loopBody_stop_inv code cs off d d1 hb]
    | thrown f => simp [hb] at h
    | next o1 d1 =>
      rw [hb] at h
      simp only at h
      rw [ih o1 d1 h (fun j oj dj hj => hk (j + 1) oj dj (by simp [iterate, hb, hj]))]
      exact loopBody_get_frame code cs off o1 d d1 hb k
        (fun a => hk 0 off d (by simp [iterate]) a.symm)

/-! ## Decorations and the variable they target -/

theorem touch_modify_comm (T : Declarations) (v k : Nat)
    (f : basic_declaration → basic_declaration) (hv : find T v ≠ none) :
    modify (touch T k) v f = touch (modify T v f) k := by
  by_cases hkv : k = v
  · subst hkv
    unfold touch
    rw [modify_modify, modify_modify]
    rfl
  · unfold touch
    induction T with
    | nil => simp [find] at hv
    | cons p rest ih =>
      obtain ⟨k', e⟩ := p
      by_cases h1 : k' = v
      · subst h1
        have h2 : ¬ k' = k := fun a => hkv a.symm
        simp [modify, h2]
      · simp only [find, h1, if_false] at hv
        by_cases h2 : k' = k
        · subst h2
          simp [modify, hkv]
        · simp [modify, h1, h2, ih hv]

theorem find_touch_ne_none (T : Declarations) (v k : Nat) (hv : find T v ≠ none) :
    find (touch T k) v ≠ none :=
  find_modify_isSome T k v id hv

theorem variableDeclared_eq (d : Declarations) (target structId storageClass : Nat) :
    variableDeclared d target structId storageClass =
      modify d structId (variableFields target storageClass) := rfl

/-- The `OpVariable` handler in closed form: the variable's entry receives its fields and its
size, and the type and pointee ids are touched. -/
theorem exec_variable_closed (length : Nat) (arg : Nat → Nat) (d : Declarations) :
    exec 59 length arg d =
      .ok (if (get (variableDeclared d (arg 1) (arg 2) (arg 3)) (arg 1)).pointerTarget ≠ 0 then
        touch (touch (modify d (arg 2) (fun e =>
            { variableFields (arg 1) (arg 3) e with
              size := variableSize d (arg 1) (arg 2) (arg 3) })) (arg 1))
          (get (variableDeclared d (arg 1) (arg 2) (arg 3)) (arg 1)).pointerTarget
      else
        touch (modify d (arg 2) (fun e =>
            { variableFields (arg 1) (arg 3) e with
              size := variableSize d (arg 1) (arg 2) (arg 3) })) (arg 1)) := by
  rw [exec_variable]
  have hv : find (variableDeclared d (arg 1) (arg 2) (arg 3)) (arg 2) ≠ none := by
    simp [variableDeclared, find_modify_self]
  unfold variableSize
  simp only [get_touch]
  by_cases hc : (get (variableDeclared d (arg 1) (arg 2) (arg 3)) (arg 1)).pointerTarget ≠ 0
  · rw [if_pos hc, if_pos hc, if_pos hc]
    rw [touch_modify_comm _ _ _ _ (find_touch_ne_none _ _ _ hv), touch_modify_comm _ _ _ _ hv]
    rw [variableDeclared_eq, modify_modify]
  · rw [if_neg hc, if_neg hc, if_neg hc]
    rw [touch_modify_comm _ _ _ _ hv]
    rw [variableDeclared_eq, modify_modify]

theorem modify_touch_modify (T : Declarations) (v k : Nat)
    (f g : basic_declaration → basic_declaration) :
    modify (touch (modify T v g) k) v f = touch (modify T v (fun e => f (g e))) k := by
  rw [touch_modify_comm _ _ _ _ (by simp [find_modify_self]), modify_modify]

/-- Updating beforehand the entry of the variable in a way that leaves the size alone and
commutes with the handler's own assignments gives the same table as updating it
afterwards. -/
theorem exec_variable_modify_comm (length : Nat) (arg : Nat → Nat) (d : Declarations)
    (f : basic_declaration → basic_declaration)
    (hsz : ∀ e, (f e).size = e.size)
    (hcomm : ∀ e X, f { variableFields (arg 1) (arg 3) e with size := X } =
      { variableFields (arg 1) (arg 3) (f e) with size := X }) :
    ∃ t, exec 59 length arg d = .ok t ∧
      exec 59 length arg (modify d (arg 2) f) = .ok (modify t (arg 2) f) := by
  have hg : ∀ k, (get (variableDeclared (modify d (arg 2) f) (arg 1) (arg 2) (arg 3)) k).pointerTarget
        = (get (variableDeclared d (arg 1) (arg 2) (arg 3)) k).pointerTarget ∧
      (get (variableDeclared (modify d (arg 2) f) (arg 1) (arg 2) (arg 3)) k).size
        = (get (variableDeclared d (arg 1) (arg 2) (arg 3)) k).size := by
    intro k
    by_cases hk : arg 2 = k
    · subst hk
      simp only [variableDeclared_eq, get_modify_self, variableFields, hsz, and_self]
    · simp only [variableDeclared_eq, get_modify_ne _ _ _ _ hk, and_self]
  have hvs : variableSize (modify d (arg 2) f) (arg 1) (arg 2) (arg 3) =
      variableSize d (arg 1) (arg 2) (arg 3) := by
    unfold variableSize
    rw [(hg (arg 1)).1, (hg (arg 1)).2, (hg _).2]
  refine ⟨_, exec_variable_closed length arg d, ?_⟩
  rw [exec_variable_closed, hvs, (hg (arg 1)).1]
  congr 1
  have hfun : (fun e => { variableFields (arg 1) (arg 3) (f e) with
        size := variableSize d (arg 1) (arg 2) (arg 3) }) =
      (fun e => f { variableFields (arg 1) (arg 3) e with
        size := variableSize d (arg 1) (arg 2) (arg 3) }) := by
    funext e
    rw [hcomm]
  by_cases hc : (get (variableDeclared d (arg 1) (arg 2) (arg 3)) (arg 1)).pointerTarget ≠ 0
  · rw [if_pos hc, if_pos hc, modify_modify]
    rw [touch_modify_comm _ _ _ _ (find_touch_ne_none _ _ _ (by simp [find_modify_self])),
      modify_touch_modify, hfun]
  · rw [if_neg hc, if_neg hc, modify_modify, modify_touch_modify, hfun]

/-! ## Instructions given by their words -/

theorem wordsAt_rd (code : Nat → Nat) (off : Nat) (ws : List Nat) (h : wordsAt code off ws)
    (j : Nat) (hj : j < ws.length) : rd code (off + j) = ws.getD j 0 := h j hj

theorem wordsAt_operand (code : Nat → Nat) (off : Nat) (ws : List Nat) (h : wordsAt code off ws)
    (j i : Nat) (hji : j + i < ws.length) (hoff : off + ws.length < 4294967296) :
    operand code (off + j) i = ws.getD (j + i) 0 := by
  unfold operand
  rw [Nat.mod_eq_of_lt (by omega), Nat.add_assoc]
  exact h (j + i) hji

theorem loopBody_of_header (code : Nat → Nat) (cs off : Nat) (d d' : Declarations)
    (opcode length : Nat) (hlt : off < cs) (hw : rd code off = header opcode length)
    (hop0 : opcode ≠ 0) (hop : opcode < 65536) (hlen0 : length ≠ 0) (hlen : length < 65536)
    (hoff : off + length < 4294967296)
    (hex : exec opcode length (operand code off) d = .ok d') :
    loopBody code cs off d = .next (off + length) d' := by
  have h1 : getOpcode (rd code off) = opcode := by rw [hw, getOpcode_header _ _ hop]
  have h2 : getWordCount (rd code off) = length := by rw [hw, getWordCount_header _ _ hop hlen]
  rw [loopBody_next_of code cs off d d' hlt (by omega) (by omega) (by rw [h1, h2]; exact hex),
    h2, Nat.mod_eq_of_lt hoff]

theorem find_mem (d : Declarations) (k : Nat) (e : basic_declaration) (h : find d k = some e) :
    (k, e) ∈ d := by
  induction d with
  | nil => simp [find] at h
  | cons p rest ih =>
    obtain ⟨k', e'⟩ := p
    by_cases hk : k' = k
    · subst hk
      simp only [find, if_true, Option.some.injEq] at h
      simp [h]
    · simp only [find, hk, if_false] at h
      exact List.mem_cons_of_mem _ (ih h)

theorem find_of_get_public (d : Declarations) (k : Nat) (h : (get d k).isPublic = true) :
    find d k = some (get d k) := by
  unfold get at h ⊢
  cases hf : find d k with
  | none => simp [hf] at h
  | some e => simp

theorem mem_publicEntries (l : Declarations) (k : Nat) (e : basic_declaration)
    (h : (k, e) ∈ l) (hp : e.isPublic = true) : e ∈ publicEntries l := by
  unfold publicEntries
  exact List.mem_map.mpr ⟨(k, e), List.mem_filter.mpr ⟨h, by simpa using hp⟩, rfl⟩

theorem analyze_spirv_ok_inv (fuel : Nat) (it : IterationOrder) (code : Nat → Nat)
    (cs stage : Nat) (pd : Nat → public_spirv_variable_declaration) (n : Nat) (r : CallResult)
    (h : analyze_spirv fuel it code cs stage pd n = some r) (hf : r.failure = none) :
    ∃ dEnd, scan fuel code cs 5 [] = some (.ok dEnd) ∧
      r = extract stage (it.order dEnd) pd n := by
  unfold analyze_spirv at h
  cases hs : scan fuel code cs 5 [] with
  | none => simp [hs] at h
  | some x =>
    cases x with
    | error f =>
      simp only [hs, Option.some.injEq] at h
      rw [← h] at hf
      simp at hf
    | ok dEnd =>
      simp only [hs, Option.some.injEq] at h
      exact ⟨dEnd, rfl, h.symm⟩

/-- Every public entry of the final table is among the descriptors of a successful call. -/
theorem emitted_of_public (stage : Nat) (it : IterationOrder) (dEnd : Declarations)
    (pd : Nat → public_spirv_variable_declaration) (n k : Nat)
    (hf : (extract stage (it.order dEnd) pd n).failure = none)
    (hp : (get dEnd k).isPublic = true) :
    toPublic stage (get dEnd k) ∈
      descriptorList (extract stage (it.order dEnd) pd n).publicDecls
        (extract stage (it.order dEnd) pd n).variableCount := by
  rw [(extract_ok stage (it.order dEnd) pd n hf).2]
  apply List.mem_append_right
  apply List.mem_map_of_mem
  have hm : (k, get dEnd k) ∈ it.order dEnd :=
    (it.perm dEnd).mem_iff.mpr (find_mem dEnd k _ (find_of_get_public dEnd k hp))
  exact mem_publicEntries _ k _ hm hp

theorem decorate_step (code : Nat → Nat) (cs off j : Nat) (d : Declarations) (ws : List Nat)
    (v dec x : Nat) (h : wordsAt code off ws) (hoff : off + ws.length < 4294967296)
    (hcs : off + ws.length ≤ cs) (hj : j + 3 < ws.length)
    (h0 : ws.getD j 0 = header 71 4) (h1 : ws.getD (j + 1) 0 = v)
    (h2 : ws.getD (j + 2) 0 = dec) (h3 : ws.getD (j + 3) 0 = x) :
    loopBody code cs (off + j) d = .next (off + j + 4)
      (if dec = 34 then modify d v (fun e => { e with descriptorSet := x })
       else if dec = 33 then modify d v (fun e => { e with binding := x })
       else d) := by
  apply loopBody_of_header code cs (off + j) d _ 71 4 (by omega)
    (by rw [wordsAt_rd code off ws h j (by omega), h0]) (by decide) (by decide) (by decide)
    (by decide) (by omega)
  rw [exec_decorate, wordsAt_operand code off ws h j 1 (by omega) hoff,
    wordsAt_operand code off ws h j 2 (by omega) hoff,
    wordsAt_operand code off ws h j 3 (by omega) hoff, h1, h2, h3]
  split_ifs <;> rfl

theorem variable_step (code : Nat → Nat) (cs off j : Nat) (d : Declarations) (ws : List Nat)
    (arg : Nat → Nat) (h : wordsAt code off ws) (hoff : off + ws.length < 4294967296)
    (hcs : off + ws.length ≤ cs) (hj : j + 3 < ws.length)
    (h0 : ws.getD j 0 = header 59 4) (h1 : ws.getD (j + 1) 0 = arg 1)
    (h2 : ws.getD (j + 2) 0 = arg 2) (h3 : ws.getD (j + 3) 0 = arg 3) :
    ∀ t, exec 59 4 arg d = .ok t → loopBody code cs (off + j) d = .next (off + j + 4) t := by
  intro t ht
  apply loopBody_of_header code cs (off + j) d _ 59 4 (by omega)
    (by rw [wordsAt_rd code off ws h j (by omega), h0]) (by decide) (by decide) (by decide)
    (by decide) (by omega)
  rw [← ht]
  apply exec_congr
  intro i hi1 hi
  have hi' : i < 4 := by omega
  interval_cases i
  · rw [wordsAt_operand code off ws h j 1 (by omega) hoff, h1]
  · rw [wordsAt_operand code off ws h j 2 (by omega) hoff, h2]
  · rw [wordsAt_operand code off ws h j 3 (by omega) hoff, h3]

/-! ## What one instruction can do to an entry -/

theorem rel_modify (P : basic_declaration → basic_declaration → Prop) (hP : EntryRel P)
    (d : Declarations) (k : Nat) (f : basic_declaration → basic_declaration)
    (hf : ∀ e, P e (f e)) (k' : Nat) : P (get d k') (get (modify d k f) k') := by
  by_cases h : k = k'
  · subst h
    rw [get_modify_self]
    exact hf _
  · rw [get_modify_ne d k k' f h]
    exact hP.refl _

theorem structMembers_rel (P : basic_declaration → basic_declaration → Prop) (hP : EntryRel P)
    (arg : Nat → Nat) (s n i0 : Nat) (d d' : Declarations)
    (h : structMembers arg s n i0 d = .ok d') (k : Nat) : P (get d k) (get d' k) := by
  induction n generalizing i0 d with
  | zero =>
    simp only [structMembers, Except.ok.injEq] at h
    rw [h]
    exact hP.refl _
  | succ n ih =>
    simp only [structMembers] at h
    cases hm : find d (arg i0) with
    | none => simp [hm] at h
    | some m =>
      rw [hm] at h
      exact hP.trans _ _ _ (rel_modify P hP d s _ (fun e => hP.size e _) k) (ih (i0 + 1) _ h)

theorem exec_rel (P : basic_declaration → basic_declaration → Prop) (hP : EntryRel P)
    (opcode length : Nat) (arg : Nat → Nat) (d d' : Declarations)
    (h : exec opcode length arg d = .ok d') (k : Nat) : P (get d k) (get d' k) := by
  by_cases h59 : opcode = 59
  · subst h59
    rw [exec_variable_closed] at h
    simp only [Except.ok.injEq] at h
    subst h
    have hm : P (get d k) (get (modify d (arg 2) (fun e =>
        { variableFields (arg 1) (arg 3) e with
          size := variableSize d (arg 1) (arg 2) (arg 3) })) k) :=
      rel_modify P hP d (arg 2) _
        (fun e => hP.trans _ _ _ (hP.declared e _ _) (hP.size _ _)) k
    split_ifs
    · rw [get_touch, get_touch]
      exact hm
    · rw [get_touch]
      exact hm
  · by_cases h30 : opcode = 30
    · subst h30
      rw [exec_struct] at h
      exact hP.trans _ _ _ (rel_modify P hP d (arg 1) _ (fun e => hP.opType e _) k)
        (structMembers_rel P hP _ _ _ _ _ _ h k)
    · unfold exec at h
      simp only [h59, h30, if_false] at h
      have hso : ∀ (x y : Nat) (e : basic_declaration), P e { e with size := x, opType := y } :=
        fun x y e => hP.trans _ _ _ (hP.size e x) (hP.opType _ y)
      split_ifs at h
      all_goals first
        | (simp only [Except.ok.injEq] at h
           subst h
           first
             | exact hP.refl _
             | exact rel_modify P hP d _ _ (fun e => hP.opType e _) k
             | exact rel_modify P hP d _ _ (fun e => hso _ _ e) k
             | exact rel_modify P hP d _ _ (fun e => hP.binding e _) k
             | exact rel_modify P hP d _ _ (fun e => hP.descriptorSet e _) k
             | exact rel_modify P hP d _ _
                 (fun e => hP.trans _ _ _ (hso 8 opcode e) (hP.pointerTarget _ _)) k)
        | (cases hf : find d (arg 2) with
           | none => simp [hf] at h
           | some el =>
             simp only [hf, Except.ok.injEq] at h
             subst h
             exact rel_modify P hP d _ _ (fun e => hso _ _ e) k)

theorem loopBody_rel (P : basic_declaration → basic_declaration → Prop) (hP : EntryRel P)
    (code : Nat → Nat) (cs off off' : Nat) (d d' : Declarations)
    (h : loopBody code cs off d = .next off' d') (k : Nat) : P (get d k) (get d' k) := by
  obtain ⟨_, _, _, hex, _⟩ := loopBody_next_inv code cs off off' d d' h
  exact exec_rel P hP _ _ _ d d' hex k

theorem iterate_rel (P : basic_declaration → basic_declaration → Prop) (hP : EntryRel P)
    (j : Nat) (code : Nat → Nat) (cs off off' : Nat) (d d' : Declarations)
    (h : iterate j code cs off d = some (off', d')) (k : Nat) : P (get d k) (get d' k) := by
  induction j generalizing off d with
  | zero =>
    simp only [iterate, Option.some.injEq, Prod.mk.injEq] at h
    rw [h.2]
    exact hP.refl _
  | succ j ih =>
    simp only [iterate] at h
    cases hb : loopBody code cs off d with
    | stop d1 => simp [hb] at h
    | thrown f => simp [hb] at h
    | next o1 d1 =>
      rw [hb] at h
      exact hP.trans _ _ _ (loopBody_rel P hP code cs off o1 d d1 hb k) (ih o1 d1 h)

theorem scan_rel (P : basic_declaration → basic_declaration → Prop) (hP : EntryRel P)
    (fuel : Nat) (code : Nat → Nat) (cs off : Nat) (d dEnd : Declarations)
    (h : scan fuel code cs off d = some (.ok dEnd)) (k : Nat) : P (get d k) (get dEnd k) := by
  induction fuel generalizing off d with
  | zero =>
    simp only [scan] at h
    cases hb : loopBody code cs off d with
    | stop d1 =>
      simp only [hb, Option.some.injEq, Except.ok.injEq] at h
      rw [← h, loopBody_stop_inv code cs off d d1 hb]
      exact hP.refl _
    | thrown f => simp [hb] at h
    | next o1 d1 => simp [hb] at h
  | succ fuel ih =>
    simp only [scan] at h
    cases hb : loopBody code cs off d with
    | stop d1 =>
      simp only [hb, Option.some.injEq, Except.ok.injEq] at h
      rw [← h, loopBody_stop_inv code cs off d d1 hb]
      exact hP.refl _
    | thrown f => simp [hb] at h
    | next o1 d1 =>
      rw [hb] at h
      exact hP.trans _ _ _ (loopBody_rel P hP code cs off o1 d d1 hb k) (ih o1 d1 h)

/-! ## Results -/

theorem analyze_spirv_single (fuel : Nat) (it : IterationOrder) (code : Nat → Nat)
    (cs stage : Nat) (pd : Nat → public_spirv_variable_declaration) (d : Declarations)
    (e : basic_declaration) (hscan : scan fuel code cs 5 [] = some (.ok d))
    (hpub : publicEntries d = [e]) :
    ∃ r, analyze_spirv fuel it code cs stage pd 0 = some r ∧ r.failure = none ∧
      r.variableCount = 1 ∧
      descriptorList r.publicDecls r.variableCount = [toPublic stage e] := by
  have hp : publicEntries (it.order d) = [e] := by
    have := publicEntries_perm _ _ (it.perm d)
    rw [hpub] at this
    exact List.perm_singleton.mp this
  have hf : (extract stage (it.order d) pd 0).failure = none := by
    rw [extract_failure, hp]
    simp [RENDER_SPIRV_PUBLIC_VARIABLE_MAX_COUNT]
  obtain ⟨hc, hl⟩ := extract_ok stage (it.order d) pd 0 hf
  rw [hp] at hc hl
  refine ⟨_, analyze_spirv_of_scan_ok fuel it code cs stage pd 0 d hscan, hf, by simpa using hc, ?_⟩
  rw [hl]
  simp [descriptorList]

theorem scan_blockStream :
    scan 7 (ofList (blockStream 0 0 0 0 0)) 32 5 [] = some (.ok
      [(1, { size := 4, opType := 22 }), (2, { size := 16, opType := 23 }),
       (3, { size := 32, opType := 30 }), (4, { size := 8, opType := 32, pointerTarget := 3 }),
       (5, { size := 32, opType := 59, pointerTarget := 4, storageClass := 2, isPublic := true,
             binding := 1 })]) := by
  rfl

theorem scan_blockStreamDecoratedFirst :
    scan 7 (ofList (blockStreamDecoratedFirst 0 0 0 0 0)) 32 5 [] = some (.ok
      [(5, { size := 32, opType := 59, pointerTarget := 4, storageClass := 2, isPublic := true,
             binding := 1 }),
       (1, { size := 4, opType := 22 }), (2, { size := 16, opType := 23 }),
       (3, { size := 32, opType := 30 }),
       (4, { size := 8, opType := 32, pointerTarget := 3 })]) := by
  rfl

/-- C1: on the module that (after the five header words) declares a 32-bit float, a vec4 of
it, a struct of two vec4, a Uniform pointer to the struct and a Uniform (class 2) variable of
that pointer type decorated Binding 1 and DescriptorSet 0, `analyze_spirv` called with
`codeSize` 32 (the number of words) and an empty descriptor list (count 0) returns without
failure and leaves exactly one descriptor, with binding 1, descriptorSet 0, size 32 and type 2
(and the stage flag of the call). This holds for every content of the five header words, every
visiting order of the table, every prior content of the caller's array, any number of allowed
loop iterations from 7 on, and both when the decorations follow the variable and when they
come first in the module. -/
theorem C1_uniform_block_descriptor (fuel : Nat) (it : IterationOrder)
    (h0 h1 h2 h3 h4 stage : Nat) (pd : Nat → public_spirv_variable_declaration) :
    (∃ r, analyze_spirv (7 + fuel) it (ofList (blockStream h0 h1 h2 h3 h4)) 32 stage pd 0 = some r
       ∧ r.failure = none ∧ r.variableCount = 1 ∧
       descriptorList r.publicDecls r.variableCount =
         [{ binding := 1, descriptorSet := 0, size := 32, type := 2, stageFlags := stage }]) ∧
    (∃ r, analyze_spirv (7 + fuel) it (ofList (blockStreamDecoratedFirst h0 h1 h2 h3 h4)) 32
         stage pd 0 = some r
       ∧ r.failure = none ∧ r.variableCount = 1 ∧
       descriptorList r.publicDecls r.variableCount =
         [{ binding := 1, descriptorSet := 0, size := 32, type := 2, stageFlags := stage }]) := by
  constructor
  · have hs := scan_add 7 fuel _ _ _ _ _ scan_blockStream
    have hh := scan_header_irrelevant (7 + fuel) h0 h1 h2 h3 h4
      (List.drop 5 (blockStream 0 0 0 0 0)) 32 (by decide)
    have hs' : scan (7 + fuel) (ofList (blockStream h0 h1 h2 h3 h4)) 32 5 [] = _ :=
      hh.trans hs
    exact analyze_spirv_single (7 + fuel) it _ 32 stage pd _ _ hs' rfl
  · have hs := scan_add 7 fuel _ _ _ _ _ scan_blockStreamDecoratedFirst
    have hh := scan_header_irrelevant (7 + fuel) h0 h1 h2 h3 h4
      (List.drop 5 (blockStreamDecoratedFirst 0 0 0 0 0)) 32 (by decide)
    have hs' : scan (7 + fuel) (ofList (blockStreamDecoratedFirst h0 h1 h2 h3 h4)) 32 5 [] = _ :=
      hh.trans hs
    exact analyze_spirv_single (7 + fuel) it _ 32 stage pd _ _ hs' rfl

/-- C2 (as stated, refuted): the struct of module `hugeStructStream` is declared once, its two
members (id 2, an array of 2^31 bytes) are declared earlier, and the size recorded for it is 0,
not the sum 2^31 + 2^31 of its members' sizes. -/
theorem C2_struct_sum_wraps :
    ∃ d, scan 3 (ofList hugeStructStream) 16 5 [] = some (.ok d) ∧
      find d 2 ≠ none ∧ (get d 3).opType = 30 ∧ (get d 3).size = 0 ∧
      (get d 2).size + (get d 2).size = 4294967296 ∧
      (get d 3).size ≠ (get d 2).size + (get d 2).size := by
  refine ⟨[(1, { size := 4, opType := 22 }), (2, { size := 2147483648, opType := 28 }),
    (3, { size := 0, opType := 30 })], ?_, ?_, ?_, ?_, ?_, ?_⟩
  · rfl
  · decide
  · rfl
  · rfl
  · rfl
  · decide

/-- C2 (amended): when the scan executes an `OpTypeStruct` instruction whose id has no entry
yet and whose member ids all have entries, the instruction is completed and the size recorded
for the struct is the sum of the members' sizes, in member order, reduced modulo 2^32 (the
accumulation is `uint32_t`); in particular a struct whose n members all reference a type
recorded as a 32-bit `OpTypeFloat` (opType 22, size 4) gets size 4 * n, for every n the 16-bit
length field can express. -/
theorem C2_struct_size (code : Nat → Nat) (cs off : Nat) (d : Declarations)
    (hlt : off < cs) (hop : getOpcode (rd code off) = 30)
    (hlen : getWordCount (rd code off) ≠ 0)
    (hfresh : find d (operand code off 1) = none)
    (hmem : ∀ i, 2 ≤ i → i < getWordCount (rd code off) → find d (operand code off i) ≠ none) :
    ∃ d', loopBody code cs off d =
        .next ((off + getWordCount (rd code off)) % 4294967296) d' ∧
      (get d' (operand code off 1)).opType = 30 ∧
      (get d' (operand code off 1)).size =
        ((List.range (getWordCount (rd code off) - 2)).map
          (fun j => (get d (operand code off (2 + j))).size)).sum % 4294967296 ∧
      (∀ f, (∀ i, 2 ≤ i → i < getWordCount (rd code off) → operand code off i = f) →
        (get d f).opType = 22 → (get d f).size = 4 →
        (get d' (operand code off 1)).size = 4 * (getWordCount (rd code off) - 2)) := by
  have hne : ∀ i, 2 ≤ i → i < getWordCount (rd code off) →
      operand code off i ≠ operand code off 1 := by
    intro i h1 h2 heq
    exact hmem i h1 h2 (heq ▸ hfresh)
  have hex : exec (getOpcode (rd code off)) (getWordCount (rd code off)) (operand code off) d =
      .ok (modify (modify d (operand code off 1) (fun e => { e with opType := 30 }))
        (operand code off 1)
        (fun e => { e with size := (e.size +
          memberSizes (modify d (operand code off 1) (fun e => { e with opType := 30 }))
            (operand code off) 2 (getWordCount (rd code off) - 2)) % 4294967296 })) := by
    rw [hop, exec_struct]
    apply structMembers_ok
    · simp [find_modify_self]
    · rw [get_modify_self]
      simp [get, hfresh]
    · intro i h1 h2
      exact ⟨find_modify_isSome d _ _ _ (hmem i h1 (by omega)), hne i h1 (by omega)⟩
  have hms : memberSizes (modify d (operand code off 1) (fun e => { e with opType := 30 }))
      (operand code off) 2 (getWordCount (rd code off) - 2) =
      memberSizes d (operand code off) 2 (getWordCount (rd code off) - 2) := by
    apply memberSizes_congr
    intro i h1 h2
    exact get_modify_ne d _ _ _ (fun a => hne i h1 (by omega) a.symm)
  rw [hms] at hex
  have hsize : (get (modify (modify d (operand code off 1) (fun e => { e with opType := 30 }))
        (operand code off 1)
        (fun e => { e with size := (e.size +
          memberSizes d (operand code off) 2 (getWordCount (rd code off) - 2)) % 4294967296 }))
      (operand code off 1)).size =
      memberSizes d (operand code off) 2 (getWordCount (rd code off) - 2) % 4294967296 := by
    rw [get_modify_self, get_modify_self]
    simp [get, hfresh]
  refine ⟨_, loopBody_next_of code cs off d _ hlt hlen (by rw [hop]; decide) hex, ?_, ?_, ?_⟩
  · rw [get_modify_self, get_modify_self]
  · rw [hsize]
    rfl
  · intro f hall hty hsz
    rw [hsize]
    have hsum : memberSizes d (operand code off) 2 (getWordCount (rd code off) - 2) =
        4 * (getWordCount (rd code off) - 2) := by
      unfold memberSizes
      have : (List.range (getWordCount (rd code off) - 2)).map
          (fun j => (get d (operand code off (2 + j))).size) =
          (List.range (getWordCount (rd code off) - 2)).map (fun _ => 4) := by
        apply List.map_congr_left
        intro j hj
        have hj' := List.mem_range.mp hj
        rw [hall (2 + j) (by omega) (by omega), hsz]
      rw [this]
      simp [Nat.mul_comm]
    rw [hsum]
    have := getWordCount_lt (rd code off)
    omega

/-- C2, at a concrete input: the three-float struct of `floatStructStream` (offset 8), reached
with the float (id 1) in the table, is recorded as id 2 with size 12. -/
theorem C2_struct_size_witness :
    ∃ d', loopBody (ofList floatStructStream) 13 8 [(1, { size := 4, opType := 22 })] =
        .next 13 d' ∧
      (get d' 2).opType = 30 ∧ (get d' 2).size = 12 := by
  obtain ⟨d', h1, h2, h3, _⟩ := C2_struct_size (ofList floatStructStream) 13 8
    [(1, { size := 4, opType := 22 })] (by decide) (by decide) (by decide) (by decide)
    (by decide)
  exact ⟨d', h1, h2, h3⟩

/-- C3: when the scan executes an `OpTypeVector` (23), `OpTypeMatrix` (24) or `OpTypeArray`
(28) instruction whose element type id has an entry of size `s` in the table, the instruction
is completed and the declared id is recorded with size `s * c` as a 32-bit unsigned product,
where `c` is the literal count operand (word 3 of the instruction, also for arrays); the
opcode is recorded as the entry's kind and no other id changes. -/
theorem C3_composite_size (code : Nat → Nat) (cs off : Nat) (d : Declarations)
    (el : basic_declaration) (hlt : off < cs)
    (hop : getOpcode (rd code off) = 23 ∨ getOpcode (rd code off) = 24 ∨
      getOpcode (rd code off) = 28)
    (hlen : getWordCount (rd code off) ≠ 0)
    (hel : find d (operand code off 2) = some el) :
    ∃ d', loopBody code cs off d =
        .next ((off + getWordCount (rd code off)) % 4294967296) d' ∧
      (get d' (operand code off 1)).size = (el.size * operand code off 3) % 4294967296 ∧
      (get d' (operand code off 1)).opType = getOpcode (rd code off) ∧
      (∀ k, k ≠ operand code off 1 → find d' k = find d k) := by
  have hex := exec_composite (getOpcode (rd code off)) (getWordCount (rd code off))
    (operand code off) d hop
  rw [hel] at hex
  refine ⟨_, loopBody_next_of code cs off d _ hlt hlen (by omega) hex, ?_, ?_, ?_⟩
  · rw [get_modify_self]
  · rw [get_modify_self]
  · intro k hk
    exact find_modify_ne d _ k _ (fun a => hk a.symm)

/-- C3, at a concrete input: the `vec4` of `vectorStream` (offset 8), reached with the float
(id 1, size 4) in the table, is recorded as id 2 with size 16. -/
theorem C3_composite_size_witness :
    ∃ d', loopBody (ofList vectorStream) 12 8 [(1, { size := 4, opType := 22 })] =
        .next 12 d' ∧
      (get d' 2).size = 16 ∧ (get d' 2).opType = 23 := by
  obtain ⟨d', h1, h2, h3, _⟩ := C3_composite_size (ofList vectorStream) 12 8
    [(1, { size := 4, opType := 22 })] { size := 4, opType := 22 } (by decide) (by decide)
    (by decide) (by decide)
  exact ⟨d', h1, h2, h3⟩

/-- C4 (as stated, refuted): after the scan of the uniform block module the id declared by
`OpVariable` (id 5, of pointer type 4) has size 32 in the table, the size of the struct it
points to, not 8. -/
theorem C4_variable_size_not_8 :
    ∃ d, scan 7 (ofList (blockStream 0 0 0 0 0)) 32 5 [] = some (.ok d) ∧
      (get d 5).opType = 59 ∧ (get d 5).pointerTarget = 4 ∧ (get d 5).size = 32 ∧
      (get d 5).size ≠ 8 :=
  ⟨_, scan_blockStream, rfl, rfl, rfl, by decide⟩

/-- C4 (amended): an `OpTypePointer` instruction leaves the id it declares with size 8 and
with pointerTarget the id of the type it references. An `OpVariable` instruction leaves the id
it declares with pointerTarget the id of its type, and with the size recorded for what that
type points to (the entry named by the type's pointerTarget when that is non-zero, else the
type's own entry), not with 8. In both cases the entry stays as it is until the end of the scan
unless a later executed instruction assigns to the same id. -/
theorem C4_pointer_variable_entries (code : Nat → Nat) (cs off : Nat) (d : Declarations)
    (hlt : off < cs) (hlen : getWordCount (rd code off) ≠ 0)
    (hop : getOpcode (rd code off) = 32 ∨ getOpcode (rd code off) = 59) :
    ∃ d', loopBody code cs off d =
        .next ((off + getWordCount (rd code off)) % 4294967296) d' ∧
      (getOpcode (rd code off) = 32 →
        (get d' (operand code off 1)).size = 8 ∧
        (get d' (operand code off 1)).pointerTarget = operand code off 3) ∧
      (getOpcode (rd code off) = 59 →
        (get d' (operand code off 2)).pointerTarget = operand code off 1 ∧
        (get d' (operand code off 2)).size =
          variableSize d (operand code off 1) (operand code off 2) (operand code off 3) ∧
        (operand code off 2 ≠ operand code off 1 →
          operand code off 2 ≠ (get d (operand code off 1)).pointerTarget →
          (get d' (operand code off 2)).size =
            if (get d (operand code off 1)).pointerTarget ≠ 0
            then (get d (get d (operand code off 1)).pointerTarget).size
            else (get d (operand code off 1)).size)) ∧
      (∀ fuel dEnd,
        scan fuel code cs ((off + getWordCount (rd code off)) % 4294967296) d' = some (.ok dEnd) →
        (∀ j oj dj,
          iterate j code cs ((off + getWordCount (rd code off)) % 4294967296) d' = some (oj, dj) →
          declaredId code oj ≠ declaredId code off) →
        get dEnd (declaredId code off) = get d' (declaredId code off)) := by
  have hframe : ∀ d' : Declarations, ∀ fuel dEnd,
      scan fuel code cs ((off + getWordCount (rd code off)) % 4294967296) d' = some (.ok dEnd) →
      (∀ j oj dj,
        iterate j code cs ((off + getWordCount (rd code off)) % 4294967296) d' = some (oj, dj) →
        declaredId code oj ≠ declaredId code off) →
      get dEnd (declaredId code off) = get d' (declaredId code off) :=
    fun d' fuel dEnd h1 h2 => scan_get_frame fuel code cs _ d' dEnd _ h1 h2
  rcases hop with hop | hop
  · have hex := exec_pointer (getWordCount (rd code off)) (operand code off) d
    rw [← hop] at hex
    refine ⟨_, loopBody_next_of code cs off d _ hlt hlen (by omega) hex, ?_, ?_, hframe _⟩
    · intro _
      rw [get_modify_self]
      exact ⟨rfl, rfl⟩
    · intro h
      omega
  · obtain ⟨d', hex, hent⟩ := exec_variable_entry (getWordCount (rd code off))
      (operand code off) d
    rw [← hop] at hex
    refine ⟨d', loopBody_next_of code cs off d _ hlt hlen (by omega) hex, ?_, ?_, hframe _⟩
    · intro h
      omega
    · intro _
      rw [hent]
      refine ⟨?_, rfl, ?_⟩
      · simp only [variableDeclared, get_modify_self]
      · intro h1 h2
        exact variableSize_of_ne d _ _ _ h1 h2

/-- C4, at a concrete input: the `OpVariable` instruction of the uniform block module (offset
20), executed on the table the four type declarations before it leave; the variable (id 5) is
recorded with pointerTarget 4 and size 32. -/
theorem C4_pointer_variable_entries_witness :
    ∃ d', loopBody (ofList (blockStream 0 0 0 0 0)) 32 20 blockTypes = .next 24 d' ∧
      (get d' 5).pointerTarget = 4 ∧ (get d' 5).size = 32 := by
  obtain ⟨d', h1, _, h3, _⟩ := C4_pointer_variable_entries (ofList (blockStream 0 0 0 0 0)) 32 20
    blockTypes (by decide) (by decide) (by decide)
  exact ⟨d', h1, (h3 rfl).1, (h3 rfl).2.1⟩

/-- The three instructions `OpDecorate v Binding b`, `OpDecorate v DescriptorSet s` and
`OpVariable ty v sc`, executed in either order from the same table, leave the same table. -/
theorem decorated_variable_block (code1 code2 : Nat → Nat) (cs off : Nat) (d : Declarations)
    (ty v sc b s : Nat) (hsc : sc = 2 ∨ sc = 11 ∨ sc = 12)
    (hcs : cs < 4294967296) (hoff : off + 12 ≤ cs)
    (h1 : wordsAt code1 off (decoratedThenDeclared ty v sc b s))
    (h2 : wordsAt code2 off (declaredThenDecorated ty v sc b s)) :
    ∃ d', iterate 3 code1 cs off d = some (off + 12, d') ∧
      iterate 3 code2 cs off d = some (off + 12, d') ∧
      (get d' v).binding = b ∧ (get d' v).descriptorSet = s ∧
      (get d' v).storageClass = sc ∧ (get d' v).isPublic = true := by
  obtain ⟨t0, ht0, hB⟩ := exec_variable_modify_comm 4 (fun i => [0, ty, v, sc].getD i 0) d
    (fun e => { e with binding := b }) (fun _ => rfl) (fun _ _ => rfl)
  obtain ⟨t1, ht1, hS⟩ := exec_variable_modify_comm 4 (fun i => [0, ty, v, sc].getD i 0)
    (modify d v (fun e => { e with binding := b }))
    (fun e => { e with descriptorSet := s }) (fun _ => rfl) (fun _ _ => rfl)
  have ht : t1 = modify t0 v (fun e => { e with binding := b }) := by
    have := ht1.symm.trans hB
    exact Except.ok.inj this
  subst ht
  have hl1 : off + (decoratedThenDeclared ty v sc b s).length < 4294967296 := by
    simp only [decoratedThenDeclared, List.length_cons, List.length_nil]
    omega
  have hl2 : off + (declaredThenDecorated ty v sc b s).length < 4294967296 := by
    simp only [declaredThenDecorated, List.length_cons, List.length_nil]
    omega
  have hc1 : off + (decoratedThenDeclared ty v sc b s).length ≤ cs := hoff
  have hc2 : off + (declaredThenDecorated ty v sc b s).length ≤ cs := hoff
  -- decorations first
  have a1 : loopBody code1 cs off d = .next (off + 4)
      (modify d v (fun e => { e with binding := b })) :=
    decorate_step code1 cs off 0 d _ v 33 b h1 hl1 hc1 (by simp [decoratedThenDeclared]) rfl rfl rfl rfl
  have a2 : loopBody code1 cs (off + 4) (modify d v (fun e => { e with binding := b })) =
      .next (off + 8) (modify (modify d v (fun e => { e with binding := b })) v
        (fun e => { e with descriptorSet := s })) :=
    decorate_step code1 cs off 4 _ _ v 34 s h1 hl1 hc1 (by simp [decoratedThenDeclared]) rfl rfl rfl rfl
  have a3 : loopBody code1 cs (off + 8) (modify (modify d v (fun e => { e with binding := b })) v
        (fun e => { e with descriptorSet := s })) =
      .next (off + 12) (modify (modify t0 v (fun e => { e with binding := b })) v
        (fun e => { e with descriptorSet := s })) :=
    variable_step code1 cs off 8 _ _ (fun i => [0, ty, v, sc].getD i 0) h1 hl1 hc1 (by simp [decoratedThenDeclared])
      rfl rfl rfl rfl _ hS
  -- variable first
  have b1 : loopBody code2 cs off d = .next (off + 4) t0 :=
    variable_step code2 cs off 0 d _ (fun i => [0, ty, v, sc].getD i 0) h2 hl2 hc2 (by simp [declaredThenDecorated])
      rfl rfl rfl rfl _ ht0
  have b2 : loopBody code2 cs (off + 4) t0 = .next (off + 8)
      (modify t0 v (fun e => { e with binding := b })) :=
    decorate_step code2 cs off 4 t0 _ v 33 b h2 hl2 hc2 (by simp [declaredThenDecorated]) rfl rfl rfl rfl
  have b3 : loopBody code2 cs (off + 8) (modify t0 v (fun e => { e with binding := b })) =
      .next (off + 12) (modify (modify t0 v (fun e => { e with binding := b })) v
        (fun e => { e with descriptorSet := s })) :=
    decorate_step code2 cs off 8 _ _ v 34 s h2 hl2 hc2 (by simp [declaredThenDecorated]) rfl rfl rfl rfl
  obtain ⟨t0', ht0', hent⟩ := exec_variable_entry 4 (fun i => [0, ty, v, sc].getD i 0) d
  have : t0' = t0 := Except.ok.inj (ht0'.symm.trans ht0)
  subst this
  have hent' : get t0' v = { variableFields ty sc (get d v) with
      size := variableSize d ty v sc } := by
    have h3 : get (variableDeclared d ty v sc) v = variableFields ty sc (get d v) := by
      rw [variableDeclared_eq, get_modify_self]
    rw [← h3]
    exact hent
  refine ⟨modify (modify t0' v (fun e => { e with binding := b })) v
    (fun e => { e with descriptorSet := s }),
    by simp [iterate, a1, a2, a3], by simp [iterate, b1, b2, b3], ?_, ?_, ?_, ?_⟩
  · rw [get_modify_self, get_modify_self]
  · rw [get_modify_self, get_modify_self]
  · rw [get_modify_self, get_modify_self, hent']
    rfl
  · rw [get_modify_self, get_modify_self, hent']
    simp [variableFields, hsc]

/-- The decorations next to the variable: let two buffers reach, after the same `k`
instructions, the same offset and table, and hold there the instructions `OpDecorate v Binding
b`, `OpDecorate v DescriptorSet s` and `OpVariable ty v sc` with `sc` a public storage class,
the first buffer with the decorations before the variable and the second with the decorations
after it. Then both scans leave the block with the same table, in which `v` is public with
binding `b`, descriptorSet `s` and storage class `sc`; for either buffer, when the call
succeeds and no later instruction assigns to `v`, the descriptor built from that entry is among
the emitted descriptors; and when the two buffers agree after the block (and `codeSize` is at
most 2^32 - 2^16, so that the scan cannot wrap around), the two calls of `analyze_spirv` give
the same result. -/
theorem decorated_block_same_result (fuel k : Nat) (it : IterationOrder) (code1 code2 : Nat → Nat)
    (cs off stage : Nat) (pd : Nat → public_spirv_variable_declaration) (n : Nat)
    (d : Declarations) (ty v sc b s : Nat)
    (hsc : sc = 2 ∨ sc = 11 ∨ sc = 12)
    (hcs : cs < 4294967296) (hoff : off + 12 ≤ cs)
    (h1 : wordsAt code1 off (decoratedThenDeclared ty v sc b s))
    (h2 : wordsAt code2 off (declaredThenDecorated ty v sc b s))
    (hr1 : iterate k code1 cs 5 [] = some (off, d))
    (hr2 : iterate k code2 cs 5 [] = some (off, d)) :
    ∃ d', iterate (k + 3) code1 cs 5 [] = some (off + 12, d') ∧
      iterate (k + 3) code2 cs 5 [] = some (off + 12, d') ∧
      (get d' v).isPublic = true ∧
      toPublic stage (get d' v) =
        { binding := b, descriptorSet := s, size := (get d' v).size, type := sc,
          stageFlags := stage } ∧
      (∀ code, code = code1 ∨ code = code2 →
        ∀ r, analyze_spirv (k + 3 + fuel) it code cs stage pd n = some r → r.failure = none →
        (∀ j oj dj, iterate j code cs (off + 12) d' = some (oj, dj) →
          declaredId code oj ≠ v) →
        toPublic stage (get d' v) ∈ descriptorList r.publicDecls r.variableCount) ∧
      ((∀ i, off + 12 ≤ i → rd code1 i = rd code2 i) → cs + 65536 ≤ 4294967296 →
        analyze_spirv (k + 3 + fuel) it code1 cs stage pd n =
          analyze_spirv (k + 3 + fuel) it code2 cs stage pd n) := by
  obtain ⟨d', i1, i2, hb, hs, hc, hp⟩ :=
    decorated_variable_block code1 code2 cs off d ty v sc b s hsc hcs hoff h1 h2
  have j1 : iterate (k + 3) code1 cs 5 [] = some (off + 12, d') := by
    rw [iterate_add k 3 code1 cs 5 off [] d hr1, i1]
  have j2 : iterate (k + 3) code2 cs 5 [] = some (off + 12, d') := by
    rw [iterate_add k 3 code2 cs 5 off [] d hr2, i2]
  have s1 : scan (k + 3 + fuel) code1 cs 5 [] = scan fuel code1 cs (off + 12) d' :=
    iterate_scan (k + 3) fuel code1 cs 5 (off + 12) [] d' j1
  have s2 : scan (k + 3 + fuel) code2 cs 5 [] = scan fuel code2 cs (off + 12) d' :=
    iterate_scan (k + 3) fuel code2 cs 5 (off + 12) [] d' j2
  refine ⟨d', j1, j2, hp, ?_, ?_, ?_⟩
  · simp only [toPublic, hb, hs, hc]
  · intro code hcode r hr hf hlater
    have sc' : scan (k + 3 + fuel) code cs 5 [] = scan fuel code cs (off + 12) d' := by
      rcases hcode with rfl | rfl
      · exact s1
      · exact s2
    obtain ⟨dEnd, hscan, hre⟩ := analyze_spirv_ok_inv _ it code cs stage pd n r hr hf
    rw [sc'] at hscan
    have hfr : get dEnd v = get d' v :=
      scan_get_frame fuel code cs (off + 12) d' dEnd v hscan hlater
    have hp' : (get dEnd v).isPublic = true := by rw [hfr]; exact hp
    subst hre
    rw [← hfr]
    exact emitted_of_public stage it dEnd pd n v hf hp'
  · intro hrest hwide
    unfold analyze_spirv
    rw [s1, s2, scan_congr fuel code1 code2 (off + 12) cs (off + 12) d' hrest (Nat.le_refl _)
      hwide]

theorem classFlagged_rel : EntryRel (fun a b => ClassFlagged a → ClassFlagged b) where
  refl := fun _ h => h
  trans := fun _ _ _ h1 h2 h => h2 (h1 h)
  size := fun _ _ h => h
  opType := fun _ _ h => h
  pointerTarget := fun _ _ h => h
  binding := fun _ _ h => h
  descriptorSet := fun _ _ h => h
  declared := by
    intro e ty sc _ hsc
    simp only [variableFields] at hsc ⊢
    simp [hsc]

theorem flag_kept_rel : EntryRel (fun a b => a.isPublic = true → b.isPublic = true) where
  refl := fun _ h => h
  trans := fun _ _ _ h1 h2 h => h2 (h1 h)
  size := fun _ _ h => h
  opType := fun _ _ h => h
  pointerTarget := fun _ _ h => h
  binding := fun _ _ h => h
  descriptorSet := fun _ _ h => h
  declared := by
    intro e ty sc h
    simp only [variableFields]
    simp [h]

/-- C6 (as stated, refuted): after the scan of `redeclaredStream` the entry of id 7 has
isPublic = true while its recorded storage class is 7, none of the three resource classes, and
a descriptor (of type 7) is emitted for it. -/
theorem C6_flag_survives_redeclaration :
    ∃ d r, scan 2 (ofList redeclaredStream) 13 5 [] = some (.ok d) ∧
      (get d 7).isPublic = true ∧ (get d 7).storageClass = 7 ∧
      ¬ ((get d 7).storageClass = 2 ∨ (get d 7).storageClass = 11 ∨
          (get d 7).storageClass = 12) ∧
      analyze_spirv 2 insertionOrder (ofList redeclaredStream) 13 1 (fun _ => default) 0
        = some r ∧
      r.failure = none ∧ r.variableCount = 1 ∧ (r.publicDecls 0).type = 7 :=
  ⟨[(7, { opType := 59, pointerTarget := 9, storageClass := 7, isPublic := true }), (9, {})], _,
    rfl, rfl, rfl, by decide, rfl, rfl, rfl, rfl⟩

/-- C6 (amended): at every point of the scan, and in the table the extraction loop reads,
every entry whose recorded storage class is 2, 11 or 12 has isPublic = true. The converse
need not hold: no instruction clears the flag, and an `OpVariable` instruction records its
storage class and leaves the flag true exactly when that class is 2, 11 or 12 or the flag was
true before. A successful call appends a descriptor for exactly the entries whose isPublic is
true, in visiting order. -/
theorem C6_public_flag (code : Nat → Nat) (cs : Nat) :
    (∀ j off d k e, iterate j code cs 5 [] = some (off, d) → find d k = some e →
      ClassFlagged e) ∧
    (∀ fuel d k e, scan fuel code cs 5 [] = some (.ok d) → find d k = some e →
      ClassFlagged e) ∧
    (∀ off off' d d' k, loopBody code cs off d = .next off' d' →
      (get d k).isPublic = true → (get d' k).isPublic = true) ∧
    (∀ off off' d d', loopBody code cs off d = .next off' d' →
      getOpcode (rd code off) = 59 →
      (get d' (operand code off 2)).storageClass = operand code off 3 ∧
      ((get d' (operand code off 2)).isPublic = true ↔
        ((operand code off 3 = 2 ∨ operand code off 3 = 11 ∨ operand code off 3 = 12) ∨
          (get d (operand code off 2)).isPublic = true))) ∧
    (∀ fuel it stage pd n r, analyze_spirv fuel it code cs stage pd n = some r →
      r.failure = none →
      ∃ d, scan fuel code cs 5 [] = some (.ok d) ∧
        descriptorList r.publicDecls r.variableCount =
          descriptorList pd n ++
            ((it.order d).filter (fun p => p.2.isPublic)).map (fun p => toPublic stage p.2)) := by
  refine ⟨?_, ?_, ?_, ?_, ?_⟩
  · intro j off d k e hi hf
    have := iterate_rel _ classFlagged_rel j code cs 5 off [] d hi k
      (by intro h; simp [get, find] at h)
    rwa [get_of_find d k e hf] at this
  · intro fuel d k e hs hf
    have := scan_rel _ classFlagged_rel fuel code cs 5 [] d hs k
      (by intro h; simp [get, find] at h)
    rwa [get_of_find d k e hf] at this
  · intro off off' d d' k hb
    exact loopBody_rel _ flag_kept_rel code cs off off' d d' hb k
  · intro off off' d d' hb hop
    obtain ⟨_, _, _, hex, _⟩ := loopBody_next_inv code cs off off' d d' hb
    rw [hop] at hex
    obtain ⟨t, ht, hent⟩ := exec_variable_entry (getWordCount (rd code off)) (operand code off) d
    have : t = d' := Except.ok.inj (ht.symm.trans hex)
    subst this
    rw [hent]
    simp only [variableDeclared_eq, get_modify_self, variableFields]
    refine ⟨trivial, ?_⟩
    by_cases hsc : operand code off 3 = 2 ∨ operand code off 3 = 11 ∨ operand code off 3 = 12
    · simp [hsc]
    · simp [hsc]
  · intro fuel it stage pd n r hr hf
    obtain ⟨d, hs, hre⟩ := analyze_spirv_ok_inv fuel it code cs stage pd n r hr hf
    subst hre
    refine ⟨d, hs, ?_⟩
    rw [(extract_ok stage (it.order d) pd n hf).2]
    simp [publicEntries, List.map_map, Function.comp]

/-- C6, at a concrete input: after the first instruction of `redeclaredStream` the entry of id
7 records class 2 and is public. -/
theorem C6_public_flag_witness :
    iterate 1 (ofList redeclaredStream) 13 5 [] =
      some (9, [(7, { opType := 59, pointerTarget := 9, storageClass := 2, isPublic := true }),
                (9, {})]) ∧
    ({ opType := 59, pointerTarget := 9, storageClass := 2, isPublic := true } :
      basic_declaration).isPublic = true :=
  ⟨rfl, (C6_public_flag (ofList redeclaredStream) 13).1 1 9 _ 7 _ rfl rfl (Or.inl rfl)⟩

theorem descriptorList_add (pd : Nat → public_spirv_variable_declaration) (n m : Nat) :
    descriptorList pd (n + m) =
      descriptorList pd n ++ (List.range m).map (fun j => pd (n + j)) := by
  unfold descriptorList
  rw [List.range_add, List.map_append, List.map_map]
  rfl

theorem publicEntries_order_length (it : IterationOrder) (d : Declarations) :
    (publicEntries (it.order d)).length = (publicEntries d).length :=
  (publicEntries_perm _ _ (it.perm d)).length_eq

theorem extract_slots (stage : Nat) (l : Declarations)
    (pd : Nat → public_spirv_variable_declaration) (n : Nat)
    (h : (extract stage l pd n).failure = none) (j : Nat) (hj : j < (publicEntries l).length) :
    ∃ k e, (l.filter (fun p => p.2.isPublic))[j]? = some (k, e) ∧ (k, e) ∈ l ∧
      e.isPublic = true ∧ (extract stage l pd n).publicDecls (n + j) = toPublic stage e := by
  obtain ⟨hc, hl⟩ := extract_ok stage l pd n h
  have hlen : (l.filter (fun p => p.2.isPublic)).length = (publicEntries l).length := by
    simp [publicEntries]
  have hj2 : j < (l.filter (fun p => p.2.isPublic)).length := by omega
  have hmem := List.getElem_mem hj2
  have hsome : (l.filter (fun p => p.2.isPublic))[j]? =
      some ((l.filter (fun p => p.2.isPublic))[j]) := List.getElem?_eq_getElem hj2
  generalize (l.filter (fun p => p.2.isPublic))[j] = q at hmem hsome
  obtain ⟨k, e⟩ := q
  rw [List.mem_filter] at hmem
  refine ⟨k, e, hsome, hmem.1, hmem.2, ?_⟩
  have hget := congrArg (fun xs => xs[n + j]?) hl
  have hpub : (publicEntries l)[j]? = some e := by
    simp [publicEntries, hsome]
  simp only [descriptorList, hc] at hget
  rw [List.getElem?_append_right (by simp), List.getElem?_map, List.getElem?_map,
    List.getElem?_range (by omega)] at hget
  simp only [List.length_map, List.length_range, Nat.add_sub_cancel_left, hpub, Option.map_some']
    at hget
  exact Option.some.inj hget

/-- C7: when a call of `analyze_spirv` for one stage succeeds, the count has grown by exactly
the number of public entries of the scanned table, the slots below the incoming count are
unchanged, and the appended slots hold the descriptors (binding, descriptorSet, size, storage
class of the entry, and the stage flag of the call) of the public entries, each entry once (a
permutation of the public entries, namely their visiting order): slot n + j has the binding,
the descriptorSet and the size of the j-th public entry visited, its storage class as type,
and the stage flag of the call. A second successful call for another stage on the resulting
array and count leaves the caller's list followed by the first stage's descriptors followed by
the second stage's: the slots of the caller and of the first stage are as the first call left
them, and slot n + (first count) + j has the fields of the j-th public entry of the second
table and the second stage flag. -/
theorem C7_append_public (fuel : Nat) (it : IterationOrder) (code : Nat → Nat) (cs stage : Nat)
    (pd : Nat → public_spirv_variable_declaration) (n : Nat) (r : CallResult)
    (h : analyze_spirv fuel it code cs stage pd n = some r) (hf : r.failure = none) :
    ∃ d, scan fuel code cs 5 [] = some (.ok d) ∧
      r.variableCount = n + (publicEntries d).length ∧
      (∀ i, i < n → r.publicDecls i = pd i) ∧
      ((List.range (publicEntries d).length).map (fun j => r.publicDecls (n + j))).Perm
        ((publicEntries d).map (toPublic stage)) ∧
      descriptorList r.publicDecls r.variableCount =
        descriptorList pd n ++ (publicEntries (it.order d)).map (toPublic stage) ∧
      (∀ fuel2 it2 code2 cs2 stage2 r2,
        analyze_spirv fuel2 it2 code2 cs2 stage2 r.publicDecls r.variableCount = some r2 →
        r2.failure = none →
        ∃ d2, scan fuel2 code2 cs2 5 [] = some (.ok d2) ∧
          r2.variableCount = n + (publicEntries d).length + (publicEntries d2).length ∧
          descriptorList r2.publicDecls r2.variableCount =
            descriptorList pd n ++ (publicEntries (it.order d)).map (toPublic stage) ++
              (publicEntries (it2.order d2)).map (toPublic stage2) ∧
          (∀ i, i < n + (publicEntries d).length → r2.publicDecls i = r.publicDecls i) ∧
          (∀ j, j < (publicEntries d2).length →
            ∃ k e, ((it2.order d2).filter (fun p => p.2.isPublic))[j]? = some (k, e) ∧
              (k, e) ∈ d2 ∧ e.isPublic = true ∧
              (r2.publicDecls (n + (publicEntries d).length + j)).binding = e.binding ∧
              (r2.publicDecls (n + (publicEntries d).length + j)).descriptorSet =
                e.descriptorSet ∧
              (r2.publicDecls (n + (publicEntries d).length + j)).size = e.size ∧
              (r2.publicDecls (n + (publicEntries d).length + j)).type = e.storageClass ∧
              (r2.publicDecls (n + (publicEntries d).length + j)).stageFlags = stage2)) ∧
      ((it.order d).filter (fun p => p.2.isPublic)).Perm (d.filter (fun p => p.2.isPublic)) ∧
      (∀ j, j < (publicEntries d).length →
        ∃ k e, ((it.order d).filter (fun p => p.2.isPublic))[j]? = some (k, e) ∧
          (k, e) ∈ d ∧ e.isPublic = true ∧
          (r.publicDecls (n + j)).binding = e.binding ∧
          (r.publicDecls (n + j)).descriptorSet = e.descriptorSet ∧
          (r.publicDecls (n + j)).size = e.size ∧
          (r.publicDecls (n + j)).type = e.storageClass ∧
          (r.publicDecls (n + j)).stageFlags = stage) := by
  obtain ⟨d, hs, hre⟩ := analyze_spirv_ok_inv fuel it code cs stage pd n r h hf
  subst hre
  obtain ⟨hc, hl⟩ := extract_ok stage (it.order d) pd n hf
  rw [publicEntries_order_length] at hc
  have hframe : ∀ i, i < n → (extract stage (it.order d) pd n).publicDecls i = pd i :=
    fun i hi => extract_frame stage (it.order d) pd n i hi
  refine ⟨d, hs, hc, hframe, ?_, hl, ?_, (it.perm d).filter _, ?_⟩
  · have h1 := hl
    rw [hc, descriptorList_add, descriptorList_congr pd _ n hframe] at h1
    rw [List.append_cancel_left h1]
    exact (publicEntries_perm _ _ (it.perm d)).map _
  · intro fuel2 it2 code2 cs2 stage2 r2 h2 hf2
    obtain ⟨d2, hs2, hre2⟩ := analyze_spirv_ok_inv fuel2 it2 code2 cs2 stage2 _ _ r2 h2 hf2
    subst hre2
    obtain ⟨hc2, hl2⟩ := extract_ok stage2 (it2.order d2) _ _ hf2
    rw [publicEntries_order_length] at hc2
    refine ⟨d2, hs2, by rw [hc2, hc], by rw [hl2, hl], ?_, ?_⟩
    · intro i hi
      exact extract_frame stage2 (it2.order d2) _ _ i (by rw [hc]; exact hi)
    · intro j hj
      obtain ⟨k, e, h1, h2, h3, h4⟩ := extract_slots stage2 (it2.order d2) _ _ hf2 j
        (by rw [publicEntries_order_length]; exact hj)
      refine ⟨k, e, h1, (it2.perm d2).subset h2, h3, ?_⟩
      rw [← hc, h4]
      exact ⟨rfl, rfl, rfl, rfl, rfl⟩
  · intro j hj
    obtain ⟨k, e, h1, h2, h3, h4⟩ := extract_slots stage (it.order d) pd n hf j
      (by rw [publicEntries_order_length]; exact hj)
    refine ⟨k, e, h1, (it.perm d).subset h2, h3, ?_⟩
    rw [h4]
    exact ⟨rfl, rfl, rfl, rfl, rfl⟩

/-- C7, at a concrete input: the uniform block module, analysed into an empty list for stage
flag 1; the one descriptor appended has binding 1, descriptorSet 0, size 32, type 2 (the
storage class Uniform) and stage flag 1. -/
theorem C7_append_public_witness :
    ∃ d, scan 7 (ofList (blockStream 0 0 0 0 0)) 32 5 [] = some (.ok d) ∧
      (extract 1 (insertionOrder.order
        [(1, { size := 4, opType := 22 }), (2, { size := 16, opType := 23 }),
         (3, { size := 32, opType := 30 }), (4, { size := 8, opType := 32, pointerTarget := 3 }),
         (5, { size := 32, opType := 59, pointerTarget := 4, storageClass := 2,
               isPublic := true, binding := 1 })])
        (fun _ => default) 0).variableCount = 0 + (publicEntries d).length ∧
      (extract 1 (insertionOrder.order
        [(1, { size := 4, opType := 22 }), (2, { size := 16, opType := 23 }),
         (3, { size := 32, opType := 30 }), (4, { size := 8, opType := 32, pointerTarget := 3 }),
         (5, { size := 32, opType := 59, pointerTarget := 4, storageClass := 2,
               isPublic := true, binding := 1 })])
        (fun _ => default) 0).publicDecls 0 =
        { binding := 1, descriptorSet := 0, size := 32, type := 2, stageFlags := 1 } := by
  obtain ⟨d, h1, h2, _⟩ := C7_append_public 7 insertionOrder (ofList (blockStream 0 0 0 0 0)) 32 1
    (fun _ => default) 0 _ (analyze_spirv_of_scan_ok 7 insertionOrder _ 32 1 _ 0 _ scan_blockStream)
    rfl
  exact ⟨d, h1, h2, by decide⟩

/-- C8 (as stated, refuted): the scan of `zeroLengthStream` reaches at offset 9, before
the end of the 14-word buffer, a header whose length field is 0; `analyze_spirv` signals no
failure and returns the one descriptor recorded before that point. -/
theorem C8_zero_length_returns :
    ∃ d r, iterate 1 (ofList zeroLengthStream) 14 5 [] = some (9, d) ∧ 9 < 14 ∧
      getWordCount (rd (ofList zeroLengthStream) 9) = 0 ∧
      analyze_spirv 1 insertionOrder (ofList zeroLengthStream) 14 1 (fun _ => default) 0
        = some r ∧
      r.failure = none ∧ r.variableCount = 1 :=
  ⟨_, _, rfl, by decide, rfl, rfl, rfl, rfl⟩

/-- C8 (amended): when the scan reaches, before the end of the buffer, an instruction header
whose length field is 0, the loop is left by `break` with the table as it stands, and
`analyze_spirv` goes on to the extraction loop over that table: it returns the descriptors of
the public entries recorded up to that point, and signals a failure only if the capacity
assertion of the extraction loop trips. -/
theorem C8_zero_length_stops (fuel k : Nat) (it : IterationOrder) (code : Nat → Nat)
    (cs stage : Nat) (pd : Nat → public_spirv_variable_declaration) (n off : Nat)
    (d : Declarations) (hreach : iterate k code cs 5 [] = some (off, d)) (_hlt : off < cs)
    (hz : getWordCount (rd code off) = 0) :
    scan (k + fuel) code cs 5 [] = some (.ok d) ∧
    analyze_spirv (k + fuel) it code cs stage pd n =
      some (extract stage (it.order d) pd n) ∧
    ((extract stage (it.order d) pd n).failure = none ↔
      ((publicEntries d).length = 0 ∨
        n + (publicEntries d).length ≤ RENDER_SPIRV_PUBLIC_VARIABLE_MAX_COUNT)) ∧
    ((extract stage (it.order d) pd n).failure = none →
      descriptorList (extract stage (it.order d) pd n).publicDecls
          (extract stage (it.order d) pd n).variableCount =
        descriptorList pd n ++ (publicEntries (it.order d)).map (toPublic stage)) := by
  have hs : scan (k + fuel) code cs 5 [] = some (.ok d) := by
    rw [iterate_scan k fuel code cs 5 off [] d hreach]
    cases fuel <;> simp [scan, loopBody_stop_of_zero code cs off d (Or.inl hz)]
  refine ⟨hs, analyze_spirv_of_scan_ok _ it code cs stage pd n d hs, ?_,
    fun hf => (extract_ok stage (it.order d) pd n hf).2⟩
  rw [extract_failure, publicEntries_order_length]
  split_ifs with hc
  · exact ⟨fun _ => hc, fun _ => rfl⟩
  · exact ⟨fun a => (by cases a), fun a => absurd a hc⟩

/-- C8, at a concrete input: `zeroLengthStream`, whose zero-length header is reached after one
instruction. -/
theorem C8_zero_length_stops_witness :
    iterate 1 (ofList zeroLengthStream) 14 5 [] =
      some (9, [(7, { opType := 59, pointerTarget := 9, storageClass := 2, isPublic := true }),
                (9, {})]) ∧
    scan (1 + 0) (ofList zeroLengthStream) 14 5 [] =
      some (.ok [(7, { opType := 59, pointerTarget := 9, storageClass := 2, isPublic := true }),
                 (9, {})]) :=
  ⟨rfl, (C8_zero_length_stops 0 1 insertionOrder (ofList zeroLengthStream) 14 1
    (fun _ => default) 0 9 _ rfl (by decide) rfl).1⟩

theorem structMembers_missing (arg : Nat → Nat) (s n i0 : Nat) (d : Declarations)
    (hs : find d s ≠ none)
    (h : ∃ i, i0 ≤ i ∧ i < i0 + n ∧ find d (arg i) = none) :
    structMembers arg s n i0 d = .error .out_of_range := by
  induction n generalizing i0 d with
  | zero =>
    obtain ⟨i, h1, h2, _⟩ := h
    omega
  | succ n ih =>
    simp only [structMembers]
    cases hm : find d (arg i0) with
    | none => rfl
    | some m =>
      simp only
      obtain ⟨i, h1, h2, h3⟩ := h
      have hne : i ≠ i0 := by
        intro a
        rw [a, hm] at h3
        cases h3
      apply ih (i0 + 1) _ (find_modify_isSome d s s _ hs)
      refine ⟨i, by omega, by omega, ?_⟩
      rw [find_modify_ne d s (arg i) _ (fun a => hs (a ▸ h3))]
      exact h3

/-- C9: when the scan reaches an `OpTypeVector`, `OpTypeMatrix` or `OpTypeArray` instruction
whose element type id has no entry in the table, or an `OpTypeStruct` instruction one of whose
member ids has no entry in the table at the point of the lookup (the table in which the
struct's own id has just been entered), `analyze_spirv` fails with the exception of
`declarations.at`, and the caller's array and count are exactly what they were before the
call. -/
theorem C9_unknown_type_fails (fuel k : Nat) (it : IterationOrder) (code : Nat → Nat)
    (cs stage : Nat) (pd : Nat → public_spirv_variable_declaration) (n off : Nat)
    (d : Declarations) (hreach : iterate k code cs 5 [] = some (off, d)) (hlt : off < cs)
    (hlen : getWordCount (rd code off) ≠ 0)
    (hbad :
      ((getOpcode (rd code off) = 23 ∨ getOpcode (rd code off) = 24 ∨
          getOpcode (rd code off) = 28) ∧ find d (operand code off 2) = none) ∨
      (getOpcode (rd code off) = 30 ∧
        ∃ i, 2 ≤ i ∧ i < getWordCount (rd code off) ∧
          find (modify d (operand code off 1) (fun e => { e with opType := 30 }))
            (operand code off i) = none)) :
    ∃ r, analyze_spirv (k + fuel) it code cs stage pd n = some r ∧
      r.failure = some Failure.out_of_range ∧ r.publicDecls = pd ∧ r.variableCount = n := by
  have hex : exec (getOpcode (rd code off)) (getWordCount (rd code off)) (operand code off) d =
      .error .out_of_range := by
    rcases hbad with ⟨hop, hnone⟩ | ⟨hop, i, h1, h2, hnone⟩
    · rw [exec_composite _ _ _ d hop, hnone]
    · rw [hop, exec_struct]
      exact structMembers_missing _ _ _ 2 _ (by simp [find_modify_self])
        ⟨i, h1, by omega, hnone⟩
  have hop0 : getOpcode (rd code off) ≠ 0 := by
    rcases hbad with ⟨hop, _⟩ | ⟨hop, _⟩ <;> omega
  have hb := loopBody_thrown_of code cs off d _ hlt hlen hop0 hex
  have hs : scan (k + fuel) code cs 5 [] = some (.error .out_of_range) := by
    rw [iterate_scan k fuel code cs 5 off [] d hreach]
    cases fuel <;> simp [scan, hb]
  exact ⟨_, analyze_spirv_of_scan_error _ it code cs stage pd n _ hs, rfl, rfl, rfl⟩

/-- C9, at a concrete input: `unknownElementStream`, a `vec4` of the undeclared id 1. -/
theorem C9_unknown_type_fails_witness :
    ∃ r, analyze_spirv (0 + 0) insertionOrder (ofList unknownElementStream) 9 1
        (fun _ => default) 0 = some r ∧
      r.failure = some Failure.out_of_range ∧ r.publicDecls = (fun _ => default) ∧
      r.variableCount = 0 :=
  C9_unknown_type_fails 0 0 insertionOrder (ofList unknownElementStream) 9 1
    (fun _ => default) 0 5 [] rfl (by decide) (by decide) (Or.inl ⟨by decide, rfl⟩)

/-- C10: two runs of `analyze_spirv` on the same buffer with the same stage flag, each started
with an empty descriptor list (count 0), whatever order each run visits the table in and
whatever the arrays held before: given the same number of loop iterations both complete or
neither does; when both complete they fail together (with the same failure) or succeed
together, and when they succeed their descriptor lists have the same length and are
permutations of each other. -/
theorem C10_two_runs (fuel1 fuel2 : Nat) (it1 it2 : IterationOrder) (code : Nat → Nat)
    (cs stage : Nat) (pd1 pd2 : Nat → public_spirv_variable_declaration) :
    (analyze_spirv fuel1 it1 code cs stage pd1 0).isSome =
      (analyze_spirv fuel1 it2 code cs stage pd2 0).isSome ∧
    (∀ r1 r2, analyze_spirv fuel1 it1 code cs stage pd1 0 = some r1 →
      analyze_spirv fuel2 it2 code cs stage pd2 0 = some r2 →
      r1.failure = r2.failure ∧
      (r1.failure = none →
        r1.variableCount = r2.variableCount ∧
        (descriptorList r1.publicDecls r1.variableCount).Perm
          (descriptorList r2.publicDecls r2.variableCount))) := by
  constructor
  · unfold analyze_spirv
    cases scan fuel1 code cs 5 [] with
    | none => rfl
    | some x => cases x <;> rfl
  · intro r1 r2 h1 h2
    unfold analyze_spirv at h1 h2
    cases hs1 : scan fuel1 code cs 5 [] with
    | none => simp [hs1] at h1
    | some x1 =>
      cases hs2 : scan fuel2 code cs 5 [] with
      | none => simp [hs2] at h2
      | some x2 =>
        have hx : x1 = x2 := scan_unique fuel1 fuel2 code cs 5 [] x1 x2 hs1 hs2
        subst hx
        cases x1 with
        | error f =>
          simp only [hs1, Option.some.injEq] at h1
          simp only [hs2, Option.some.injEq] at h2
          subst h1
          subst h2
          exact ⟨rfl, fun h => by simp at h⟩
        | ok d =>
          simp only [hs1, Option.some.injEq] at h1
          simp only [hs2, Option.some.injEq] at h2
          subst h1
          subst h2
          have hfe : (extract stage (it1.order d) pd1 0).failure =
              (extract stage (it2.order d) pd2 0).failure := by
            rw [extract_failure, extract_failure, publicEntries_order_length,
              publicEntries_order_length]
          refine ⟨hfe, fun hf1 => ?_⟩
          have hf2 := hfe ▸ hf1
          obtain ⟨c1, l1⟩ := extract_ok stage (it1.order d) pd1 0 hf1
          obtain ⟨c2, l2⟩ := extract_ok stage (it2.order d) pd2 0 hf2
          rw [publicEntries_order_length] at c1 c2
          refine ⟨by rw [c1, c2], ?_⟩
          rw [l1, l2]
          simp only [descriptorList, List.range_zero, List.map_nil, List.nil_append]
          exact ((publicEntries_perm _ _ (it1.perm d)).trans
            (publicEntries_perm _ _ (it2.perm d)).symm).map _

/-- C10, at a concrete input: `twoVariablesStream` visited in insertion order and in reverse
order. -/
theorem C10_two_runs_witness :
    (extract 1 (insertionOrder.order
        [(7, { opType := 59, pointerTarget := 9, storageClass := 2, isPublic := true }),
         (9, {}),
         (8, { opType := 59, pointerTarget := 9, storageClass := 12, isPublic := true })])
        (fun _ => default) 0).failure =
      (extract 1 (reverseOrder.order
        [(7, { opType := 59, pointerTarget := 9, storageClass := 2, isPublic := true }),
         (9, {}),
         (8, { opType := 59, pointerTarget := 9, storageClass := 12, isPublic := true })])
        (fun _ => default) 0).failure :=
  ((C10_two_runs 2 2 insertionOrder reverseOrder (ofList twoVariablesStream) 13 1
    (fun _ => default) (fun _ => default)).2 _ _ rfl rfl).1

/-! ## The renderer: checked loops and the two bracket operations -/

theorem issueChecked_all (dev : Device) (h : ∀ issued c, dev.success issued c = true)
    (calls issued : List DeviceCall) : issueChecked dev calls issued = (true, issued ++ calls) := by
  induction calls generalizing issued with
  | nil => simp [issueChecked]
  | cons c cs ih => simp [issueChecked, h, ih]

theorem issueChecked_prefix (dev : Device) (calls issued : List DeviceCall) :
    ∃ done, (issueChecked dev calls issued).2 = issued ++ done ∧ done <+: calls := by
  induction calls generalizing issued with
  | nil => exact ⟨[], by simp [issueChecked]⟩
  | cons c cs ih =>
    unfold issueChecked
    split_ifs with hc
    · obtain ⟨done, h1, h2⟩ := ih (issued ++ [c])
      exact ⟨c :: done, by simp [h1], by simpa using h2⟩
    · exact ⟨[c], by simp, by simp⟩

theorem begin_record_recording (dev : Device) (r : vulkan_wienderer) (h : r.recording = true) :
    begin_record dev r = ⟨some .already_recording, r⟩ := by
  simp [begin_record, h]

theorem end_record_idle (dev : Device) (r : vulkan_wienderer) (h : r.recording = false) :
    end_record dev r = ⟨some .not_recording, r⟩ := by
  simp [end_record, h]

theorem begin_record_cases (dev : Device) (r : vulkan_wienderer) :
    (r.recording = true ∧ begin_record dev r = ⟨some .already_recording, r⟩) ∨
    (r.recording = false ∧ ∃ issued,
      begin_record dev r = ⟨some .begin_buffer_failed, { r with issued := issued }⟩) ∨
    (r.recording = false ∧ ∃ issued,
      begin_record dev r =
        ⟨none, { r with issued := issued,
                        appliedCommands := r.appliedCommands ++ [⟨.BEGIN_RECORD, .empty⟩],
                        recording := true }⟩) := by
  cases hr : r.recording with
  | true => exact Or.inl ⟨rfl, begin_record_recording dev r hr⟩
  | false =>
    rcases hc : issueChecked dev (beginCalls r) r.issued with ⟨ok, issued⟩
    cases ok with
    | false => exact Or.inr (Or.inl ⟨rfl, issued, by simp [begin_record, hr, hc]⟩)
    | true => exact Or.inr (Or.inr ⟨rfl, issued, by simp [begin_record, hr, hc, record]⟩)

theorem end_record_cases (dev : Device) (r : vulkan_wienderer) :
    (r.recording = false ∧ end_record dev r = ⟨some .not_recording, r⟩) ∨
    (r.recording = true ∧ ∃ issued,
      end_record dev r = ⟨some .end_buffer_failed, { r with issued := issued }⟩) ∨
    (r.recording = true ∧ ∃ issued,
      end_record dev r =
        ⟨none, { r with issued := issued,
                        appliedCommands := r.appliedCommands ++ [⟨.END_RECORD, .empty⟩],
                        recording := false }⟩) := by
  cases hr : r.recording with
  | false => exact Or.inl ⟨rfl, end_record_idle dev r hr⟩
  | true =>
    rcases hc : issueChecked dev (r.commandBuffers.map DeviceCall.vkEndCommandBuffer) r.issued
      with ⟨ok, issued⟩
    cases ok with
    | false => exact Or.inr (Or.inl ⟨rfl, issued, by simp [end_record, hr, hc]⟩)
    | true => exact Or.inr (Or.inr ⟨rfl, issued, by simp [end_record, hr, hc, record]⟩)

theorem begin_record_healthy (dev : Device) (h : ∀ issued c, dev.success issued c = true)
    (r : vulkan_wienderer) (hr : r.recording = false) :
    begin_record dev r =
      ⟨none, { r with issued := r.issued ++ beginCalls r,
                      appliedCommands := r.appliedCommands ++ [⟨.BEGIN_RECORD, .empty⟩],
                      recording := true }⟩ := by
  simp [begin_record, hr, issueChecked_all dev h, record]

theorem end_record_healthy (dev : Device) (h : ∀ issued c, dev.success issued c = true)
    (r : vulkan_wienderer) (hr : r.recording = true) :
    end_record dev r =
      ⟨none, { r with issued := r.issued ++ r.commandBuffers.map DeviceCall.vkEndCommandBuffer,
                      appliedCommands := r.appliedCommands ++ [⟨.END_RECORD, .empty⟩],
                      recording := false }⟩ := by
  simp [end_record, hr, issueChecked_all dev h, record]

/-- C11: begin_record succeeds only on an Idle renderer, and then the renderer is Recording and
the log has grown by exactly one BEGIN_RECORD record; end_record succeeds only on a Recording
renderer, and then the renderer is Idle and the log has grown by exactly one END_RECORD record;
begin_record while Recording and end_record while Idle fail with the state assertion and leave
the whole renderer, in particular the recording flag and the log, unchanged; a call that fails
for any reason leaves the flag and the log unchanged; and on a device that accepts every call
both operations do succeed from the state they require. -/
theorem C11_recording_state_machine (dev : Device) (r : vulkan_wienderer) :
    ((begin_record dev r).error = none →
      r.recording = false ∧ (begin_record dev r).state.recording = true ∧
      (begin_record dev r).state.appliedCommands =
        r.appliedCommands ++ [⟨.BEGIN_RECORD, .empty⟩]) ∧
    ((end_record dev r).error = none →
      r.recording = true ∧ (end_record dev r).state.recording = false ∧
      (end_record dev r).state.appliedCommands =
        r.appliedCommands ++ [⟨.END_RECORD, .empty⟩]) ∧
    (r.recording = true →
      (begin_record dev r).error = some .already_recording ∧ (begin_record dev r).state = r) ∧
    (r.recording = false →
      (end_record dev r).error = some .not_recording ∧ (end_record dev r).state = r) ∧
    ((begin_record dev r).error ≠ none →
      (begin_record dev r).state.recording = r.recording ∧
      (begin_record dev r).state.appliedCommands = r.appliedCommands) ∧
    ((end_record dev r).error ≠ none →
      (end_record dev r).state.recording = r.recording ∧
      (end_record dev r).state.appliedCommands = r.appliedCommands) ∧
    ((∀ issued c, dev.success issued c = true) →
      (r.recording = false → (begin_record dev r).error = none) ∧
      (r.recording = true → (end_record dev r).error = none)) := by
  refine ⟨?_, ?_, ?_, ?_, ?_, ?_, ?_⟩
  · rcases begin_record_cases dev r with ⟨_, h⟩ | ⟨_, _, h⟩ | ⟨hr, _, h⟩ <;> simp [h]
    exact hr
  · rcases end_record_cases dev r with ⟨_, h⟩ | ⟨_, _, h⟩ | ⟨hr, _, h⟩ <;> simp [h]
    exact hr
  · intro hr
    simp [begin_record_recording dev r hr]
  · intro hr
    simp [end_record_idle dev r hr]
  · rcases begin_record_cases dev r with ⟨_, h⟩ | ⟨_, _, h⟩ | ⟨_, _, h⟩ <;> simp [h]
  · rcases end_record_cases dev r with ⟨_, h⟩ | ⟨_, _, h⟩ | ⟨_, _, h⟩ <;> simp [h]
  · intro hd
    exact ⟨fun hr => by simp [begin_record_healthy dev hd r hr],
      fun hr => by simp [end_record_healthy dev hd r hr]⟩

/-! ## The renderer: the operations guarded by the extent -/

theorem begin_render_zero (r : vulkan_wienderer) (h : zeroExtent r = true) :
    begin_render r = ⟨none, r⟩ := by
  simp [begin_render, h]

theorem draw_verteces_zero (n f i : Nat) (r : vulkan_wienderer) (h : zeroExtent r = true) :
    draw_verteces n f i r = ⟨none, r⟩ := by
  simp [draw_verteces, h]

theorem draw_indexed_zero (n f i : Nat) (r : vulkan_wienderer) (h : zeroExtent r = true) :
    draw_indexed n f i r = ⟨none, r⟩ := by
  simp [draw_indexed, h]

theorem end_render_zero (r : vulkan_wienderer) (h : zeroExtent r = true) :
    end_render r = ⟨none, r⟩ := by
  simp [end_render, h]

theorem execute_zero (dev : Device) (r : vulkan_wienderer) (h : zeroExtent r = true) :
    execute dev r = ⟨none, r⟩ := by
  simp [execute, h]

theorem draw_verteces_drawn (n f i : Nat) (r : vulkan_wienderer) (h : zeroExtent r = false) :
    draw_verteces n f i r =
      ⟨none, { r with
        issued := r.issued ++ (r.commandBuffers.map (fun buffer =>
          [DeviceCall.vkCmdBindPipeline buffer r.currentShader.pipeline,
           DeviceCall.vkCmdBindVertexBuffers buffer r.vertexBindedBuffer.buffer,
           DeviceCall.vkCmdDraw buffer n i f])).flatten,
        appliedCommands := r.appliedCommands ++ [⟨.RECORD_DRAW_VERTECES, .drawData n f i⟩] }⟩ := by
  simp [draw_verteces, h, record, issue]

theorem draw_indexed_drawn (n f i : Nat) (r : vulkan_wienderer) (h : zeroExtent r = false) :
    draw_indexed n f i r =
      ⟨none, { r with
        issued := r.issued ++ (r.commandBuffers.map (fun buffer =>
          [DeviceCall.vkCmdBindPipeline buffer r.currentShader.pipeline,
           DeviceCall.vkCmdBindVertexBuffers buffer r.vertexBindedBuffer.buffer,
           DeviceCall.vkCmdBindIndexBuffer buffer r.indexBindedBuffer.buffer,
           DeviceCall.vkCmdDrawIndexed buffer n i f])).flatten,
        appliedCommands := r.appliedCommands ++ [⟨.RECORD_DRAW_VERTECES, .drawData n f i⟩] }⟩ := by
  simp [draw_indexed, h, record, issue]

theorem end_render_drawn (r : vulkan_wienderer) (h : zeroExtent r = false) :
    end_render r =
      ⟨none, { r with
        issued := r.issued ++ r.commandBuffers.map DeviceCall.vkCmdEndRenderPass,
        appliedCommands := r.appliedCommands ++ [⟨.RECORD_END_RENDER, .empty⟩] }⟩ := by
  simp [end_render, h, record, issue]

theorem begin_render_no_shader (r : vulkan_wienderer) (h : zeroExtent r = false)
    (hp : r.currentShader.pipeline = 0) : begin_render r = ⟨some .shader_not_set, r⟩ := by
  simp [begin_render, h, hp]

theorem begin_render_drawn (r : vulkan_wienderer) (h : zeroExtent r = false)
    (hp : r.currentShader.pipeline ≠ 0) :
    begin_render r =
      ⟨none, { r with
        issued := r.issued ++ renderCalls r,
        appliedCommands := r.appliedCommands ++ [⟨.RECORD_BEGIN_RENDER, .empty⟩] }⟩ := by
  simp [begin_render, h, hp, record, issue]

/-- C12, as stated, fails: on the Idle renderer of the scenarios `draw_verteces(3, 0, 1)` returns
without error, and the log, empty before, holds one record afterwards. -/
theorem C12_idle_draw_is_recorded :
    idleRenderer.recording = false ∧
    (draw_verteces 3 0 1 idleRenderer).error = none ∧
    idleRenderer.appliedCommands = [] ∧
    (draw_verteces 3 0 1 idleRenderer).state.appliedCommands =
      [⟨.RECORD_DRAW_VERTECES, .drawData 3 0 1⟩] := by
  decide

/-- C12, amended: for every vertex count, first vertex and instance count, draw_verteces on an
Idle renderer does not fail and leaves the recording flag false (it never reads the flag); when
the swapchain extent is non-zero it binds the pipeline and the vertex buffer and draws on every
command buffer and appends one RECORD_DRAW_VERTECES record carrying the three arguments to the
log; when the extent has width 0 or height 0 it leaves the renderer as it was. -/
theorem C12_idle_draw (vertexCount firstVertex instanceCount : Nat) (r : vulkan_wienderer)
    (hidle : r.recording = false) :
    (draw_verteces vertexCount firstVertex instanceCount r).error = none ∧
    (draw_verteces vertexCount firstVertex instanceCount r).state.recording = false ∧
    (zeroExtent r = false →
      (draw_verteces vertexCount firstVertex instanceCount r).state.appliedCommands =
        r.appliedCommands ++
          [⟨.RECORD_DRAW_VERTECES, .drawData vertexCount firstVertex instanceCount⟩] ∧
      (draw_verteces vertexCount firstVertex instanceCount r).state.issued =
        r.issued ++ (r.commandBuffers.map (fun buffer =>
          [DeviceCall.vkCmdBindPipeline buffer r.currentShader.pipeline,
           DeviceCall.vkCmdBindVertexBuffers buffer r.vertexBindedBuffer.buffer,
           DeviceCall.vkCmdDraw buffer vertexCount instanceCount firstVertex])).flatten) ∧
    (zeroExtent r = true →
      (draw_verteces vertexCount firstVertex instanceCount r).state = r) := by
  cases hz : zeroExtent r with
  | true => simp [draw_verteces_zero _ _ _ r hz, hidle]
  | false => simp [draw_verteces_drawn _ _ _ r hz, hidle]

/-- C12, amended, on the Idle renderer of the scenarios with the arguments of the basic test. -/
theorem C12_idle_draw_witness :
    idleRenderer.recording = false ∧
    (draw_verteces 3 0 1 idleRenderer).error = none ∧
    (draw_verteces 3 0 1 idleRenderer).state.recording = false := by
  obtain ⟨h1, h2, _⟩ := C12_idle_draw 3 0 1 idleRenderer (by decide)
  exact ⟨by decide, h1, h2⟩

/-! ## The renderer: the log of a sequence of calls -/

theorem run_extent (dev : Device) (op : Operation) (r : vulkan_wienderer) :
    (op.run dev r).state.extent = r.extent := by
  cases op with
  | set_shader_state s => rfl
  | bind_vertex_buffer_state s => rfl
  | bind_index_buffer_state s => rfl
  | begin_record =>
    rcases begin_record_cases dev r with ⟨_, h⟩ | ⟨_, _, h⟩ | ⟨_, _, h⟩ <;>
      simp [Operation.run, h]
  | begin_render =>
    simp only [Operation.run, begin_render]
    split_ifs <;> rfl
  | draw_verteces n f i =>
    simp only [Operation.run, draw_verteces]
    split_ifs <;> rfl
  | draw_indexed n f i =>
    simp only [Operation.run, draw_indexed]
    split_ifs <;> rfl
  | end_render =>
    simp only [Operation.run, end_render]
    split_ifs <;> rfl
  | end_record =>
    rcases end_record_cases dev r with ⟨_, h⟩ | ⟨_, _, h⟩ | ⟨_, _, h⟩ <;>
      simp [Operation.run, h]

theorem run_recording (dev : Device) (op : Operation) (r : vulkan_wienderer)
    (hb : op ≠ .begin_record) (he : op ≠ .end_record) :
    (op.run dev r).state.recording = r.recording := by
  cases op with
  | set_shader_state s => rfl
  | bind_vertex_buffer_state s => rfl
  | bind_index_buffer_state s => rfl
  | begin_record => exact absurd rfl hb
  | begin_render =>
    simp only [Operation.run, begin_render]
    split_ifs <;> rfl
  | draw_verteces n f i =>
    simp only [Operation.run, draw_verteces]
    split_ifs <;> rfl
  | draw_indexed n f i =>
    simp only [Operation.run, draw_indexed]
    split_ifs <;> rfl
  | end_render =>
    simp only [Operation.run, end_render]
    split_ifs <;> rfl
  | end_record => exact absurd rfl he

theorem run_zeroExtent (dev : Device) (op : Operation) (r : vulkan_wienderer) :
    zeroExtent (op.run dev r).state = zeroExtent r := by
  simp [zeroExtent, run_extent]

theorem run_recorded (dev : Device) (op : Operation) (r : vulkan_wienderer)
    (hz : zeroExtent r = false) (hok : (op.run dev r).error = none) :
    ∃ c, recorded op c ∧ (op.run dev r).state.appliedCommands = r.appliedCommands ++ [c] := by
  cases op with
  | set_shader_state s => exact ⟨_, rfl, rfl⟩
  | bind_vertex_buffer_state s => exact ⟨_, rfl, rfl⟩
  | bind_index_buffer_state s => exact ⟨_, rfl, rfl⟩
  | begin_record =>
    rcases begin_record_cases dev r with ⟨_, h⟩ | ⟨_, _, h⟩ | ⟨_, _, h⟩
    · simp [Operation.run, h] at hok
    · simp [Operation.run, h] at hok
    · exact ⟨_, rfl, by simp [Operation.run, h]⟩
  | begin_render =>
    by_cases hp : r.currentShader.pipeline = 0
    · simp [Operation.run, begin_render_no_shader r hz hp] at hok
    · exact ⟨_, rfl, by simp [Operation.run, begin_render_drawn r hz hp]⟩
  | draw_verteces n f i => exact ⟨_, rfl, by simp [Operation.run, draw_verteces_drawn n f i r hz]⟩
  | draw_indexed n f i =>
    exact ⟨⟨.RECORD_DRAW_VERTECES, .drawData n f i⟩, rfl,
      by simp [Operation.run, draw_indexed_drawn n f i r hz]⟩
  | end_render => exact ⟨_, rfl, by simp [Operation.run, end_render_drawn r hz]⟩
  | end_record =>
    rcases end_record_cases dev r with ⟨_, h⟩ | ⟨_, _, h⟩ | ⟨_, _, h⟩
    · simp [Operation.run, h] at hok
    · simp [Operation.run, h] at hok
    · exact ⟨_, rfl, by simp [Operation.run, h]⟩

theorem runAll_cons_ok (dev : Device) (op : Operation) (ops : List Operation)
    (r : vulkan_wienderer) (h : (op.run dev r).error = none) :
    runAll dev (op :: ops) r = runAll dev ops (op.run dev r).state := by
  rcases hr : op.run dev r with ⟨e, r1⟩
  rw [hr] at h
  simp only at h
  subst h
  simp [runAll, hr]

theorem runAll_cons_error (dev : Device) (op : Operation) (ops : List Operation)
    (r : vulkan_wienderer) (h : (op.run dev r).error ≠ none) :
    runAll dev (op :: ops) r = op.run dev r := by
  rcases hr : op.run dev r with ⟨e, r1⟩
  rw [hr] at h
  cases e with
  | none => exact absurd rfl h
  | some e => simp [runAll, hr]

theorem runAll_recorded (dev : Device) (ops : List Operation) (r : vulkan_wienderer)
    (hz : zeroExtent r = false) (hok : (runAll dev ops r).error = none) :
    ∃ cs, List.Forall₂ recorded ops cs ∧
      (runAll dev ops r).state.appliedCommands = r.appliedCommands ++ cs := by
  induction ops generalizing r with
  | nil => exact ⟨[], List.Forall₂.nil, by simp [runAll]⟩
  | cons op ops ih =>
    by_cases h1 : (op.run dev r).error = none
    · rw [runAll_cons_ok dev op ops r h1] at hok ⊢
      obtain ⟨c, hc, hlog⟩ := run_recorded dev op r hz h1
      obtain ⟨cs, hcs, hlogs⟩ := ih (op.run dev r).state
        (by rw [run_zeroExtent]; exact hz) hok
      exact ⟨c :: cs, List.Forall₂.cons hc hcs, by rw [hlogs, hlog]; simp⟩
    · rw [runAll_cons_error dev op ops r h1] at hok
      exact absurd hok h1

/-- C13, as stated, fails: on a Recording renderer with extent 800 x 600 on which no shader has
been set, begin_render fails and appends nothing. -/
theorem C13_begin_render_needs_shader :
    recordingRenderer.recording = true ∧ zeroExtent recordingRenderer = false ∧
    (begin_render recordingRenderer).error = some .shader_not_set ∧
    (begin_render recordingRenderer).state.appliedCommands =
      recordingRenderer.appliedCommands := by
  decide

/-- C13, amended: while Recording with a non-zero swapchain extent, set shader state, bind
vertex buffer, bind index buffer, draw_verteces and end_render each append exactly one record
whose tag is the tag of the operation and whose payload equals the arguments of the call;
begin_render does so when the pipeline of the current shader is non-zero, and otherwise fails
and leaves the log unchanged; draw_indexed(c, f, i) appends exactly one record carrying
(c, f, i); none of the seven changes the
recording flag; the records of a sequence of calls that all return follow the log in call order;
and the calls of the basic test leave the log bind vertex buffer, set shader, begin_record,
begin_render, draw_verteces(3, 0, 1), end_render, end_record. -/
theorem C13_live_operations_append (dev : Device) (r : vulkan_wienderer)
    (hrec : r.recording = true) (hext : zeroExtent r = false) :
    (∀ s, (set_shader_state s r).appliedCommands =
      r.appliedCommands ++ [⟨.SET_SHADER, .activeShaderState s⟩]) ∧
    (∀ s, (bind_vertex_buffer_state s r).appliedCommands =
      r.appliedCommands ++ [⟨.BIND_VERTEX_BUFFER, .bindedBufferState s⟩]) ∧
    (∀ s, (bind_index_buffer_state s r).appliedCommands =
      r.appliedCommands ++ [⟨.BIND_INDEX_BUFFER, .bindedBufferState s⟩]) ∧
    (r.currentShader.pipeline ≠ 0 →
      (begin_render r).error = none ∧
      (begin_render r).state.appliedCommands =
        r.appliedCommands ++ [⟨.RECORD_BEGIN_RENDER, .empty⟩]) ∧
    (r.currentShader.pipeline = 0 →
      (begin_render r).error = some .shader_not_set ∧
      (begin_render r).state.appliedCommands = r.appliedCommands) ∧
    (∀ c f i, (draw_verteces c f i r).error = none ∧
      (draw_verteces c f i r).state.appliedCommands =
        r.appliedCommands ++ [⟨.RECORD_DRAW_VERTECES, .drawData c f i⟩]) ∧
    (∀ c f i, (draw_indexed c f i r).error = none ∧
      ∃ tag, (draw_indexed c f i r).state.appliedCommands =
        r.appliedCommands ++ [⟨tag, .drawData c f i⟩]) ∧
    ((end_render r).error = none ∧
      (end_render r).state.appliedCommands =
        r.appliedCommands ++ [⟨.RECORD_END_RENDER, .empty⟩]) ∧
    (∀ op : Operation, op ≠ .begin_record → op ≠ .end_record →
      (op.run dev r).state.recording = true) ∧
    (∀ ops, (runAll dev ops r).error = none →
      ∃ cs, List.Forall₂ recorded ops cs ∧
        (runAll dev ops r).state.appliedCommands = r.appliedCommands ++ cs) ∧
    (runAll Device.healthy basicTestCalls idleRenderer).state.appliedCommands =
      [⟨.BIND_VERTEX_BUFFER, .bindedBufferState ⟨30⟩⟩,
       ⟨.SET_SHADER, .activeShaderState ⟨40, 41, 42, 43⟩⟩,
       ⟨.BEGIN_RECORD, .empty⟩, ⟨.RECORD_BEGIN_RENDER, .empty⟩,
       ⟨.RECORD_DRAW_VERTECES, .drawData 3 0 1⟩, ⟨.RECORD_END_RENDER, .empty⟩,
       ⟨.END_RECORD, .empty⟩] := by
  refine ⟨fun _ => rfl, fun _ => rfl, fun _ => rfl, ?_, ?_, ?_, ?_, ?_, ?_, ?_, by decide⟩
  · intro hp
    simp [begin_render_drawn r hext hp]
  · intro hp
    simp [begin_render_no_shader r hext hp]
  · intro c f i
    simp [draw_verteces_drawn c f i r hext]
  · intro c f i
    exact ⟨by simp [draw_indexed_drawn c f i r hext],
      .RECORD_DRAW_VERTECES, by simp [draw_indexed_drawn c f i r hext]⟩
  · simp [end_render_drawn r hext]
  · intro op hb he
    rw [run_recording dev op r hb he, hrec]
  · intro ops hok
    exact runAll_recorded dev ops r hext hok

/-- C13, amended, on the Recording renderer of the scenarios: the record of
`draw_verteces(3, 0, 1)` and the failure of begin_render without a shader. -/
theorem C13_live_operations_append_witness :
    recordingRenderer.recording = true ∧ zeroExtent recordingRenderer = false ∧
    (draw_verteces 3 0 1 recordingRenderer).state.appliedCommands =
      recordingRenderer.appliedCommands ++ [⟨.RECORD_DRAW_VERTECES, .drawData 3 0 1⟩] ∧
    (begin_render recordingRenderer).error = some .shader_not_set := by
  obtain ⟨_, _, _, _, h5, h6, _⟩ :=
    C13_live_operations_append Device.healthy recordingRenderer (by decide) (by decide)
  exact ⟨by decide, by decide, (h6 3 0 1).2, (h5 (by decide)).1⟩

/-- C14 at a recording that draws indexed: the eight calls of `indexedCalls` all return and leave
the renderer Idle; the recording issued `vkCmdDrawIndexed`; the frame taken from the log is
dispatched to `draw_verteces(6, 0, 1)` where the recording called `draw_indexed(6, 0, 1)`, and
`set_commands_frame` of that frame issues `vkCmdDraw` and never `vkCmdDrawIndexed`. -/
theorem C14_round_trip_of_indexed_draw :
    (runAll Device.healthy indexedCalls idleRenderer).error = none ∧
    recordedIndexed.recording = false ∧
    DeviceCall.vkCmdDrawIndexed 10 6 1 0 ∈ recordedIndexed.issued ∧
    (get_commands_frame recordedIndexed).map (List.filterMap dispatched) =
      some [.bind_vertex_buffer_state ⟨30⟩, .bind_index_buffer_state ⟨31⟩,
            .set_shader_state ⟨40, 41, 42, 43⟩, .begin_record, .begin_render,
            .draw_verteces 6 0 1, .end_render, .end_record] ∧
    (get_commands_frame recordedIndexed).map (List.filterMap dispatched) ≠ some indexedCalls ∧
    (set_commands_frame Device.healthy (get_commands_frame recordedIndexed)
        recordedIndexed).state.issued =
      recordedIndexed.issued ++
        [.vkResetCommandBuffer 10, .vkBeginCommandBuffer 10 42 20,
         .vkCmdBeginRenderPass 10 42 20 800 600, .vkCmdBindDescriptorSets 10 41 43,
         .vkCmdBindPipeline 10 40, .vkCmdBindVertexBuffers 10 30, .vkCmdDraw 10 6 1 0,
         .vkCmdEndRenderPass 10, .vkEndCommandBuffer 10] := by
  decide

/-- C15 at a frame of one draw record: `set_commands_frame` on the Idle renderer of the
scenarios returns without error and leaves a log of two records, the record of the frame
followed by the record its replay appended. -/
theorem C15_set_frame_appends_replay :
    idleRenderer.recording = false ∧
    (set_commands_frame Device.healthy
      (some [⟨.RECORD_DRAW_VERTECES, .drawData 3 0 1⟩]) idleRenderer).error = none ∧
    get_commands_frame (set_commands_frame Device.healthy
      (some [⟨.RECORD_DRAW_VERTECES, .drawData 3 0 1⟩]) idleRenderer).state =
      some [⟨.RECORD_DRAW_VERTECES, .drawData 3 0 1⟩, ⟨.RECORD_DRAW_VERTECES, .drawData 3 0 1⟩] := by
  decide

/-- C16 at a log of one record and a frame of one record: `concat_commands_frame` returns
without error and leaves a log of three records, the live log, the record of the frame and the
record its replay appended. -/
theorem C16_concat_frame_appends_replay :
    boundRenderer.appliedCommands = [⟨.BIND_VERTEX_BUFFER, .bindedBufferState ⟨30⟩⟩] ∧
    (concat_commands_frame Device.healthy
      (some [⟨.SET_SHADER, .activeShaderState ⟨40, 41, 42, 43⟩⟩]) boundRenderer).error = none ∧
    (concat_commands_frame Device.healthy
      (some [⟨.SET_SHADER, .activeShaderState ⟨40, 41, 42, 43⟩⟩]) boundRenderer).state.appliedCommands =
      [⟨.BIND_VERTEX_BUFFER, .bindedBufferState ⟨30⟩⟩,
       ⟨.SET_SHADER, .activeShaderState ⟨40, 41, 42, 43⟩⟩,
       ⟨.SET_SHADER, .activeShaderState ⟨40, 41, 42, 43⟩⟩] := by
  decide

/-! ## The renderer: the bracket operations do not read the extent -/

theorem begin_record_extent (dev : Device) (r : vulkan_wienderer) (e : VkExtent2D) :
    begin_record dev { r with extent := e } =
      ⟨(begin_record dev r).error, { (begin_record dev r).state with extent := e }⟩ := by
  have hb : beginCalls { r with extent := e } = beginCalls r := rfl
  unfold begin_record
  rw [hb]
  dsimp only
  cases hr : r.recording with
  | true => simp [hr]
  | false =>
    rcases hc : issueChecked dev (beginCalls r) r.issued with ⟨ok, done⟩
    cases ok <;> simp [record, hr, hc]

theorem end_record_extent (dev : Device) (r : vulkan_wienderer) (e : VkExtent2D) :
    end_record dev { r with extent := e } =
      ⟨(end_record dev r).error, { (end_record dev r).state with extent := e }⟩ := by
  unfold end_record
  dsimp only
  cases hr : r.recording with
  | false => simp [hr]
  | true =>
    rcases hc : issueChecked dev (r.commandBuffers.map DeviceCall.vkEndCommandBuffer) r.issued
      with ⟨ok, done⟩
    cases ok <;> simp [record, hr, hc]

/-- C17, as stated, fails: on the Idle renderer of the scenarios with extent 0 x 600,
begin_record returns without error, but it has issued `vkBeginCommandBuffer`, appended a
BEGIN_RECORD record and set the recording flag. -/
theorem C17_begin_record_at_zero_extent :
    zeroExtent minimisedRenderer = true ∧
    minimisedRenderer.recording = false ∧ minimisedRenderer.appliedCommands = [] ∧
    minimisedRenderer.issued = [] ∧
    (begin_record Device.healthy minimisedRenderer).error = none ∧
    (begin_record Device.healthy minimisedRenderer).state.issued =
      [.vkBeginCommandBuffer 10 0 20] ∧
    (begin_record Device.healthy minimisedRenderer).state.appliedCommands =
      [⟨.BEGIN_RECORD, .empty⟩] ∧
    (begin_record Device.healthy minimisedRenderer).state.recording = true := by
  decide

/-- C17, amended: when the swapchain extent has width 0 or height 0, each of begin_render,
draw_verteces, draw_indexed, end_render and execute returns without error and leaves the
renderer exactly as it was, so it issues no device call (execute neither submits nor presents)
and the log and the recording flag are unchanged; begin_record and end_record do not read the
extent: with any extent in its place they raise the same error or none and leave the same
renderer, so at a zero extent they still check the recording flag, begin or end every command
buffer, append their record and toggle the flag. -/
theorem C17_zero_extent (dev : Device) (r : vulkan_wienderer) (hz : zeroExtent r = true) :
    begin_render r = ⟨none, r⟩ ∧
    (∀ c f i, draw_verteces c f i r = ⟨none, r⟩) ∧
    (∀ c f i, draw_indexed c f i r = ⟨none, r⟩) ∧
    end_render r = ⟨none, r⟩ ∧
    execute dev r = ⟨none, r⟩ ∧
    (∀ e, begin_record dev { r with extent := e } =
      ⟨(begin_record dev r).error, { (begin_record dev r).state with extent := e }⟩) ∧
    (∀ e, end_record dev { r with extent := e } =
      ⟨(end_record dev r).error, { (end_record dev r).state with extent := e }⟩) ∧
    ((begin_record dev r).error = none →
      (begin_record dev r).state.recording = true ∧
      (begin_record dev r).state.appliedCommands =
        r.appliedCommands ++ [⟨.BEGIN_RECORD, .empty⟩]) ∧
    ((end_record dev r).error = none →
      (end_record dev r).state.recording = false ∧
      (end_record dev r).state.appliedCommands =
        r.appliedCommands ++ [⟨.END_RECORD, .empty⟩]) := by
  refine ⟨begin_render_zero r hz, fun c f i => draw_verteces_zero c f i r hz,
    fun c f i => draw_indexed_zero c f i r hz, end_render_zero r hz, execute_zero dev r hz,
    begin_record_extent dev r, end_record_extent dev r, ?_, ?_⟩
  · rcases begin_record_cases dev r with ⟨_, h⟩ | ⟨_, _, h⟩ | ⟨_, _, h⟩ <;> simp [h]
  · rcases end_record_cases dev r with ⟨_, h⟩ | ⟨_, _, h⟩ | ⟨_, _, h⟩ <;> simp [h]

/-- C17, amended, on the renderer of the scenarios with extent 0 x 600: execute and
`draw_indexed(6, 0, 1)` leave it as it was. -/
theorem C17_zero_extent_witness :
    zeroExtent minimisedRenderer = true ∧
    execute Device.healthy minimisedRenderer = ⟨none, minimisedRenderer⟩ ∧
    draw_indexed 6 0 1 minimisedRenderer = ⟨none, minimisedRenderer⟩ := by
  obtain ⟨_, _, h3, _, h5, _⟩ := C17_zero_extent Device.healthy minimisedRenderer (by decide)
  exact ⟨by decide, h5, h3 6 0 1⟩

/-! ## The shader: sizes of the uniform-buffer slots -/

theorem assignSizes_slot (b size : Nat) (es : List (VkDescriptorSetLayoutBinding × Nat)) :
    ∀ (buffers out : Nat → uniform_buffer_slot), assignSizes es buffers = .ok out →
      (∀ e ∈ es, e.1.descriptorType = VK_DESCRIPTOR_TYPE_UNIFORM_BUFFER → e.1.binding = b →
        paddedSize e.2 = size) →
      ((∃ e ∈ es, e.1.descriptorType = VK_DESCRIPTOR_TYPE_UNIFORM_BUFFER ∧ e.1.binding = b) ∨
        (buffers b).size = size) →
      (out b).size = size := by
  induction es with
  | nil =>
    intro buffers out h _ hex
    simp only [assignSizes, Except.ok.injEq] at h
    subst h
    rcases hex with ⟨e, he, _⟩ | h
    · simp at he
    · exact h
  | cons e es ih =>
    intro buffers out h hall hex
    obtain ⟨bi, sz⟩ := e
    unfold assignSizes at h
    have hall2 : ∀ e ∈ es, e.1.descriptorType = VK_DESCRIPTOR_TYPE_UNIFORM_BUFFER →
        e.1.binding = b → paddedSize e.2 = size :=
      fun e he => hall e (List.mem_cons_of_mem _ he)
    split_ifs at h with h1 h2 h3
    · refine ih buffers out h hall2 ?_
      rcases hex with ⟨e, he, hu, hb⟩ | hold
      · rcases List.mem_cons.mp he with rfl | he
        · exact absurd hu h1
        · exact Or.inl ⟨e, he, hu, hb⟩
      · exact Or.inr hold
    · refine ih _ out h hall2 ?_
      by_cases hb : bi.binding = b
      · right
        have := hall (bi, sz) (List.mem_cons_self _ _) (not_not.mp h1) hb
        subst hb
        simpa using this
      · rcases hex with ⟨e, he, hu, hb2⟩ | hold
        · rcases List.mem_cons.mp he with rfl | he
          · exact absurd hb2 hb
          · exact Or.inl ⟨e, he, hu, hb2⟩
        · right
          rw [Function.update_noteq (Ne.symm hb)]
          exact hold

theorem assignSizes_bound (es : List (VkDescriptorSetLayoutBinding × Nat)) :
    ∀ (buffers out : Nat → uniform_buffer_slot), assignSizes es buffers = .ok out →
      (∀ e ∈ es, e.2 < 4294967296) → (∀ i, (buffers i).size < 4294967296) →
      ∀ i, (out i).size < 4294967296 := by
  induction es with
  | nil =>
    intro buffers out h _ hb
    simp only [assignSizes, Except.ok.injEq] at h
    subst h
    exact hb
  | cons e es ih =>
    intro buffers out h hall hb
    obtain ⟨bi, sz⟩ := e
    unfold assignSizes at h
    have hall2 : ∀ e ∈ es, e.2 < 4294967296 := fun e he => hall e (List.mem_cons_of_mem _ he)
    have hsz : sz < 4294967296 := hall (bi, sz) (List.mem_cons_self _ _)
    split_ifs at h with h1 h2 h3
    · exact ih buffers out h hall2 hb
    · refine ih _ out h hall2 ?_
      intro i
      by_cases hi : i = bi.binding
      · subst hi
        simp only [Function.update_same, paddedSize]
        split_ifs <;> omega
      · rw [Function.update_noteq hi]
        exact hb i

theorem foldl_sum_mod (f : Nat → Nat) (l : List Nat) :
    ∀ acc, acc + (l.map f).sum < 18446744073709551616 →
      l.foldl (fun t i => (t + f i) % 18446744073709551616) acc = acc + (l.map f).sum := by
  induction l with
  | nil => intro acc _; simp
  | cons a l ih =>
    intro acc h
    simp only [List.map_cons, List.sum_cons] at h
    simp only [List.foldl_cons, List.map_cons, List.sum_cons]
    rw [Nat.mod_eq_of_lt (by omega), ih _ (by omega)]
    omega

theorem sum_map_le (f : Nat → Nat) (B : Nat) (hf : ∀ i, f i < B) (l : List Nat) :
    (l.map f).sum ≤ l.length * B := by
  induction l with
  | nil => simp
  | cons a l ih =>
    simp only [List.map_cons, List.sum_cons, List.length_cons]
    have := hf a
    rw [Nat.add_mul]
    omega

theorem le_sum_map_of_mem (f : Nat → Nat) (l : List Nat) (b : Nat) (hb : b ∈ l) :
    f b ≤ (l.map f).sum := by
  induction l with
  | nil => simp at hb
  | cons a l ih =>
    simp only [List.map_cons, List.sum_cons]
    rcases List.mem_cons.mp hb with rfl | h
    · omega
    · have := ih h
      omega

theorem totalBufferSize_ge (buffers : Nat → uniform_buffer_slot)
    (hbound : ∀ i, (buffers i).size < 4294967296) (b : Nat)
    (hb : b < WIENDER_UNIFORM_BUFFER_MAX_COUNT) : (buffers b).size ≤ totalBufferSize buffers := by
  have hsum := sum_map_le (fun i => (buffers i).size) 4294967296 hbound
    (List.range WIENDER_UNIFORM_BUFFER_MAX_COUNT)
  have hlen : (List.range WIENDER_UNIFORM_BUFFER_MAX_COUNT).length = 8 := by
    simp [WIENDER_UNIFORM_BUFFER_MAX_COUNT]
  rw [hlen] at hsum
  unfold totalBufferSize
  rw [foldl_sum_mod (fun i => (buffers i).size) _ 0 (by omega), Nat.zero_add]
  exact le_sum_map_of_mem (fun i => (buffers i).size) _ b (List.mem_range.mpr hb)

theorem createBuffers_size (dev : MemoryDevice) (memory : Nat) (l : List Nat) :
    ∀ st out, createBuffers dev memory l st = .ok out →
      ∀ i, (out.buffers i).size = (st.buffers i).size := by
  induction l with
  | nil =>
    intro st out h i
    simp only [createBuffers, Except.ok.injEq] at h
    subst h
    rfl
  | cons a l ih =>
    intro st out h i
    unfold createBuffers at h
    dsimp only at h
    split_ifs at h with h1 h2 h3
    · exact ih st out h i
    · rw [ih _ out h i]
      by_cases hi : i = a
      · subst hi
        simp
      · simp [Function.update_noteq hi]

theorem create_uniform_buffers_sizes (dev : MemoryDevice)
    (descriptorsInfo : descriptor_set_layout_data) (issued : List MemoryCall)
    (ub : uniform_buffers_info)
    (h : create_uniform_buffers dev descriptorsInfo issued = .ok ub) :
    ∃ buffers, assignSizes (layoutEntries descriptorsInfo) (fun _ => {}) = .ok buffers ∧
      ((totalBufferSize buffers = 0 ∧ ∀ i, (ub.buffers i).size = 0) ∨
       (totalBufferSize buffers ≠ 0 ∧ ∀ i, (ub.buffers i).size = (buffers i).size)) := by
  unfold create_uniform_buffers at h
  rcases ha : assignSizes (layoutEntries descriptorsInfo) (fun _ => {}) with e | buffers
  · rw [ha] at h
    simp at h
  · rw [ha] at h
    refine ⟨buffers, rfl, ?_⟩
    simp only at h
    split_ifs at h with h0 h1
    · left
      simp only [Except.ok.injEq] at h
      subst h
      exact ⟨h0, fun _ => rfl⟩
    · right
      refine ⟨h0, ?_⟩
      rcases hc : createBuffers dev
        (dev.written issued (MemoryCall.vkAllocateMemory (totalBufferSize buffers)))
        (List.range WIENDER_UNIFORM_BUFFER_MAX_COUNT)
        ⟨buffers, 0, issued ++ [MemoryCall.vkAllocateMemory (totalBufferSize buffers)]⟩
        with e | st
      · rw [hc] at h
        simp at h
      · rw [hc] at h
        simp only at h
        split_ifs at h with h2
        simp only [Except.ok.injEq] at h
        subst h
        intro i
        exact createBuffers_size dev _ _ _ st hc i

/-- C18, as stated, fails: for a uniform block of 64 bytes at binding 0 the region returned by
`get_uniform_buffer_info(0)` has size 128. -/
theorem C18_block_of_64_bytes :
    createdRegion MemoryDevice.healthy (blockLayout 64) [] 0 = .ok ⟨128, 1003⟩ ∧
    regionSize (createdRegion MemoryDevice.healthy (blockLayout 64) [] 0) ≠ 64 := by
  exact ⟨rfl, by decide⟩

/-- C18, amended: for every uniform-buffer binding b < 8 of a shader whose uniform buffers were
created and whose reflected block size at b is s (a 32-bit value, as every reflected size),
`get_uniform_buffer_info(b)` returns a region whose size is s when s is at least 128 and 128
when s is smaller: the slot is padded to 128 bytes. -/
theorem C18_region_size (dev : MemoryDevice) (descriptorsInfo : descriptor_set_layout_data)
    (issued : List MemoryCall) (b s : Nat)
    (hcreate : (create_uniform_buffers dev descriptorsInfo issued).isOk = true)
    (hb : b < WIENDER_UNIFORM_BUFFER_MAX_COUNT)
    (hreflected : ∀ e ∈ layoutEntries descriptorsInfo, e.2 < 4294967296)
    (hentry : ∃ e ∈ layoutEntries descriptorsInfo,
      e.1.descriptorType = VK_DESCRIPTOR_TYPE_UNIFORM_BUFFER ∧ e.1.binding = b)
    (hsize : ∀ e ∈ layoutEntries descriptorsInfo,
      e.1.descriptorType = VK_DESCRIPTOR_TYPE_UNIFORM_BUFFER → e.1.binding = b → e.2 = s) :
    (∃ data, createdRegion dev descriptorsInfo issued b = .ok ⟨paddedSize s, data⟩) ∧
    (128 ≤ s → paddedSize s = s) ∧ (s < 128 → paddedSize s = 128) := by
  refine ⟨?_, fun h => by simp [paddedSize, h], fun h => by simp [paddedSize]; omega⟩
  rcases hc : create_uniform_buffers dev descriptorsInfo issued with e | ub
  · rw [hc] at hcreate
    simp [Except.isOk, Except.toBool] at hcreate
  · obtain ⟨buffers, ha, hcases⟩ := create_uniform_buffers_sizes dev descriptorsInfo issued ub hc
    have hslot : (buffers b).size = paddedSize s :=
      assignSizes_slot b (paddedSize s) _ _ buffers ha
        (fun e he hu hbe => by rw [hsize e he hu hbe]) (Or.inl hentry)
    have hbound : ∀ i, (buffers i).size < 4294967296 :=
      assignSizes_bound _ _ buffers ha hreflected (fun _ => by decide)
    have hpos : 128 ≤ paddedSize s := by
      unfold paddedSize
      split_ifs <;> omega
    have htotal := totalBufferSize_ge buffers hbound b hb
    rcases hcases with ⟨h0, _⟩ | ⟨_, hsizes⟩
    · omega
    · have hub : (ub.buffers b).size = paddedSize s := by rw [hsizes b, hslot]
      refine ⟨(ub.mappedMemory + (List.range b).foldl
        (fun offset i => (offset + (ub.buffers i).size) % 18446744073709551616) 0)
          % 18446744073709551616, ?_⟩
      simp only [createdRegion, hc, get_uniform_buffer_info]
      rw [if_neg (not_not.mpr hb), if_neg (by omega), hub]

/-- C18, amended, for a uniform block of 200 bytes at binding 0 and for one of 64 bytes. -/
theorem C18_region_size_witness :
    (∃ data, createdRegion MemoryDevice.healthy (blockLayout 200) [] 0 = .ok ⟨200, data⟩) ∧
    paddedSize 64 = 128 := by
  obtain ⟨h1, _, _⟩ := C18_region_size MemoryDevice.healthy (blockLayout 200) [] 0 200
    rfl (by decide) (by decide) (by decide) (by decide)
  obtain ⟨_, _, h3⟩ := C18_region_size MemoryDevice.healthy (blockLayout 64) [] 0 64
    rfl (by decide) (by decide) (by decide) (by decide)
  exact ⟨h1, h3 (by decide)⟩

/-! ## The buffers: the mapped flag -/

theorem cpu_map_cases (dev : MemoryDevice) (b : cpu_side_buffer) :
    (b.mappedFlag = true ∧ (b.map dev).error = some .already_mapped ∧ (b.map dev).state = b) ∨
    (b.mappedFlag = false ∧ (b.map dev).error = some .map_failed ∧
      (b.map dev).state.mappedFlag = false) ∨
    (b.mappedFlag = false ∧ (b.map dev).error = none ∧ (b.map dev).state.mappedFlag = true) := by
  unfold cpu_side_buffer.map
  cases hm : b.mappedFlag with
  | true => simp
  | false =>
    by_cases hd : dev.success b.issued (MemoryCall.vkMapMemory b.CPUMemory 0 VK_WHOLE_SIZE) = true
    · simp [hd]
    · simp [hd, hm]

theorem cpu_unmap_cases (b : cpu_side_buffer) :
    (b.mappedFlag = false ∧ b.unmap.error = some .not_mapped ∧ b.unmap.state = b) ∨
    (b.mappedFlag = true ∧ b.unmap.error = none ∧ b.unmap.state.mappedFlag = false) := by
  unfold cpu_side_buffer.unmap
  cases hm : b.mappedFlag <;> simp

theorem gpu_createStaging_flag (dev : MemoryDevice) (b : gpu_side_buffer) :
    (b.createStaging dev).2.mappedFlag = b.mappedFlag := by
  unfold gpu_side_buffer.createStaging
  dsimp only
  split_ifs <;> rfl

theorem gpu_map_cases (dev : MemoryDevice) (b : gpu_side_buffer) :
    (b.mappedFlag = true ∧ (b.map dev).error = some .already_mapped ∧ (b.map dev).state = b) ∨
    (b.mappedFlag = false ∧ (b.map dev).error ≠ none ∧
      (b.map dev).state.mappedFlag = false) ∨
    (b.mappedFlag = false ∧ (b.map dev).error = none ∧ (b.map dev).state.mappedFlag = true) := by
  unfold gpu_side_buffer.map gpu_side_buffer.is_mapped
  cases hm : b.mappedFlag with
  | true => simp
  | false =>
    have hflag : (if b.stagingBuffer = 0 then b.createStaging dev else (none, b)).2.mappedFlag
        = false := by
      split_ifs
      · rw [gpu_createStaging_flag, hm]
      · exact hm
    rcases hs : (if b.stagingBuffer = 0 then b.createStaging dev else (none, b)) with ⟨e, b1⟩
    rw [hs] at hflag
    simp only at hflag
    cases e with
    | some e => simp [hflag]
    | none =>
      by_cases hd :
        dev.success b1.issued (MemoryCall.vkMapMemory b1.stagingMemory 0 VK_WHOLE_SIZE) = true
      · simp [hd]
      · simp [hd, hflag]

theorem gpu_unmap_cases (b : gpu_side_buffer) :
    (b.mappedFlag = false ∧ b.unmap.error = some .not_mapped ∧ b.unmap.state = b) ∨
    (b.mappedFlag = true ∧ b.unmap.error = none ∧ b.unmap.state.mappedFlag = false) := by
  unfold gpu_side_buffer.unmap gpu_side_buffer.is_mapped
  cases hm : b.mappedFlag <;> simp

theorem succeeded_alternating {β : Type} (call : BufferCall → β → Mapping β) (flag : β → Bool)
    (hmapOk : ∀ b, (call .map b).error = none →
      flag b = false ∧ flag (call .map b).state = true)
    (hunmapOk : ∀ b, (call .unmap b).error = none →
      flag b = true ∧ flag (call .unmap b).state = false)
    (hfail : ∀ c b, (call c b).error ≠ none → flag (call c b).state = flag b)
    (cs : List BufferCall) : ∀ b, alternating (flag b) (succeeded call cs b) = true := by
  induction cs with
  | nil => intro b; rfl
  | cons c cs ih =>
    intro b
    unfold succeeded
    cases he : (call c b).error with
    | some e =>
      simp only
      rw [← hfail c b (by rw [he]; simp)]
      exact ih _
    | none =>
      simp only
      cases c with
      | map =>
        obtain ⟨h1, h2⟩ := hmapOk b he
        have := ih (call .map b).state
        rw [h2] at this
        simp [alternating, h1, this]
      | unmap =>
        obtain ⟨h1, h2⟩ := hunmapOk b he
        have := ih (call .unmap b).state
        rw [h2] at this
        simp [alternating, h1, this]

theorem cpu_map_healthy (dev : MemoryDevice) (h : ∀ issued c, dev.success issued c = true)
    (b : cpu_side_buffer) (hm : b.mappedFlag = false) : (b.map dev).error = none := by
  simp [cpu_side_buffer.map, hm, h]

theorem gpu_map_healthy (dev : MemoryDevice) (h : ∀ issued c, dev.success issued c = true)
    (b : gpu_side_buffer) (hm : b.mappedFlag = false) : (b.map dev).error = none := by
  unfold gpu_side_buffer.map gpu_side_buffer.is_mapped
  by_cases hs : b.stagingBuffer = 0
  · simp [hm, hs, h, gpu_side_buffer.createStaging]
  · simp [hm, hs, h]

theorem cpu_call_flag (dev : MemoryDevice) (c : BufferCall) (b : cpu_side_buffer)
    (h : (cpu_side_buffer.call dev c b).error ≠ none) :
    (cpu_side_buffer.call dev c b).state.mappedFlag = b.mappedFlag := by
  cases c with
  | map =>
    simp only [cpu_side_buffer.call] at h ⊢
    rcases cpu_map_cases dev b with ⟨_, _, h3⟩ | ⟨h1, _, h3⟩ | ⟨_, h2, _⟩
    · rw [h3]
    · rw [h3, h1]
    · exact absurd h2 h
  | unmap =>
    simp only [cpu_side_buffer.call] at h ⊢
    rcases cpu_unmap_cases b with ⟨_, _, h3⟩ | ⟨_, h2, _⟩
    · rw [h3]
    · exact absurd h2 h

theorem gpu_call_flag (dev : MemoryDevice) (c : BufferCall) (b : gpu_side_buffer)
    (h : (gpu_side_buffer.call dev c b).error ≠ none) :
    (gpu_side_buffer.call dev c b).state.mappedFlag = b.mappedFlag := by
  cases c with
  | map =>
    simp only [gpu_side_buffer.call] at h ⊢
    rcases gpu_map_cases dev b with ⟨_, _, h3⟩ | ⟨h1, _, h3⟩ | ⟨_, h2, _⟩
    · rw [h3]
    · rw [h3, h1]
    · exact absurd h2 h
  | unmap =>
    simp only [gpu_side_buffer.call] at h ⊢
    rcases gpu_unmap_cases b with ⟨_, _, h3⟩ | ⟨_, h2, _⟩
    · rw [h3]
    · exact absurd h2 h

/-- C19: for a cpu_side_buffer c and a gpu_side_buffer g, map returns only when the buffer is
not mapped and then is_mapped is true; unmap returns only when the buffer is mapped and then
is_mapped is false; map on a mapped buffer and unmap on an unmapped buffer throw and leave the
buffer as it was; any call that throws leaves the mapped flag unchanged; hence in every sequence
of calls the calls that return alternate map, unmap, map, ... (beginning with unmap when the
buffer is mapped at the start); on a device that accepts every call, map on an unmapped
buffer does return; and unmap on a mapped buffer always returns, issues vkUnmapMemory on the
memory that was mapped and leaves is_mapped false. -/
theorem C19_map_unmap_alternate (dev : MemoryDevice) (c : cpu_side_buffer)
    (g : gpu_side_buffer) (calls : List BufferCall) :
    (((c.map dev).error = none → c.is_mapped = false ∧ (c.map dev).state.is_mapped = true) ∧
     (c.unmap.error = none → c.is_mapped = true ∧ c.unmap.state.is_mapped = false) ∧
     (c.is_mapped = true → (c.map dev).error = some .already_mapped ∧ (c.map dev).state = c) ∧
     (c.is_mapped = false → c.unmap.error = some .not_mapped ∧ c.unmap.state = c) ∧
     ((c.map dev).error ≠ none → (c.map dev).state.is_mapped = c.is_mapped) ∧
     (c.unmap.error ≠ none → c.unmap.state.is_mapped = c.is_mapped) ∧
     alternating c.is_mapped (succeeded (cpu_side_buffer.call dev) calls c) = true) ∧
    (((g.map dev).error = none → g.is_mapped = false ∧ (g.map dev).state.is_mapped = true) ∧
     (g.unmap.error = none → g.is_mapped = true ∧ g.unmap.state.is_mapped = false) ∧
     (g.is_mapped = true → (g.map dev).error = some .already_mapped ∧ (g.map dev).state = g) ∧
     (g.is_mapped = false → g.unmap.error = some .not_mapped ∧ g.unmap.state = g) ∧
     ((g.map dev).error ≠ none → (g.map dev).state.is_mapped = g.is_mapped) ∧
     (g.unmap.error ≠ none → g.unmap.state.is_mapped = g.is_mapped) ∧
     alternating g.is_mapped (succeeded (gpu_side_buffer.call dev) calls g) = true) ∧
    ((∀ issued call, dev.success issued call = true) →
      (c.is_mapped = false → (c.map dev).error = none) ∧
      (g.is_mapped = false → (g.map dev).error = none)) ∧
    (c.is_mapped = true →
      c.unmap.error = none ∧ c.unmap.state.is_mapped = false ∧
      c.unmap.state.issued = c.issued ++ [.vkUnmapMemory c.CPUMemory]) ∧
    (g.is_mapped = true →
      g.unmap.error = none ∧ g.unmap.state.is_mapped = false ∧
      g.unmap.state.issued = g.issued ++ [.vkUnmapMemory g.stagingMemory]) := by
  refine ⟨⟨?_, ?_, ?_, ?_, ?_, ?_, ?_⟩, ⟨?_, ?_, ?_, ?_, ?_, ?_, ?_⟩, ?_, ?_, ?_⟩
  · intro h
    rcases cpu_map_cases dev c with ⟨_, h2, _⟩ | ⟨_, h2, _⟩ | ⟨h1, _, h3⟩
    · rw [h2] at h; cases h
    · rw [h2] at h; cases h
    · exact ⟨h1, h3⟩
  · intro h
    rcases cpu_unmap_cases c with ⟨_, h2, _⟩ | ⟨h1, _, h3⟩
    · rw [h2] at h; cases h
    · exact ⟨h1, h3⟩
  · intro h
    rcases cpu_map_cases dev c with ⟨_, h2, h3⟩ | ⟨h1, _, _⟩ | ⟨h1, _, _⟩
    · exact ⟨h2, h3⟩
    · exact absurd (h1.symm.trans h) (by decide)
    · exact absurd (h1.symm.trans h) (by decide)
  · intro h
    rcases cpu_unmap_cases c with ⟨_, h2, h3⟩ | ⟨h1, _, _⟩
    · exact ⟨h2, h3⟩
    · exact absurd (h.symm.trans h1) (by decide)
  · exact cpu_call_flag dev .map c
  · exact cpu_call_flag dev .unmap c
  · exact succeeded_alternating (cpu_side_buffer.call dev) cpu_side_buffer.mappedFlag
      (fun b h => by
        rcases cpu_map_cases dev b with ⟨_, h2, _⟩ | ⟨_, h2, _⟩ | ⟨h1, _, h3⟩
        · rw [cpu_side_buffer.call, h2] at h; cases h
        · rw [cpu_side_buffer.call, h2] at h; cases h
        · exact ⟨h1, h3⟩)
      (fun b h => by
        rcases cpu_unmap_cases b with ⟨_, h2, _⟩ | ⟨h1, _, h3⟩
        · rw [cpu_side_buffer.call, h2] at h; cases h
        · exact ⟨h1, h3⟩)
      (cpu_call_flag dev) calls c
  · intro h
    rcases gpu_map_cases dev g with ⟨_, h2, _⟩ | ⟨_, h2, _⟩ | ⟨h1, _, h3⟩
    · rw [h2] at h; cases h
    · exact absurd h h2
    · exact ⟨h1, h3⟩
  · intro h
    rcases gpu_unmap_cases g with ⟨_, h2, _⟩ | ⟨h1, _, h3⟩
    · rw [h2] at h; cases h
    · exact ⟨h1, h3⟩
  · intro h
    rcases gpu_map_cases dev g with ⟨_, h2, h3⟩ | ⟨h1, _, _⟩ | ⟨h1, _, _⟩
    · exact ⟨h2, h3⟩
    · exact absurd (h1.symm.trans h) (by decide)
    · exact absurd (h1.symm.trans h) (by decide)
  · intro h
    rcases gpu_unmap_cases g with ⟨_, h2, h3⟩ | ⟨h1, _, _⟩
    · exact ⟨h2, h3⟩
    · exact absurd (h.symm.trans h1) (by decide)
  · exact gpu_call_flag dev .map g
  · exact gpu_call_flag dev .unmap g
  · exact succeeded_alternating (gpu_side_buffer.call dev) gpu_side_buffer.mappedFlag
      (fun b h => by
        rcases gpu_map_cases dev b with ⟨_, h2, _⟩ | ⟨_, h2, _⟩ | ⟨h1, _, h3⟩
        · rw [gpu_side_buffer.call, h2] at h; cases h
        · exact absurd h h2
        · exact ⟨h1, h3⟩)
      (fun b h => by
        rcases gpu_unmap_cases b with ⟨_, h2, _⟩ | ⟨h1, _, h3⟩
        · rw [gpu_side_buffer.call, h2] at h; cases h
        · exact ⟨h1, h3⟩)
      (gpu_call_flag dev) calls g
  · intro hd
    exact ⟨cpu_map_healthy dev hd c, gpu_map_healthy dev hd g⟩
  · intro h
    have hflag : c.mappedFlag = true := h
    simp [cpu_side_buffer.unmap, cpu_side_buffer.is_mapped, hflag]
  · intro h
    have hflag : g.mappedFlag = true := h
    simp [gpu_side_buffer.unmap, gpu_side_buffer.is_mapped, hflag]

/-- On a device that accepts every call, a fresh cpu_side_buffer and a fresh gpu_side_buffer
are mapped by map, unmapped again by unmap, and mapped by a second map: the three calls return
in turn and the flag reads true, false, true. -/
theorem C19_map_unmap_alternate_witness :
    ((freshCpuBuffer.map MemoryDevice.healthy).error = none ∧
     (freshCpuBuffer.map MemoryDevice.healthy).state.is_mapped = true ∧
     (freshCpuBuffer.map MemoryDevice.healthy).state.unmap.error = none ∧
     (freshCpuBuffer.map MemoryDevice.healthy).state.unmap.state.is_mapped = false) ∧
    ((freshGpuBuffer.map MemoryDevice.healthy).error = none ∧
     (freshGpuBuffer.map MemoryDevice.healthy).state.is_mapped = true ∧
     (freshGpuBuffer.map MemoryDevice.healthy).state.unmap.error = none ∧
     (freshGpuBuffer.map MemoryDevice.healthy).state.unmap.state.is_mapped = false) := by
  have hc := C19_map_unmap_alternate MemoryDevice.healthy freshCpuBuffer freshGpuBuffer []
  have hm := C19_map_unmap_alternate MemoryDevice.healthy
    (freshCpuBuffer.map MemoryDevice.healthy).state
    (freshGpuBuffer.map MemoryDevice.healthy).state []
  obtain ⟨⟨c1, _⟩, ⟨g1, _⟩, live, _, _⟩ := hc
  obtain ⟨_, _, _, cu, gu⟩ := hm
  have hce := (live (fun _ _ => rfl)).1 rfl
  have hge := (live (fun _ _ => rfl)).2 rfl
  have hcm := (c1 hce).2
  have hgm := (g1 hge).2
  exact ⟨⟨hce, hcm, (cu hcm).1, (cu hcm).2.1⟩, ⟨hge, hgm, (gu hgm).1, (gu hgm).2.1⟩⟩

/-! ## Construction: the objects created and the handles held -/

theorem mem_destroyIf (kind : ObjectKind) (handle : Nat) (d : DeviceCall) :
    d ∈ destroyIf kind handle ↔ handle ≠ 0 ∧ d = .destroy kind handle := by
  unfold destroyIf
  split_ifs with h <;> simp [h]

theorem mem_imageSlots (images : List swapchain_image) (p : ObjectKind × Nat) :
    p ∈ imageSlots images ↔
      ∃ image ∈ images, p = (.framebuffer, image.framebuffer) ∨ p = (.imageView, image.view) := by
  simp only [imageSlots, List.mem_flatten, List.mem_map]
  constructor
  · rintro ⟨l, ⟨image, hi, rfl⟩, hp⟩
    exact ⟨image, hi, by simpa using hp⟩
  · rintro ⟨image, hi, hp⟩
    exact ⟨_, ⟨image, hi, rfl⟩, by simpa using hp⟩

theorem mem_slots (r : vulkan_wienderer) (p : ObjectKind × Nat) :
    p ∈ slots r ↔
      p = (.sampler, r.defaultSampler) ∨ p = (.imageView, r.defaultTextureImage.view) ∨
      p = (.image, r.defaultTextureImage.image) ∨ p = (.memory, r.defaultTextureImage.memory) ∨
      p = (.semaphore, r.semaphore) ∨ p = (.fence, r.fence) ∨
      p = (.commandPool, r.commandPool) ∨
      p = (.imageView, r.colorRenderTarget.view) ∨ p = (.image, r.colorRenderTarget.image) ∨
      p = (.memory, r.colorRenderTarget.memory) ∨ p = (.swapchain, r.swapchain) ∨
      p = (.renderPass, r.defaultRenderPass) ∨ p = (.device, r.ldevice) ∨
      p = (.surface, r.surface) ∨ p = (.instance_, r.instance_) ∨
      p ∈ imageSlots r.swapchainImages := by
  simp only [slots, scalars, List.mem_append, List.mem_cons, List.not_mem_nil, or_false,
    or_assoc]

theorem mem_destroys (ps : List (ObjectKind × Nat)) (d : DeviceCall) :
    d ∈ (ps.map (fun p => destroyIf p.1 p.2)).flatten ↔
      ∃ p ∈ ps, p.2 ≠ 0 ∧ d = .destroy p.1 p.2 := by
  simp only [List.mem_flatten, List.mem_map]
  constructor
  · rintro ⟨l, ⟨p, hp, rfl⟩, hd⟩
    exact ⟨p, hp, (mem_destroyIf _ _ _).mp hd⟩
  · rintro ⟨p, hp, h⟩
    exact ⟨_, ⟨p, hp, rfl⟩, (mem_destroyIf _ _ _).mpr h⟩

theorem destroy_swapchain_images_eq (images : List swapchain_image) :
    destroy_swapchain_images images =
      ((imageSlots images).map (fun p => destroyIf p.1 p.2)).flatten := by
  induction images with
  | nil => rfl
  | cons a l ih =>
    simp only [destroy_swapchain_images, imageSlots, List.map_cons, List.flatten_cons] at ih ⊢
    rw [ih]
    simp

theorem mem_held (r : vulkan_wienderer) (d : DeviceCall) :
    d ∈ held r ↔ ∃ p ∈ slots r, p.2 ≠ 0 ∧ d = .destroy p.1 p.2 := by
  rw [← mem_destroys]
  simp only [held, slots, scalars, destroy_vulkan_image, destroy_swapchain_images_eq,
    List.map_cons,
    List.map_nil, List.map_append, List.flatten_cons, List.flatten_nil, List.flatten_append,
    List.mem_append, List.append_nil, List.not_mem_nil, or_false]
  simp only [or_assoc, or_comm, or_left_comm]

/-- A field the step does not assign has the value it had before. -/
theorem unchanged {p : Prop} {α : Type} {a : α} : p → a = a :=
  fun _ => rfl

/-- Two fields the step does not assign have the values they had before. -/
theorem unchangedBoth {p : Prop} {α β : Type} {a : α} {b : β} : p → a = a ∧ b = b :=
  fun _ => ⟨rfl, rfl⟩

theorem fresh_step {j : Nat} {r r1 : vulkan_wienderer} (hF : Fresh j r)
    (hidle : r1.recording = r.recording)
    (h1 : j + 1 < 1 → r1.instance_ = r.instance_)
    (h4 : j + 1 < 4 → r1.surface = r.surface)
    (h6 : j + 1 < 6 → r1.ldevice = r.ldevice)
    (h8 : j + 1 < 8 → r1.colorRenderTarget = r.colorRenderTarget)
    (h9 : j + 1 < 9 → r1.defaultRenderPass = r.defaultRenderPass)
    (h10 : j + 1 < 10 → r1.swapchain = r.swapchain)
    (h11 : j + 1 < 11 → r1.swapchainImages = r.swapchainImages)
    (h12 : j + 1 < 12 → r1.commandPool = r.commandPool)
    (h13 : j + 1 < 13 → r1.commandBuffers = r.commandBuffers)
    (h14 : j + 1 < 14 → r1.fence = r.fence ∧ r1.semaphore = r.semaphore)
    (h15 : j + 1 < 15 → r1.defaultTextureImage = r.defaultTextureImage)
    (h16 : j + 1 < 16 → r1.defaultSampler = r.defaultSampler) : Fresh (j + 1) r1 :=
  { instance_ := fun h => by rw [h1 h]; exact hF.instance_ (by omega)
    surface := fun h => by rw [h4 h]; exact hF.surface (by omega)
    ldevice := fun h => by rw [h6 h]; exact hF.ldevice (by omega)
    colorRenderTarget := fun h => by rw [h8 h]; exact hF.colorRenderTarget (by omega)
    defaultRenderPass := fun h => by rw [h9 h]; exact hF.defaultRenderPass (by omega)
    swapchain := fun h => by rw [h10 h]; exact hF.swapchain (by omega)
    swapchainImages := fun h => by rw [h11 h]; exact hF.swapchainImages (by omega)
    commandPool := fun h => by rw [h12 h]; exact hF.commandPool (by omega)
    commandBuffers := fun h => by rw [h13 h]; exact hF.commandBuffers (by omega)
    fence := fun h => by rw [(h14 h).1]; exact hF.fence (by omega)
    semaphore := fun h => by rw [(h14 h).2]; exact hF.semaphore (by omega)
    defaultTextureImage := fun h => by rw [h15 h]; exact hF.defaultTextureImage (by omega)
    defaultSampler := fun h => by rw [h16 h]; exact hF.defaultSampler (by omega)
    idle := by rw [hidle]; exact hF.idle }

theorem owedFrom_append (dev : Device) (a b : List DeviceCall) :
    ∀ pre, owedFrom dev pre (a ++ b) = owedFrom dev pre a ++ owedFrom dev (pre ++ a) b := by
  induction a with
  | nil => intro pre; simp [owedFrom]
  | cons c cs ih =>
    intro pre
    have h := ih (pre ++ [c])
    simp only [List.append_assoc, List.singleton_append] at h
    simp only [List.cons_append, owedFrom, List.append_assoc]
    exact congrArg _ h

theorem owed_append (dev : Device) (a b : List DeviceCall) :
    owed dev (a ++ b) = owed dev a ++ owedFrom dev a b := by
  unfold owed
  rw [owedFrom_append]
  simp

theorem teardown_idle (dev : Device) (r : vulkan_wienderer) (h : r.recording = false) :
    (accurate_destroy dev r).error = none ∧
    teardown dev r =
      (if r.ldevice ≠ 0 then [DeviceCall.vkDeviceWaitIdle r.ldevice] else []) ++ held r := by
  simp [teardown, accurate_destroy, h, issue]

theorem mem_getD_or_mem_set {α : Type} (l : List α) (x p : α) (hp : p ∈ l) :
    ∀ i, p = l.getD i x ∨ p ∈ l.set i x := by
  induction l with
  | nil => simp at hp
  | cons a l ih =>
    intro i
    cases i with
    | zero =>
      rcases List.mem_cons.mp hp with h | h
      · exact Or.inl (by simp [h])
      · exact Or.inr (by simp [h])
    | succ i =>
      rcases List.mem_cons.mp hp with h | h
      · exact Or.inr (by simp [h])
      · rcases ih h i with h1 | h1
        · exact Or.inl (by simpa using h1)
        · exact Or.inr (by simp [h1])

theorem slots_set (r r1 : vulkan_wienderer) (i : Nat) (x : ObjectKind × Nat)
    (hs : scalars r1 = (scalars r).set i x) (himages : r1.swapchainImages = r.swapchainImages)
    (hi : i < 15) :
    (∀ p, p ∈ slots r1 → p ∈ slots r ∨ p = x) ∧
    (∀ p, p ∈ slots r → p = (scalars r).getD i x ∨ p ∈ slots r1) ∧ x ∈ slots r1 := by
  have hlen : (scalars r).length = 15 := rfl
  refine ⟨?_, ?_, ?_⟩
  · intro p hp
    simp only [slots, hs, himages, List.mem_append] at hp ⊢
    rcases hp with h | h
    · rcases List.mem_or_eq_of_mem_set h with h | h
      · exact Or.inl (Or.inl h)
      · exact Or.inr h
    · exact Or.inl (Or.inr h)
  · intro p hp
    simp only [slots, hs, himages, List.mem_append] at hp ⊢
    rcases hp with h | h
    · rcases mem_getD_or_mem_set (scalars r) x p h i with h1 | h1
      · exact Or.inl h1
      · exact Or.inr (Or.inl h1)
    · exact Or.inr (Or.inr h)
  · simp only [slots, hs, List.mem_append]
    left
    exact List.mem_set _ _ (by rw [hlen]; exact hi) _

theorem stored_step (dev : Device) (r r1 : vulkan_wienderer) (cs : List DeviceCall)
    (hissued : r1.issued = r.issued ++ cs)
    (hnew : ∀ p ∈ slots r1, p ∈ slots r ∨ p.2 = 0 ∨
      DeviceCall.destroy p.1 p.2 ∈ owedFrom dev r.issued cs)
    (hS : Stored dev r) : Stored dev r1 := by
  intro p hp hp0
  rw [hissued, owed_append, List.mem_append]
  rcases hnew p hp with h | h | h
  · exact Or.inl (hS p h hp0)
  · exact absurd h hp0
  · exact Or.inr h

theorem complete_step (dev : Device) (r r1 : vulkan_wienderer) (cs : List DeviceCall)
    (hissued : r1.issued = r.issued ++ cs)
    (hkept : ∀ p ∈ slots r, p.2 ≠ 0 → p ∈ slots r1)
    (hnew : ∀ d ∈ owedFrom dev r.issued cs,
      ∃ p ∈ slots r1, p.2 ≠ 0 ∧ d = DeviceCall.destroy p.1 p.2)
    (hC : Complete dev r) : Complete dev r1 := by
  intro d hd
  rw [hissued, owed_append, List.mem_append] at hd
  rcases hd with h | h
  · obtain ⟨p, hp, hp0, rfl⟩ := hC d h
    exact ⟨p, hkept p hp hp0, hp0, rfl⟩
  · exact hnew d h

theorem quiet_step (dev : Device) (r r1 : vulkan_wienderer) (cs : List DeviceCall)
    (hissued : r1.issued = r.issued ++ cs) (howed : owedFrom dev r.issued cs = [])
    (hslots : slots r1 = slots r) (hS : Stored dev r) (hC : Complete dev r) :
    Stored dev r1 ∧ Complete dev r1 := by
  refine ⟨stored_step dev r r1 cs hissued ?_ hS, complete_step dev r r1 cs hissued ?_ ?_ hC⟩
  · intro _ hp
    exact Or.inl (hslots ▸ hp)
  · intro _ hp _
    exact hslots ▸ hp
  · intro d hd
    rw [howed] at hd
    simp at hd

theorem aborted_of_slots (dev : Device) (r r1 : vulkan_wienderer) (cs : List DeviceCall)
    (hissued : r1.issued = r.issued ++ cs) (hidle : r1.recording = false)
    (hslots : slots r1 = slots r) (hS : Stored dev r) : Aborted dev r r1 :=
  ⟨hidle, stored_step dev r r1 cs hissued (fun _ hp => Or.inl (hslots ▸ hp)) hS,
    fun _ hp _ => hslots ▸ hp⟩

/-- What a step that holds one more handle afterwards has to satisfy. -/
theorem createInto_spec (dev : Device) (hnz : ∀ issued c i, dev.written issued c i ≠ 0)
    (kind : ObjectKind) (parent step check i : Nat)
    (assign : Nat → vulkan_wienderer → vulkan_wienderer) (r : vulkan_wienderer)
    (hissued : ∀ h r, (assign h r).issued = r.issued)
    (hscalars : ∀ h, scalars (assign h (issue r [.create kind parent])) =
      (scalars r).set i (kind, h))
    (himages : ∀ h, (assign h (issue r [.create kind parent])).swapchainImages =
      r.swapchainImages)
    (hi : i < 15) (hzero : ((scalars r).getD i (kind, 0)).2 = 0)
    (hidle : r.recording = false) (hS : Stored dev r) (hC : Complete dev r) :
    (∀ r1, createInto dev (.create kind parent) step check assign r = ⟨none, r1⟩ →
      Stored dev r1 ∧ Complete dev r1 ∧ (∀ p ∈ slots r, p.2 ≠ 0 → p ∈ slots r1) ∧
      r1 = assign (dev.written r.issued (.create kind parent) 0)
        (issue r [.create kind parent])) ∧
    (∀ e r1, createInto dev (.create kind parent) step check assign r = ⟨some e, r1⟩ →
      Aborted dev r r1) := by
  unfold createInto
  by_cases hs : dev.success r.issued (.create kind parent) = true
  · rw [if_pos hs]
    refine ⟨?_, fun e r1 h => by simp at h⟩
    intro r1 h
    simp only [Outcome.mk.injEq, true_and] at h
    subst h
    have hi1 : (assign (dev.written r.issued (.create kind parent) 0)
        (issue r [.create kind parent])).issued = r.issued ++ [.create kind parent] := by
      rw [hissued]; rfl
    obtain ⟨hnew, hold, hset⟩ := slots_set r _ i _ (hscalars _) (himages _) hi
    have hkept : ∀ p ∈ slots r, p.2 ≠ 0 → p ∈ slots (assign
        (dev.written r.issued (.create kind parent) 0) (issue r [.create kind parent])) := by
      intro p hp hp0
      rcases hold p hp with h | h
      · have hlen : i < (scalars r).length := hi
        rw [h] at hp0
        simp only [List.getD_eq_getElem?_getD, List.getElem?_eq_getElem hlen,
          Option.getD_some] at hp0 hzero
        exact absurd hzero hp0
      · exact h
    refine ⟨stored_step dev r _ _ hi1 ?_ hS, complete_step dev r _ _ hi1 hkept ?_ hC, hkept,
      rfl⟩
    · intro p hp
      rcases hnew p hp with h | h
      · exact Or.inl h
      · right; right
        subst h
        simp [owedFrom, hs]
    · intro d hd
      simp only [owedFrom, hs, if_true, List.append_nil, List.mem_singleton] at hd
      subst hd
      exact ⟨(kind, _), hset, hnz _ _ _, rfl⟩
  · rw [if_neg hs]
    refine ⟨fun r1 h => by simp at h, ?_⟩
    intro e r1 h
    simp only [Outcome.mk.injEq, Option.some.injEq] at h
    obtain ⟨-, rfl⟩ := h
    exact aborted_of_slots dev r _ [.create kind parent] rfl hidle rfl hS

theorem create_vulkan_instance_spec (dev : Device)
    (hnz : ∀ issued c i, dev.written issued c i ≠ 0) (r : vulkan_wienderer)
    (hP : Progress dev 0 r) :
    (∀ r1, create_vulkan_instance dev r = ⟨none, r1⟩ → Progress dev (0 + 1) r1) ∧
    (∀ e r1, create_vulkan_instance dev r = ⟨some e, r1⟩ → Aborted dev r r1) := by
  have h := createInto_spec dev hnz .instance_ 0 1 0 14
    (fun h r => { r with instance_ := h }) r (fun _ _ => rfl) (fun _ => rfl) (fun _ => rfl)
    (by omega) (hP.fresh.instance_ (by omega)) hP.fresh.idle hP.stored hP.complete
  refine ⟨fun r1 h1 => ?_, h.2⟩
  obtain ⟨hS, hC, -, rfl⟩ := h.1 r1 h1
  exact ⟨fresh_step hP.fresh rfl (fun h => absurd h (by omega)) unchanged unchanged unchanged unchanged unchanged unchanged unchanged unchanged unchangedBoth unchanged unchanged, hS, hC⟩

theorem create_platform_spec_surface_spec (dev : Device)
    (hnz : ∀ issued c i, dev.written issued c i ≠ 0) (r : vulkan_wienderer)
    (hP : Progress dev 3 r) :
    (∀ r1, create_platform_spec_surface dev r = ⟨none, r1⟩ → Progress dev (3 + 1) r1) ∧
    (∀ e r1, create_platform_spec_surface dev r = ⟨some e, r1⟩ → Aborted dev r r1) := by
  have h := createInto_spec dev hnz .surface r.instance_ 4 0 13
    (fun h r => { r with surface := h }) r (fun _ _ => rfl) (fun _ => rfl) (fun _ => rfl)
    (by omega) (hP.fresh.surface (by omega)) hP.fresh.idle hP.stored hP.complete
  refine ⟨fun r1 h1 => ?_, h.2⟩
  obtain ⟨hS, hC, -, rfl⟩ := h.1 r1 h1
  exact ⟨fresh_step hP.fresh rfl unchanged (fun h => absurd h (by omega)) unchanged unchanged unchanged unchanged unchanged unchanged unchanged unchangedBoth unchanged unchanged, hS, hC⟩

theorem create_default_render_pass_spec (dev : Device)
    (hnz : ∀ issued c i, dev.written issued c i ≠ 0) (r : vulkan_wienderer)
    (hP : Progress dev 8 r) :
    (∀ r1, create_default_render_pass dev r = ⟨none, r1⟩ → Progress dev (8 + 1) r1) ∧
    (∀ e r1, create_default_render_pass dev r = ⟨some e, r1⟩ → Aborted dev r r1) := by
  have h := createInto_spec dev hnz .renderPass r.ldevice 9 0 11
    (fun h r => { r with defaultRenderPass := h }) r (fun _ _ => rfl) (fun _ => rfl) (fun _ => rfl)
    (by omega) (hP.fresh.defaultRenderPass (by omega)) hP.fresh.idle hP.stored hP.complete
  refine ⟨fun r1 h1 => ?_, h.2⟩
  obtain ⟨hS, hC, -, rfl⟩ := h.1 r1 h1
  exact ⟨fresh_step hP.fresh rfl unchanged unchanged unchanged unchanged (fun h => absurd h (by omega)) unchanged unchanged unchanged unchanged unchangedBoth unchanged unchanged, hS, hC⟩

theorem create_swapchain_spec (dev : Device)
    (hnz : ∀ issued c i, dev.written issued c i ≠ 0) (r : vulkan_wienderer)
    (hP : Progress dev 9 r) :
    (∀ r1, create_swapchain dev r = ⟨none, r1⟩ → Progress dev (9 + 1) r1) ∧
    (∀ e r1, create_swapchain dev r = ⟨some e, r1⟩ → Aborted dev r r1) := by
  have h := createInto_spec dev hnz .swapchain r.surface 10 0 10
    (fun h r => { r with swapchain := h }) r (fun _ _ => rfl) (fun _ => rfl) (fun _ => rfl)
    (by omega) (hP.fresh.swapchain (by omega)) hP.fresh.idle hP.stored hP.complete
  refine ⟨fun r1 h1 => ?_, h.2⟩
  obtain ⟨hS, hC, -, rfl⟩ := h.1 r1 h1
  exact ⟨fresh_step hP.fresh rfl unchanged unchanged unchanged unchanged unchanged (fun h => absurd h (by omega)) unchanged unchanged unchanged unchangedBoth unchanged unchanged, hS, hC⟩

theorem create_command_pool_spec (dev : Device)
    (hnz : ∀ issued c i, dev.written issued c i ≠ 0) (r : vulkan_wienderer)
    (hP : Progress dev 11 r) :
    (∀ r1, create_command_pool dev r = ⟨none, r1⟩ → Progress dev (11 + 1) r1) ∧
    (∀ e r1, create_command_pool dev r = ⟨some e, r1⟩ → Aborted dev r r1) := by
  have h := createInto_spec dev hnz .commandPool r.ldevice 12 0 6
    (fun h r => { r with commandPool := h }) r (fun _ _ => rfl) (fun _ => rfl) (fun _ => rfl)
    (by omega) (hP.fresh.commandPool (by omega)) hP.fresh.idle hP.stored hP.complete
  refine ⟨fun r1 h1 => ?_, h.2⟩
  obtain ⟨hS, hC, -, rfl⟩ := h.1 r1 h1
  exact ⟨fresh_step hP.fresh rfl unchanged unchanged unchanged unchanged unchanged unchanged unchanged (fun h => absurd h (by omega)) unchanged unchangedBoth unchanged unchanged, hS, hC⟩

theorem create_default_texture_sampler_spec (dev : Device)
    (hnz : ∀ issued c i, dev.written issued c i ≠ 0) (r : vulkan_wienderer)
    (hP : Progress dev 15 r) :
    (∀ r1, create_default_texture_sampler dev r = ⟨none, r1⟩ → Progress dev (15 + 1) r1) ∧
    (∀ e r1, create_default_texture_sampler dev r = ⟨some e, r1⟩ → Aborted dev r r1) := by
  have h := createInto_spec dev hnz .sampler r.ldevice 16 0 0
    (fun h r => { r with defaultSampler := h }) r (fun _ _ => rfl) (fun _ => rfl) (fun _ => rfl)
    (by omega) (hP.fresh.defaultSampler (by omega)) hP.fresh.idle hP.stored hP.complete
  refine ⟨fun r1 h1 => ?_, h.2⟩
  obtain ⟨hS, hC, -, rfl⟩ := h.1 r1 h1
  exact ⟨fresh_step hP.fresh rfl unchanged unchanged unchanged unchanged unchanged unchanged unchanged unchanged unchanged unchangedBoth unchanged (fun h => absurd h (by omega)), hS, hC⟩

theorem progress_of {dev : Device} {j : Nat} {r : vulkan_wienderer} (hF : Fresh j r)
    (h : Stored dev r ∧ Complete dev r) : Progress dev j r :=
  ⟨hF, h.1, h.2⟩

theorem probeStep_spec (dev : Device) (step j : Nat) (r : vulkan_wienderer)
    (hP : Progress dev j r) :
    (∀ r1, probeStep dev step r = ⟨none, r1⟩ → Progress dev (j + 1) r1) ∧
    (∀ e r1, probeStep dev step r = ⟨some e, r1⟩ → Aborted dev r r1) := by
  unfold probeStep
  split_ifs with hs
  · refine ⟨fun r1 h => ?_, fun e r1 h => by simp at h⟩
    simp only [Outcome.mk.injEq, true_and] at h
    subst h
    obtain ⟨hS, hC⟩ := quiet_step dev r (issue r [.probe step]) [.probe step] rfl
      (by simp [owedFrom]) rfl hP.stored hP.complete
    exact ⟨fresh_step hP.fresh rfl unchanged unchanged unchanged unchanged
      unchanged unchanged unchanged unchanged unchanged
      unchangedBoth unchanged unchanged, hS, hC⟩
  · refine ⟨fun r1 h => by simp at h, fun e r1 h => ?_⟩
    simp only [Outcome.mk.injEq, Option.some.injEq] at h
    obtain ⟨-, rfl⟩ := h
    exact aborted_of_slots dev r _ [.probe step] rfl hP.fresh.idle rfl hP.stored

theorem create_swapchain_info_spec (dev : Device) (j : Nat) (r : vulkan_wienderer)
    (hP : Progress dev j r) :
    (∀ r1, create_swapchain_info dev r = ⟨none, r1⟩ → Progress dev (j + 1) r1) ∧
    (∀ e r1, create_swapchain_info dev r = ⟨some e, r1⟩ → Aborted dev r r1) := by
  unfold create_swapchain_info
  split_ifs with hs
  · refine ⟨fun r1 h => ?_, fun e r1 h => by simp at h⟩
    simp only [Outcome.mk.injEq, true_and] at h
    subst h
    obtain ⟨hS, hC⟩ := quiet_step dev r
      { issue r [.probe 7] with extent := dev.minImageExtent r.issued } [.probe 7] rfl
      (by simp [owedFrom]) rfl hP.stored hP.complete
    exact ⟨fresh_step hP.fresh rfl unchanged unchanged unchanged unchanged
      unchanged unchanged unchanged unchanged unchanged
      unchangedBoth unchanged unchanged, hS, hC⟩
  · refine ⟨fun r1 h => by simp at h, fun e r1 h => ?_⟩
    simp only [Outcome.mk.injEq, Option.some.injEq] at h
    obtain ⟨-, rfl⟩ := h
    exact aborted_of_slots dev r _ [.probe 7] rfl hP.fresh.idle rfl hP.stored

theorem allocate_command_buffers_spec (dev : Device) (r : vulkan_wienderer)
    (hP : Progress dev 12 r) :
    (∀ r1, allocate_command_buffers dev r = ⟨none, r1⟩ → Progress dev (12 + 1) r1) ∧
    (∀ e r1, allocate_command_buffers dev r = ⟨some e, r1⟩ → Aborted dev r r1) := by
  unfold allocate_command_buffers
  dsimp only
  split_ifs with hs
  · refine ⟨fun r1 h => ?_, fun e r1 h => by simp at h⟩
    simp only [Outcome.mk.injEq, true_and] at h
    subst h
    exact progress_of (fresh_step hP.fresh rfl unchanged unchanged unchanged
      unchanged unchanged unchanged unchanged unchanged
      (fun h => absurd h (by omega)) unchangedBoth unchanged unchanged)
      (quiet_step dev r _ [DeviceCall.vkAllocateCommandBuffers r.commandPool
        (resize 0 r.commandBuffers r.swapchainImages.length).length] rfl
        (by simp [owedFrom]) rfl hP.stored hP.complete)
  · refine ⟨fun r1 h => by simp at h, fun e r1 h => ?_⟩
    simp only [Outcome.mk.injEq, Option.some.injEq] at h
    obtain ⟨-, rfl⟩ := h
    exact aborted_of_slots dev r _ _ rfl hP.fresh.idle rfl hP.stored

theorem create_logical_device_spec (dev : Device)
    (hnz : ∀ issued c i, dev.written issued c i ≠ 0) (r : vulkan_wienderer)
    (hP : Progress dev 5 r) :
    (∀ r1, create_logical_device dev r = ⟨none, r1⟩ → Progress dev (5 + 1) r1) ∧
    (∀ e r1, create_logical_device dev r = ⟨some e, r1⟩ → Aborted dev r r1) := by
  have hzero := hP.fresh.ldevice (by omega)
  unfold create_logical_device
  dsimp only
  split_ifs with hs
  · refine ⟨fun r1 h => ?_, fun e r1 h => by simp at h⟩
    simp only [Outcome.mk.injEq, true_and] at h
    subst h
    obtain ⟨hnew, hold, hset⟩ := slots_set r
      { issue r [.create .device 0,
          .vkGetDeviceQueue (dev.written r.issued (.create .device 0) 0),
          .vkGetDeviceQueue (dev.written r.issued (.create .device 0) 0)] with
        ldevice := dev.written r.issued (.create .device 0) 0,
        graphicsQueue := dev.written (r.issued ++ [.create .device 0])
          (.vkGetDeviceQueue (dev.written r.issued (.create .device 0) 0)) 0,
        presentQueue := dev.written (r.issued ++ [.create .device 0,
          .vkGetDeviceQueue (dev.written r.issued (.create .device 0) 0)])
          (.vkGetDeviceQueue (dev.written r.issued (.create .device 0) 0)) 0 }
      12 (.device, dev.written r.issued (.create .device 0) 0) rfl rfl (by omega)
    refine ⟨fresh_step hP.fresh rfl unchanged unchanged (fun h => absurd h (by omega))
      unchanged unchanged unchanged unchanged unchanged unchanged
      unchangedBoth unchanged unchanged,
      stored_step dev r _ _ rfl ?_ hP.stored, complete_step dev r _ _ rfl ?_ ?_ hP.complete⟩
    · intro p hp
      rcases hnew p hp with h | h
      · exact Or.inl h
      · right; right
        subst h
        simp [owedFrom, hs]
    · intro p hp hp0
      rcases hold p hp with h | h
      · rw [h] at hp0
        exact absurd hzero hp0
      · exact h
    · intro d hd
      simp only [owedFrom, hs, if_true, List.append_nil, List.singleton_append,
        List.mem_singleton, List.nil_append] at hd
      subst hd
      exact ⟨_, hset, hnz _ _ _, rfl⟩
  · refine ⟨fun r1 h => by simp at h, fun e r1 h => ?_⟩
    simp only [Outcome.mk.injEq, Option.some.injEq] at h
    obtain ⟨-, rfl⟩ := h
    exact aborted_of_slots dev r _ _ rfl hP.fresh.idle rfl hP.stored

theorem create_vulkan_image_spec (dev : Device) (step : Nat) (r : vulkan_wienderer) :
    ∃ cs, (create_vulkan_image dev step r).2.state = issue r cs ∧
      match (create_vulkan_image dev step r).1 with
      | some image =>
        (create_vulkan_image dev step r).2.error = none ∧
        owedFrom dev r.issued cs =
          [.destroy .image image.image, .destroy .memory image.memory,
           .destroy .imageView image.view]
      | none => (create_vulkan_image dev step r).2.error ≠ none := by
  unfold create_vulkan_image
  dsimp only
  split_ifs with h0 h1 h2 h3
  · refine ⟨[.create .image r.ldevice, .probe step,
      .create .memory (dev.written r.issued (.create .image r.ldevice) 0),
      .vkBindImageMemory (dev.written r.issued (.create .image r.ldevice) 0)
        (dev.written (issue (issue r [.create .image r.ldevice]) [.probe step]).issued
          (.create .memory (dev.written r.issued (.create .image r.ldevice) 0)) 0),
      .create .imageView (dev.written r.issued (.create .image r.ldevice) 0)], ?_, ?_⟩
    · simp [issue]
    · simp only [issue, List.append_assoc, List.singleton_append, List.cons_append,
        List.nil_append] at h2 h3
      simp [owedFrom, issue, h0, h2, h3]
  · exact ⟨[.create .image r.ldevice, .probe step,
      .create .memory (dev.written r.issued (.create .image r.ldevice) 0),
      .vkBindImageMemory (dev.written r.issued (.create .image r.ldevice) 0)
        (dev.written (issue (issue r [.create .image r.ldevice]) [.probe step]).issued
          (.create .memory (dev.written r.issued (.create .image r.ldevice) 0)) 0),
      .create .imageView (dev.written r.issued (.create .image r.ldevice) 0)],
      by simp [issue], by simp⟩
  · exact ⟨[.create .image r.ldevice, .probe step,
      .create .memory (dev.written r.issued (.create .image r.ldevice) 0)],
      by simp [issue], by simp⟩
  · exact ⟨[.create .image r.ldevice, .probe step], by simp [issue], by simp⟩
  · exact ⟨[.create .image r.ldevice], rfl, by simp⟩

theorem owedFrom_nonzero (dev : Device) (hnz : ∀ issued c i, dev.written issued c i ≠ 0)
    (kind : ObjectKind) (handle : Nat) (cs : List DeviceCall) :
    ∀ pre, DeviceCall.destroy kind handle ∈ owedFrom dev pre cs → handle ≠ 0 := by
  induction cs with
  | nil => intro pre h; simp [owedFrom] at h
  | cons c cs ih =>
    intro pre h
    simp only [owedFrom, List.mem_append] at h
    rcases h with h | h
    · cases c <;> simp only [List.not_mem_nil] at h
      split_ifs at h
      · simp only [List.mem_singleton, DeviceCall.destroy.injEq] at h
        rw [h.2]
        exact hnz _ _ _
      · simp at h
    · exact ih _ h

theorem slots_colorRenderTarget_new (r : vulkan_wienderer) (image : vulkan_image)
    (p : ObjectKind × Nat) (hp : p ∈ slots { r with colorRenderTarget := image }) :
    p ∈ slots r ∨ p = (.image, image.image) ∨ p = (.memory, image.memory) ∨
      p = (.imageView, image.view) := by
  simp only [mem_slots] at hp ⊢
  rcases hp with h | h | h | h | h | h | h | h | h | h | h | h | h | h | h | h <;>
    first
    | (subst h; simp)
    | simp [h]

theorem slots_colorRenderTarget_old (r : vulkan_wienderer) (image : vulkan_image)
    (p : ObjectKind × Nat) (hp : p ∈ slots r) :
    p = (.image, r.colorRenderTarget.image) ∨ p = (.memory, r.colorRenderTarget.memory) ∨
      p = (.imageView, r.colorRenderTarget.view) ∨ p ∈ slots { r with colorRenderTarget := image } := by
  simp only [mem_slots] at hp ⊢
  rcases hp with h | h | h | h | h | h | h | h | h | h | h | h | h | h | h | h <;>
    first
    | (subst h; simp)
    | simp [h]

theorem slots_colorRenderTarget_set (r : vulkan_wienderer) (image : vulkan_image) :
    (ObjectKind.image, image.image) ∈ slots { r with colorRenderTarget := image } ∧
    (ObjectKind.memory, image.memory) ∈ slots { r with colorRenderTarget := image } ∧
    (ObjectKind.imageView, image.view) ∈ slots { r with colorRenderTarget := image } := by
  simp [mem_slots]

theorem slots_defaultTextureImage_new (r : vulkan_wienderer) (image : vulkan_image)
    (p : ObjectKind × Nat) (hp : p ∈ slots { r with defaultTextureImage := image }) :
    p ∈ slots r ∨ p = (.image, image.image) ∨ p = (.memory, image.memory) ∨
      p = (.imageView, image.view) := by
  simp only [mem_slots] at hp ⊢
  rcases hp with h | h | h | h | h | h | h | h | h | h | h | h | h | h | h | h <;>
    first
    | (subst h; simp)
    | simp [h]

theorem slots_defaultTextureImage_old (r : vulkan_wienderer) (image : vulkan_image)
    (p : ObjectKind × Nat) (hp : p ∈ slots r) :
    p = (.image, r.defaultTextureImage.image) ∨ p = (.memory, r.defaultTextureImage.memory) ∨
      p = (.imageView, r.defaultTextureImage.view) ∨ p ∈ slots { r with defaultTextureImage := image } := by
  simp only [mem_slots] at hp ⊢
  rcases hp with h | h | h | h | h | h | h | h | h | h | h | h | h | h | h | h <;>
    first
    | (subst h; simp)
    | simp [h]

theorem slots_defaultTextureImage_set (r : vulkan_wienderer) (image : vulkan_image) :
    (ObjectKind.image, image.image) ∈ slots { r with defaultTextureImage := image } ∧
    (ObjectKind.memory, image.memory) ∈ slots { r with defaultTextureImage := image } ∧
    (ObjectKind.imageView, image.view) ∈ slots { r with defaultTextureImage := image } := by
  simp [mem_slots]

theorem create_color_render_target_spec (dev : Device)
    (hnz : ∀ issued c i, dev.written issued c i ≠ 0) (r : vulkan_wienderer)
    (hP : Progress dev 7 r) :
    (∀ r1, create_color_render_target dev r = ⟨none, r1⟩ → Progress dev (7 + 1) r1) ∧
    (∀ e r1, create_color_render_target dev r = ⟨some e, r1⟩ → Aborted dev r r1) := by
  have hzero := hP.fresh.colorRenderTarget (by omega)
  have hz1 : r.colorRenderTarget.image = 0 := by rw [hzero]
  have hz2 : r.colorRenderTarget.memory = 0 := by rw [hzero]
  have hz3 : r.colorRenderTarget.view = 0 := by rw [hzero]
  clear hzero
  obtain ⟨cs, hst, hm⟩ := create_vulkan_image_spec dev 8 r
  unfold create_color_render_target
  rcases hc : create_vulkan_image dev 8 r with ⟨_ | image, ⟨e, r0⟩⟩
  · rw [hc] at hst hm
    simp only at hst hm
    subst hst
    cases e with
    | none => exact absurd rfl hm
    | some e =>
      refine ⟨fun r1 h => by simp at h, fun e1 r1 h => ?_⟩
      simp only [Outcome.mk.injEq, Option.some.injEq] at h
      obtain ⟨-, rfl⟩ := h
      exact aborted_of_slots dev r _ cs rfl hP.fresh.idle rfl hP.stored
  · rw [hc] at hst hm
    simp only at hst hm
    subst hst
    obtain ⟨-, howed⟩ := hm
    refine ⟨fun r1 h => ?_, fun e1 r1 h => by simp at h⟩
    simp only [Outcome.mk.injEq, true_and] at h
    subst h
    have h1 : image.image ≠ 0 :=
      owedFrom_nonzero dev hnz .image _ cs r.issued (by rw [howed]; simp)
    have h2 : image.memory ≠ 0 :=
      owedFrom_nonzero dev hnz .memory _ cs r.issued (by rw [howed]; simp)
    have h3 : image.view ≠ 0 :=
      owedFrom_nonzero dev hnz .imageView _ cs r.issued (by rw [howed]; simp)
    have hissued : ({ issue r cs with colorRenderTarget := image }).issued = r.issued ++ (cs ++ []) := by
      simp [issue]
    have howed2 : owedFrom dev r.issued (cs ++ []) =
        [.destroy .image image.image, .destroy .memory image.memory,
         .destroy .imageView image.view] := by
      rw [owedFrom_append, howed]
      simp [owedFrom]
    have hset := slots_colorRenderTarget_set (issue r cs) image
    refine ⟨fresh_step hP.fresh rfl unchanged unchanged unchanged (fun h => absurd h (by omega)) unchanged unchanged unchanged unchanged unchanged unchangedBoth unchanged unchanged,
      stored_step dev r _ _ hissued ?_ hP.stored,
      complete_step dev r _ _ hissued ?_ ?_ hP.complete⟩
    · intro p hp
      rw [howed2]
      rcases slots_colorRenderTarget_new (issue r cs) image p hp with h | rfl | rfl | rfl
      · exact Or.inl h
      · exact Or.inr (Or.inr (by simp))
      · exact Or.inr (Or.inr (by simp))
      · exact Or.inr (Or.inr (by simp))
    · intro p hp hp0
      rcases slots_colorRenderTarget_old (issue r cs) image p hp with rfl | rfl | rfl | h
      · exact absurd hz1 hp0
      · exact absurd hz2 hp0
      · exact absurd hz3 hp0
      · exact h
    · intro d hd
      rw [howed2] at hd
      simp only [List.mem_cons, List.mem_singleton, List.not_mem_nil, or_false] at hd
      rcases hd with rfl | rfl | rfl
      · exact ⟨_, hset.1, h1, rfl⟩
      · exact ⟨_, hset.2.1, h2, rfl⟩
      · exact ⟨_, hset.2.2, h3, rfl⟩

theorem create_default_texture_image_spec (dev : Device)
    (hnz : ∀ issued c i, dev.written issued c i ≠ 0) (r : vulkan_wienderer)
    (hP : Progress dev 14 r) :
    (∀ r1, create_default_texture_image dev r = ⟨none, r1⟩ → Progress dev (14 + 1) r1) ∧
    (∀ e r1, create_default_texture_image dev r = ⟨some e, r1⟩ → Aborted dev r r1) := by
  have hzero := hP.fresh.defaultTextureImage (by omega)
  have hz1 : r.defaultTextureImage.image = 0 := by rw [hzero]
  have hz2 : r.defaultTextureImage.memory = 0 := by rw [hzero]
  have hz3 : r.defaultTextureImage.view = 0 := by rw [hzero]
  clear hzero
  obtain ⟨cs, hst, hm⟩ := create_vulkan_image_spec dev 15 r
  unfold create_default_texture_image
  rcases hc : create_vulkan_image dev 15 r with ⟨_ | image, ⟨e, r0⟩⟩
  · rw [hc] at hst hm
    simp only at hst hm
    subst hst
    cases e with
    | none => exact absurd rfl hm
    | some e =>
      refine ⟨fun r1 h => by simp at h, fun e1 r1 h => ?_⟩
      simp only [Outcome.mk.injEq, Option.some.injEq] at h
      obtain ⟨-, rfl⟩ := h
      exact aborted_of_slots dev r _ cs rfl hP.fresh.idle rfl hP.stored
  · rw [hc] at hst hm
    simp only at hst hm
    subst hst
    obtain ⟨-, howed⟩ := hm
    refine ⟨fun r1 h => ?_, fun e1 r1 h => by simp at h⟩
    simp only [Outcome.mk.injEq, true_and] at h
    subst h
    have h1 : image.image ≠ 0 :=
      owedFrom_nonzero dev hnz .image _ cs r.issued (by rw [howed]; simp)
    have h2 : image.memory ≠ 0 :=
      owedFrom_nonzero dev hnz .memory _ cs r.issued (by rw [howed]; simp)
    have h3 : image.view ≠ 0 :=
      owedFrom_nonzero dev hnz .imageView _ cs r.issued (by rw [howed]; simp)
    have hissued : ({ issue (issue r cs) [.singleTimeCommands (issue r cs).commandPool image.image] with defaultTextureImage := image }).issued = r.issued ++ (cs ++ [.singleTimeCommands r.commandPool image.image]) := by
      simp [issue]
    have howed2 : owedFrom dev r.issued (cs ++ [.singleTimeCommands r.commandPool image.image]) =
        [.destroy .image image.image, .destroy .memory image.memory,
         .destroy .imageView image.view] := by
      rw [owedFrom_append, howed]
      simp [owedFrom]
    have hset := slots_defaultTextureImage_set (issue (issue r cs) [.singleTimeCommands (issue r cs).commandPool image.image]) image
    refine ⟨fresh_step hP.fresh rfl unchanged unchanged unchanged unchanged unchanged unchanged unchanged unchanged unchanged unchangedBoth (fun h => absurd h (by omega)) unchanged,
      stored_step dev r _ _ hissued ?_ hP.stored,
      complete_step dev r _ _ hissued ?_ ?_ hP.complete⟩
    · intro p hp
      rw [howed2]
      rcases slots_defaultTextureImage_new (issue (issue r cs) [.singleTimeCommands (issue r cs).commandPool image.image]) image p hp with h | rfl | rfl | rfl
      · exact Or.inl h
      · exact Or.inr (Or.inr (by simp))
      · exact Or.inr (Or.inr (by simp))
      · exact Or.inr (Or.inr (by simp))
    · intro p hp hp0
      rcases slots_defaultTextureImage_old (issue (issue r cs) [.singleTimeCommands (issue r cs).commandPool image.image]) image p hp with rfl | rfl | rfl | h
      · exact absurd hz1 hp0
      · exact absurd hz2 hp0
      · exact absurd hz3 hp0
      · exact h
    · intro d hd
      rw [howed2] at hd
      simp only [List.mem_cons, List.mem_singleton, List.not_mem_nil, or_false] at hd
      rcases hd with rfl | rfl | rfl
      · exact ⟨_, hset.1, h1, rfl⟩
      · exact ⟨_, hset.2.1, h2, rfl⟩
      · exact ⟨_, hset.2.2, h3, rfl⟩

theorem intitialize_sync_object_spec (dev : Device)
    (hnz : ∀ issued c i, dev.written issued c i ≠ 0) (r : vulkan_wienderer)
    (hP : Progress dev 13 r) :
    (∀ r1, intitialize_sync_object dev r = ⟨none, r1⟩ → Progress dev (13 + 1) r1) ∧
    (∀ e r1, intitialize_sync_object dev r = ⟨some e, r1⟩ → Aborted dev r r1) := by
  have h1 := createInto_spec dev hnz .fence r.ldevice 14 0 5
    (fun h r => { r with fence := h }) r (fun _ _ => rfl) (fun _ => rfl) (fun _ => rfl)
    (by omega) (hP.fresh.fence (by omega)) hP.fresh.idle hP.stored hP.complete
  unfold intitialize_sync_object
  rcases hc : createInto dev (.create .fence r.ldevice) 14 0
    (fun h r => { r with fence := h }) r with ⟨e, r1⟩
  cases e with
  | some e =>
    refine ⟨fun r2 h => by simp at h, fun e2 r2 h => ?_⟩
    simp only [Outcome.mk.injEq, Option.some.injEq] at h
    obtain ⟨-, rfl⟩ := h
    exact h1.2 e r1 hc
  | none =>
    obtain ⟨hS1, hC1, hkept1, hr1⟩ := h1.1 r1 hc
    have hidle1 : r1.recording = false := by rw [hr1]; exact hP.fresh.idle
    have hzs1 : r1.semaphore = 0 := by rw [hr1]; exact hP.fresh.semaphore (by omega)
    have h2 := createInto_spec dev hnz .semaphore r1.ldevice 14 1 4
      (fun h r => { r with semaphore := h }) r1 (fun _ _ => rfl) (fun _ => rfl) (fun _ => rfl)
      (by omega) hzs1 hidle1 hS1 hC1
    refine ⟨fun r2 h => ?_, fun e2 r2 h => ?_⟩
    · obtain ⟨hS2, hC2, -, hr2⟩ := h2.1 r2 h
      refine ⟨?_, hS2, hC2⟩
      rw [hr2, hr1]
      exact fresh_step hP.fresh rfl unchanged unchanged unchanged unchanged
        unchanged unchanged unchanged unchanged unchanged
        (fun h => absurd h (by omega)) unchanged unchanged
    · have hA := h2.2 e2 r2 h
      exact ⟨hA.idle, hA.stored, fun p hp hp0 => hA.kept p (hkept1 p hp hp0) hp0⟩

theorem imageSlots_append (a b : List swapchain_image) :
    imageSlots (a ++ b) = imageSlots a ++ imageSlots b := by
  simp [imageSlots]

theorem imageSlots_nil : imageSlots [] = [] := rfl

theorem imageSlots_cons (x : swapchain_image) (l : List swapchain_image) :
    imageSlots (x :: l) =
      [(ObjectKind.framebuffer, x.framebuffer), (ObjectKind.imageView, x.view)] ++
        imageSlots l := by
  simp [imageSlots]

theorem imageSlots_blank (l : List swapchain_image)
    (h : ∀ image ∈ l, image.view = 0 ∧ image.framebuffer = 0) :
    ∀ p ∈ imageSlots l, p.2 = 0 := by
  intro p hp
  obtain ⟨image, hi, hp | hp⟩ := (mem_imageSlots l p).mp hp
  · rw [hp]; exact (h image hi).2
  · rw [hp]; exact (h image hi).1

theorem mem_slots_placed (r : vulkan_wienderer) (done : List swapchain_image)
    (x : swapchain_image) :
    (ObjectKind.framebuffer, x.framebuffer) ∈ slots (place (done ++ [x]) r) ∧
    (ObjectKind.imageView, x.view) ∈ slots (place (done ++ [x]) r) := by
  simp [slots, place, imageSlots_append, imageSlots_cons]

theorem issue_issue (r : vulkan_wienderer) (a b : List DeviceCall) :
    issue (issue r a) b = issue r (a ++ b) := by
  simp [issue, List.append_assoc]

theorem initializeViews_spec (dev : Device) (hnz : ∀ issued c i, dev.written issued c i ≠ 0)
    (todo : List swapchain_image) :
    ∀ (done : List swapchain_image) (r : vulkan_wienderer),
      (∀ image ∈ todo, image.view = 0 ∧ image.framebuffer = 0) →
      Stored dev (place done r) →
      Complete dev (place done r) →
      ∀ e r1, initializeViews dev done todo r = ⟨e, r1⟩ →
        ∃ cs images, r1 = place images (issue r cs) ∧ Stored dev r1 ∧
          (∀ p ∈ imageSlots done, p ∈ imageSlots images) ∧
          (e = none → Complete dev r1) := by
  induction todo with
  | nil =>
    intro done r _ hS hC e r1 h
    simp only [initializeViews, Outcome.mk.injEq] at h
    obtain ⟨rfl, rfl⟩ := h
    exact ⟨[], done, by simp [issue], hS, fun p hp => hp, fun _ => hC⟩
  | cons swimage todo ih =>
    intro done r hblank hS hC e r1 h
    have hb0 := hblank swimage (List.mem_cons_self _ _)
    have hbt : ∀ image ∈ todo, image.view = 0 ∧ image.framebuffer = 0 :=
      fun image hi => hblank image (List.mem_cons_of_mem _ hi)
    unfold initializeViews at h
    dsimp only at h
    split_ifs at h with h3 h4
    · -- both calls succeeded
      have hstep := ih
        (done ++ [{ swimage with
          view := dev.written r.issued (.create .imageView swimage.image) 0,
          framebuffer := dev.written (issue r [.create .imageView swimage.image]).issued
            (.create .framebuffer (dev.written r.issued (.create .imageView swimage.image) 0))
            0 }])
        (issue (issue r [.create .imageView swimage.image])
          [.create .framebuffer (dev.written r.issued (.create .imageView swimage.image) 0)])
        hbt ?_ ?_ e r1 h
      · obtain ⟨cs, images, hr1, hS1, hdone, hC1⟩ := hstep
        refine ⟨[.create .imageView swimage.image,
          .create .framebuffer (dev.written r.issued (.create .imageView swimage.image) 0)] ++
          cs, images, ?_, hS1, ?_, hC1⟩
        · rw [hr1, issue_issue, issue_issue]
          rfl
        · intro p hp
          exact hdone p (by rw [imageSlots_append]; exact List.mem_append_left _ hp)
      · refine stored_step dev (place done r) _
          [.create .imageView swimage.image,
           .create .framebuffer (dev.written r.issued (.create .imageView swimage.image) 0)]
          (by simp [issue, place]) ?_ hS
        intro p hp
        simp only [slots, place, imageSlots_append, imageSlots_cons, imageSlots_nil,
          List.mem_append, List.mem_cons, List.mem_singleton, List.not_mem_nil, or_false,
          List.append_nil] at hp ⊢
        simp only [issue, List.append_assoc, List.singleton_append] at h4
        rcases hp with hp | hp | hp | hp
        · exact Or.inl (Or.inl hp)
        · exact Or.inl (Or.inr hp)
        · right; right
          subst hp
          simp [owedFrom, h3, h4, issue]
        · right; right
          subst hp
          simp [owedFrom, h3, h4, issue]
      · refine complete_step dev (place done r) _
          [.create .imageView swimage.image,
           .create .framebuffer (dev.written r.issued (.create .imageView swimage.image) 0)]
          (by simp [issue, place]) ?_ ?_ hC
        · intro p hp _
          simp only [slots, place, imageSlots_append, List.mem_append] at hp ⊢
          tauto
        · intro d hd
          simp only [issue, List.append_assoc, List.singleton_append] at h4
          simp only [owedFrom, place, h3, h4, if_true, List.append_nil, List.singleton_append,
            List.mem_cons, List.mem_singleton, List.not_mem_nil, or_false] at hd
          rcases hd with rfl | rfl
          · exact ⟨_, (mem_slots_placed _ done _).2, hnz _ _ _, rfl⟩
          · exact ⟨_, (mem_slots_placed _ done _).1, hnz _ _ _, rfl⟩
    · -- the framebuffer could not be created
      simp only [Outcome.mk.injEq] at h
      obtain ⟨rfl, rfl⟩ := h
      refine ⟨[.create .imageView swimage.image,
        .create .framebuffer (dev.written r.issued (.create .imageView swimage.image) 0)],
        done ++ { swimage with
          view := dev.written r.issued (.create .imageView swimage.image) 0 } :: todo,
        by simp [issue, place], ?_, ?_, fun h => by simp at h⟩
      · refine stored_step dev (place done r) _
          [.create .imageView swimage.image,
           .create .framebuffer (dev.written r.issued (.create .imageView swimage.image) 0)]
          (by simp [issue, place]) ?_ hS
        intro p hp
        simp only [slots, place, imageSlots_append, imageSlots_cons, List.mem_append, List.mem_cons,
          List.mem_singleton, List.not_mem_nil, or_false] at hp ⊢
        rcases hp with hp | hp | (hp | hp) | hp
        · exact Or.inl (Or.inl hp)
        · exact Or.inl (Or.inr hp)
        · right; left
          rw [hp]; exact hb0.2
        · right; right
          subst hp
          simp [owedFrom, h3]
        · right; left
          exact imageSlots_blank todo hbt p hp
      · intro p hp
        rw [imageSlots_append]
        exact List.mem_append_left _ hp
    · -- the view could not be created
      simp only [Outcome.mk.injEq] at h
      obtain ⟨rfl, rfl⟩ := h
      refine ⟨[.create .imageView swimage.image], _, rfl, ?_, ?_, fun h => by simp at h⟩
      · refine stored_step dev (place done r) _
          [.create .imageView swimage.image] (by simp [issue, place]) ?_ hS
        intro p hp
        simp only [slots, place, imageSlots_append, List.mem_append] at hp ⊢
        rcases hp with hp | hp | hp
        · exact Or.inl (Or.inl hp)
        · exact Or.inl (Or.inr hp)
        · right; left
          exact imageSlots_blank (swimage :: todo) hblank p hp
      · intro p hp
        rw [imageSlots_append]
        exact List.mem_append_left _ hp

theorem resize_blank (xs : List swapchain_image) (count : Nat)
    (h : ∀ image ∈ xs, image.view = 0 ∧ image.framebuffer = 0) :
    ∀ image ∈ resize {} xs count, image.view = 0 ∧ image.framebuffer = 0 := by
  intro image hi
  simp only [resize, List.mem_append, List.mem_replicate] at hi
  rcases hi with hi | ⟨-, rfl⟩
  · exact h image (List.mem_of_mem_take hi)
  · exact ⟨rfl, rfl⟩

theorem stored_blank (xs : List swapchain_image) (count : Nat) (f : Nat → Nat)
    (h : ∀ image ∈ xs, image.view = 0 ∧ image.framebuffer = 0) :
    ∀ image ∈ (List.range count).map (fun i => { xs.getD i {} with image := f i }),
      image.view = 0 ∧ image.framebuffer = 0 := by
  intro image hi
  obtain ⟨i, -, rfl⟩ := List.mem_map.mp hi
  simp only [List.getD_eq_getElem?_getD]
  cases hx : xs[i]? with
  | none => exact ⟨rfl, rfl⟩
  | some x => exact h x (List.getElem?_mem hx)

theorem place_issue_fresh (r : vulkan_wienderer) (hF : Fresh 10 r)
    (images : List swapchain_image) (cs : List DeviceCall) :
    Fresh (10 + 1) (place images (issue r cs)) :=
  fresh_step hF rfl unchanged unchanged unchanged unchanged unchanged
    unchanged (fun h => absurd h (by omega)) unchanged unchanged
    unchangedBoth unchanged unchanged

theorem swapchain_loop_spec (dev : Device) (hnz : ∀ issued c i, dev.written issued c i ≠ 0)
    (r : vulkan_wienderer) (hP : Progress dev 10 r) (s : Nat)
    (before todo : List swapchain_image)
    (hblank : ∀ image ∈ todo, image.view = 0 ∧ image.framebuffer = 0)
    (e : Option wiender_error) (r1 : vulkan_wienderer)
    (h : initializeViews dev [] todo
      (issue (place before (issue r [.vkGetSwapchainImagesKHR s]))
        [.vkGetSwapchainImagesKHR s]) = ⟨e, r1⟩) :
    (e = none → Progress dev (10 + 1) r1) ∧ (e ≠ none → Aborted dev r r1) := by
  have hzero := hP.fresh.swapchainImages (by omega)
  have hslots0 : slots r = scalars r := by simp [slots, hzero, imageSlots_nil]
  have hstart := quiet_step dev r
    (place [] (issue (place before (issue r [.vkGetSwapchainImagesKHR s]))
      [.vkGetSwapchainImagesKHR s]))
    [.vkGetSwapchainImagesKHR s, .vkGetSwapchainImagesKHR s]
    (by simp [issue, place]) (by simp [owedFrom])
    (by rw [hslots0]; simp [slots, place, issue, imageSlots_nil, scalars])
    hP.stored hP.complete
  obtain ⟨cs, images, hr1, hS1, -, hC1⟩ := initializeViews_spec dev hnz todo []
    (issue (place before (issue r [.vkGetSwapchainImagesKHR s])) [.vkGetSwapchainImagesKHR s])
    hblank hstart.1 hstart.2 e r1 h
  have hr1b : r1 = place images (issue r
      ([.vkGetSwapchainImagesKHR s, .vkGetSwapchainImagesKHR s] ++ cs)) := by
    rw [hr1]
    simp [issue, place]
  refine ⟨fun he => ⟨?_, hS1, hC1 he⟩, fun _ => ⟨?_, hS1, fun p hp _ => ?_⟩⟩
  · rw [hr1b]
    exact place_issue_fresh r hP.fresh _ _
  · rw [hr1b]
    exact hP.fresh.idle
  · rw [hslots0] at hp
    rw [hr1b]
    exact List.mem_append_left _ hp

theorem initialize_swapchain_images_spec (dev : Device)
    (hnz : ∀ issued c i, dev.written issued c i ≠ 0) (r : vulkan_wienderer)
    (hP : Progress dev 10 r) :
    (∀ r1, initialize_swapchain_images dev r = ⟨none, r1⟩ → Progress dev (10 + 1) r1) ∧
    (∀ e r1, initialize_swapchain_images dev r = ⟨some e, r1⟩ → Aborted dev r r1) := by
  have hzero := hP.fresh.swapchainImages (by omega)
  have hslots0 : slots r = scalars r := by simp [slots, hzero, imageSlots_nil]
  have hblank0 : ∀ image ∈ r.swapchainImages, image.view = 0 ∧ image.framebuffer = 0 := by
    rw [hzero]; simp
  unfold initialize_swapchain_images
  dsimp only
  split_ifs with h0 h1 h2
  · -- the second loop
    have hblank := stored_blank
      (resize {} r.swapchainImages (min (dev.imageCount r.issued)
        WIENDER_SWAPCHAIN_IMAGE_MAX_COUNT))
      (min (dev.imageCount r.issued) WIENDER_SWAPCHAIN_IMAGE_MAX_COUNT)
      (dev.written (r.issued ++ [.vkGetSwapchainImagesKHR r.swapchain])
        (.vkGetSwapchainImagesKHR r.swapchain))
      (resize_blank _ _ hblank0)
    exact ⟨fun r1 h => (swapchain_loop_spec dev hnz r hP r.swapchain _ _ hblank none r1 h).1 rfl,
      fun e r1 h => (swapchain_loop_spec dev hnz r hP r.swapchain _ _ hblank (some e) r1 h).2
        (by simp)⟩
  · -- the second query failed
    refine ⟨fun r1 h => by simp at h, fun e r1 h => ?_⟩
    simp only [Outcome.mk.injEq, Option.some.injEq] at h
    obtain ⟨-, rfl⟩ := h
    refine ⟨hP.fresh.idle, stored_step dev r _ [.vkGetSwapchainImagesKHR r.swapchain,
      .vkGetSwapchainImagesKHR r.swapchain] (by simp [issue, place]) ?_ hP.stored,
      fun p hp _ => ?_⟩
    · intro p hp
      rcases List.mem_append.mp hp with hp | hp
      · exact Or.inl (by rw [hslots0]; exact hp)
      · exact Or.inr (Or.inl (imageSlots_blank _ (resize_blank _ _ hblank0) p hp))
    · rw [hslots0] at hp
      exact List.mem_append_left _ hp
  · -- the swapchain has no image
    refine ⟨fun r1 h => by simp at h, fun e r1 h => ?_⟩
    simp only [Outcome.mk.injEq, Option.some.injEq] at h
    obtain ⟨-, rfl⟩ := h
    exact aborted_of_slots dev r _ [.vkGetSwapchainImagesKHR r.swapchain] rfl hP.fresh.idle rfl
      hP.stored
  · -- the first query failed
    refine ⟨fun r1 h => by simp at h, fun e r1 h => ?_⟩
    simp only [Outcome.mk.injEq, Option.some.injEq] at h
    obtain ⟨-, rfl⟩ := h
    exact aborted_of_slots dev r _ [.vkGetSwapchainImagesKHR r.swapchain] rfl hP.fresh.idle rfl
      hP.stored

theorem runSequence_append (a b : List (vulkan_wienderer → Outcome)) (r : vulkan_wienderer) :
    runSequence (a ++ b) r =
      match runSequence a r with
      | ⟨none, r1⟩ => runSequence b r1
      | ⟨some e, r1⟩ => ⟨some e, r1⟩ := by
  induction a generalizing r with
  | nil => rfl
  | cons s a ih =>
    simp only [List.cons_append, runSequence]
    rcases hs : s r with ⟨e, r1⟩
    cases e with
    | none => exact ih r1
    | some e => rfl

theorem progress_initial (dev : Device) : Progress dev 0 {} := by
  refine ⟨⟨fun _ => rfl, fun _ => rfl, fun _ => rfl, fun _ => rfl, fun _ => rfl, fun _ => rfl,
    fun _ => rfl, fun _ => rfl, fun _ => rfl, fun _ => rfl, fun _ => rfl, fun _ => rfl,
    fun _ => rfl, rfl⟩, ?_, ?_⟩
  · intro p hp hp0
    simp only [mem_slots, imageSlots_nil, List.not_mem_nil, or_false] at hp
    rcases hp with h | h | h | h | h | h | h | h | h | h | h | h | h | h | h <;>
      exact absurd (by rw [h]) hp0
  · intro d hd
    simp [owed, owedFrom] at hd

theorem step_spec (dev : Device) (hnz : ∀ issued c i, dev.written issued c i ≠ 0)
    (k : Nat) (step : vulkan_wienderer → Outcome)
    (hstep : (creationSequence dev)[k]? = some step) (r : vulkan_wienderer)
    (hP : Progress dev k r) :
    (∀ r1, step r = ⟨none, r1⟩ → Progress dev (k + 1) r1) ∧
    (∀ e r1, step r = ⟨some e, r1⟩ → Aborted dev r r1) := by
  have hk : k < 16 := by
    have := (List.getElem?_eq_some_iff.mp hstep).1
    simpa [creationSequence] using this
  interval_cases k <;>
    simp only [creationSequence, List.getElem?_cons_zero, List.getElem?_cons_succ,
      Option.some.injEq] at hstep <;> subst hstep
  · exact create_vulkan_instance_spec dev hnz r hP
  · exact probeStep_spec dev 2 1 r hP
  · exact probeStep_spec dev 3 2 r hP
  · exact create_platform_spec_surface_spec dev hnz r hP
  · exact probeStep_spec dev 5 4 r hP
  · exact create_logical_device_spec dev hnz r hP
  · exact create_swapchain_info_spec dev 6 r hP
  · exact create_color_render_target_spec dev hnz r hP
  · exact create_default_render_pass_spec dev hnz r hP
  · exact create_swapchain_spec dev hnz r hP
  · exact initialize_swapchain_images_spec dev hnz r hP
  · exact create_command_pool_spec dev hnz r hP
  · exact allocate_command_buffers_spec dev r hP
  · exact intitialize_sync_object_spec dev hnz r hP
  · exact create_default_texture_image_spec dev hnz r hP
  · exact create_default_texture_sampler_spec dev hnz r hP

theorem progress_take (dev : Device) (hnz : ∀ issued c i, dev.written issued c i ≠ 0) :
    ∀ k, k ≤ 16 → ∀ r, runSequence ((creationSequence dev).take k) {} = ⟨none, r⟩ →
      Progress dev k r := by
  intro k
  induction k with
  | zero =>
    intro _ r h
    simp only [List.take_zero, runSequence, Outcome.mk.injEq, true_and] at h
    subst h
    exact progress_initial dev
  | succ k ih =>
    intro hk r h
    have hlen : k < (creationSequence dev).length := by
      simp [creationSequence]; omega
    rw [List.take_succ, List.getElem?_eq_getElem hlen, Option.toList_some,
      runSequence_append] at h
    rcases hb : runSequence ((creationSequence dev).take k) {} with ⟨e, r0⟩
    rw [hb] at h
    cases e with
    | some e => simp at h
    | none =>
      simp only [runSequence] at h
      have hP := ih (by omega) r0 hb
      have hs := step_spec dev hnz k _ (List.getElem?_eq_getElem hlen) r0 hP
      rcases hr : (creationSequence dev)[k] r0 with ⟨e1, r1⟩
      rw [hr] at h
      cases e1 with
      | some e1 => simp at h
      | none =>
        simp only [Outcome.mk.injEq, true_and] at h
        subst h
        exact hs.1 r1 hr

theorem construct_of_failure (dev : Device) (k : Nat) (step : vulkan_wienderer → Outcome)
    (hstep : (creationSequence dev)[k]? = some step) (r r1 : vulkan_wienderer)
    (e : wiender_error)
    (hbefore : runSequence ((creationSequence dev).take k) {} = ⟨none, r⟩)
    (hfail : step r = ⟨some e, r1⟩) (hidle : r1.recording = false) :
    runSequence (creationSequence dev) {} = ⟨some e, r1⟩ ∧
    construct dev = ⟨some e, (accurate_destroy dev r1).state⟩ := by
  have hk := (List.getElem?_eq_some_iff.mp hstep).1
  have hseq : runSequence (creationSequence dev) {} = ⟨some e, r1⟩ := by
    conv_lhs => rw [← List.take_append_drop k (creationSequence dev)]
    rw [runSequence_append, hbefore, List.drop_eq_getElem_cons hk]
    have hget : (creationSequence dev)[k] = step := by
      have := List.getElem?_eq_getElem hk
      rw [hstep] at this
      exact (Option.some.inj this).symm
    simp only [runSequence, hget, hfail]
  refine ⟨hseq, ?_⟩
  unfold construct
  rw [hseq]
  simp only
  have hd := (teardown_idle dev r1 hidle).1
  rcases ha : accurate_destroy dev r1 with ⟨e1, r2⟩
  rw [ha] at hd
  simp only at hd
  subst hd
  rfl

/-- C20, as stated, fails: on a device that refuses the semaphore, steps 1 to 13 return, step
14 (`intitialize_sync_object`) throws after it has created the fence, and the teardown destroys
that fence, a handle that no step before step 14 created. -/
theorem C20_fence_of_the_failing_step :
    (runSequence ((creationSequence Device.noSemaphore).take 13) {}).error = none ∧
    (intitialize_sync_object Device.noSemaphore beforeSync).error =
      some (.construction_failed 14 1) ∧
    DeviceCall.destroy .fence 340 ∈
      teardown Device.noSemaphore (intitialize_sync_object Device.noSemaphore beforeSync).state ∧
    DeviceCall.destroy .fence 340 ∉ owed Device.noSemaphore beforeSync.issued := by
  decide

/-- C20, amended: if step k of the creation sequence throws the error e, after the steps before
it returned, then the constructor runs `accurate_destroy` on the renderer as the failing step
left it and the error that leaves the constructor is e; `accurate_destroy` does not throw; it
issues the destroy call of every object that the steps before k created by a call that has a
destroy call of its own (the command buffers have none: they go with their pool); and every
call it issues is either `vkDeviceWaitIdle` or the destroy call of a non-zero handle that a
successful creation call of steps 1 to k wrote, so besides the handles of the steps before k
it destroys those that step k itself had stored before it threw, and never a handle that is
still zero. -/
theorem C20_construction_rollback (dev : Device)
    (hnz : ∀ issued c i, dev.written issued c i ≠ 0)
    (k : Nat) (step : vulkan_wienderer → Outcome) (r r1 : vulkan_wienderer) (e : wiender_error)
    (hstep : (creationSequence dev)[k]? = some step)
    (hbefore : runSequence ((creationSequence dev).take k) {} = ⟨none, r⟩)
    (hfail : step r = ⟨some e, r1⟩) :
    construct dev = ⟨some e, (accurate_destroy dev r1).state⟩ ∧
    (accurate_destroy dev r1).error = none ∧
    (∀ d ∈ owed dev r.issued, d ∈ teardown dev r1) ∧
    (∀ d ∈ teardown dev r1, d = .vkDeviceWaitIdle r1.ldevice ∨
      ∃ kind handle, d = .destroy kind handle ∧ handle ≠ 0 ∧ d ∈ owed dev r1.issued) := by
  have hk : k < 16 := by
    have := (List.getElem?_eq_some_iff.mp hstep).1
    simpa [creationSequence] using this
  have hP := progress_take dev hnz k (by omega) r hbefore
  have hA := (step_spec dev hnz k step hstep r hP).2 e r1 hfail
  have ht := teardown_idle dev r1 hA.idle
  refine ⟨(construct_of_failure dev k step hstep r r1 e hbefore hfail hA.idle).2, ht.1, ?_, ?_⟩
  · intro d hd
    obtain ⟨p, hp, hp0, rfl⟩ := hP.complete d hd
    rw [ht.2]
    exact List.mem_append_right _ ((mem_held r1 _).mpr ⟨p, hA.kept p hp hp0, hp0, rfl⟩)
  · intro d hd
    rw [ht.2] at hd
    rcases List.mem_append.mp hd with h | h
    · left
      split_ifs at h
      · simpa using h
      · simp at h
    · right
      obtain ⟨p, hp, hp0, rfl⟩ := (mem_held r1 d).mp h
      exact ⟨p.1, p.2, rfl, hp0, hA.stored p hp hp0⟩

/-- C20, amended, on the device that refuses the semaphore: the constructor throws the error
of step 14, and the teardown destroys the instance, which step 1 created. -/
theorem C20_construction_rollback_witness :
    (construct Device.noSemaphore).error = some (.construction_failed 14 1) ∧
    DeviceCall.destroy .instance_ 100 ∈
      teardown Device.noSemaphore (intitialize_sync_object Device.noSemaphore beforeSync).state := by
  obtain ⟨h1, -, h3, -⟩ := C20_construction_rollback Device.noSemaphore
    (fun issued c i => by simp [Device.noSemaphore, Device.healthy])
    13 (intitialize_sync_object Device.noSemaphore) beforeSync
    (intitialize_sync_object Device.noSemaphore beforeSync).state (.construction_failed 14 1)
    rfl (by decide) (by decide)
  exact ⟨by rw [h1], h3 _ (by decide)⟩

/-! ## The selection of the physical device -/

theorem bestOf_spec (gpus : PhysicalDevices) :
    ∀ (devices : List Nat) (best : BestDevice),
      (bestOf gpus devices best = best ∧
        ∀ d ∈ devices, scoreOf gpus d ≤ best.bestDeviceScore) ∨
      ∃ (i d : Nat), devices[i]? = some d ∧
        bestOf gpus devices best =
          ⟨infoOf gpus d, scoreOf gpus d⟩ ∧
        best.bestDeviceScore < scoreOf gpus d ∧
        (∀ (j d' : Nat), j < i → devices[j]? = some d' → scoreOf gpus d' < scoreOf gpus d) ∧
        (∀ d' ∈ devices, scoreOf gpus d' ≤ scoreOf gpus d) := by
  intro devices
  induction devices with
  | nil => intro best; exact Or.inl ⟨rfl, fun d hd => by simp at hd⟩
  | cons device rest ih =>
    intro best
    by_cases hs : scoreOf gpus device > best.bestDeviceScore
    · have hstep : bestOf gpus (device :: rest) best =
          bestOf gpus rest ⟨infoOf gpus device, scoreOf gpus device⟩ := by
        simp only [bestOf]
        exact if_pos hs
      rcases ih ⟨infoOf gpus device, scoreOf gpus device⟩ with
        ⟨hkeep, hall⟩ | ⟨i, d, hi, hres, hlt, hbefore, hall⟩
      · refine Or.inr ⟨0, device, by simp, by rw [hstep, hkeep], hs, fun j d' hj _ => by omega, ?_⟩
        intro d' hd'
        rcases List.mem_cons.mp hd' with h | h
        · rw [h]
        · exact hall d' h
      · refine Or.inr ⟨i + 1, d, by simpa using hi, by rw [hstep, hres],
          lt_trans hs hlt, ?_, ?_⟩
        · intro j d' hj hd'
          cases j with
          | zero =>
            simp only [List.getElem?_cons_zero, Option.some.injEq] at hd'
            rw [← hd']
            exact hlt
          | succ j =>
            simp only [List.getElem?_cons_succ] at hd'
            exact hbefore j d' (by omega) hd'
        · intro d' hd'
          rcases List.mem_cons.mp hd' with h | h
          · rw [h]
            exact le_of_lt hlt
          · exact hall d' h
    · have hstep : bestOf gpus (device :: rest) best = bestOf gpus rest best := by
        simp only [bestOf]
        exact if_neg hs
      have hle : scoreOf gpus device ≤ best.bestDeviceScore := not_lt.mp hs
      rcases ih best with ⟨hkeep, hall⟩ | ⟨i, d, hi, hres, hlt, hbefore, hall⟩
      · refine Or.inl ⟨by rw [hstep, hkeep], ?_⟩
        intro d' hd'
        rcases List.mem_cons.mp hd' with h | h
        · rw [h]
          exact hle
        · exact hall d' h
      · refine Or.inr ⟨i + 1, d, by simpa using hi, by rw [hstep, hres], hlt, ?_, ?_⟩
        · intro j d' hj hd'
          cases j with
          | zero =>
            simp only [List.getElem?_cons_zero, Option.some.injEq] at hd'
            rw [← hd']
            exact lt_of_le_of_lt hle hlt
          | succ j =>
            simp only [List.getElem?_cons_succ] at hd'
            exact hbefore j d' (by omega) hd'
        · intro d' hd'
          rcases List.mem_cons.mp hd' with h | h
          · rw [h]
            exact le_of_lt (lt_of_le_of_lt hle hlt)
          · exact hall d' h

theorem scoreFromDeviceType_cases (type : Nat) :
    (scoreFromDeviceType type).toNat = 0 ∨ (scoreFromDeviceType type).toNat = 1 ∨
      (scoreFromDeviceType type).toNat = 3 ∨ (scoreFromDeviceType type).toNat = 15 := by
  unfold scoreFromDeviceType
  split_ifs <;> simp

theorem currentDeviceScore_eq (features : VkPhysicalDeviceFeatures)
    (properties : VkPhysicalDeviceProperties)
    (hrange : properties.maxUniformBufferRange < 4294967296) :
    currentDeviceScore features properties = toInt32 (scoreSum features properties) := by
  have ht := scoreFromDeviceType_cases properties.deviceType
  unfold currentDeviceScore scoreSum toInt32
  simp only []
  generalize (scoreFromDeviceType properties.deviceType).toNat = bonus at ht ⊢
  have h : ((((((features.largePoints % 4294967296 + features.wideLines * 3 % 4294967296) %
      4294967296 + features.tessellationShader * 4 % 4294967296) % 4294967296 +
      features.geometryShader * 5 % 4294967296) % 4294967296 + bonus) % 4294967296 +
      properties.maxUniformBufferRange % 4294967296 / 16) % 18446744073709551616 +
      properties.maxVertexInputBindings % 4294967296) % 18446744073709551616 % 4294967296 =
      (features.largePoints + 3 * features.wideLines + 4 * features.tessellationShader +
        5 * features.geometryShader + bonus + properties.maxUniformBufferRange / 16 +
        properties.maxVertexInputBindings) % 4294967296 := by
    omega
  rw [h]

/-- C21, as stated, fails: the discrete GPU with handle 4 reports 2^31 vertex input bindings, so
the sum of its terms is 2147487772, greater than 0 and greater than the sum 4119 of the
integrated GPU with handle 1; converted to `int` its score is negative, the function fails for
the list of device 4 alone and returns device 1 for the list of both. -/
theorem C21_score_is_an_int :
    scoreSum (scenarioDevices.features 4) (scenarioDevices.properties 4) = 2147487772 ∧
    scoreSum (scenarioDevices.features 1) (scenarioDevices.properties 1) = 4119 ∧
    scoreOf scenarioDevices 4 = -2147479524 ∧
    choose_best_physical_device scenarioDevices [4] = .error .physical_device_not_found ∧
    choose_best_physical_device scenarioDevices [4, 1] =
      .ok { infoOf scenarioDevices 1 with descriptorBindingSampledImageUpdateAfterBind := true } := by
  exact ⟨by decide, by decide, by decide, rfl, rfl⟩

/-- C21, amended: for every list of candidate devices, `choose_best_physical_device` fails
exactly when no candidate has a score greater than 0, and otherwise returns the first device in
list order that attains the maximum score (with what the two queries reported for it), where the
score is the `int` the sum largePoints + 3 wideLines + 4 tessellationShader + 5 geometryShader +
typeBonus + floor(maxUniformBufferRange / 16) + maxVertexInputBindings is converted to: the sum
itself when it is below 2^31, and in general its low 32 bits read in two's complement.  Of the
devices of the scenarios 1, 2 and 3, the two discrete GPUs tie and the first of them, 2, is
returned. -/
theorem C21_best_device (gpus : PhysicalDevices) (devices : List Nat) :
    (choose_best_physical_device gpus devices = .error .physical_device_not_found ↔
      ∀ d ∈ devices, scoreOf gpus d ≤ 0) ∧
    (∀ info, choose_best_physical_device gpus devices = .ok info →
      ∃ (i d : Nat), devices[i]? = some d ∧
        info = { infoOf gpus d with descriptorBindingSampledImageUpdateAfterBind := true } ∧
        0 < scoreOf gpus d ∧
        (∀ d' ∈ devices, scoreOf gpus d' ≤ scoreOf gpus d) ∧
        (∀ (j d' : Nat), j < i → devices[j]? = some d' → scoreOf gpus d' < scoreOf gpus d)) ∧
    (∀ d, (gpus.properties d).maxUniformBufferRange < 4294967296 →
      scoreOf gpus d = toInt32 (scoreSum (gpus.features d) (gpus.properties d)) ∧
      (scoreSum (gpus.features d) (gpus.properties d) < 2147483648 →
        scoreOf gpus d = (scoreSum (gpus.features d) (gpus.properties d) : Nat))) ∧
    (∀ type, scoreFromDeviceType type =
      if type = VK_PHYSICAL_DEVICE_TYPE_CPU ∨ type = VK_PHYSICAL_DEVICE_TYPE_VIRTUAL_GPU ∨
        type = VK_PHYSICAL_DEVICE_TYPE_OTHER then 1
      else if type = VK_PHYSICAL_DEVICE_TYPE_INTEGRATED_GPU then 3
      else if type = VK_PHYSICAL_DEVICE_TYPE_DISCRETE_GPU then 15 else 0) ∧
    choose_best_physical_device scenarioDevices [1, 2, 3] =
      .ok { infoOf scenarioDevices 2 with descriptorBindingSampledImageUpdateAfterBind := true } := by
  refine ⟨?_, ?_, ?_, fun _ => rfl, rfl⟩
  · unfold choose_best_physical_device
    rcases bestOf_spec gpus devices {} with ⟨hkeep, hall⟩ | ⟨i, d, hi, hres, hlt, -, hall⟩
    · rw [hkeep]
      simp only [gt_iff_lt, lt_self_iff_false, if_false, true_iff]
      exact hall
    · rw [hres]
      simp only [gt_iff_lt]
      have hpos : (0 : Int) < scoreOf gpus d := hlt
      rw [if_pos hpos]
      simp only [reduceCtorEq, false_iff, not_forall]
      exact ⟨d, List.getElem?_mem hi, by omega⟩
  · intro info hinfo
    unfold choose_best_physical_device at hinfo
    rcases bestOf_spec gpus devices {} with ⟨hkeep, -⟩ | ⟨i, d, hi, hres, hlt, hbefore, hall⟩
    · rw [hkeep] at hinfo
      simp at hinfo
    · rw [hres] at hinfo
      have hpos : (0 : Int) < scoreOf gpus d := hlt
      simp only [gt_iff_lt] at hinfo
      rw [if_pos hpos] at hinfo
      simp only [Except.ok.injEq] at hinfo
      exact ⟨i, d, hi, hinfo.symm, hpos, hall, hbefore⟩
  · intro d hd
    have h := currentDeviceScore_eq (gpus.features d) (gpus.properties d) hd
    refine ⟨h, fun hsum => ?_⟩
    unfold scoreOf
    rw [h]
    unfold toInt32
    have hmod : scoreSum (gpus.features d) (gpus.properties d) % 4294967296 =
        scoreSum (gpus.features d) (gpus.properties d) := Nat.mod_eq_of_lt (by omega)
    rw [hmod, if_pos hsum]

/-- C21, amended, on the devices 1, 2 and 3 of the scenarios: the function does not fail, the
score of device 2 is the sum of its terms, 4156, and device 1 scores less. -/
theorem C21_best_device_witness :
    choose_best_physical_device scenarioDevices [1, 2, 3] ≠ .error .physical_device_not_found ∧
    scoreOf scenarioDevices 2 = 4156 ∧ scoreOf scenarioDevices 1 < scoreOf scenarioDevices 2 := by
  have h := C21_best_device scenarioDevices [1, 2, 3]
  refine ⟨fun herr => ?_, ?_, by decide⟩
  · have hall := h.1.mp herr 2 (by decide)
    exact absurd hall (by decide)
  · have hscore := ((h.2.2.1 2 (by decide)).2 (by decide))
    rw [hscore]
    decide

/-! ## The order of the calls of a teardown -/

theorem precede_of_sorted {α : Type} (place : α → Nat) (first second : α → Prop) (n : Nat)
    (calls : List α) (hsorted : calls.Pairwise (fun a b => place a ≤ place b))
    (hfirst : ∀ a, first a → place a ≤ n) (hsecond : ∀ b, second b → n < place b) :
    Precede first second calls := by
  intro i j a b hi hj ha hb
  obtain ⟨hil, hia⟩ := List.getElem?_eq_some.mp hi
  obtain ⟨hjl, hjb⟩ := List.getElem?_eq_some.mp hj
  by_contra hij
  have h1 := hfirst a ha
  have h2 := hsecond b hb
  rcases Nat.lt_or_ge j i with hlt | hge
  · have := (List.pairwise_iff_getElem.mp hsorted) j i hjl hil hlt
    rw [hia, hjb] at this
    omega
  · have heq : i = j := by omega
    subst heq
    rw [hia] at hjb
    subst hjb
    omega

theorem sorted_of_place_zero {α : Type} (place : α → Nat) (calls : List α)
    (h : ∀ a ∈ calls, place a = 0) : calls.Pairwise (fun a b => place a ≤ place b) := by
  induction calls with
  | nil => exact List.Pairwise.nil
  | cons c cs ih =>
    refine List.pairwise_cons.mpr ⟨fun b _ => ?_, ih (fun a ha => h a (List.mem_cons_of_mem _ ha))⟩
    rw [h c (List.mem_cons_self _ _)]
    exact Nat.zero_le _

theorem staged_append {α : Type} (place : α → Nat) {l1 l2 : List α} {n : Nat} (m : Nat)
    (h1 : l1.Pairwise (fun a b => place a ≤ place b) ∧ ∀ a ∈ l1, place a ≤ n)
    (h2 : ∀ b ∈ l2, place b = m) (hnm : n ≤ m) :
    (l1 ++ l2).Pairwise (fun a b => place a ≤ place b) ∧ ∀ a ∈ l1 ++ l2, place a ≤ m := by
  refine ⟨List.pairwise_append.mpr ⟨h1.1, ?_, ?_⟩, ?_⟩
  · refine List.pairwise_iff_forall_sublist.mpr ?_
    intro a b hab
    rw [h2 a (hab.subset (by simp)), h2 b (hab.subset (by simp))]
  · intro a ha b hb
    rw [h2 b hb]
    exact le_trans (h1.2 a ha) hnm
  · intro a ha
    rcases List.mem_append.mp ha with h | h
    · exact le_trans (h1.2 a h) hnm
    · exact le_of_eq (h2 a h)

theorem mem_callIf (guard : Nat) (call d : ShaderCall) :
    d ∈ callIf guard call ↔ guard ≠ 0 ∧ d = call := by
  unfold callIf
  split_ifs with h <;> simp [h]

theorem place_callIf (guard : Nat) (call : ShaderCall) :
    ∀ b ∈ callIf guard call, b.place = call.place := by
  intro b hb
  rw [((mem_callIf guard call b).mp hb).2]

theorem place_destroyIf (kind : ObjectKind) (handle : Nat) :
    ∀ b ∈ destroyIf kind handle, b.place = (DeviceCall.destroy kind handle).place := by
  intro b hb
  rw [((mem_destroyIf kind handle b).mp hb).2]

theorem shader_teardown_sorted (s : vulkan_shader) :
    s.accurate_destroy.Pairwise (fun a b => a.place ≤ b.place) := by
  have h0 : [ShaderCall.vkDeviceWaitIdle s.ldevice].Pairwise (fun a b => a.place ≤ b.place) ∧
      ∀ a ∈ [ShaderCall.vkDeviceWaitIdle s.ldevice], a.place ≤ 0 :=
    ⟨List.pairwise_singleton _ _, by simp [ShaderCall.place]⟩
  have h1 := staged_append ShaderCall.place 1 h0 (place_callIf s.pipeline (.vkDestroyPipeline s.pipeline)) (by decide)
  have h2 := staged_append ShaderCall.place 2 h1 (place_callIf s.pipelineLayout (.vkDestroyPipelineLayout s.pipelineLayout)) (by decide)
  have h3 := staged_append ShaderCall.place 3 h2 (place_callIf s.renderPass (.vkDestroyRenderPass s.renderPass)) (by decide)
  have hbuffers : ∀ b ∈ ((List.range WIENDER_UNIFORM_BUFFER_MAX_COUNT).map (fun i =>
      callIf (s.uniformBuffers.buffers i).buffer
        (.vkDestroyBuffer (s.uniformBuffers.buffers i).buffer))).flatten, b.place = 4 := by
    intro b hb
    simp only [List.mem_flatten, List.mem_map] at hb
    obtain ⟨l, ⟨i, -, rfl⟩, hd⟩ := hb
    rw [((mem_callIf _ _ b).mp hd).2]
    rfl
  have h4 := staged_append ShaderCall.place 4 h3 hbuffers (by decide)
  have h5 := staged_append ShaderCall.place 5 h4
    (place_callIf s.uniformBuffers.mappedMemory (.vkUnmapMemory s.uniformBuffers.memory))
    (by decide)
  have h6 := staged_append ShaderCall.place 6 h5
    (place_callIf s.uniformBuffers.memory (.vkFreeMemory s.uniformBuffers.memory)) (by decide)
  have h7 := staged_append ShaderCall.place 7 h6 (place_callIf s.descriptorSetLayout (.vkDestroyDescriptorSetLayout s.descriptorSetLayout))
    (by decide)
  have h8 := staged_append ShaderCall.place 8 h7 (place_callIf s.descriptorPool (.vkDestroyDescriptorPool s.descriptorPool)) (by decide)
  exact h8.1

theorem place_destroy_vulkan_image (image : vulkan_image) :
    ∀ c ∈ destroy_vulkan_image image, c.place = 0 := by
  intro c hc
  simp only [destroy_vulkan_image, List.mem_append, mem_destroyIf] at hc
  rcases hc with (h | h) | h <;> (rw [h.2]; rfl)

theorem place_destroy_swapchain_images (images : List swapchain_image) :
    ∀ c ∈ destroy_swapchain_images images, c.place = 0 := by
  intro c hc
  simp only [destroy_swapchain_images, List.mem_flatten, List.mem_map] at hc
  obtain ⟨l, ⟨image, -, rfl⟩, hd⟩ := hc
  simp only [List.mem_append, mem_destroyIf] at hd
  rcases hd with h | h <;> (rw [h.2]; rfl)

theorem held_shape (r : vulkan_wienderer) :
    ∃ early, (∀ c ∈ early, c.place = 0) ∧
      held r = early ++ destroyIf .swapchain r.swapchain ++
        destroyIf .renderPass r.defaultRenderPass ++ destroyIf .device r.ldevice ++
        destroyIf .surface r.surface ++ destroyIf .instance_ r.instance_ := by
  have key : ∀ (l1 l2 : List DeviceCall), (∀ c ∈ l1, c.place = 0) → (∀ c ∈ l2, c.place = 0) →
      ∀ c ∈ l1 ++ l2, c.place = 0 :=
    fun l1 l2 h1 h2 c hc => (List.mem_append.mp hc).elim (h1 c) (h2 c)
  exact ⟨destroyIf .sampler r.defaultSampler ++ destroy_vulkan_image r.defaultTextureImage ++
    destroyIf .semaphore r.semaphore ++ destroyIf .fence r.fence ++
    destroyIf .commandPool r.commandPool ++ destroy_swapchain_images r.swapchainImages ++
    destroy_vulkan_image r.colorRenderTarget,
    key _ _ (key _ _ (key _ _ (key _ _ (key _ _ (key _ _
      (place_destroyIf .sampler r.defaultSampler)
      (place_destroy_vulkan_image r.defaultTextureImage))
      (place_destroyIf .semaphore r.semaphore))
      (place_destroyIf .fence r.fence))
      (place_destroyIf .commandPool r.commandPool))
      (place_destroy_swapchain_images r.swapchainImages))
      (place_destroy_vulkan_image r.colorRenderTarget), rfl⟩

theorem teardown_shape (dev : Device) (r : vulkan_wienderer) :
    ∃ before, (∀ c ∈ before, c.place = 0) ∧
      (teardown dev r = before ∨
        teardown dev r = before ++ destroyIf .swapchain r.swapchain ++
          destroyIf .renderPass r.defaultRenderPass ++ destroyIf .device r.ldevice ++
          destroyIf .surface r.surface ++ destroyIf .instance_ r.instance_) ∧
      ((accurate_destroy dev r).error = none → ∀ d ∈ held r, d ∈ teardown dev r) := by
  obtain ⟨early, hearly, hheld⟩ := held_shape r
  cases hr : r.recording with
  | false =>
    refine ⟨(if r.ldevice ≠ 0 then [DeviceCall.vkDeviceWaitIdle r.ldevice] else []) ++ early,
      ?_, Or.inr ?_, ?_⟩
    · intro c hc
      rcases List.mem_append.mp hc with h | h
      · split_ifs at h
        · rw [List.mem_singleton.mp h]
          rfl
        · simp at h
      · exact hearly c h
    · rw [(teardown_idle dev r hr).2, hheld]
      simp only [List.append_assoc]
    · intro _ d hd
      rw [(teardown_idle dev r hr).2]
      exact List.mem_append_right _ hd
  | true =>
    obtain ⟨done, hdone, hinit⟩ := issueChecked_prefix dev
      (r.commandBuffers.map DeviceCall.vkEndCommandBuffer) r.issued
    have hplace : ∀ c ∈ done, c.place = 0 := by
      intro c hc
      obtain ⟨buffer, -, rfl⟩ := List.mem_map.mp (hinit.subset hc)
      rfl
    rcases hc : issueChecked dev (r.commandBuffers.map DeviceCall.vkEndCommandBuffer) r.issued
      with ⟨ok, issued⟩
    rw [hc] at hdone
    simp only at hdone
    subst hdone
    cases ok with
    | false =>
      refine ⟨done, hplace, Or.inl ?_, ?_⟩
      · simp [teardown, accurate_destroy, hr, end_record, hc]
      · intro herr
        simp [accurate_destroy, hr, end_record, hc] at herr
    | true =>
      have hend : end_record dev r = ⟨none, { record { r with issued := r.issued ++ done }
          .END_RECORD .empty with recording := false }⟩ := by
        simp [end_record, hr, hc]
      have hacc : (accurate_destroy dev r).state.issued = (r.issued ++ done) ++
          ((if r.ldevice ≠ 0 then [DeviceCall.vkDeviceWaitIdle r.ldevice] else []) ++
            held r) := by
        unfold accurate_destroy
        rw [hr]
        simp only [if_true]
        rw [hend]
        rfl
      refine ⟨done ++ (if r.ldevice ≠ 0 then [DeviceCall.vkDeviceWaitIdle r.ldevice] else []) ++
        early, ?_, Or.inr ?_, ?_⟩
      · intro c hc
        rcases List.mem_append.mp hc with h | h
        · rcases List.mem_append.mp h with h | h
          · exact hplace c h
          · split_ifs at h
            · rw [List.mem_singleton.mp h]
              rfl
            · simp at h
        · exact hearly c h
      · unfold teardown
        rw [hacc, hheld]
        simp only [List.append_assoc, List.drop_left]
      · intro _ d hd
        unfold teardown
        rw [hacc]
        simp only [List.append_assoc, List.drop_left]
        exact List.mem_append_right _ (List.mem_append_right _ hd)

theorem teardown_sorted (dev : Device) (r : vulkan_wienderer) :
    (teardown dev r).Pairwise (fun a b => a.place ≤ b.place) := by
  obtain ⟨before, hbefore, hshape, -⟩ := teardown_shape dev r
  have h0 : before.Pairwise (fun a b => DeviceCall.place a ≤ DeviceCall.place b) ∧
      ∀ a ∈ before, DeviceCall.place a ≤ 0 :=
    ⟨sorted_of_place_zero _ _ hbefore, fun a ha => le_of_eq (hbefore a ha)⟩
  rcases hshape with h | h
  · rw [h]
    exact h0.1
  · have h1 := staged_append DeviceCall.place 1 h0 (place_destroyIf .swapchain r.swapchain)
      (by decide)
    have h2 := staged_append DeviceCall.place 2 h1
      (place_destroyIf .renderPass r.defaultRenderPass) (by decide)
    have h3 := staged_append DeviceCall.place 3 h2 (place_destroyIf .device r.ldevice)
      (by decide)
    have h4 := staged_append DeviceCall.place 4 h3 (place_destroyIf .surface r.surface)
      (by decide)
    have h5 := staged_append DeviceCall.place 5 h4 (place_destroyIf .instance_ r.instance_)
      (by decide)
    rw [h]
    exact h5.1

/-- C22, as stated, fails: the teardown of the renderer that holds every object of the chain
destroys the swapchain before the render pass and the logical device before the surface, and the
teardown of the shader that holds every object destroys, unmaps and frees the uniform buffers
before it destroys the descriptor set layout and the descriptor pool. -/
theorem C22_buffers_before_descriptors :
    teardown Device.healthy builtRenderer =
      [.vkDeviceWaitIdle 3, .destroy .semaphore 9, .destroy .fence 8, .destroy .framebuffer 20,
       .destroy .imageView 21, .destroy .swapchain 5, .destroy .renderPass 4,
       .destroy .device 3, .destroy .surface 2, .destroy .instance_ 1] ∧
    builtShader.accurate_destroy =
      [.vkDeviceWaitIdle 3, .vkDestroyPipeline 65, .vkDestroyPipelineLayout 64,
       .vkDestroyRenderPass 63, .vkDestroyBuffer 1001, .vkDestroyBuffer 1003,
       .vkUnmapMemory 1000, .vkFreeMemory 1000, .vkDestroyDescriptorSetLayout 61,
       .vkDestroyDescriptorPool 60] ∧
    ¬ Precede (destroys .renderPass) (destroys .swapchain) (teardown Device.healthy builtRenderer) ∧
    ¬ Precede (destroys .surface) (destroys .device) (teardown Device.healthy builtRenderer) ∧
    ¬ Precede ShaderCall.onDescriptors ShaderCall.onUniformBuffers builtShader.accurate_destroy := by
  have hr : teardown Device.healthy builtRenderer =
      [.vkDeviceWaitIdle 3, .destroy .semaphore 9, .destroy .fence 8, .destroy .framebuffer 20,
       .destroy .imageView 21, .destroy .swapchain 5, .destroy .renderPass 4,
       .destroy .device 3, .destroy .surface 2, .destroy .instance_ 1] := by decide
  have hs : builtShader.accurate_destroy =
      [.vkDeviceWaitIdle 3, .vkDestroyPipeline 65, .vkDestroyPipelineLayout 64,
       .vkDestroyRenderPass 63, .vkDestroyBuffer 1001, .vkDestroyBuffer 1003,
       .vkUnmapMemory 1000, .vkFreeMemory 1000, .vkDestroyDescriptorSetLayout 61,
       .vkDestroyDescriptorPool 60] := by decide
  refine ⟨hr, hs, ?_, ?_, ?_⟩
  · intro h
    have := h 6 5 (.destroy .renderPass 4) (.destroy .swapchain 5) (by rw [hr]; rfl)
      (by rw [hr]; rfl) ⟨4, rfl⟩ ⟨5, rfl⟩
    omega
  · intro h
    have := h 8 7 (.destroy .surface 2) (.destroy .device 3) (by rw [hr]; rfl)
      (by rw [hr]; rfl) ⟨2, rfl⟩ ⟨3, rfl⟩
    omega
  · intro h
    have := h 8 4 (.vkDestroyDescriptorSetLayout 61) (.vkDestroyBuffer 1001) (by rw [hs]; rfl)
      (by rw [hs]; rfl) (Or.inl ⟨61, rfl⟩) (Or.inl ⟨1001, rfl⟩)
    omega

/-- C22, amended: in the sequence of calls of a teardown the chain of the source is respected:
`vulkan_shader::accurate_destroy` destroys the pipeline and the pipeline layout before the
uniform buffers (their buffers, mapping and memory), and those before the descriptor set layout
and the descriptor pool; `vulkan_wienderer::accurate_destroy` destroys the swapchain before the
render pass, the render pass before the logical device, the logical device before the surface,
and the surface before the instance; and each of these calls is made when its handle is
non-zero (for the renderer, when the teardown does not throw). -/
theorem C22_teardown_order (dev : Device) (r : vulkan_wienderer) (s : vulkan_shader) :
    Precede ShaderCall.onPipeline ShaderCall.onUniformBuffers s.accurate_destroy ∧
    Precede ShaderCall.onUniformBuffers ShaderCall.onDescriptors s.accurate_destroy ∧
    Precede ShaderCall.onPipeline ShaderCall.onDescriptors s.accurate_destroy ∧
    Precede (destroys .swapchain) (destroys .renderPass) (teardown dev r) ∧
    Precede (destroys .renderPass) (destroys .device) (teardown dev r) ∧
    Precede (destroys .device) (destroys .surface) (teardown dev r) ∧
    Precede (destroys .surface) (destroys .instance_) (teardown dev r) ∧
    Precede (destroys .swapchain) (destroys .surface) (teardown dev r) ∧
    Precede (destroys .device) (destroys .instance_) (teardown dev r) ∧
    ((accurate_destroy dev r).error = none →
      (r.swapchain ≠ 0 → .destroy .swapchain r.swapchain ∈ teardown dev r) ∧
      (r.defaultRenderPass ≠ 0 → .destroy .renderPass r.defaultRenderPass ∈ teardown dev r) ∧
      (r.ldevice ≠ 0 → .destroy .device r.ldevice ∈ teardown dev r) ∧
      (r.surface ≠ 0 → .destroy .surface r.surface ∈ teardown dev r) ∧
      (r.instance_ ≠ 0 → .destroy .instance_ r.instance_ ∈ teardown dev r)) ∧
    (s.pipeline ≠ 0 → .vkDestroyPipeline s.pipeline ∈ s.accurate_destroy) ∧
    (s.pipelineLayout ≠ 0 → .vkDestroyPipelineLayout s.pipelineLayout ∈ s.accurate_destroy) ∧
    (∀ i, i < WIENDER_UNIFORM_BUFFER_MAX_COUNT → (s.uniformBuffers.buffers i).buffer ≠ 0 →
      .vkDestroyBuffer (s.uniformBuffers.buffers i).buffer ∈ s.accurate_destroy) ∧
    (s.descriptorSetLayout ≠ 0 →
      .vkDestroyDescriptorSetLayout s.descriptorSetLayout ∈ s.accurate_destroy) ∧
    (s.descriptorPool ≠ 0 → .vkDestroyDescriptorPool s.descriptorPool ∈ s.accurate_destroy) := by
  have hs := shader_teardown_sorted s
  have hr := teardown_sorted dev r
  have hpipeline : ∀ a : ShaderCall, a.onPipeline → 1 ≤ a.place ∧ a.place ≤ 2 := by
    rintro a (⟨h, rfl⟩ | ⟨h, rfl⟩) <;> simp [ShaderCall.place]
  have hbuffers : ∀ a : ShaderCall, a.onUniformBuffers → 4 ≤ a.place ∧ a.place ≤ 6 := by
    rintro a (⟨h, rfl⟩ | ⟨h, rfl⟩ | ⟨h, rfl⟩) <;> simp [ShaderCall.place]
  have hdescriptors : ∀ a : ShaderCall, a.onDescriptors → 7 ≤ a.place ∧ a.place ≤ 8 := by
    rintro a (⟨h, rfl⟩ | ⟨h, rfl⟩) <;> simp [ShaderCall.place]
  have hkind : ∀ (kind : ObjectKind) (a : DeviceCall), destroys kind a →
      a.place = (DeviceCall.destroy kind 0).place := by
    rintro kind a ⟨h, rfl⟩
    cases kind <;> rfl
  refine ⟨?_, ?_, ?_, ?_, ?_, ?_, ?_, ?_, ?_, ?_, ?_, ?_, ?_, ?_, ?_⟩
  · exact precede_of_sorted _ _ _ 2 _ hs (fun a ha => (hpipeline a ha).2)
      (fun b hb => lt_of_lt_of_le (by decide) (hbuffers b hb).1)
  · exact precede_of_sorted _ _ _ 6 _ hs (fun a ha => (hbuffers a ha).2)
      (fun b hb => lt_of_lt_of_le (by decide) (hdescriptors b hb).1)
  · exact precede_of_sorted _ _ _ 2 _ hs (fun a ha => (hpipeline a ha).2)
      (fun b hb => lt_of_lt_of_le (by decide) (hdescriptors b hb).1)
  · exact precede_of_sorted _ _ _ 1 _ hr (fun a ha => le_of_eq (hkind _ a ha))
      (fun b hb => by rw [hkind _ b hb]; decide)
  · exact precede_of_sorted _ _ _ 2 _ hr (fun a ha => le_of_eq (hkind _ a ha))
      (fun b hb => by rw [hkind _ b hb]; decide)
  · exact precede_of_sorted _ _ _ 3 _ hr (fun a ha => le_of_eq (hkind _ a ha))
      (fun b hb => by rw [hkind _ b hb]; decide)
  · exact precede_of_sorted _ _ _ 4 _ hr (fun a ha => le_of_eq (hkind _ a ha))
      (fun b hb => by rw [hkind _ b hb]; decide)
  · exact precede_of_sorted _ _ _ 1 _ hr (fun a ha => le_of_eq (hkind _ a ha))
      (fun b hb => by rw [hkind _ b hb]; decide)
  · exact precede_of_sorted _ _ _ 3 _ hr (fun a ha => le_of_eq (hkind _ a ha))
      (fun b hb => by rw [hkind _ b hb]; decide)
  · intro herr
    obtain ⟨-, -, -, hall⟩ := teardown_shape dev r
    have hmem := hall herr
    have hheld : ∀ kind handle, handle ≠ 0 →
        (kind, handle) ∈ scalars r → DeviceCall.destroy kind handle ∈ teardown dev r := by
      intro kind handle hne hin
      exact hmem _ ((mem_held r _).mpr ⟨(kind, handle), List.mem_append_left _ hin, hne, rfl⟩)
    exact ⟨fun h => hheld _ _ h (by simp [scalars]), fun h => hheld _ _ h (by simp [scalars]),
      fun h => hheld _ _ h (by simp [scalars]), fun h => hheld _ _ h (by simp [scalars]),
      fun h => hheld _ _ h (by simp [scalars])⟩
  · intro h
    simp [vulkan_shader.accurate_destroy, mem_callIf, h]
  · intro h
    simp [vulkan_shader.accurate_destroy, mem_callIf, h]
  · intro i hi h
    simp only [vulkan_shader.accurate_destroy, List.mem_append, List.mem_flatten, List.mem_map,
      List.mem_range]
    exact Or.inl (Or.inl (Or.inl (Or.inl (Or.inr
      ⟨_, ⟨i, hi, rfl⟩, (mem_callIf _ _ _).mpr ⟨h, rfl⟩⟩))))
  · intro h
    simp [vulkan_shader.accurate_destroy, mem_callIf, h]
  · intro h
    simp [vulkan_shader.accurate_destroy, mem_callIf, h]

/-- C22, amended, on the renderer and the shader of the scenarios that hold every object: the
swapchain 5 is destroyed, and before the render pass; the uniform buffer 1001 is destroyed
before the descriptor objects. -/
theorem C22_teardown_order_witness :
    DeviceCall.destroy .swapchain 5 ∈ teardown Device.healthy builtRenderer ∧
    Precede (destroys .swapchain) (destroys .renderPass) (teardown Device.healthy builtRenderer) ∧
    Precede ShaderCall.onUniformBuffers ShaderCall.onDescriptors builtShader.accurate_destroy := by
  have h := C22_teardown_order Device.healthy builtRenderer builtShader
  exact ⟨(h.2.2.2.2.2.2.2.2.2.1 (by decide)).1 (by decide), h.2.2.2.1, h.2.1⟩

/-! ## The extraction loop stays inside the caller's array -/

theorem extract_high (stage : Nat) (l : Declarations) :
    ∀ (pd : Nat → public_spirv_variable_declaration) (n i : Nat),
      RENDER_SPIRV_PUBLIC_VARIABLE_MAX_COUNT ≤ i → (extract stage l pd n).publicDecls i = pd i := by
  induction l with
  | nil => intro pd n i _; rfl
  | cons p rest ih =>
    intro pd n i hi
    obtain ⟨k, e⟩ := p
    simp only [extract]
    split_ifs with hp hn
    · rw [ih _ _ i hi, Function.update_noteq (by omega)]
    · rfl
    · exact ih pd n i hi

/-- C23, as stated, fails: the module whose only instruction is a `vec4` of an undeclared type
has no public entry and `analyze_spirv` fails on it from the count 0 (`std::out_of_range` in the
scan); the module with a float and a `vec4` has no public entry either, and from the count 65
`analyze_spirv` returns without failure although 65 + 0 exceeds 64. -/
theorem C23_failure_is_not_the_count :
    (analyze_spirv 10 insertionOrder (ofList unknownElementStream) 9 0 (fun _ => default) 0).map
      (fun result => (result.failure, result.variableCount)) = some (some .out_of_range, 0) ∧
    (∃ d, scan 10 (ofList vectorStream) 12 5 [] = some (.ok d) ∧ publicEntries d = []) ∧
    (analyze_spirv 10 insertionOrder (ofList vectorStream) 12 0 (fun _ => default) 65).map
      (fun result => (result.failure, result.variableCount)) = some (none, 65) := by
  exact ⟨by decide, ⟨_, rfl, by decide⟩, by decide⟩

/-- C23, amended: `analyze_spirv` never writes the caller's descriptor array at an index of 64
or more.  When the scan throws, `analyze_spirv` fails with that exception and leaves the array
and the count as they were.  When the scan returns, then for every starting count of at most 64
it fails exactly when the starting count plus the number of public entries exceeds 64 (for a
starting count above 64, exactly when there is a public entry), and when it does not fail it has
stored every public entry after the descriptors already there. -/
theorem C23_array_bound (fuel : Nat) (it : IterationOrder) (code : Nat → Nat)
    (codeSize stageFlags : Nat) (publicDecls : Nat → public_spirv_variable_declaration)
    (variableCount : Nat) :
    (∀ result, analyze_spirv fuel it code codeSize stageFlags publicDecls variableCount =
        some result →
      ∀ i, RENDER_SPIRV_PUBLIC_VARIABLE_MAX_COUNT ≤ i → result.publicDecls i = publicDecls i) ∧
    (∀ f, scan fuel code codeSize 5 [] = some (.error f) →
      (analyze_spirv fuel it code codeSize stageFlags publicDecls variableCount).map
        (fun result => (result.failure, result.variableCount)) = some (some f, variableCount) ∧
      ∀ result, analyze_spirv fuel it code codeSize stageFlags publicDecls variableCount =
        some result → result.publicDecls = publicDecls) ∧
    (∀ d, scan fuel code codeSize 5 [] = some (.ok d) →
      ∃ result, analyze_spirv fuel it code codeSize stageFlags publicDecls variableCount =
          some result ∧
        (variableCount ≤ RENDER_SPIRV_PUBLIC_VARIABLE_MAX_COUNT →
          (result.failure ≠ none ↔ RENDER_SPIRV_PUBLIC_VARIABLE_MAX_COUNT <
            variableCount + (publicEntries d).length)) ∧
        (RENDER_SPIRV_PUBLIC_VARIABLE_MAX_COUNT < variableCount →
          (result.failure ≠ none ↔ 0 < (publicEntries d).length)) ∧
        (result.failure = none →
          result.variableCount = variableCount + (publicEntries d).length ∧
          descriptorList result.publicDecls result.variableCount =
            descriptorList publicDecls variableCount ++
              (publicEntries (it.order d)).map (toPublic stageFlags))) := by
  refine ⟨?_, ?_, ?_⟩
  · intro result hres i hi
    unfold analyze_spirv at hres
    rcases hs : scan fuel code codeSize 5 [] with _ | r
    · rw [hs] at hres
      simp at hres
    · cases r with
      | error f =>
        rw [hs] at hres
        simp only [Option.some.injEq] at hres
        rw [← hres]
      | ok d =>
        rw [hs] at hres
        simp only [Option.some.injEq] at hres
        rw [← hres]
        exact extract_high stageFlags _ publicDecls variableCount i hi
  · intro f hs
    rw [analyze_spirv_of_scan_error fuel it code codeSize stageFlags publicDecls variableCount f hs]
    refine ⟨rfl, ?_⟩
    intro result hres
    simp only [Option.some.injEq] at hres
    rw [← hres]
  · intro d hs
    refine ⟨_, analyze_spirv_of_scan_ok fuel it code codeSize stageFlags publicDecls
      variableCount d hs, ?_, ?_, ?_⟩
    · intro hcount
      rw [extract_failure, (publicEntries_perm _ _ (it.perm d)).length_eq]
      split_ifs with h
      · simp only [ne_eq, not_true_eq_false, false_iff, not_lt]
        rcases h with h | h
        · omega
        · exact h
      · simp only [ne_eq, reduceCtorEq, not_false_eq_true, true_iff]
        omega
    · intro hcount
      rw [extract_failure, (publicEntries_perm _ _ (it.perm d)).length_eq]
      split_ifs with h
      · simp only [ne_eq, not_true_eq_false, false_iff, not_lt]
        rcases h with h | h
        · omega
        · omega
      · simp only [ne_eq, reduceCtorEq, not_false_eq_true, true_iff]
        omega
    · intro hok
      have h := extract_ok stageFlags (it.order d) publicDecls variableCount hok
      rw [(publicEntries_perm _ _ (it.perm d)).length_eq] at h
      exact h

/-- C23, amended, on the module with two public variables: from the count 63 the call fails,
since 63 + 2 exceeds 64, and index 64 of the array is as before. -/
theorem C23_array_bound_witness :
    ∃ result, analyze_spirv 10 insertionOrder (ofList twoVariablesStream) 13 0
        (fun _ => default) 63 = some result ∧
      result.failure ≠ none ∧ result.publicDecls 64 = default := by
  have h := C23_array_bound 10 insertionOrder (ofList twoVariablesStream) 13 0
    (fun _ => default) 63
  obtain ⟨result, hres, hfail, -, -⟩ := h.2.2 _ rfl
  exact ⟨result, hres, (hfail (by decide)).mpr (by decide), h.1 result hres 64 (by decide)⟩

/-! ## The two halves of an instruction word -/

/-- C24: for every 32-bit word w, `getOpcode(w)` is the low 16 bits of w (`w & 0xFFFF`, the
remainder of w by 65536) and `getWordCount(w)` is the high 16 bits (`(w >> 16) & 0xFFFF`, the
quotient of w by 65536), so both are below 65536 and w = getOpcode(w) + 65536 *
getWordCount(w). -/
theorem C24_instruction_word (w : Nat) (hw : w < 4294967296) :
    getOpcode w = w &&& 65535 ∧ getWordCount w = (w >>> 16) &&& 65535 ∧
    getOpcode w = w % 65536 ∧ getWordCount w = w / 65536 ∧
    (∀ i, (getOpcode w).testBit i = (decide (i < 16) && w.testBit i)) ∧
    (∀ i, (getWordCount w).testBit i = (decide (i < 16) && w.testBit (16 + i))) ∧
    getOpcode w < 65536 ∧ getWordCount w < 65536 ∧
    w = getOpcode w + 65536 * getWordCount w := by
  have hand : ∀ n : Nat, n &&& 65535 = n % 65536 := fun n =>
    Nat.and_pow_two_sub_one_eq_mod n 16
  have hshift : w >>> 16 = w / 65536 := Nat.shiftRight_eq_div_pow w 16
  have hdiv : w / 65536 < 65536 := by omega
  have hcount : getWordCount w = w / 65536 := by
    unfold getWordCount
    exact Nat.mod_eq_of_lt hdiv
  refine ⟨(hand w).symm, ?_, rfl, hcount, ?_, ?_, getOpcode_lt w, getWordCount_lt w, ?_⟩
  · rw [hand, hshift]
    rfl
  · intro i
    show (w % 2 ^ 16).testBit i = _
    rw [Nat.testBit_mod_two_pow]
  · intro i
    rw [hcount]
    rw [← hshift, Nat.testBit_shiftRight]
    by_cases hi : i < 16
    · simp [hi]
    · have hlt : w < 2 ^ (16 + i) :=
        lt_of_lt_of_le hw (by
          have : (2 : Nat) ^ 32 ≤ 2 ^ (16 + i) := Nat.pow_le_pow_right (by decide) (by omega)
          simpa using this)
      simp [hi, Nat.testBit_lt_two_pow hlt]
  · rw [hcount]
    unfold getOpcode
    omega

/-- C24 on the first word of a four-word `OpVariable`. -/
theorem C24_instruction_word_witness :
    header 59 4 < 4294967296 ∧ getOpcode (header 59 4) = 59 ∧ getWordCount (header 59 4) = 4 ∧
    header 59 4 = getOpcode (header 59 4) + 65536 * getWordCount (header 59 4) := by
  have h := C24_instruction_word (header 59 4) (by decide)
  exact ⟨by decide, by decide, by decide, h.2.2.2.2.2.2.2.2⟩

/-! ## The words the scan reads -/

theorem structReads_bound (arg : Nat → Nat) (structId : Nat) :
    ∀ (n i : Nat) (d : Declarations), ∀ j ∈ structReads arg structId n i d, i ≤ j ∧ j < i + n := by
  intro n
  induction n with
  | zero => intro i d j hj; simp [structReads] at hj
  | succ n ih =>
    intro i d j hj
    simp only [structReads, List.mem_cons] at hj
    rcases hj with rfl | hj
    · omega
    · cases hf : find d (arg i) with
      | none => simp [hf] at hj
      | some m =>
        rw [hf] at hj
        have := ih (i + 1) _ j hj
        omega

theorem operandsRead_bound (opcode length : Nat) (arg : Nat → Nat) (d : Declarations)
    (hlen : length ≠ 0) (hop : opcode ≠ 0) :
    ∀ j ∈ operandsRead opcode length arg d, 1 ≤ j ∧ j < wordsTouched opcode length := by
  intro j hj
  unfold operandsRead at hj
  unfold wordsTouched
  rw [if_neg (by omega)]
  split_ifs at hj ⊢ with h1 h2 h3 h4 h5 h6 h7 <;>
    first
    | omega
    | exact absurd hj (List.not_mem_nil _)
    | (simp only [List.mem_cons, List.mem_singleton, List.not_mem_nil, or_false] at hj; omega)
    | skip
  · simp only [List.mem_cons] at hj
    rcases hj with rfl | hj
    · omega
    · have := structReads_bound arg (arg 1) (length - 2) 2 _ j hj
      omega

theorem bodyReads_cases (code : Nat → Nat) (n off : Nat) (d : Declarations) :
    ∀ idx ∈ bodyReads code n off d,
      off < n ∧ (idx = off ∨ ∃ j, 1 ≤ j ∧
        j < wordsTouched (getOpcode (rd code off)) (getWordCount (rd code off)) ∧
        idx = (off + j) % 4294967296) := by
  intro idx hidx
  unfold bodyReads at hidx
  dsimp only at hidx
  split_ifs at hidx with hlt hz
  · simp only [List.mem_singleton] at hidx
    exact ⟨hlt, Or.inl hidx⟩
  · simp only [List.mem_cons, List.mem_map] at hidx
    rcases hidx with h | ⟨j, hj, rfl⟩
    · exact ⟨hlt, Or.inl h⟩
    · have hb := operandsRead_bound _ _ (operand code off) d
        (fun h => hz (Or.inl h)) (fun h => hz (Or.inr h)) j hj
      exact ⟨hlt, Or.inr ⟨j, hb.1, hb.2, rfl⟩⟩
  · simp at hidx

theorem bodyReads_fits (code : Nat → Nat) (n off : Nat) (d : Declarations)
    (hfits : off < n →
      off + wordsTouched (getOpcode (rd code off)) (getWordCount (rd code off)) ≤ n) :
    ∀ idx ∈ bodyReads code n off d, idx < n := by
  intro idx hidx
  obtain ⟨hlt, h | ⟨j, -, hj, rfl⟩⟩ := bodyReads_cases code n off d idx hidx
  · omega
  · have := hfits hlt
    have := Nat.mod_le (off + j) 4294967296
    omega

theorem scanReads_fits (code : Nat → Nat) (n : Nat) :
    ∀ (fuel off : Nat) (d : Declarations),
      (∀ o ∈ visited fuel code n off d, o < n →
        o + wordsTouched (getOpcode (rd code o)) (getWordCount (rd code o)) ≤ n) →
      ∀ idx ∈ scanReads fuel code n off d, idx < n := by
  intro fuel
  induction fuel with
  | zero =>
    intro off d hfits idx hidx
    exact bodyReads_fits code n off d (hfits off (by simp [visited])) idx hidx
  | succ fuel ih =>
    intro off d hfits idx hidx
    simp only [scanReads, List.mem_append] at hidx
    rcases hidx with h | h
    · exact bodyReads_fits code n off d (hfits off (by simp [visited])) idx h
    · cases hb : loopBody code n off d with
      | stop d1 => simp [hb] at h
      | thrown f => simp [hb] at h
      | next off1 d1 =>
        rw [hb] at h
        refine ih off1 d1 (fun o ho => hfits o ?_) idx h
        simp only [visited, hb, List.mem_cons]
        exact Or.inr ho

theorem scanReads_cases (code : Nat → Nat) (n : Nat) :
    ∀ (fuel off : Nat) (d : Declarations), ∀ idx ∈ scanReads fuel code n off d,
      ∃ o ∈ visited fuel code n off d, o < n ∧ (idx = o ∨ ∃ j, 1 ≤ j ∧
        j < wordsTouched (getOpcode (rd code o)) (getWordCount (rd code o)) ∧
        idx = (o + j) % 4294967296) := by
  intro fuel
  induction fuel with
  | zero =>
    intro off d idx hidx
    exact ⟨off, by simp [visited], bodyReads_cases code n off d idx hidx⟩
  | succ fuel ih =>
    intro off d idx hidx
    simp only [scanReads, List.mem_append] at hidx
    rcases hidx with h | h
    · exact ⟨off, by simp [visited], bodyReads_cases code n off d idx h⟩
    · cases hb : loopBody code n off d with
      | stop d1 => simp [hb] at h
      | thrown f => simp [hb] at h
      | next off1 d1 =>
        rw [hb] at h
        obtain ⟨o, ho, hrest⟩ := ih off1 d1 idx h
        refine ⟨o, ?_, hrest⟩
        simp only [visited, hb, List.mem_cons]
        exact Or.inr ho

theorem wordsTouched_cases (opcode length : Nat) :
    1 ≤ wordsTouched opcode length ∧
    (opcode ≠ 30 → wordsTouched opcode length ≤ 4) ∧
    (opcode = 30 → wordsTouched opcode length ≤ max 2 length) ∧
    wordsTouched opcode length ≤ max 4 length := by
  unfold wordsTouched
  split_ifs <;> omega

/-- C25, as stated, fails: in the buffer of 11 words that ends with the three words of
`OpDecorate %1 Block`, passed with codeSize 11, the handler of `OpDecorate` reads the three
operands of the instruction at offset 8, the last of them at index 11, which is not less than
11. -/
theorem C25_operand_beyond_the_buffer :
    endsWithDecorate.length = 11 ∧
    scanReads 10 (ofList endsWithDecorate) 11 5 [] = [5, 6, 7, 8, 9, 10, 11] ∧
    11 ∈ scanReads 10 (ofList endsWithDecorate) 11 5 [] := by
  decide

/-- C25, amended: for every word buffer of n words passed to `analyze_spirv` with codeSize n,
with no condition on the buffer, every index the scan reads is either the header of an
instruction the scan comes to, at an index less than n, or an operand of such an instruction,
at most 3 words after the header for a handler with fixed operands and inside the instruction
for the members of a struct (the same holds of each single iteration, from every offset and
table); the operands are read without a comparison with codeSize, so they are at indices less
than n when every instruction the scan comes to lies in the buffer with the words its handler
reads (2 for `OpTypeVoid` and `OpTypeBool`, 3 for `OpTypeInt` and `OpTypeFloat`, 4 for
`OpTypeVector`, `OpTypeMatrix`, `OpTypeArray`, `OpTypePointer`, `OpVariable` and `OpDecorate`,
its length for `OpTypeStruct`). Only the last conjunct has that condition. -/
theorem C25_reads_in_bounds (fuel : Nat) (code : Nat → Nat) (n : Nat) :
    (∀ idx ∈ scanReads fuel code n 5 [],
      ∃ o ∈ visited fuel code n 5 [], o < n ∧ (idx = o ∨ ∃ j, 1 ≤ j ∧
        j < wordsTouched (getOpcode (rd code o)) (getWordCount (rd code o)) ∧
        idx = (o + j) % 4294967296)) ∧
    (∀ off d, ∀ idx ∈ bodyReads code n off d,
      off < n ∧ (idx = off ∨ ∃ j, 1 ≤ j ∧
        j < wordsTouched (getOpcode (rd code off)) (getWordCount (rd code off)) ∧
        idx = (off + j) % 4294967296)) ∧
    (∀ opcode length,
      (opcode ≠ 30 → wordsTouched opcode length ≤ 4) ∧
      (opcode = 30 → wordsTouched opcode length ≤ max 2 length) ∧
      wordsTouched opcode length ≤ max 4 length) ∧
    ((∀ o ∈ visited fuel code n 5 [], o < n →
        o + wordsTouched (getOpcode (rd code o)) (getWordCount (rd code o)) ≤ n) →
      ∀ idx ∈ scanReads fuel code n 5 [], idx < n) :=
  ⟨scanReads_cases code n fuel 5 [], bodyReads_cases code n,
    fun opcode length => (wordsTouched_cases opcode length).2,
    scanReads_fits code n fuel 5 []⟩

/-- C25, amended, on the uniform block module of 32 words passed with codeSize 32: every
instruction lies in the buffer with its operands, so the scan reads below index 32; index 31,
the last word, is read. -/
theorem C25_reads_in_bounds_witness :
    (blockStream 0 0 0 0 0).length = 32 ∧
    (∀ o ∈ visited 10 (ofList (blockStream 0 0 0 0 0)) 32 5 [], o < 32 →
      o + wordsTouched (getOpcode (rd (ofList (blockStream 0 0 0 0 0)) o))
        (getWordCount (rd (ofList (blockStream 0 0 0 0 0)) o)) ≤ 32) ∧
    (∀ idx ∈ scanReads 10 (ofList (blockStream 0 0 0 0 0)) 32 5 [], idx < 32) ∧
    31 ∈ scanReads 10 (ofList (blockStream 0 0 0 0 0)) 32 5 [] :=
  ⟨by decide, by decide,
    (C25_reads_in_bounds 10 (ofList (blockStream 0 0 0 0 0)) 32).2.2.2 (by decide), by decide⟩

/-! ## Termination of the scan loop -/

theorem scan_total (code : Nat → Nat) (cs : Nat) (hcs : cs + 65536 ≤ 4294967296) :
    ∀ (n off : Nat) (d : Declarations), cs ≤ off + n → ∃ r, scan n code cs off d = some r := by
  intro n
  induction n with
  | zero =>
    intro off d h
    exact ⟨.ok d, by simp [scan, loopBody_stop_of_ge code cs off d (by omega)]⟩
  | succ n ih =>
    intro off d h
    cases hb : loopBody code cs off d with
    | stop d1 => exact ⟨.ok d1, by simp [scan, hb]⟩
    | thrown f => exact ⟨.error f, by simp [scan, hb]⟩
    | next off1 d1 =>
      obtain ⟨hlt, -⟩ := loopBody_next_ge code cs off off1 d d1 hcs hb
      obtain ⟨r, hr⟩ := ih off1 d1 (by omega)
      exact ⟨r, by simp [scan, hb, hr]⟩

theorem iterate_bound (code : Nat → Nat) (cs : Nat) (hcs : cs + 65536 ≤ 4294967296) :
    ∀ (k off : Nat) (d : Declarations), iterate (k + 1) code cs off d ≠ none → off + k < cs := by
  intro k
  induction k with
  | zero =>
    intro off d h
    cases hb : loopBody code cs off d with
    | stop d1 => simp [iterate, hb] at h
    | thrown f => simp [iterate, hb] at h
    | next off1 d1 => exact (loopBody_next_inv code cs off off1 d d1 hb).1
  | succ k ih =>
    intro off d h
    cases hb : loopBody code cs off d with
    | stop d1 => simp [iterate, hb] at h
    | thrown f => simp [iterate, hb] at h
    | next off1 d1 =>
      obtain ⟨hlt, -⟩ := loopBody_next_ge code cs off off1 d d1 hcs hb
      have h1 : iterate (k + 1) code cs off1 d1 ≠ none := by
        rw [iterate, hb] at h
        exact h
      have := ih off1 d1 h1
      omega

/-- C26: for every word buffer and every codeSize below 2^32 - 2^16, the scan loop of
`analyze_spirv` terminates: an iteration that does not leave the loop (by the condition, the
`break` or an exception) advances the offset by the length of the instruction, which is at least
1; no more than codeSize - 5 iterations run to their end, so the scan is over, and
`analyze_spirv` returns or throws, within that many. -/
theorem C26_scan_terminates (code : Nat → Nat) (codeSize : Nat)
    (hsize : codeSize < 4294967296 - 65536) :
    (∀ off d off1 d1, loopBody code codeSize off d = .next off1 d1 →
      1 ≤ getWordCount (rd code off) ∧ off1 = off + getWordCount (rd code off) ∧ off < off1) ∧
    (∀ k, iterate k code codeSize 5 [] ≠ none → k ≤ codeSize - 5) ∧
    (∃ r, scan (codeSize - 5) code codeSize 5 [] = some r) ∧
    (∀ it stageFlags publicDecls variableCount, ∃ result,
      analyze_spirv (codeSize - 5) it code codeSize stageFlags publicDecls variableCount =
        some result) := by
  have hcs : codeSize + 65536 ≤ 4294967296 := by omega
  have hscan := scan_total code codeSize hcs (codeSize - 5) 5 [] (by omega)
  refine ⟨?_, ?_, hscan, ?_⟩
  · intro off d off1 d1 hb
    obtain ⟨hlt, heq⟩ := loopBody_next_ge code codeSize off off1 d d1 hcs hb
    exact ⟨by omega, heq, hlt⟩
  · intro k hk
    cases k with
    | zero => omega
    | succ k =>
      have := iterate_bound code codeSize hcs k 5 [] hk
      omega
  · intro it stageFlags publicDecls variableCount
    obtain ⟨r, hr⟩ := hscan
    cases r with
    | error f => exact ⟨_, analyze_spirv_of_scan_error _ it code codeSize _ _ _ f hr⟩
    | ok d => exact ⟨_, analyze_spirv_of_scan_ok _ it code codeSize _ _ _ d hr⟩

/-- C26 on the uniform block module (32 words, followed by one zero word) with codeSize 33:
the scan is over within 28 iterations, and seven iterations run to their end. -/
theorem C26_scan_terminates_witness :
    (∃ r, scan (33 - 5) (ofList (blockStream 0 0 0 0 0)) 33 5 [] = some r) ∧
    iterate 7 (ofList (blockStream 0 0 0 0 0)) 33 5 [] ≠ none ∧ 7 ≤ 33 - 5 := by
  obtain ⟨-, h2, h3, -⟩ := C26_scan_terminates (ofList (blockStream 0 0 0 0 0)) 33 (by decide)
  have h7 : iterate 7 (ofList (blockStream 0 0 0 0 0)) 33 5 [] ≠ none := by decide
  exact ⟨h3, h7, h2 7 h7⟩

/-! ## The renderer: BEGIN_RECORD and END_RECORD alternate in the log -/

theorem brackets_append (log : render_commands) (c : render_command) :
    brackets (log ++ [c]) =
      brackets log ++
        (if c.commandType = .BEGIN_RECORD ∨ c.commandType = .END_RECORD then [c.commandType]
         else []) := by
  unfold brackets
  rw [List.map_append, List.filter_append]
  congr 1
  by_cases h : c.commandType = .BEGIN_RECORD ∨ c.commandType = .END_RECORD
  · simp [List.filter, h]
  · simp [List.filter, h]

theorem bracketsAlternate_append (t : render_command_type) :
    ∀ (l : List render_command_type) (b : Bool), bracketsAlternate b l = true →
      (bracketsAlternate b (l ++ [t]) = true ↔
        t = if (l.getLast?.map (fun last => decide (last = .BEGIN_RECORD))).getD b = true
            then .END_RECORD else .BEGIN_RECORD) := by
  intro l
  induction l with
  | nil =>
    intro b _
    simp [bracketsAlternate]
  | cons x xs ih =>
    intro b h
    simp only [bracketsAlternate, Bool.and_eq_true, decide_eq_true_eq] at h
    obtain ⟨hx, hxs⟩ := h
    have hstep : bracketsAlternate b (x :: xs ++ [t]) = bracketsAlternate (!b) (xs ++ [t]) := by
      simp [bracketsAlternate, hx]
    rw [hstep, ih (!b) hxs]
    cases xs with
    | nil =>
      cases b <;> simp [hx]
    | cons y ys =>
      have hz : (y :: ys).getLast? = some ((y :: ys).getLast (by simp)) :=
        List.getLast?_eq_getLast _ (by simp)
      simp only [List.getLast?_cons_cons, hz, Option.map_some', Option.getD_some]

theorem run_brackets (dev : Device) (op : Operation) (r : vulkan_wienderer)
    (hok : (op.run dev r).error = none) :
    (r.recording = false ∧ (op.run dev r).state.recording = true ∧
      brackets (op.run dev r).state.appliedCommands =
        brackets r.appliedCommands ++ [.BEGIN_RECORD]) ∨
    (r.recording = true ∧ (op.run dev r).state.recording = false ∧
      brackets (op.run dev r).state.appliedCommands =
        brackets r.appliedCommands ++ [.END_RECORD]) ∨
    ((op.run dev r).state.recording = r.recording ∧
      brackets (op.run dev r).state.appliedCommands = brackets r.appliedCommands) := by
  cases op with
  | set_shader_state s =>
    exact Or.inr (Or.inr ⟨rfl, by
      show brackets (r.appliedCommands ++ [_]) = _
      rw [brackets_append]; simp⟩)
  | bind_vertex_buffer_state s =>
    exact Or.inr (Or.inr ⟨rfl, by
      show brackets (r.appliedCommands ++ [_]) = _
      rw [brackets_append]; simp⟩)
  | bind_index_buffer_state s =>
    exact Or.inr (Or.inr ⟨rfl, by
      show brackets (r.appliedCommands ++ [_]) = _
      rw [brackets_append]; simp⟩)
  | begin_record =>
    rcases begin_record_cases dev r with ⟨_, h⟩ | ⟨_, _, h⟩ | ⟨hr, _, h⟩
    · simp [Operation.run, h] at hok
    · simp [Operation.run, h] at hok
    · refine Or.inl ⟨hr, by simp [Operation.run, h], ?_⟩
      simp only [Operation.run, h]
      rw [brackets_append]
      simp
  | end_record =>
    rcases end_record_cases dev r with ⟨_, h⟩ | ⟨_, _, h⟩ | ⟨hr, _, h⟩
    · simp [Operation.run, h] at hok
    · simp [Operation.run, h] at hok
    · refine Or.inr (Or.inl ⟨hr, by simp [Operation.run, h], ?_⟩)
      simp only [Operation.run, h]
      rw [brackets_append]
      simp
  | begin_render =>
    refine Or.inr (Or.inr ?_)
    cases hz : zeroExtent r with
    | true => simp [Operation.run, begin_render_zero r hz]
    | false =>
      by_cases hp : r.currentShader.pipeline = 0
      · simp [Operation.run, begin_render_no_shader r hz hp] at hok
      · simp only [Operation.run, begin_render_drawn r hz hp]
        exact ⟨by first | rfl | trivial, by rw [brackets_append]; simp⟩
  | draw_verteces n f i =>
    refine Or.inr (Or.inr ?_)
    cases hz : zeroExtent r with
    | true => simp [Operation.run, draw_verteces_zero n f i r hz]
    | false =>
      simp only [Operation.run, draw_verteces_drawn n f i r hz]
      exact ⟨by first | rfl | trivial, by rw [brackets_append]; simp⟩
  | draw_indexed n f i =>
    refine Or.inr (Or.inr ?_)
    cases hz : zeroExtent r with
    | true => simp [Operation.run, draw_indexed_zero n f i r hz]
    | false =>
      simp only [Operation.run, draw_indexed_drawn n f i r hz]
      exact ⟨by first | rfl | trivial, by rw [brackets_append]; simp⟩
  | end_render =>
    refine Or.inr (Or.inr ?_)
    cases hz : zeroExtent r with
    | true => simp [Operation.run, end_render_zero r hz]
    | false =>
      simp only [Operation.run, end_render_drawn r hz]
      exact ⟨by first | rfl | trivial, by rw [brackets_append]; simp⟩

theorem runAll_brackets (dev : Device) :
    ∀ (ops : List Operation) (r : vulkan_wienderer),
      bracketsAlternate false (brackets r.appliedCommands) = true →
      (r.recording = true ↔ (brackets r.appliedCommands).getLast? = some .BEGIN_RECORD) →
      (runAll dev ops r).error = none →
      bracketsAlternate false (brackets (runAll dev ops r).state.appliedCommands) = true ∧
      ((runAll dev ops r).state.recording = true ↔
        (brackets (runAll dev ops r).state.appliedCommands).getLast? = some .BEGIN_RECORD) := by
  intro ops
  induction ops with
  | nil => intro r ha hr _; exact ⟨ha, hr⟩
  | cons op ops ih =>
    intro r ha hr hok
    by_cases h1 : (op.run dev r).error = none
    · rw [runAll_cons_ok dev op ops r h1] at hok ⊢
      have hsnoc := fun t => bracketsAlternate_append t (brackets r.appliedCommands) false ha
      rcases run_brackets dev op r h1 with ⟨hidle, hnew, hb⟩ | ⟨hrec, hnew, hb⟩ | ⟨hsame, hb⟩
      · refine ih _ ?_ ?_ hok
        · rw [hb, hsnoc]
          have hlast : (brackets r.appliedCommands).getLast? ≠ some .BEGIN_RECORD := by
            intro h
            rw [hr.mpr h] at hidle
            exact absurd hidle (by decide)
          cases hl : (brackets r.appliedCommands).getLast? with
          | none => simp
          | some last =>
            rw [hl] at hlast
            have : last ≠ .BEGIN_RECORD := fun h => hlast (by rw [h])
            simp [this]
        · rw [hb, hnew]
          simp
      · refine ih _ ?_ ?_ hok
        · rw [hb, hsnoc, hr.mp hrec]
          simp
        · rw [hb, hnew]
          simp
      · refine ih _ ?_ ?_ hok
        · rw [hb]
          exact ha
        · rw [hb, hsame]
          exact hr
    · rw [runAll_cons_error dev op ops r h1] at hok
      exact absurd hok h1

/-- C27: starting from a renderer that is Idle with an empty log, after every sequence of live
operations (set shader, bind buffers, begin_record, begin_render, draw_verteces, draw_indexed,
end_render, end_record) that all return, the BEGIN_RECORD and END_RECORD records of the log
alternate strictly, beginning with BEGIN_RECORD, and the recording flag is true exactly when the
last of them is BEGIN_RECORD. -/
theorem C27_brackets_alternate (dev : Device) (ops : List Operation) (r : vulkan_wienderer)
    (hlog : r.appliedCommands = []) (hidle : r.recording = false)
    (hok : (runAll dev ops r).error = none) :
    bracketsAlternate false (brackets (runAll dev ops r).state.appliedCommands) = true ∧
    ((runAll dev ops r).state.recording = true ↔
      (brackets (runAll dev ops r).state.appliedCommands).getLast? = some .BEGIN_RECORD) := by
  refine runAll_brackets dev ops r ?_ ?_ hok
  · rw [hlog]
    rfl
  · rw [hlog, hidle]
    simp [brackets]

/-- C27 on the renderer of the scenarios after the calls of the basic test and a further
begin_record: the brackets of the log are BEGIN_RECORD, END_RECORD, BEGIN_RECORD, and the
renderer is Recording. -/
theorem C27_brackets_alternate_witness :
    brackets (runAll Device.healthy (basicTestCalls ++ [.begin_record])
      idleRenderer).state.appliedCommands = [.BEGIN_RECORD, .END_RECORD, .BEGIN_RECORD] ∧
    bracketsAlternate false (brackets (runAll Device.healthy (basicTestCalls ++ [.begin_record])
      idleRenderer).state.appliedCommands) = true ∧
    (runAll Device.healthy (basicTestCalls ++ [.begin_record]) idleRenderer).state.recording =
      true := by
  have h := C27_brackets_alternate Device.healthy (basicTestCalls ++ [.begin_record])
    idleRenderer rfl rfl (by decide)
  exact ⟨by decide, h.1, by decide⟩

/-! ## The shader: where the uniform buffers are bound -/

theorem sum_range_succ_map (sz : Nat → Nat) (n : Nat) :
    ((List.range (n + 1)).map sz).sum = ((List.range n).map sz).sum + sz n := by
  rw [List.range_succ, List.map_append, List.sum_append]
  simp

theorem sum_range_mono (sz : Nat → Nat) (n : Nat) :
    ∀ m, n ≤ m → ((List.range n).map sz).sum ≤ ((List.range m).map sz).sum := by
  intro m h
  induction m with
  | zero =>
    have : n = 0 := by omega
    subst this
    exact le_refl _
  | succ m ih =>
    rcases Nat.lt_or_ge n (m + 1) with hlt | hge
    · have := ih (by omega)
      rw [sum_range_succ_map]
      omega
    · have : n = m + 1 := by omega
      subst this
      exact le_refl _

theorem range_split (n b : Nat) (h : b < n) :
    ∃ l2, List.range n = List.range b ++ b :: l2 ∧ b ∉ l2 := by
  obtain ⟨k, rfl⟩ : ∃ k, n = b + (k + 1) := ⟨n - b - 1, by omega⟩
  refine ⟨((List.range k).map Nat.succ).map (fun i => b + i), ?_, ?_⟩
  · rw [List.range_add, List.range_succ_eq_map]
    simp
  · simp

theorem createBuffers_prefix (dev : MemoryDevice) (memory : Nat) (l : List Nat) :
    ∀ st out, createBuffers dev memory l st = .ok out → ∃ post, out.issued = st.issued ++ post := by
  induction l with
  | nil =>
    intro st out h
    simp only [createBuffers, Except.ok.injEq] at h
    subst h
    exact ⟨[], by simp⟩
  | cons a l ih =>
    intro st out h
    unfold createBuffers at h
    dsimp only at h
    split_ifs at h with h1 h2 h3
    · exact ih st out h
    · obtain ⟨post, hpost⟩ := ih _ out h
      exact ⟨[MemoryCall.vkCreateBuffer (st.buffers a).size,
        MemoryCall.vkBindBufferMemory
          (dev.written st.issued (MemoryCall.vkCreateBuffer (st.buffers a).size)) memory
          st.offset] ++ post, by rw [hpost]; simp⟩

theorem createBuffers_frame (dev : MemoryDevice) (memory : Nat) (l : List Nat) :
    ∀ st out, createBuffers dev memory l st = .ok out →
      ∀ i, i ∉ l → out.buffers i = st.buffers i := by
  induction l with
  | nil =>
    intro st out h i _
    simp only [createBuffers, Except.ok.injEq] at h
    subst h
    rfl
  | cons a l ih =>
    intro st out h i hi
    simp only [List.mem_cons, not_or] at hi
    unfold createBuffers at h
    dsimp only at h
    split_ifs at h with h1 h2 h3
    · exact ih st out h i hi.2
    · rw [ih _ out h i hi.2]
      exact Function.update_noteq hi.1 _ _

theorem createBuffers_bind (dev : MemoryDevice) (memory : Nat) (sz : Nat → Nat) (b : Nat)
    (l2 : List Nat) (hb2 : b ∉ l2) (hsz : sz b ≠ 0) :
    ∀ (l1 : List Nat) (st out : BufferLoop),
      (∀ i, (st.buffers i).size = sz i) →
      st.offset + (l1.map sz).sum < 18446744073709551616 →
      createBuffers dev memory (l1 ++ b :: l2) st = .ok out →
      ∃ pre post,
        out.issued = pre ++ [MemoryCall.vkCreateBuffer (sz b),
          MemoryCall.vkBindBufferMemory (out.buffers b).buffer memory
            (st.offset + (l1.map sz).sum)] ++ post ∧
        (out.buffers b).buffer = dev.written pre (MemoryCall.vkCreateBuffer (sz b)) := by
  intro l1
  induction l1 with
  | nil =>
    intro st out hsize _ h
    simp only [List.nil_append] at h
    unfold createBuffers at h
    dsimp only at h
    rw [hsize b] at h
    rw [if_neg hsz] at h
    split_ifs at h with h2 h3
    obtain ⟨post, hpost⟩ := createBuffers_prefix dev memory l2 _ out h
    have hframe := createBuffers_frame dev memory l2 _ out h b hb2
    simp only [Function.update_same] at hframe hpost
    refine ⟨st.issued, post, ?_, ?_⟩
    · rw [hpost, hframe]
      simp
    · rw [hframe]
  | cons a l1 ih =>
    intro st out hsize hsum h
    simp only [List.map_cons, List.sum_cons] at hsum
    simp only [List.cons_append] at h
    unfold createBuffers at h
    dsimp only at h
    split_ifs at h with h1 h2 h3
    · obtain ⟨pre, post, h4, h5⟩ := ih st out hsize (by omega) h
      rw [hsize a] at h1
      refine ⟨pre, post, ?_, h5⟩
      rw [h4]
      simp [h1]
    · simp only [Function.update_same] at h
      rw [hsize a] at h h1
      rw [Nat.mod_eq_of_lt (by omega)] at h
      obtain ⟨pre, post, h4, h5⟩ := ih _ out (by
        intro i
        by_cases hi : i = a
        · subst hi
          simp
        · simp only [Function.update_noteq hi]
          exact hsize i) (by
        show st.offset + sz a + _ < _
        omega) h
      refine ⟨pre, post, ?_, h5⟩
      rw [h4]
      simp only [List.map_cons, List.sum_cons, Nat.add_assoc]

theorem create_uniform_buffers_inv (dev : MemoryDevice)
    (descriptorsInfo : descriptor_set_layout_data) (issued : List MemoryCall)
    (ub : uniform_buffers_info) (b : Nat)
    (h : create_uniform_buffers dev descriptorsInfo issued = .ok ub)
    (hbuffer : (ub.buffers b).size ≠ 0) :
    ∃ buffers st,
      assignSizes (layoutEntries descriptorsInfo) (fun _ => {}) = .ok buffers ∧
      createBuffers dev ub.memory (List.range WIENDER_UNIFORM_BUFFER_MAX_COUNT)
        ⟨buffers, 0, issued ++ [MemoryCall.vkAllocateMemory (totalBufferSize buffers)]⟩ =
          .ok st ∧
      ub.memory = dev.written issued (MemoryCall.vkAllocateMemory (totalBufferSize buffers)) ∧
      ub.buffers = st.buffers := by
  unfold create_uniform_buffers at h
  rcases ha : assignSizes (layoutEntries descriptorsInfo) (fun _ => {}) with e | buffers
  · rw [ha] at h
    simp at h
  · rw [ha] at h
    simp only at h
    split_ifs at h with h0 h1
    · simp only [Except.ok.injEq] at h
      subst h
      exact absurd rfl hbuffer
    · rcases hc : createBuffers dev
        (dev.written issued (MemoryCall.vkAllocateMemory (totalBufferSize buffers)))
        (List.range WIENDER_UNIFORM_BUFFER_MAX_COUNT)
        ⟨buffers, 0, issued ++ [MemoryCall.vkAllocateMemory (totalBufferSize buffers)]⟩
        with e | st
      · rw [hc] at h
        simp at h
      · rw [hc] at h
        simp only at h
        split_ifs at h with h2
        simp only [Except.ok.injEq] at h
        subst h
        exact ⟨buffers, st, rfl, hc, rfl, rfl⟩

theorem slotOffset_eq (ub : uniform_buffers_info) (hbound : ∀ i, (ub.buffers i).size < 4294967296)
    (b : Nat) (hb : b ≤ WIENDER_UNIFORM_BUFFER_MAX_COUNT) :
    slotOffset ub b = ((List.range b).map (fun i => (ub.buffers i).size)).sum := by
  have hsum := sum_map_le (fun i => (ub.buffers i).size) 4294967296 hbound (List.range b)
  have hlen : (List.range b).length ≤ 8 := by
    simpa [WIENDER_UNIFORM_BUFFER_MAX_COUNT] using hb
  have hmul : (List.range b).length * 4294967296 ≤ 8 * 4294967296 :=
    Nat.mul_le_mul_right _ hlen
  unfold slotOffset
  rw [foldl_sum_mod (fun i => (ub.buffers i).size) _ 0 (by omega), Nat.zero_add]

/-- C28: for every shader whose uniform buffers were created from reflected block sizes (32-bit
values) and every binding b < 8 that has a uniform buffer, `get_uniform_buffer_info(b)` returns
the mapped base plus the sum of the sizes of the slots below b, and that sum is the offset at
which the loop of `create_uniform_buffers` bound the buffer it created for slot b into the
memory block; the byte range [offset, offset + size) of b lies within the allocated total size,
and the ranges of two distinct bindings that have a buffer are disjoint. -/
theorem C28_uniform_buffer_layout (dev : MemoryDevice)
    (descriptorsInfo : descriptor_set_layout_data) (issued : List MemoryCall)
    (ub : uniform_buffers_info) (b : Nat)
    (hcreate : create_uniform_buffers dev descriptorsInfo issued = .ok ub)
    (hreflected : ∀ e ∈ layoutEntries descriptorsInfo, e.2 < 4294967296)
    (hb : b < WIENDER_UNIFORM_BUFFER_MAX_COUNT) (hbuffer : (ub.buffers b).size ≠ 0) :
    get_uniform_buffer_info ub b =
      .ok ⟨(ub.buffers b).size, (ub.mappedMemory + slotOffset ub b) % 18446744073709551616⟩ ∧
    (∃ buffers st pre post,
      assignSizes (layoutEntries descriptorsInfo) (fun _ => {}) = .ok buffers ∧
      createBuffers dev ub.memory (List.range WIENDER_UNIFORM_BUFFER_MAX_COUNT)
        ⟨buffers, 0, issued ++ [MemoryCall.vkAllocateMemory (totalBufferSize buffers)]⟩ =
          .ok st ∧
      ub.memory = dev.written issued (MemoryCall.vkAllocateMemory (totalBufferSize buffers)) ∧
      ub.buffers = st.buffers ∧
      st.issued = pre ++ [MemoryCall.vkCreateBuffer (ub.buffers b).size,
        MemoryCall.vkBindBufferMemory (ub.buffers b).buffer ub.memory (slotOffset ub b)] ++
          post ∧
      (ub.buffers b).buffer = dev.written pre (MemoryCall.vkCreateBuffer (ub.buffers b).size) ∧
      slotOffset ub b + (ub.buffers b).size ≤ totalBufferSize buffers) ∧
    (∀ c, c < WIENDER_UNIFORM_BUFFER_MAX_COUNT → c ≠ b → (ub.buffers c).size ≠ 0 →
      slotOffset ub b + (ub.buffers b).size ≤ slotOffset ub c ∨
      slotOffset ub c + (ub.buffers c).size ≤ slotOffset ub b) := by
  obtain ⟨buffers, st, ha, hc, hmem, hbufs⟩ :=
    create_uniform_buffers_inv dev descriptorsInfo issued ub b hcreate hbuffer
  have hsizes : ∀ i, (ub.buffers i).size = (buffers i).size := by
    intro i
    rw [hbufs]
    exact createBuffers_size dev _ _ _ st hc i
  have hbound0 : ∀ i, (buffers i).size < 4294967296 :=
    assignSizes_bound _ _ buffers ha hreflected (fun _ => by decide)
  have hbound : ∀ i, (ub.buffers i).size < 4294967296 := fun i => by
    rw [hsizes i]
    exact hbound0 i
  have hoff : ∀ n, n ≤ WIENDER_UNIFORM_BUFFER_MAX_COUNT →
      slotOffset ub n = ((List.range n).map (fun i => (ub.buffers i).size)).sum :=
    fun n hn => slotOffset_eq ub hbound n hn
  have hnext : ∀ n, n < WIENDER_UNIFORM_BUFFER_MAX_COUNT →
      slotOffset ub (n + 1) = slotOffset ub n + (ub.buffers n).size := by
    intro n hn
    rw [hoff (n + 1) hn, hoff n (le_of_lt hn), sum_range_succ_map]
  have hmono : ∀ n m, n ≤ m → m ≤ WIENDER_UNIFORM_BUFFER_MAX_COUNT →
      slotOffset ub n ≤ slotOffset ub m := by
    intro n m hnm hm
    rw [hoff n (le_trans hnm hm), hoff m hm]
    exact sum_range_mono _ n m hnm
  have htotal : totalBufferSize buffers = slotOffset ub WIENDER_UNIFORM_BUFFER_MAX_COUNT := by
    unfold totalBufferSize slotOffset
    simp only [hsizes]
  refine ⟨?_, ?_, ?_⟩
  · unfold get_uniform_buffer_info
    rw [if_neg (not_not.mpr hb)]
    simp only
    rw [if_neg hbuffer]
    rfl
  · obtain ⟨l2, hsplit, hb2⟩ := range_split WIENDER_UNIFORM_BUFFER_MAX_COUNT b hb
    have hc1 := hc
    rw [hsplit] at hc1
    have hlt : slotOffset ub b < 18446744073709551616 := by
      have h1 := hmono b _ (le_of_lt hb) (le_refl _)
      have h2 := sum_map_le (fun i => (ub.buffers i).size) 4294967296 hbound
        (List.range WIENDER_UNIFORM_BUFFER_MAX_COUNT)
      rw [← hoff _ (le_refl _)] at h2
      have hlen : (List.range WIENDER_UNIFORM_BUFFER_MAX_COUNT).length = 8 := by
        simp [WIENDER_UNIFORM_BUFFER_MAX_COUNT]
      rw [hlen] at h2
      omega
    obtain ⟨pre, post, hissued, hhandle⟩ :=
      createBuffers_bind dev ub.memory (fun i => (ub.buffers i).size) b l2 hb2 hbuffer
        (List.range b) _ st (fun i => (hsizes i).symm) (by
          show 0 + _ < _
          rw [← hoff b (le_of_lt hb)]
          omega) hc1
    refine ⟨buffers, st, pre, post, ha, hc, hmem, hbufs, ?_, ?_, ?_⟩
    · rw [hissued, ← hbufs, hoff b (le_of_lt hb)]
      simp
    · rw [← hbufs] at hhandle
      exact hhandle
    · rw [htotal]
      have := hmono (b + 1) _ hb (le_refl _)
      rw [hnext b hb] at this
      exact this
  · intro c hc0 hne hcsize
    rcases Nat.lt_or_gt_of_ne hne with hlt | hgt
    · right
      have := hmono (c + 1) b hlt (le_of_lt hb)
      rw [hnext c hc0] at this
      exact this
    · left
      have := hmono (b + 1) c hgt (le_of_lt hc0)
      rw [hnext b hb] at this
      exact this

/-- C28 on the shader with blocks of 64 bytes at binding 0 and of 256 bytes at binding 2: the
uniform buffers are created, the slot of binding 0 is padded to 128 bytes, the region of binding
2 starts 128 bytes after the mapped base, and the range of binding 0 ends where it starts. -/
theorem C28_uniform_buffer_layout_witness :
    ∃ ub, create_uniform_buffers MemoryDevice.healthy twoBlocksLayout [] = .ok ub ∧
      slotOffset ub 2 = 128 ∧
      get_uniform_buffer_info ub 2 =
        .ok ⟨256, (ub.mappedMemory + 128) % 18446744073709551616⟩ ∧
      slotOffset ub 0 + (ub.buffers 0).size ≤ slotOffset ub 2 := by
  cases h : create_uniform_buffers MemoryDevice.healthy twoBlocksLayout [] with
  | error e =>
    have hok : (create_uniform_buffers MemoryDevice.healthy twoBlocksLayout []).isOk = true := rfl
    rw [h] at hok
    simp [Except.isOk, Except.toBool] at hok
  | ok ub =>
    have hvalues : (create_uniform_buffers MemoryDevice.healthy twoBlocksLayout []).toOption.map
        (fun u => ((u.buffers 0).size, (u.buffers 2).size, slotOffset u 2)) =
        some (128, 256, 128) := by decide
    rw [h] at hvalues
    simp only [Except.toOption, Option.map_some', Option.some.injEq, Prod.mk.injEq] at hvalues
    obtain ⟨h0, h2, hoff⟩ := hvalues
    have key := C28_uniform_buffer_layout MemoryDevice.healthy twoBlocksLayout [] ub 2 h
      (by decide) (by decide) (by rw [h2]; decide)
    refine ⟨ub, rfl, hoff, ?_, ?_⟩
    · rw [key.1, h2, hoff]
    · have hzero : slotOffset ub 0 = 0 := rfl
      rcases key.2.2 0 (by decide) (by decide) (by rw [h0]; decide) with hle | hle
      · omega
      · exact hle

/-! ## The queue families -/

/-- C29 at a device whose family 0 does graphics only and whose family 1 presents: the loop
visits index 0 and then index 2, so the indices returned hold no present family, they are not
complete and the assertion of `create_falimy_indices` fails; with a third family between the two
the family that presents has index 2 and is found. -/
theorem C29_odd_family_is_skipped :
    (∃ family ∈ splitFamilies, family.queueFlags &&& VK_QUEUE_GRAPHICS_BIT ≠ 0) ∧
    (∃ family ∈ splitFamilies, family.presentSupport = true) ∧
    find_queue_families 16 splitFamilies =
      some (.ok ⟨0, WIENDER_VK_INVALID_FAMILY_INDEX, 2⟩) ∧
    create_falimy_indices 16 splitFamilies = false ∧
    find_queue_families 16 spacedFamilies = some (.ok ⟨0, 2, 2⟩) := by
  exact ⟨by decide, by decide, rfl, by decide, rfl⟩

/-! ## The cull mode -/

/-- C30 at the cull mode ALL: the mask returned is the BACK bit alone, the same mask as for
BACK, and not the union of the FRONT and BACK bits; NONE is mapped to the empty mask. -/
theorem C30_cull_mode_all_is_back :
    shader_cull_mode_to_vk_cull_mode .ALL = VK_CULL_MODE_BACK_BIT ∧
    shader_cull_mode_to_vk_cull_mode .ALL = shader_cull_mode_to_vk_cull_mode .BACK ∧
    shader_cull_mode_to_vk_cull_mode .ALL ≠ VK_CULL_MODE_FRONT_BIT ||| VK_CULL_MODE_BACK_BIT ∧
    shader_cull_mode_to_vk_cull_mode .NONE = 0 := by
  decide

/-! ## Decorations placed anywhere in the stream -/

theorem keeps_modify {α : Type} (π : basic_declaration → α) (d : Declarations) (k k' : Nat)
    (f : basic_declaration → basic_declaration) (hf : k = k' → ∀ e, π (f e) = π e) :
    π (get (modify d k f) k') = π (get d k') := by
  by_cases h : k = k'
  · subst h
    rw [get_modify_self]
    exact hf rfl _
  · rw [get_modify_ne d k k' f h]

theorem structMembers_keeps {α : Type} (π : basic_declaration → α)
    (hsize : ∀ e x, π { e with size := x } = π e)
    (arg : Nat → Nat) (s n i0 : Nat) (d d' : Declarations)
    (h : structMembers arg s n i0 d = .ok d') (k : Nat) : π (get d' k) = π (get d k) := by
  induction n generalizing i0 d with
  | zero =>
    simp only [structMembers, Except.ok.injEq] at h
    rw [h]
  | succ n ih =>
    simp only [structMembers] at h
    cases hm : find d (arg i0) with
    | none => simp [hm] at h
    | some m =>
      rw [hm] at h
      rw [ih (i0 + 1) _ h]
      exact keeps_modify π d s k _ (fun _ e => hsize e _)

/-- A handler leaves a part of an entry as it was when none of the assignments it makes to
that entry changes the part. -/
theorem exec_keeps {α : Type} (π : basic_declaration → α)
    (hsize : ∀ e x, π { e with size := x } = π e)
    (hopType : ∀ e x, π { e with opType := x } = π e)
    (hpointerTarget : ∀ e x, π { e with pointerTarget := x } = π e)
    (opcode length : Nat) (arg : Nat → Nat) (d d' : Declarations)
    (h : exec opcode length arg d = .ok d') (k : Nat)
    (hdeclared : opcode = 59 → arg 2 = k → ∀ e, π (variableFields (arg 1) (arg 3) e) = π e)
    (hbinding : opcode = 71 → arg 1 = k → arg 2 = 33 →
      ∀ e, π { e with binding := arg 3 } = π e)
    (hset : opcode = 71 → arg 1 = k → arg 2 = 34 →
      ∀ e, π { e with descriptorSet := arg 3 } = π e) :
    π (get d' k) = π (get d k) := by
  have hso : ∀ (x y : Nat) (e : basic_declaration),
      π { e with size := x, opType := y } = π e :=
    fun x y e => (hopType { e with size := x } y).trans (hsize e x)
  by_cases h59 : opcode = 59
  · subst h59
    rw [exec_variable_closed] at h
    simp only [Except.ok.injEq] at h
    subst h
    have hm : π (get (modify d (arg 2) (fun e =>
        { variableFields (arg 1) (arg 3) e with
          size := variableSize d (arg 1) (arg 2) (arg 3) })) k) = π (get d k) :=
      keeps_modify π d (arg 2) k _
        (fun hk e => (hsize _ _).trans (hdeclared rfl hk e))
    split_ifs
    · rw [get_touch, get_touch]
      exact hm
    · rw [get_touch]
      exact hm
  · by_cases h30 : opcode = 30
    · subst h30
      rw [exec_struct] at h
      rw [structMembers_keeps π hsize _ _ _ _ _ _ h k]
      exact keeps_modify π d (arg 1) k _ (fun _ e => hopType e _)
    · by_cases h71 : opcode = 71
      · subst h71
        rw [exec_decorate] at h
        split_ifs at h with h34 h33
        · simp only [Except.ok.injEq] at h
          subst h
          exact keeps_modify π d (arg 1) k _ (fun hk e => hset rfl hk h34 e)
        · simp only [Except.ok.injEq] at h
          subst h
          exact keeps_modify π d (arg 1) k _ (fun hk e => hbinding rfl hk h33 e)
        · simp only [Except.ok.injEq] at h
          rw [h]
      · unfold exec at h
        simp only [h59, h30, h71, if_false] at h
        split_ifs at h
        all_goals first
          | (simp only [Except.ok.injEq] at h
             subst h
             first
               | rfl
               | exact keeps_modify π d _ k _ (fun _ e => hopType e _)
               | exact keeps_modify π d _ k _ (fun _ e => hso _ _ e)
               | exact keeps_modify π d _ k _
                   (fun _ e => (hpointerTarget _ _).trans (hso 8 opcode e)))
          | (cases hf : find d (arg 2) with
             | none => simp [hf] at h
             | some el =>
               simp only [hf, Except.ok.injEq] at h
               subst h
               exact keeps_modify π d _ k _ (fun _ e => hso _ _ e))

theorem undecorated_eq_iff (a b : basic_declaration) :
    undecorated a = undecorated b ↔
      a.pointerTarget = b.pointerTarget ∧ a.size = b.size ∧ a.storageClass = b.storageClass ∧
      a.opType = b.opType ∧ a.isPublic = b.isPublic := by
  simp [undecorated]

theorem undecorated_modify (d1 d2 : Declarations) (k : Nat)
    (f1 f2 : basic_declaration → basic_declaration)
    (hd : ∀ j, undecorated (get d1 j) = undecorated (get d2 j))
    (hf : ∀ a b, undecorated a = undecorated b → undecorated (f1 a) = undecorated (f2 b))
    (j : Nat) : undecorated (get (modify d1 k f1) j) = undecorated (get (modify d2 k f2) j) := by
  by_cases h : k = j
  · subst h
    rw [get_modify_self, get_modify_self]
    exact hf _ _ (hd k)
  · rw [get_modify_ne d1 k j f1 h, get_modify_ne d2 k j f2 h]
    exact hd j

theorem structMembers_undecorated (arg : Nat → Nat) (s n i0 : Nat)
    (d1 d2 d1' d2' : Declarations)
    (h1 : structMembers arg s n i0 d1 = .ok d1') (h2 : structMembers arg s n i0 d2 = .ok d2')
    (hd : ∀ j, undecorated (get d1 j) = undecorated (get d2 j)) (j : Nat) :
    undecorated (get d1' j) = undecorated (get d2' j) := by
  induction n generalizing i0 d1 d2 with
  | zero =>
    simp only [structMembers, Except.ok.injEq] at h1 h2
    rw [← h1, ← h2]
    exact hd j
  | succ n ih =>
    simp only [structMembers] at h1 h2
    cases hm1 : find d1 (arg i0) with
    | none => simp [hm1] at h1
    | some m1 =>
      cases hm2 : find d2 (arg i0) with
      | none => simp [hm2] at h2
      | some m2 =>
        rw [hm1] at h1
        rw [hm2] at h2
        have hm : m1.size = m2.size := by
          have := hd (arg i0)
          rw [get_of_find d1 _ m1 hm1, get_of_find d2 _ m2 hm2, undecorated_eq_iff] at this
          exact this.2.1
        refine ih (i0 + 1) _ _ h1 h2 (fun j' => undecorated_modify d1 d2 s _ _ hd ?_ j')
        intro a b hab
        rw [undecorated_eq_iff] at hab ⊢
        obtain ⟨p1, p2, p3, p4, p5⟩ := hab
        exact ⟨p1, by simp only [p2, hm], p3, p4, p5⟩

theorem variableSize_undecorated (d1 d2 : Declarations) (target structId storageClass : Nat)
    (hd : ∀ j, undecorated (get d1 j) = undecorated (get d2 j)) :
    variableSize d1 target structId storageClass =
      variableSize d2 target structId storageClass := by
  have hD : ∀ j, undecorated (get (variableDeclared d1 target structId storageClass) j) =
      undecorated (get (variableDeclared d2 target structId storageClass) j) := by
    intro j
    rw [variableDeclared_eq, variableDeclared_eq]
    refine undecorated_modify d1 d2 structId _ _ hd ?_ j
    intro a b hab
    rw [undecorated_eq_iff] at hab ⊢
    obtain ⟨p1, p2, p3, p4, p5⟩ := hab
    simp only [variableFields, p5, p2, and_self]
  have hfield : ∀ j,
      (get (variableDeclared d1 target structId storageClass) j).pointerTarget =
        (get (variableDeclared d2 target structId storageClass) j).pointerTarget ∧
      (get (variableDeclared d1 target structId storageClass) j).size =
        (get (variableDeclared d2 target structId storageClass) j).size := by
    intro j
    have := (undecorated_eq_iff _ _).mp (hD j)
    exact ⟨this.1, this.2.1⟩
  unfold variableSize
  rw [(hfield target).1, (hfield target).2, (hfield _).2]

theorem exec_variable_get (length : Nat) (arg : Nat → Nat) (d d' : Declarations)
    (h : exec 59 length arg d = .ok d') (j : Nat) :
    get d' j = get (modify d (arg 2) (fun e =>
      { variableFields (arg 1) (arg 3) e with
        size := variableSize d (arg 1) (arg 2) (arg 3) })) j := by
  rw [exec_variable_closed] at h
  simp only [Except.ok.injEq] at h
  subst h
  split_ifs
  · rw [get_touch, get_touch]
  · rw [get_touch]

/-- The same instruction, executed on two tables that agree except in the bindings and
descriptor sets, leaves two tables that agree except in the bindings and descriptor sets. -/
theorem exec_undecorated (opcode length : Nat) (arg : Nat → Nat) (d1 d2 d1' d2' : Declarations)
    (h1 : exec opcode length arg d1 = .ok d1') (h2 : exec opcode length arg d2 = .ok d2')
    (hd : ∀ j, undecorated (get d1 j) = undecorated (get d2 j)) (j : Nat) :
    undecorated (get d1' j) = undecorated (get d2' j) := by
  by_cases h59 : opcode = 59
  · subst h59
    rw [exec_variable_get length arg d1 d1' h1, exec_variable_get length arg d2 d2' h2,
      variableSize_undecorated d1 d2 _ _ _ hd]
    refine undecorated_modify d1 d2 _ _ _ hd ?_ j
    intro a b hab
    rw [undecorated_eq_iff] at hab ⊢
    obtain ⟨p1, p2, p3, p4, p5⟩ := hab
    simp only [variableFields, p5, and_self]
  · by_cases h30 : opcode = 30
    · subst h30
      rw [exec_struct] at h1 h2
      refine structMembers_undecorated arg _ _ _ _ _ d1' d2' h1 h2 ?_ j
      intro j'
      refine undecorated_modify d1 d2 _ _ _ hd ?_ j'
      intro a b hab
      rw [undecorated_eq_iff] at hab ⊢
      obtain ⟨p1, p2, p3, p4, p5⟩ := hab
      exact ⟨p1, p2, p3, rfl, p5⟩
    · by_cases h71 : opcode = 71
      · subst h71
        rw [exec_decorate] at h1 h2
        split_ifs at h1 h2 with h34 h33
        all_goals
          simp only [Except.ok.injEq] at h1 h2
          subst h1
          subst h2
        · refine undecorated_modify d1 d2 _ _ _ hd ?_ j
          intro a b hab
          rw [undecorated_eq_iff] at hab ⊢
          exact hab
        · refine undecorated_modify d1 d2 _ _ _ hd ?_ j
          intro a b hab
          rw [undecorated_eq_iff] at hab ⊢
          exact hab
        · exact hd j
      · by_cases hc : opcode = 23 ∨ opcode = 24 ∨ opcode = 28
        · rw [exec_composite opcode length arg _ hc] at h1 h2
          cases hf1 : find d1 (arg 2) with
          | none => simp [hf1] at h1
          | some el1 =>
            cases hf2 : find d2 (arg 2) with
            | none => simp [hf2] at h2
            | some el2 =>
              simp only [hf1, Except.ok.injEq] at h1
              simp only [hf2, Except.ok.injEq] at h2
              subst h1
              subst h2
              have hel : el1.size = el2.size := by
                have := hd (arg 2)
                rw [get_of_find d1 _ el1 hf1, get_of_find d2 _ el2 hf2,
                  undecorated_eq_iff] at this
                exact this.2.1
              refine undecorated_modify d1 d2 _ _ _ hd ?_ j
              intro a b hab
              rw [undecorated_eq_iff] at hab ⊢
              obtain ⟨p1, p2, p3, p4, p5⟩ := hab
              exact ⟨p1, by simp only [hel], p3, rfl, p5⟩
        · have hform : ∃ (k : Nat) (f : basic_declaration → basic_declaration),
              (∀ a b, undecorated a = undecorated b → undecorated (f a) = undecorated (f b)) ∧
              ((∀ d, exec opcode length arg d = .ok (modify d k f)) ∨
                ∀ d, exec opcode length arg d = .ok d) := by
            by_cases h19 : opcode = 19
            · refine ⟨arg 1, fun e => { e with opType := opcode }, ?_, Or.inl (fun d => ?_)⟩
              · intro a b hab
                rw [undecorated_eq_iff] at hab ⊢
                obtain ⟨p1, p2, p3, p4, p5⟩ := hab
                exact ⟨p1, p2, p3, rfl, p5⟩
              · unfold exec
                simp [h19]
            · by_cases h20 : opcode = 20
              · refine ⟨arg 1, fun e => { e with size := 16, opType := opcode }, ?_,
                  Or.inl (fun d => ?_)⟩
                · intro a b hab
                  rw [undecorated_eq_iff] at hab ⊢
                  obtain ⟨p1, p2, p3, p4, p5⟩ := hab
                  exact ⟨p1, rfl, p3, rfl, p5⟩
                · unfold exec
                  simp [h20]
              · by_cases h21 : opcode = 21 ∨ opcode = 22
                · refine ⟨arg 1, fun e => { e with size := arg 2 / 8, opType := opcode }, ?_,
                    Or.inl (fun d => exec_scalar opcode length arg d h21)⟩
                  intro a b hab
                  rw [undecorated_eq_iff] at hab ⊢
                  obtain ⟨p1, p2, p3, p4, p5⟩ := hab
                  exact ⟨p1, rfl, p3, rfl, p5⟩
                · by_cases h32 : opcode = 32
                  · subst h32
                    refine ⟨arg 1,
                      fun e => { e with size := 8, opType := 32, pointerTarget := arg 3 }, ?_,
                      Or.inl (fun d => exec_pointer length arg d)⟩
                    intro a b hab
                    rw [undecorated_eq_iff] at hab ⊢
                    obtain ⟨p1, p2, p3, p4, p5⟩ := hab
                    exact ⟨rfl, rfl, p3, rfl, p5⟩
                  · refine ⟨0, id, fun _ _ h => h, Or.inr (fun d => ?_)⟩
                    have n21 : opcode ≠ 21 := fun a => h21 (Or.inl a)
                    have n22 : opcode ≠ 22 := fun a => h21 (Or.inr a)
                    unfold exec
                    simp only [h19, h20, n21, n22, hc, h30, h32, h59, h71, if_false]
          obtain ⟨k, f, hf, hforms⟩ := hform
          rcases hforms with e | e
          · rw [e] at h1 h2
            simp only [Except.ok.injEq] at h1 h2
            subst h1
            subst h2
            exact undecorated_modify d1 d2 _ _ _ hd hf j
          · rw [e] at h1 h2
            simp only [Except.ok.injEq] at h1 h2
            subst h1
            subst h2
            exact hd j

theorem instructionAt_arg (code : Nat → Nat) (off j : Nat)
    (hj : j < 4 ∨ j < getWordCount (rd code off)) :
    (instructionAt code off).arg j = operand code off j := by
  have hlt : j < max 4 (getWordCount (rd code off)) := by omega
  simp [Instruction.arg, instructionAt, List.getD_eq_getElem?_getD, List.getElem?_map,
    List.getElem?_range hlt]

theorem step_layout (code : Nat → Nat) (cs off off' : Nat) (d d' : Declarations)
    (h : loopBody code cs off d = .next off' d')
    (hl : (instructionAt code off).isLayout = true) (j : Nat) :
    undecorated (get d' j) = undecorated (get d j) := by
  obtain ⟨_, _, _, hex, _⟩ := loopBody_next_inv code cs off off' d d' h
  simp only [Instruction.isLayout, decide_eq_true_eq] at hl
  have hop : getOpcode (rd code off) = 71 := hl.1
  rw [hop, exec_decorate] at hex
  split_ifs at hex
  · simp only [Except.ok.injEq] at hex
    subst hex
    exact keeps_modify undecorated d _ j _ (fun _ _ => rfl)
  · simp only [Except.ok.injEq] at hex
    subst hex
    exact keeps_modify undecorated d _ j _ (fun _ _ => rfl)
  · simp only [Except.ok.injEq] at hex
    rw [hex]

theorem step_same (code1 code2 : Nat → Nat) (cs1 cs2 off1 off2 o1 o2 : Nat)
    (d1 d2 d1' d2' : Declarations)
    (h1 : loopBody code1 cs1 off1 d1 = .next o1 d1')
    (h2 : loopBody code2 cs2 off2 d2 = .next o2 d2')
    (hsame : instructionAt code1 off1 = instructionAt code2 off2)
    (hd : ∀ j, undecorated (get d1 j) = undecorated (get d2 j)) (j : Nat) :
    undecorated (get d1' j) = undecorated (get d2' j) := by
  obtain ⟨_, _, _, hex1, _⟩ := loopBody_next_inv code1 cs1 off1 o1 d1 d1' h1
  obtain ⟨_, _, _, hex2, _⟩ := loopBody_next_inv code2 cs2 off2 o2 d2 d2' h2
  have hop : getOpcode (rd code1 off1) = getOpcode (rd code2 off2) :=
    congrArg Instruction.opcode hsame
  have hlen : getWordCount (rd code1 off1) = getWordCount (rd code2 off2) :=
    congrArg Instruction.length hsame
  have harg : ∀ i, 1 ≤ i → i < 4 ∨ i < getWordCount (rd code2 off2) →
      operand code2 off2 i = operand code1 off1 i := by
    intro i _ hi
    rw [← instructionAt_arg code2 off2 i hi, ← instructionAt_arg code1 off1 i (by rw [hlen]; exact hi),
      hsame]
  rw [exec_congr _ _ _ _ d2 harg, ← hop, ← hlen] at hex2
  exact exec_undecorated _ _ _ d1 d2 d1' d2' hex1 hex2 hd j

theorem step_binding (code : Nat → Nat) (cs off off' : Nat) (d d' : Declarations)
    (h : loopBody code cs off d = .next off' d') (v : Nat) :
    (get d' v).binding =
      if (instructionAt code off).decorates v 33 = true then (instructionAt code off).arg 3
      else (get d v).binding := by
  obtain ⟨_, _, _, hex, _⟩ := loopBody_next_inv code cs off off' d d' h
  simp only [Instruction.decorates, decide_eq_true_eq, instructionAt_arg code off _ (Or.inl (by decide : 1 < 4)),
    instructionAt_arg code off _ (Or.inl (by decide : 2 < 4)),
    instructionAt_arg code off _ (Or.inl (by decide : 3 < 4))]
  have hop : (instructionAt code off).opcode = getOpcode (rd code off) := rfl
  rw [hop]
  split_ifs with hdec
  · obtain ⟨a1, a2, a3⟩ := hdec
    rw [a1, exec_decorate, a3] at hex
    simp only [show ¬ (33 = 34) by decide, if_false, if_true, Except.ok.injEq] at hex
    rw [← hex, ← a2, get_modify_self]
  · exact exec_keeps basic_declaration.binding (fun _ _ => rfl) (fun _ _ => rfl)
      (fun _ _ => rfl) _ _ _ d d' hex v (fun _ _ _ => rfl)
      (fun a1 a2 a3 => absurd ⟨a1, a2, a3⟩ hdec) (fun _ _ _ _ => rfl)

theorem step_descriptorSet (code : Nat → Nat) (cs off off' : Nat) (d d' : Declarations)
    (h : loopBody code cs off d = .next off' d') (v : Nat) :
    (get d' v).descriptorSet =
      if (instructionAt code off).decorates v 34 = true then (instructionAt code off).arg 3
      else (get d v).descriptorSet := by
  obtain ⟨_, _, _, hex, _⟩ := loopBody_next_inv code cs off off' d d' h
  simp only [Instruction.decorates, decide_eq_true_eq, instructionAt_arg code off _ (Or.inl (by decide : 1 < 4)),
    instructionAt_arg code off _ (Or.inl (by decide : 2 < 4)),
    instructionAt_arg code off _ (Or.inl (by decide : 3 < 4))]
  have hop : (instructionAt code off).opcode = getOpcode (rd code off) := rfl
  rw [hop]
  split_ifs with hdec
  · obtain ⟨a1, a2, a3⟩ := hdec
    rw [a1, exec_decorate, a3] at hex
    simp only [if_true, Except.ok.injEq] at hex
    rw [← hex, ← a2, get_modify_self]
  · exact exec_keeps basic_declaration.descriptorSet (fun _ _ => rfl) (fun _ _ => rfl)
      (fun _ _ => rfl) _ _ _ d d' hex v (fun _ _ _ => rfl) (fun _ _ _ _ => rfl)
      (fun a1 a2 a3 => absurd ⟨a1, a2, a3⟩ hdec)

theorem step_storageClass (code : Nat → Nat) (cs off off' : Nat) (d d' : Declarations)
    (h : loopBody code cs off d = .next off' d') (v : Nat) :
    (get d' v).storageClass =
      if (instructionAt code off).declares v = true then (instructionAt code off).arg 3
      else (get d v).storageClass := by
  obtain ⟨_, _, _, hex, _⟩ := loopBody_next_inv code cs off off' d d' h
  simp only [Instruction.declares, decide_eq_true_eq,
    instructionAt_arg code off _ (Or.inl (by decide : 2 < 4)),
    instructionAt_arg code off _ (Or.inl (by decide : 3 < 4))]
  have hop : (instructionAt code off).opcode = getOpcode (rd code off) := rfl
  rw [hop]
  split_ifs with hdec
  · obtain ⟨a1, a2⟩ := hdec
    rw [a1] at hex
    rw [exec_variable_get _ _ d d' hex v, ← a2, get_modify_self]
    rfl
  · exact exec_keeps basic_declaration.storageClass (fun _ _ => rfl) (fun _ _ => rfl)
      (fun _ _ => rfl) _ _ _ d d' hex v
      (fun a1 a2 => absurd ⟨a1, a2⟩ hdec) (fun _ _ _ _ => rfl) (fun _ _ _ _ => rfl)

/-- A part of an entry that each executed instruction either sets to a value of its own or
leaves alone holds, at the end of the scan, the value `x` when every instruction that sets it
sets it to `x` and one such instruction is executed. -/
theorem scan_last_write {α : Type} (π : basic_declaration → α) (sets : Instruction → Bool)
    (val : Instruction → α) (code : Nat → Nat) (cs v : Nat) (x : α)
    (hstep : ∀ off off' d d', loopBody code cs off d = .next off' d' →
      π (get d' v) = if sets (instructionAt code off) = true then val (instructionAt code off)
        else π (get d v)) :
    ∀ (fuel off : Nat) (d dEnd : Declarations), scan fuel code cs off d = some (.ok dEnd) →
      (∀ i ∈ executed fuel code cs off d, sets i = true → val i = x) →
      ((∃ i ∈ executed fuel code cs off d, sets i = true) ∨ π (get d v) = x) →
      π (get dEnd v) = x := by
  intro fuel
  induction fuel with
  | zero =>
    intro off d dEnd h _ hex
    simp only [scan] at h
    cases hb : loopBody code cs off d with
    | stop d1 =>
      simp only [hb, Option.some.injEq, Except.ok.injEq] at h
      rw [← h, loopBody_stop_inv code cs off d d1 hb]
      rcases hex with ⟨i, hi, _⟩ | hx
      · simp [executed] at hi
      · exact hx
    | thrown f => simp [hb] at h
    | next o1 d1 => simp [hb] at h
  | succ fuel ih =>
    intro off d dEnd h hall hex
    simp only [scan] at h
    cases hb : loopBody code cs off d with
    | stop d1 =>
      simp only [hb, Option.some.injEq, Except.ok.injEq] at h
      rw [← h, loopBody_stop_inv code cs off d d1 hb]
      rcases hex with ⟨i, hi, _⟩ | hx
      · simp [executed, hb] at hi
      · exact hx
    | thrown f => simp [hb] at h
    | next o1 d1 =>
      rw [hb] at h
      have hexec : executed (fuel + 1) code cs off d =
          instructionAt code off :: executed fuel code cs o1 d1 := by
        simp [executed, hb]
      rw [hexec] at hall hex
      refine ih o1 d1 dEnd h (fun i hi => hall i (List.mem_cons_of_mem _ hi)) ?_
      rw [hstep off o1 d d1 hb]
      by_cases hs : sets (instructionAt code off) = true
      · right
        rw [if_pos hs]
        exact hall _ (List.mem_cons_self _ _) hs
      · rw [if_neg hs]
        rcases hex with ⟨i, hi, his⟩ | hx
        · rcases List.mem_cons.mp hi with rfl | hi'
          · exact absurd his hs
          · exact Or.inl ⟨i, hi', his⟩
        · exact Or.inr hx

theorem executed_of_next (fuel : Nat) (code : Nat → Nat) (cs off o1 : Nat) (d d1 : Declarations)
    (hb : loopBody code cs off d = .next o1 d1) :
    executed (fuel + 1) code cs off d = instructionAt code off :: executed fuel code cs o1 d1 := by
  simp [executed, hb]

/-- A scan that executes only Binding and DescriptorSet decorations leaves every entry as it
was, except for the bindings and descriptor sets. -/
theorem scan_layout_only (code : Nat → Nat) (cs : Nat) :
    ∀ (fuel off : Nat) (d dEnd : Declarations), scan fuel code cs off d = some (.ok dEnd) →
      (executed fuel code cs off d).filter (fun i => !i.isLayout) = [] →
      ∀ j, undecorated (get dEnd j) = undecorated (get d j) := by
  intro fuel
  induction fuel with
  | zero =>
    intro off d dEnd h _ j
    simp only [scan] at h
    cases hb : loopBody code cs off d with
    | stop d1 =>
      simp only [hb, Option.some.injEq, Except.ok.injEq] at h
      rw [← h, loopBody_stop_inv code cs off d d1 hb]
    | thrown f => simp [hb] at h
    | next o1 d1 => simp [hb] at h
  | succ fuel ih =>
    intro off d dEnd h hall j
    simp only [scan] at h
    cases hb : loopBody code cs off d with
    | stop d1 =>
      simp only [hb, Option.some.injEq, Except.ok.injEq] at h
      rw [← h, loopBody_stop_inv code cs off d d1 hb]
    | thrown f => simp [hb] at h
    | next o1 d1 =>
      rw [hb] at h
      rw [executed_of_next fuel code cs off o1 d d1 hb] at hall
      by_cases hl : (instructionAt code off).isLayout = true
      · rw [List.filter_cons_of_neg (by simp [hl])] at hall
        rw [ih o1 d1 dEnd h hall j]
        exact step_layout code cs off o1 d d1 hb hl j
      · rw [List.filter_cons_of_pos (by simpa using hl)] at hall
        cases hall

/-- Two scans that execute the same instructions in the same order, apart from the Binding and
DescriptorSet decorations, which may stand anywhere in either, leave tables that agree except
in the bindings and descriptor sets. -/
theorem scan_undecorated (code1 code2 : Nat → Nat) (cs1 cs2 : Nat) :
    ∀ (fuel1 fuel2 off1 off2 : Nat) (d1 d2 dEnd1 dEnd2 : Declarations),
      scan fuel1 code1 cs1 off1 d1 = some (.ok dEnd1) →
      scan fuel2 code2 cs2 off2 d2 = some (.ok dEnd2) →
      (executed fuel1 code1 cs1 off1 d1).filter (fun i => !i.isLayout) =
        (executed fuel2 code2 cs2 off2 d2).filter (fun i => !i.isLayout) →
      (∀ j, undecorated (get d1 j) = undecorated (get d2 j)) →
      ∀ j, undecorated (get dEnd1 j) = undecorated (get dEnd2 j) := by
  intro fuel1
  induction fuel1 with
  | zero =>
    intro fuel2 off1 off2 d1 d2 dEnd1 dEnd2 h1 h2 hsame hd j
    simp only [scan] at h1
    cases hb : loopBody code1 cs1 off1 d1 with
    | stop d1' =>
      simp only [hb, Option.some.injEq, Except.ok.injEq] at h1
      rw [← h1, loopBody_stop_inv code1 cs1 off1 d1 d1' hb, hd j]
      exact (scan_layout_only code2 cs2 fuel2 off2 d2 dEnd2 h2
        (by rw [← hsame]; simp [executed]) j).symm
    | thrown f => simp [hb] at h1
    | next o1 d1' => simp [hb] at h1
  | succ fuel1 ih =>
    intro fuel2
    induction fuel2 with
    | zero =>
      intro off1 off2 d1 d2 dEnd1 dEnd2 h1 h2 hsame hd j
      simp only [scan] at h2
      cases hb : loopBody code2 cs2 off2 d2 with
      | stop d2' =>
        simp only [hb, Option.some.injEq, Except.ok.injEq] at h2
        rw [← h2, loopBody_stop_inv code2 cs2 off2 d2 d2' hb, ← hd j]
        exact scan_layout_only code1 cs1 (fuel1 + 1) off1 d1 dEnd1 h1
          (by rw [hsame]; simp [executed]) j
      | thrown f => simp [hb] at h2
      | next o2 d2' => simp [hb] at h2
    | succ fuel2 ih2 =>
      intro off1 off2 d1 d2 dEnd1 dEnd2 h1 h2 hsame hd j
      cases hb1 : loopBody code1 cs1 off1 d1 with
      | stop d1' =>
        simp only [scan, hb1, Option.some.injEq, Except.ok.injEq] at h1
        rw [← h1, loopBody_stop_inv code1 cs1 off1 d1 d1' hb1, hd j]
        exact (scan_layout_only code2 cs2 (fuel2 + 1) off2 d2 dEnd2 h2
          (by rw [← hsame]; simp [executed, hb1]) j).symm
      | thrown f => simp [scan, hb1] at h1
      | next o1 d1' =>
        cases hb2 : loopBody code2 cs2 off2 d2 with
        | stop d2' =>
          simp only [scan, hb2, Option.some.injEq, Except.ok.injEq] at h2
          rw [← h2, loopBody_stop_inv code2 cs2 off2 d2 d2' hb2, ← hd j]
          exact scan_layout_only code1 cs1 (fuel1 + 1) off1 d1 dEnd1 h1
            (by rw [hsame]; simp [executed, hb2]) j
        | thrown f => simp [scan, hb2] at h2
        | next o2 d2' =>
          have e1 := executed_of_next fuel1 code1 cs1 off1 o1 d1 d1' hb1
          have e2 := executed_of_next fuel2 code2 cs2 off2 o2 d2 d2' hb2
          have s1 : scan fuel1 code1 cs1 o1 d1' = some (.ok dEnd1) := by
            simpa [scan, hb1] using h1
          have s2 : scan fuel2 code2 cs2 o2 d2' = some (.ok dEnd2) := by
            simpa [scan, hb2] using h2
          by_cases hl1 : (instructionAt code1 off1).isLayout = true
          · refine ih (fuel2 + 1) o1 off2 d1' d2 dEnd1 dEnd2 s1 h2 ?_ ?_ j
            · rw [← hsame, e1, List.filter_cons_of_neg (by simp [hl1])]
            · intro j'
              rw [step_layout code1 cs1 off1 o1 d1 d1' hb1 hl1 j']
              exact hd j'
          · by_cases hl2 : (instructionAt code2 off2).isLayout = true
            · refine ih2 off1 o2 d1 d2' dEnd1 dEnd2 h1 s2 ?_ ?_ j
              · rw [hsame, e2, List.filter_cons_of_neg (by simp [hl2])]
              · intro j'
                rw [step_layout code2 cs2 off2 o2 d2 d2' hb2 hl2 j']
                exact hd j'
            · rw [e1, e2, List.filter_cons_of_pos (by simpa using hl1),
                List.filter_cons_of_pos (by simpa using hl2)] at hsame
              obtain ⟨hhead, htail⟩ := List.cons.inj hsame
              exact ih fuel2 o1 o2 d1' d2' dEnd1 dEnd2 s1 s2 htail
                (step_same code1 code2 cs1 cs2 off1 off2 o1 o2 d1 d2 d1' d2' hb1 hb2 hhead hd) j

/-- The descriptor of a public entry of the final table stands in one of the slots a
successful call has appended. -/
theorem emitted_slot (stage : Nat) (it : IterationOrder) (dEnd : Declarations)
    (pd : Nat → public_spirv_variable_declaration) (n k : Nat)
    (hf : (extract stage (it.order dEnd) pd n).failure = none)
    (hp : (get dEnd k).isPublic = true) :
    ∃ i, n ≤ i ∧ i < (extract stage (it.order dEnd) pd n).variableCount ∧
      (extract stage (it.order dEnd) pd n).publicDecls i = toPublic stage (get dEnd k) := by
  have hm : (k, get dEnd k) ∈ (it.order dEnd).filter (fun p => p.2.isPublic) :=
    List.mem_filter.mpr ⟨(it.perm dEnd).mem_iff.mpr
      (find_mem dEnd k _ (find_of_get_public dEnd k hp)), hp⟩
  obtain ⟨j, hj⟩ := List.mem_iff_getElem?.mp hm
  have hlen : ((it.order dEnd).filter (fun p => p.2.isPublic)).length =
      (publicEntries (it.order dEnd)).length := by
    simp [publicEntries]
  have hjlt : j < (publicEntries (it.order dEnd)).length := by
    rw [← hlen]
    by_contra hge
    rw [List.getElem?_eq_none (by omega)] at hj
    cases hj
  obtain ⟨k', e', h1, _, _, h4⟩ := extract_slots stage (it.order dEnd) pd n hf j hjlt
  rw [hj] at h1
  simp only [Option.some.injEq, Prod.mk.injEq] at h1
  refine ⟨n + j, by omega, ?_, ?_⟩
  · rw [(extract_ok stage (it.order dEnd) pd n hf).1]
    omega
  · rw [h4, ← h1.2]

/-- Wherever the variable and its decorations stand among the executed instructions, the
entry of the variable at the end of the scan is public and has the binding, the descriptor set
and the storage class they name. -/
theorem placed_entry (fuel : Nat) (code : Nat → Nat) (cs : Nat) (dEnd : Declarations)
    (v sc b s : Nat) (hsc : sc = 2 ∨ sc = 11 ∨ sc = 12)
    (hs : scan fuel code cs 5 [] = some (.ok dEnd))
    (hplaced : Placed (executed fuel code cs 5 []) v sc b s) :
    (get dEnd v).isPublic = true ∧ (get dEnd v).binding = b ∧
    (get dEnd v).descriptorSet = s ∧ (get dEnd v).storageClass = sc := by
  obtain ⟨v1, v2, b1, b2, s1, s2⟩ := hplaced
  have hb : (get dEnd v).binding = b :=
    scan_last_write basic_declaration.binding (fun i => i.decorates v 33) (fun i => i.arg 3)
      code cs v b (fun off off' d d' h => step_binding code cs off off' d d' h v)
      fuel 5 [] dEnd hs b2 (Or.inl b1)
  have hset : (get dEnd v).descriptorSet = s :=
    scan_last_write basic_declaration.descriptorSet (fun i => i.decorates v 34)
      (fun i => i.arg 3) code cs v s
      (fun off off' d d' h => step_descriptorSet code cs off off' d d' h v)
      fuel 5 [] dEnd hs s2 (Or.inl s1)
  have hclass : (get dEnd v).storageClass = sc :=
    scan_last_write basic_declaration.storageClass (fun i => i.declares v) (fun i => i.arg 3)
      code cs v sc (fun off off' d d' h => step_storageClass code cs off off' d d' h v)
      fuel 5 [] dEnd hs v2 (Or.inl v1)
  have hflag : ClassFlagged (get dEnd v) :=
    scan_rel _ classFlagged_rel fuel code cs 5 [] dEnd hs v (by simp [ClassFlagged, get, find])
  exact ⟨hflag (by rw [hclass]; exact hsc), hb, hset, hclass⟩

/-- C5: let a call of `analyze_spirv` succeed on a stream in which, among the instructions the
scan executes, the id `v` is declared by `OpVariable` in a public storage class `sc` and
decorated with Binding `b` and DescriptorSet `s`, the decorations standing anywhere: before
the variable or after it, next to it or with any other instructions in between. Then the
entry of `v` is public and carries binding `b`, descriptorSet `s` and class `sc`, and the
descriptor emitted for `v`, in one of the appended slots, has binding `b`, descriptorSet `s`,
type `sc`, the stage flag and the size recorded for `v`. A second successful call, on any
other stream that executes the same instructions in the same order apart from the Binding and
DescriptorSet decorations (which may stand at other places) leaves a table that agrees with
the first one except in bindings and descriptor sets, and emits for `v` the same descriptor,
field by field. -/
theorem C5_decoration_order (fuel : Nat) (it : IterationOrder) (code : Nat → Nat)
    (cs stage : Nat) (pd : Nat → public_spirv_variable_declaration) (n : Nat) (r : CallResult)
    (v sc b s : Nat) (hsc : sc = 2 ∨ sc = 11 ∨ sc = 12)
    (hr : analyze_spirv fuel it code cs stage pd n = some r) (hf : r.failure = none)
    (hplaced : Placed (executed fuel code cs 5 []) v sc b s) :
    ∃ dEnd, scan fuel code cs 5 [] = some (.ok dEnd) ∧
      find dEnd v = some (get dEnd v) ∧
      (get dEnd v).isPublic = true ∧ (get dEnd v).binding = b ∧
      (get dEnd v).descriptorSet = s ∧ (get dEnd v).storageClass = sc ∧
      (∃ i, n ≤ i ∧ i < r.variableCount ∧
        r.publicDecls i =
          { binding := b, descriptorSet := s, size := (get dEnd v).size, type := sc,
            stageFlags := stage }) ∧
      (∀ fuel2 it2 code2 cs2 pd2 n2 r2,
        analyze_spirv fuel2 it2 code2 cs2 stage pd2 n2 = some r2 → r2.failure = none →
        Placed (executed fuel2 code2 cs2 5 []) v sc b s →
        (executed fuel2 code2 cs2 5 []).filter (fun i => !i.isLayout) =
          (executed fuel code cs 5 []).filter (fun i => !i.isLayout) →
        ∃ dEnd2, scan fuel2 code2 cs2 5 [] = some (.ok dEnd2) ∧
          (∀ j, undecorated (get dEnd2 j) = undecorated (get dEnd j)) ∧
          get dEnd2 v = get dEnd v ∧
          ∃ i2, n2 ≤ i2 ∧ i2 < r2.variableCount ∧
            r2.publicDecls i2 =
              { binding := b, descriptorSet := s, size := (get dEnd v).size, type := sc,
                stageFlags := stage }) := by
  obtain ⟨dEnd, hs, hre⟩ := analyze_spirv_ok_inv fuel it code cs stage pd n r hr hf
  subst hre
  obtain ⟨hp, hb, hset, hclass⟩ := placed_entry fuel code cs dEnd v sc b s hsc hs hplaced
  refine ⟨dEnd, hs, find_of_get_public dEnd v hp, hp, hb, hset, hclass, ?_, ?_⟩
  · obtain ⟨i, h1, h2, h3⟩ := emitted_slot stage it dEnd pd n v hf hp
    refine ⟨i, h1, h2, ?_⟩
    rw [h3]
    simp only [toPublic, hb, hset, hclass]
  · intro fuel2 it2 code2 cs2 pd2 n2 r2 hr2 hf2 hplaced2 hsame
    obtain ⟨dEnd2, hs2, hre2⟩ := analyze_spirv_ok_inv fuel2 it2 code2 cs2 stage pd2 n2 r2 hr2 hf2
    subst hre2
    obtain ⟨hp2, hb2, hset2, hclass2⟩ :=
      placed_entry fuel2 code2 cs2 dEnd2 v sc b s hsc hs2 hplaced2
    have hund := scan_undecorated code2 code cs2 cs fuel2 fuel 5 5 [] [] dEnd2 dEnd hs2 hs hsame
      (fun _ => rfl)
    have hfields := (undecorated_eq_iff _ _).mp (hund v)
    have hentry : get dEnd2 v = get dEnd v := by
      have h1 : ∀ e : basic_declaration,
          e = { undecorated e with binding := e.binding, descriptorSet := e.descriptorSet } :=
        fun _ => rfl
      rw [h1 (get dEnd2 v), h1 (get dEnd v), hund v, hb, hb2, hset, hset2]
    refine ⟨dEnd2, hs2, hund, hentry, ?_⟩
    obtain ⟨i, h1, h2, h3⟩ := emitted_slot stage it2 dEnd2 pd2 n2 v hf2 hp2
    refine ⟨i, h1, h2, ?_⟩
    rw [h3]
    simp only [toPublic, hb2, hset2, hclass2, hfields.2.1]

/-- C5 on the uniform block module, with the decorations after the variable (`blockStream`)
and with the decorations first and the four type declarations between them and the variable
(`blockStreamDecoratedFirst`): both calls emit, in slot 0, the descriptor with binding 1,
descriptorSet 0, size 32, type 2 and the stage flag 1. -/
theorem C5_decoration_order_witness :
    Placed (executed 7 (ofList (blockStream 0 0 0 0 0)) 32 5 []) 5 2 1 0 ∧
    Placed (executed 7 (ofList (blockStreamDecoratedFirst 0 0 0 0 0)) 32 5 []) 5 2 1 0 ∧
    (∃ r, analyze_spirv 7 insertionOrder (ofList (blockStream 0 0 0 0 0)) 32 1
        (fun _ => default) 0 = some r ∧
      ∃ i, i < r.variableCount ∧ r.publicDecls i =
        { binding := 1, descriptorSet := 0, size := 32, type := 2, stageFlags := 1 }) ∧
    (∃ r2, analyze_spirv 7 insertionOrder (ofList (blockStreamDecoratedFirst 0 0 0 0 0)) 32 1
        (fun _ => default) 0 = some r2 ∧
      ∃ i2, i2 < r2.variableCount ∧ r2.publicDecls i2 =
        { binding := 1, descriptorSet := 0, size := 32, type := 2, stageFlags := 1 }) := by
  have hp1 : Placed (executed 7 (ofList (blockStream 0 0 0 0 0)) 32 5 []) 5 2 1 0 := by decide
  have hp2 : Placed (executed 7 (ofList (blockStreamDecoratedFirst 0 0 0 0 0)) 32 5 []) 5 2 1 0 := by
    decide
  have hr1 := analyze_spirv_of_scan_ok 7 insertionOrder (ofList (blockStream 0 0 0 0 0)) 32 1
    (fun _ => default) 0 _ scan_blockStream
  have hr2 := analyze_spirv_of_scan_ok 7 insertionOrder
    (ofList (blockStreamDecoratedFirst 0 0 0 0 0)) 32 1 (fun _ => default) 0 _
    scan_blockStreamDecoratedFirst
  obtain ⟨dEnd, hs, _, _, _, _, _, ⟨i, _, hi, hslot⟩, hsecond⟩ :=
    C5_decoration_order 7 insertionOrder (ofList (blockStream 0 0 0 0 0)) 32 1
      (fun _ => default) 0 _ 5 2 1 0 (by decide) hr1 rfl hp1
  obtain ⟨dEnd2, _, _, _, i2, _, hi2, hslot2⟩ :=
    hsecond 7 insertionOrder (ofList (blockStreamDecoratedFirst 0 0 0 0 0)) 32
      (fun _ => default) 0 _ hr2 rfl hp2 (by decide)
  have hd : dEnd = _ := Except.ok.inj (Option.some.inj (hs.symm.trans scan_blockStream))
  have hsize : (get dEnd 5).size = 32 := by
    rw [hd]
    rfl
  rw [hsize] at hslot hslot2
  exact ⟨hp1, hp2, ⟨_, hr1, i, hi, hslot⟩, ⟨_, hr2, i2, hi2, hslot2⟩⟩

end wirender
